import Mathlib

/-!
# Amigo / Buddy bot controller: a verification development

Shallow embedding of the parts of `mod-ollama-bot-buddy` that decide the
properties proved below.

Conventions of the embedding:

* `std::string` values that are inspected character by character are
  `List Char`; strings that are only compared or concatenated are `String`.
* `uint32_t` / `uint64_t` values are `Nat`; wherever the source does arithmetic
  that can leave the 32-bit or 64-bit range the result is reduced `% 2 ^ 32`
  or `% 2 ^ 64` explicitly.
* `float` values are `F32`: a finite value is the rational it denotes, and the
  three non-finite values are separate constructors.  Only comparisons against
  constants are modelled on them.
* `std::unordered_map` / mutable registries are explicit state passed in and out.
-/

set_option autoImplicit false

namespace Amigo

/-! ## Scalars -/

/-- Size of the `uint32_t` range. -/
def U32 : Nat := 2 ^ 32

/-- Size of the `uint64_t` range. -/
def U64 : Nat := 2 ^ 64

/-- Model of a C++ `float`: a finite value is given by the rational number it
denotes; NaN and the two infinities are kept apart. -/
inductive F32 where
  | nan
  | negInf
  | posInf
  | finite (q : ℚ)
  deriving DecidableEq

/-- The comparison `a <= b` of two floats (false as soon as one side is NaN). -/
def F32.le : F32 → F32 → Bool
  | .nan, _ => false
  | _, .nan => false
  | .negInf, _ => true
  | _, .posInf => true
  | .posInf, _ => false
  | _, .negInf => false
  | .finite a, .finite b => decide (a ≤ b)

/-! ## Bot/BotNavState.h, Bot/BotNavState.cpp -/

/-- Embeds `struct NavCandidateInternal` (Bot/BotNavState.h). -/
structure NavCandidateInternal where
  candidateId : List Char
  mapId : Nat
  x : F32
  y : F32
  z : F32
  reachable : Bool
  hasLOS : Bool
  canMove : Bool
  deriving DecidableEq

/-- Embeds `struct BotNavState` (Bot/BotNavState.h). -/
structure BotNavState where
  navEpoch : Nat
  candidates : List NavCandidateInternal
  deriving DecidableEq

/-- The engine type `WorldPosition(mapId, x, y, z)` as far as this module
constructs it. -/
structure WorldPosition where
  mapId : Nat
  x : F32
  y : F32
  z : F32
  deriving DecidableEq

/-- The out-parameters of `BotNavStateRegistry::TryResolve`, filled on success. -/
structure NavResolved where
  outDest : WorldPosition
  outReachable : Bool
  outHasLOS : Bool
  outCanMove : Bool
  deriving DecidableEq

/-- Embeds `BotNavStateRegistry::Storage()`: per guid a `std::deque<BotNavState>`;
the list is the deque front to back. `none` is a guid without a map node. -/
abbrev NavStorage := Nat → Option (List BotNavState)

/-- The registry right after process start. -/
def NavStorage.empty : NavStorage := fun _ => none

/-- Embeds `constexpr size_t kMaxHistory = 32` in `SetState`. -/
def kMaxHistory : Nat := 32

/-- The loop `while (history.size() > kMaxHistory) history.pop_front();`. -/
def popFrontWhileOver (cap : Nat) : List BotNavState → List BotNavState
  | [] => []
  | s :: rest =>
    if (s :: rest).length > cap then popFrontWhileOver cap rest else s :: rest

/-- Embeds `history.back() = state` on a non-empty deque. -/
def replaceBack (state : BotNavState) : List BotNavState → List BotNavState
  | [] => []
  | [_] => [state]
  | s :: t :: rest => s :: replaceBack state (t :: rest)

/-- The body of `SetState` on the deque `Storage()[guid]`. -/
def setStateHistory (history : List BotNavState) (state : BotNavState) : List BotNavState :=
  match history.getLast? with
  | some back =>
    if back.navEpoch = state.navEpoch then replaceBack state history
    else popFrontWhileOver kMaxHistory (history ++ [state])
  | none => popFrontWhileOver kMaxHistory (history ++ [state])

/-- Embeds `BotNavStateRegistry::SetState(guid, state)`. `Storage()[guid]` creates an
empty deque for a guid seen for the first time. -/
def BotNavStateRegistry.SetState (storage : NavStorage) (guid : Nat) (state : BotNavState) :
    NavStorage :=
  fun g => if g = guid then some (setStateHistory ((storage guid).getD []) state) else storage g

/-- The inner loop of `TryResolve`: the first candidate with the given id. -/
def resolveInCandidates (candidateId : List Char) : List NavCandidateInternal → Option NavResolved
  | [] => none
  | c :: rest =>
    if c.candidateId = candidateId then
      some { outDest := ⟨c.mapId, c.x, c.y, c.z⟩, outReachable := c.reachable,
             outHasLOS := c.hasLOS, outCanMove := c.canMove }
    else resolveInCandidates candidateId rest

/-- The outer loop of `TryResolve`, over the states in the order visited
(`rbegin` to `rend`): states of another epoch are skipped, the first state of
the requested epoch decides. -/
def resolveInHistory (navEpoch : Nat) (candidateId : List Char) :
    List BotNavState → Option NavResolved
  | [] => none
  | s :: older =>
    if s.navEpoch ≠ navEpoch then resolveInHistory navEpoch candidateId older
    else resolveInCandidates candidateId s.candidates

/-- Embeds `BotNavStateRegistry::TryResolve(guid, navEpoch, candidateId, out...)`:
`some` carries the out-parameters of a `true` return, `none` is `false`. -/
def BotNavStateRegistry.TryResolve (storage : NavStorage) (guid navEpoch : Nat)
    (candidateId : List Char) : Option NavResolved :=
  match storage guid with
  | none => none
  | some history => resolveInHistory navEpoch candidateId history.reverse

/-- Embeds `BotNavStateRegistry::Clear(guid)`. -/
def BotNavStateRegistry.Clear (storage : NavStorage) (guid : Nat) : NavStorage :=
  fun g => if g = guid then none else storage g

/-- A sequence of `SetState(guid, state)` calls, applied in order. -/
def publishAll (storage : NavStorage) : List (Nat × BotNavState) → NavStorage
  | [] => storage
  | (guid, state) :: rest => publishAll (BotNavStateRegistry.SetState storage guid state) rest

/-- The epoch of the most recent `SetState` for `guid` in a sequence of calls. -/
def lastPublishedEpoch (guid : Nat) (calls : List (Nat × BotNavState)) : Option Nat :=
  ((calls.filter (fun c => c.1 = guid)).getLast?).map (fun c => c.2.navEpoch)

/-- The epochs of the states a guid has in its history. -/
def retainedEpochs (storage : NavStorage) (guid : Nat) : List Nat :=
  ((storage guid).getD []).map (fun s => s.navEpoch)

/-! ## Db/MemoryTypes.h, Db/BotMemory.h, Db/BotMemory.cpp (stuck memory) -/

/-- Embeds `enum class FailureType` (Db/MemoryTypes.h). -/
inductive FailureType where
  | Temporary
  | Retryable
  | Permanent
  deriving DecidableEq

/-- Embeds `struct FailureStats` (Db/MemoryTypes.h). -/
structure FailureStats where
  attempts : Nat := 0
  lastAttemptMs : Nat := 0
  lastType : FailureType := FailureType.Temporary
  cooldownUntilMs : Nat := 0
  deriving DecidableEq

/-- Embeds `FailureStats::CooldownRemainingMs(nowMs)`. -/
def FailureStats.CooldownRemainingMs (stats : FailureStats) (nowMs : Nat) : Nat :=
  if nowMs ≥ stats.cooldownUntilMs then 0 else stats.cooldownUntilMs - nowMs

/-- Embeds `struct BotMemory::StuckEntry`. -/
structure StuckEntry where
  stats : FailureStats := {}
  dirty : Bool := false
  deriving DecidableEq

/-- Embeds `constexpr size_t kStuckMaxEntries = 128`. -/
def kStuckMaxEntries : Nat := 128

/-- Embeds `constexpr uint32_t kStuckWriteMinMs = 5000`. -/
def kStuckWriteMinMs : Nat := 5000

/-- Embeds `constexpr uint32_t kStuckWriteMaxMs = 10000`. -/
def kStuckWriteMaxMs : Nat := 10000

/-- Embeds `StableJitter(guid, minMs, maxMs)`: a 64-bit mix of the guid, reduced into
the span `[minMs, maxMs]`. -/
def StableJitter (guid minMs maxMs : Nat) : Nat :=
  if maxMs ≤ minMs then minMs
  else
    let span := maxMs - minMs
    let x0 := guid % U64
    let x1 := x0 ^^^ (x0 >>> 33)
    let x2 := (x1 * 0xff51afd7ed558ccd) % U64
    let x3 := x2 ^^^ (x2 >>> 33)
    let x4 := (x3 * 0xc4ceb9fe1a85ec53) % U64
    let x5 := x4 ^^^ (x4 >>> 33)
    (minMs + (x5 % ((span + 1) % U32)) % U32) % U32

/-- Embeds `BotMemory::ComputeCooldownUntil(type, attempts, nowMs)`, in `uint32_t`
arithmetic. -/
def ComputeCooldownUntil (type : FailureType) (attempts nowMs : Nat) : Nat :=
  let attempts := max 1 (min attempts 10)
  let base : Nat := match type with
    | .Temporary => 10000
    | .Retryable => 20000
    | .Permanent => 1800000
  let cap : Nat := match type with
    | .Temporary => 120000
    | .Retryable => 300000
    | .Permanent => 21600000
  let cooldown := if type = FailureType.Permanent then base else min ((base * attempts) % U32) cap
  (nowMs + cooldown) % U32

/-- The map `std::unordered_map<std::string, StuckEntry> stuck_`. The list is
the map's nodes in iteration order (which the standard leaves unspecified);
keys are pairwise distinct in a state the code can reach. -/
abbrev StuckMap := List (String × StuckEntry)

/-- Embeds `stuck_.find(key)`, as the entry found. -/
def StuckMap.find : StuckMap → String → Option StuckEntry
  | [], _ => none
  | (k, e) :: rest, key => if k = key then some e else StuckMap.find rest key

/-- Overwriting the entry of the node that has the given key. -/
def StuckMap.update : StuckMap → String → StuckEntry → StuckMap
  | [], _, _ => []
  | (k, old) :: rest, key, e =>
    if k = key then (k, e) :: rest else (k, old) :: StuckMap.update rest key e

/-- Assignment through `stuck_[key]`: an existing node is updated in place, a
new node is linked in (here: at the head of the iteration order). -/
def StuckMap.assign (m : StuckMap) (key : String) (e : StuckEntry) : StuckMap :=
  match StuckMap.find m key with
  | some _ => StuckMap.update m key e
  | none => (key, e) :: m

/-- Embeds `stuck_.erase(it)` for the node with the given key. -/
def StuckMap.erase (m : StuckMap) (key : String) : StuckMap :=
  m.filter (fun kv => kv.1 ≠ key)

/-- The eviction scan of `RecordFailure`: `worstIt` starts at `begin()` and
moves to every node with a strictly smaller `lastAttemptMs`. -/
def worstIt : (String × StuckEntry) → List (String × StuckEntry) → (String × StuckEntry)
  | worst, [] => worst
  | worst, it :: rest =>
    worstIt (if it.2.stats.lastAttemptMs < worst.2.stats.lastAttemptMs then it else worst) rest

/-- The block `if (stuck_.size() > kStuckMaxEntries) { ... stuck_.erase(worstIt); }`. -/
def evictIfOver (m : StuckMap) : StuckMap :=
  match m with
  | [] => []
  | first :: rest =>
    if (first :: rest).length > kStuckMaxEntries then
      StuckMap.erase (first :: rest) (worstIt first (first :: rest)).1
    else first :: rest

/-- One row of `SELECT action_key, attempts, UNIX_TIMESTAMP(last_attempt) FROM
amigo_stuck_memory WHERE bot_guid = ...`. -/
structure StuckRow where
  action_key : String
  attempts : Nat
  lastUnix : Nat
  deriving DecidableEq

/-- Embeds `struct VendorRecord` (Db/MemoryTypes.h). -/
structure VendorRecord where
  npcEntry : Nat := 0
  npcName : String := ""
  role : String := ""
  zone : Nat := 0
  mapId : Nat := 0
  x : F32 := F32.finite 0
  y : F32 := F32.finite 0
  z : F32 := F32.finite 0
  lastUsedMs : Nat := 0
  deriving DecidableEq

/-- Embeds `struct BotMemory::VendorEntry`. -/
structure VendorEntry where
  record : VendorRecord := {}
  dirty : Bool := false
  deriving DecidableEq

/-- The map `std::unordered_map<uint32_t, VendorEntry> vendors_`, as its nodes in
iteration order. -/
abbrev VendorMap := List (Nat × VendorEntry)

/-- Embeds `vendors_.find(npcEntry)`, as the entry found. -/
def VendorMap.find : VendorMap → Nat → Option VendorEntry
  | [], _ => none
  | (k, e) :: rest, key => if k = key then some e else VendorMap.find rest key

/-- Overwriting the entry of the node that has the given key. -/
def VendorMap.update : VendorMap → Nat → VendorEntry → VendorMap
  | [], _, _ => []
  | (k, old) :: rest, key, e =>
    if k = key then (k, e) :: rest else (k, old) :: VendorMap.update rest key e

/-- Assignment through `vendors_[npcEntry]`: an existing node is updated in
place, a new node is linked in (here: at the head of the iteration order). -/
def VendorMap.assign (m : VendorMap) (key : Nat) (e : VendorEntry) : VendorMap :=
  match VendorMap.find m key with
  | some _ => VendorMap.update m key e
  | none => (key, e) :: m

/-- The row of `SELECT last_goal, completed_goals, abandoned_goals FROM
bot_planner_memory WHERE guid = ...`. -/
structure PlannerRow where
  last_goal : List Char
  completed_goals : List Char
  abandoned_goals : List Char
  deriving DecidableEq

/-- One row of `SELECT npc_entry, npc_name, role, zone, x, y, z,
UNIX_TIMESTAMP(last_used) FROM amigo_vendor_memory WHERE bot_guid = ...`. -/
structure VendorRow where
  npc_entry : Nat
  npc_name : String
  role : String
  zone : Nat
  x : F32
  y : F32
  z : F32
  lastUnix : Nat
  deriving DecidableEq

/-- The host's `CharacterDatabase` as this unit sees it: the rows its `SELECT`
statements return for each bot guid (stuck rows, the planner row if there is
one, vendor rows), and the statements handed to `Execute`, in the order they
were issued. -/
structure CharacterDatabase where
  stuckRows : Nat → List StuckRow
  executed : List String
  plannerRow : Nat → Option PlannerRow := fun _ => none
  vendorRows : Nat → List VendorRow := fun _ => []

/-- Embeds `constexpr size_t kGoalRingCap = 25`. -/
def kGoalRingCap : Nat := 25

/-- The loop of `SerializeRing`; `first` is its flag of the same name. -/
def serializeLoop (first : Bool) : List (List Char) → List Char
  | [] => []
  | item :: rest => (if first then [] else ['\n']) ++ item ++ serializeLoop false rest

/-- Embeds `BotMemory::SerializeRing(ring)`. -/
def SerializeRing (ring : List (List Char)) : List Char := serializeLoop true ring

/-- The lines that successive `std::getline(in, line)` calls deliver for a text:
the pieces between line feeds, without a last piece that is empty. -/
def getlines : List Char → List (List Char)
  | [] => []
  | c :: rest =>
    if c = '\n' then [] :: getlines rest
    else
      match getlines rest with
      | [] => [[c]]
      | line :: lines => (c :: line) :: lines

/-- The loop body of `DeserializeRing` over the remaining lines: a non-empty line
is pushed, and the loop stops once `out` holds `kGoalRingCap` entries. -/
def deserializeLoop (out : List (List Char)) : List (List Char) → List (List Char)
  | [] => out
  | line :: rest =>
    let out1 := if line = [] then out else out ++ [line]
    if out1.length ≥ kGoalRingCap then out1 else deserializeLoop out1 rest

/-- Embeds `BotMemory::DeserializeRing(text)`. -/
def DeserializeRing (text : List Char) : List (List Char) :=
  deserializeLoop [] (getlines text)

/-- Embeds the data members of `class BotMemory` (the mutex apart). -/
structure BotMemory where
  botGuid_ : Nat := 0
  initialized_ : Bool := false
  loaded_ : Bool := false
  stuck_ : StuckMap := []
  lastStuckWriteMs_ : Nat := 0
  nextStuckWriteEarliestMs_ : Nat := 0
  dbTokens_ : F32 := F32.finite 2
  lastTokenRefillMs_ : Nat := 0
  jitterMs_ : Nat := 0
  lastGoal_ : List Char := []
  completedGoals_ : List (List Char) := []
  abandonedGoals_ : List (List Char) := []
  vendors_ : VendorMap := []
  plannerDirty_ : Bool := false
  vendorsDirty_ : Bool := false
  lastPlannerWriteMs_ : Nat := 0
  lastVendorWriteMs_ : Nat := 0
  nextPlannerWriteEarliestMs_ : Nat := 0
  nextVendorWriteEarliestMs_ : Nat := 0

/-- Embeds `BotMemory::LoadStuckRows()`: one map assignment per fetched row. -/
def LoadStuckRows (stuck : StuckMap) : List StuckRow → StuckMap
  | [] => stuck
  | row :: rest =>
    LoadStuckRows
      (StuckMap.assign stuck row.action_key
        { stats := { attempts := row.attempts % U32,
                     lastAttemptMs := (row.lastUnix % U32 * 1000) % U32,
                     lastType := FailureType.Retryable,
                     cooldownUntilMs := 0 },
          dirty := false })
      rest

/-- Embeds `BotMemory::LoadVendorRows()`: per fetched row the node `vendors_[npcEntry]`
gets the row's fields (its `mapId` is not touched) and a clear dirty mark. -/
def LoadVendorRows (vendors : VendorMap) : List VendorRow → VendorMap
  | [] => vendors
  | row :: rest =>
    let npcEntry := row.npc_entry % U32
    let entry := (VendorMap.find vendors npcEntry).getD {}
    LoadVendorRows
      (VendorMap.assign vendors npcEntry
        { record := { entry.record with
            npcEntry := npcEntry, npcName := row.npc_name, role := row.role,
            zone := row.zone % U32, x := row.x, y := row.y, z := row.z,
            lastUsedMs := (row.lastUnix % U32 * 1000) % U32 },
          dirty := false })
      rest

/-- Embeds `BotMemory::EnsureLoaded()`: `LoadPlannerRow`, `LoadStuckRows`,
`LoadVendorRows`, then `loaded_ = true`. -/
def EnsureLoaded (m : BotMemory) (db : CharacterDatabase) : BotMemory :=
  if !m.initialized_ || m.loaded_ then m
  else
    { m with
      lastGoal_ := match db.plannerRow m.botGuid_ with
        | some row => row.last_goal
        | none => m.lastGoal_,
      completedGoals_ := match db.plannerRow m.botGuid_ with
        | some row => DeserializeRing row.completed_goals
        | none => m.completedGoals_,
      abandonedGoals_ := match db.plannerRow m.botGuid_ with
        | some row => DeserializeRing row.abandoned_goals
        | none => m.abandonedGoals_,
      stuck_ := LoadStuckRows m.stuck_ (db.stuckRows m.botGuid_),
      vendors_ := LoadVendorRows m.vendors_ (db.vendorRows m.botGuid_),
      loaded_ := true }

/-- Embeds `BotMemory::RecordFailure(actionKey, type, nowMs)`. It reads the database
(lazy load) and writes nothing to it. -/
def RecordFailure (m : BotMemory) (db : CharacterDatabase) (actionKey : String)
    (type : FailureType) (nowMs : Nat) : BotMemory :=
  if actionKey = "" then m
  else
    let m1 := EnsureLoaded m db
    let entry := (StuckMap.find m1.stuck_ actionKey).getD {}
    let attempts := min ((entry.stats.attempts + 1) % U32) 10
    let written : StuckEntry :=
      { stats := { attempts := attempts,
                   lastAttemptMs := nowMs,
                   lastType := type,
                   cooldownUntilMs := ComputeCooldownUntil type attempts nowMs },
        dirty := true }
    let stuck := evictIfOver (StuckMap.assign m1.stuck_ actionKey written)
    let next :=
      if m1.nextStuckWriteEarliestMs_ < nowMs then
        (nowMs + StableJitter m1.botGuid_ kStuckWriteMinMs kStuckWriteMaxMs + m1.jitterMs_) % U32
      else m1.nextStuckWriteEarliestMs_
    { m1 with stuck_ := stuck, nextStuckWriteEarliestMs_ := next }

/-- Embeds `BotMemory::GetFailureStats(actionKey, nowMs)`. -/
def GetFailureStats (m : BotMemory) (actionKey : String) : FailureStats :=
  match StuckMap.find m.stuck_ actionKey with
  | none => {}
  | some e => e.stats

/-- The statement text built in `ClearFailures`. -/
def deleteStuckSql (botGuid : Nat) (escaped : String) : String :=
  "DELETE FROM amigo_stuck_memory WHERE bot_guid = " ++ toString botGuid ++
    " AND action_key = '" ++ escaped ++ "'"

/-- Embeds `BotMemory::ClearFailures(actionKey)`. `EscapeString` is the host's
`CharacterDatabase.EscapeString`. -/
def ClearFailures (EscapeString : String → String) (m : BotMemory) (db : CharacterDatabase)
    (actionKey : String) : BotMemory × CharacterDatabase :=
  if actionKey = "" then (m, db)
  else
    let m1 := EnsureLoaded m db
    match StuckMap.find m1.stuck_ actionKey with
    | none => (m1, db)
    | some _ =>
      ({ m1 with stuck_ := StuckMap.erase m1.stuck_ actionKey },
       { db with executed := db.executed ++ [deleteStuckSql m1.botGuid_ (EscapeString actionKey)] })

/-- The cooldown length in the words of the specification:
`min(base × attempts, cap)` with base 10,000 / cap 120,000 for `Temporary`,
base 20,000 / cap 300,000 for `Retryable`, and a flat 1,800,000 for `Permanent`. -/
def specCooldownMs (type : FailureType) (attempts : Nat) : Nat :=
  match type with
  | .Temporary => min (10000 * attempts) 120000
  | .Retryable => min (20000 * attempts) 300000
  | .Permanent => 1800000

/-- The keys of the stuck map, in iteration order. -/
def StuckMap.keys (m : StuckMap) : List String := m.map (fun kv => kv.1)

/-- The stuck rows of a bot that has 128 remembered keys `k0 .. k127`, each with
one attempt made at Unix time 1,700,000,000. -/
def fullStuckRows : List StuckRow :=
  (List.range 128).map (fun i =>
    { action_key := "k" ++ toString i, attempts := 1, lastUnix := 1700000000 })

/-- A database without stuck rows and without issued statements. -/
def emptyDatabase : CharacterDatabase := { stuckRows := fun _ => [], executed := [] }

/-- The attempt counter `stuck_[actionKey].stats.attempts` as `RecordFailure`
reads it: 0 when the map has no node for the key. -/
def previousAttempts (m : BotMemory) (actionKey : String) : Nat :=
  ((StuckMap.find m.stuck_ actionKey).getD {}).stats.attempts

/-- The entry `RecordFailure` is specified to leave for a key: attempts
`min(previous + 1, 10)`, the call's time and type, a cooldown end of
`nowMs + specCooldownMs` (as a `uint32_t`), and the dirty mark. -/
def specRecordedEntry (previous : Nat) (type : FailureType) (nowMs : Nat) : StuckEntry :=
  { stats := { attempts := min (previous + 1) 10,
               lastAttemptMs := nowMs,
               lastType := type,
               cooldownUntilMs := (nowMs + specCooldownMs type (min (previous + 1) 10)) % U32 },
    dirty := true }

/-! ## Script/OllamaBotControlLoop.cpp: text helpers and planner sentence validation

A `List Char` stands for a `std::string`, one `Char` per `char`. -/

/-- Membership in the set `" \t\r\n"` used by `find_first_not_of` /
`find_last_not_of` in `TrimCopy`. -/
def isTrimChar (c : Char) : Bool :=
  c == ' ' || c == '\t' || c == '\r' || c == '\n'

/-- Embeds `std::isspace` in the "C" locale. -/
def isSpace (c : Char) : Bool :=
  c == ' ' || c == '\t' || c == '\n' || c == '\x0b' || c == '\x0c' || c == '\r'

/-- Embeds `std::isdigit`. -/
def isDigit (c : Char) : Bool :=
  '0'.toNat ≤ c.toNat && c.toNat ≤ '9'.toNat

/-- Embeds `TrimCopy(input)`: the substring from the first to the last character
outside `" \t\r\n"`, empty when there is none. -/
def TrimCopy (input : List Char) : List Char :=
  ((input.dropWhile isTrimChar).reverse.dropWhile isTrimChar).reverse

/-- Embeds `s.find(c)`: the index of the first occurrence, `none` for `npos`. -/
def findChar (c : Char) : List Char → Option Nat
  | [] => none
  | x :: rest => if x = c then some 0 else (findChar c rest).map (· + 1)

/-- Embeds `s.find(pat)` for a string pattern: the index of the first occurrence. -/
def findSub (pat : List Char) : List Char → Option Nat
  | [] => if pat = [] then some 0 else none
  | c :: rest =>
    if pat.isPrefixOf (c :: rest) then some 0 else (findSub pat rest).map (· + 1)

/-- Embeds `s.find(pat, pos)`. -/
def findSubFrom (pat : List Char) (s : List Char) (pos : Nat) : Option Nat :=
  if pos ≤ s.length then (findSub pat (s.drop pos)).map (· + pos) else none

/-- The start tag `<tool_call>`. -/
def kStartTag : List Char := "<tool_call>".toList

/-- The end tag `</tool_call>`. -/
def kEndTag : List Char := "</tool_call>".toList

/-- The field patterns `"name"` and `"arguments"` (with their quotes) that
`LooksLikeJsonOrToolBlock` searches for. -/
def kNameField : List Char := "\"name\"".toList

/-- See `kNameField`. -/
def kArgumentsField : List Char := "\"arguments\"".toList

/-- Embeds `LooksLikeJsonOrToolBlock(text)`. -/
def LooksLikeJsonOrToolBlock (text : List Char) : Bool :=
  let s := TrimCopy text
  if s = [] then false
  else if (findSub kStartTag s).isSome || (findSub kEndTag s).isSome then true
  else if (findChar '\x7b' s).isSome || (findChar '[' s).isSome then true
  else if (findSub kNameField s).isSome || (findSub kArgumentsField s).isSome then
    true
  else false

/-- The loop of `CountSentenceTerminators`, with its two variables `count` and
`inTerminatorRun`. -/
def countTerminatorsLoop : Nat → Bool → List Char → Nat
  | count, _, [] => count
  | count, inTerminatorRun, c :: rest =>
    if c = '.' ∨ c = '!' ∨ c = '?' then
      if !inTerminatorRun then countTerminatorsLoop (count + 1) true rest
      else countTerminatorsLoop count inTerminatorRun rest
    else countTerminatorsLoop count false rest

/-- Embeds `CountSentenceTerminators(text)`. -/
def CountSentenceTerminators (text : List Char) : Nat :=
  countTerminatorsLoop 0 false text

/-- The tail shared by the branches of `StripListPrefix`:
`while (i < s.size() && isspace(s[i])) ++i; return TrimCopy(s.substr(i));`. -/
def skipSpacesFrom (s : List Char) (i : Nat) : List Char :=
  TrimCopy ((s.drop i).dropWhile isSpace)

/-- The `numeric` flag of `StripListPrefix`: all of `s[first .. last)` are digits. -/
def numericRange (s : List Char) (first last : Nat) : Bool :=
  ((s.drop first).take (last - first)).all isDigit

/-- The `"(1) foo"` branch of `StripListPrefix`; `none` when it does not return. -/
def stripParenthesised (s : List Char) : Option (List Char) :=
  match findChar ')' s with
  | some close =>
    if close > 1 ∧ close ≤ 4 ∧ numericRange s 1 close = true then some (skipSpacesFrom s (close + 1))
    else none
  | none => none

/-- The `"1. foo"` (`mark = '.'`) and `"1) foo"` (`mark = ')'`) branches of
`StripListPrefix`; `none` when the branch does not return. -/
def stripNumbered (mark : Char) (s : List Char) : Option (List Char) :=
  match findChar mark s with
  | some pos =>
    if pos > 0 ∧ pos ≤ 3 ∧ numericRange s 0 pos = true then some (skipSpacesFrom s (pos + 1))
    else none
  | none => none

/-- Embeds `StripListPrefix(text)`. -/
def StripListPrefix (text : List Char) : List Char :=
  let s := TrimCopy text
  match s with
  | [] => []
  | c0 :: _ =>
    if c0 = '-' ∨ c0 = '*' then skipSpacesFrom s 1
    else
      match (if s.length ≥ 3 ∧ c0 = '(' then stripParenthesised s else none) with
      | some r => r
      | none =>
        match stripNumbered '.' s with
        | some r => r
        | none =>
          match stripNumbered ')' s with
          | some r => r
          | none => s

/-- Embeds `ValidatePlannerSentence(text, outReason)`: the returned flag and the value
left in `outReason`. -/
def ValidatePlannerSentence (text : List Char) : Bool × String :=
  let s := StripListPrefix text
  if s = [] then (false, "empty")
  else if s.length > 220 then (false, "too_long")
  else if LooksLikeJsonOrToolBlock s then (false, "json_or_tool")
  else if CountSentenceTerminators s > 1 then (false, "multi_sentence")
  else if (findChar '\n' s).isSome || (findChar '\r' s).isSome then (false, "contains_newlines")
  else (true, "")

/-! ## JSON values (the `nlohmann::json` library, as far as the module uses it) -/

/-- A `nlohmann::json` value. The library keeps unsigned integers, signed
integers and floating-point numbers apart; an object is given by its members. -/
inductive Json where
  | null
  | bool (b : Bool)
  | numUnsigned (n : Nat)
  | numInteger (i : Int)
  | numFloat (x : F32)
  | str (s : List Char)
  | arr (items : List Json)
  | obj (members : List (List Char × Json))

/-- Member lookup in an object's member list. -/
def Json.lookup (key : List Char) : List (List Char × Json) → Option Json
  | [] => none
  | (k, v) :: rest => if k = key then some v else Json.lookup key rest

/-- Embeds `j.contains(key)`: false for everything that is not an object. -/
def Json.contains (j : Json) (key : List Char) : Bool :=
  match j with
  | .obj members => (Json.lookup key members).isSome
  | _ => false

/-- Embeds `j[key]` for a key the object contains; `null` otherwise. -/
def Json.get (j : Json) (key : List Char) : Json :=
  match j with
  | .obj members => (Json.lookup key members).getD Json.null
  | _ => Json.null

/-- Embeds `j.is_object()`. -/
def Json.is_object : Json → Bool
  | .obj _ => true
  | _ => false

/-- Embeds `j.is_string()`. -/
def Json.is_string : Json → Bool
  | .str _ => true
  | _ => false

/-- Embeds `j.empty()`: `null` is empty, an array or object is empty when it has no
element, every other value is not empty. -/
def Json.empty : Json → Bool
  | .null => true
  | .arr items => items.isEmpty
  | .obj members => members.isEmpty
  | _ => false

mutual
/-- The floating-point numbers that occur anywhere in a JSON value. -/
def Json.floats : Json → List F32
  | .numFloat x => [x]
  | .arr items => Json.floatsOfItems items
  | .obj members => Json.floatsOfMembers members
  | _ => []
/-- See `Json.floats`. -/
def Json.floatsOfItems : List Json → List F32
  | [] => []
  | j :: rest => Json.floats j ++ Json.floatsOfItems rest
/-- See `Json.floats`. -/
def Json.floatsOfMembers : List (List Char × Json) → List F32
  | [] => []
  | (_, j) :: rest => Json.floats j ++ Json.floatsOfMembers rest
end

/-- The member names of an object (empty for other values). -/
def Json.keys : Json → List (List Char)
  | .obj members => members.map (fun kv => kv.1)
  | _ => []

/-! ## Script/OllamaBotControlLoop.cpp: the snapshot and its navigation section -/

/-- Embeds `struct Position3` (Ai/ControlAction.h). -/
structure Position3 where
  x : F32
  y : F32
  z : F32

/-- Embeds `struct BotSnapshot::NavCandidate`. -/
structure NavCandidate where
  label : List Char
  pos : Position3
  canMove : Bool
  hasLOS : Bool
  reachable : Bool
  distance2d : F32
  bearingDeg : F32
  direction : List Char

/-- Embeds `struct BotSnapshot::QuestGiverInRange`, the two id lists the gate reads. -/
structure QuestGiverInRange where
  availableQuestIds : List Nat
  turnInQuestIds : List Nat

/-- Embeds `struct BotSnapshot` of the control loop, reduced to the fields read by the
navigation section of `BuildSnapshotJson` and by the control worker's gates. -/
structure BotSnapshot where
  mapId : Nat := 0
  navEpoch : Nat := 0
  inCombat : Bool := false
  grindMode : Bool := false
  isMoving : Bool := false
  travelActive : Bool := false
  professionActive : Bool := false
  navCandidates : List NavCandidate := []
  questGiversInRange : List QuestGiverInRange := []

/-- Embeds `kMoveHopDistanceBands`: label and distance of each band. -/
def kMoveHopDistanceBands : List (List Char × F32) :=
  [("very close".toList, .finite 12), ("close".toList, .finite 18), ("medium".toList, .finite 36),
   ("medium far".toList, .finite 46), ("far".toList, .finite 58)]

/-- The loop of `DistanceBandLabelForDistance` over the remaining bands;
`last` is `kMoveHopDistanceBands.back().label`. -/
def distanceBandLoop (distance : F32) (last : List Char) : List (List Char × F32) → List Char
  | [] => last
  | band :: rest =>
    if F32.le distance band.2 then band.1 else distanceBandLoop distance last rest

/-- Embeds `DistanceBandLabelForDistance(distance)`. -/
def DistanceBandLabelForDistance (distance : F32) : List Char :=
  distanceBandLoop distance "far".toList kMoveHopDistanceBands

/-- The text `"nav_" + std::to_string(i)`. -/
def navCandidateId (i : Nat) : List Char := "nav_".toList ++ (toString i).toList

/-- The loop of `BuildSnapshotJson` that fills `navCandidates`, from index `i` on. -/
def navCandidatesJsonFrom (i : Nat) : List NavCandidate → List Json
  | [] => []
  | c :: rest =>
    Json.obj [("candidate_id".toList, .str (navCandidateId i)),
              ("label".toList, .str c.label),
              ("direction".toList, .str c.direction),
              ("distance_band".toList, .str (DistanceBandLabelForDistance c.distance2d)),
              ("has_los".toList, .bool c.hasLOS),
              ("reachable".toList, .bool c.reachable),
              ("can_move".toList, .bool c.canMove)]
      :: navCandidatesJsonFrom (i + 1) rest

/-- The value `BuildSnapshotJson` stores under `json["nav"]`. -/
def BuildSnapshotJson.nav (bot : BotSnapshot) : Json :=
  Json.obj [("nav_epoch".toList, .numUnsigned bot.navEpoch),
            ("candidates".toList, .arr (navCandidatesJsonFrom 0 bot.navCandidates)),
            ("distance_bands".toList,
              .arr (kMoveHopDistanceBands.map (fun band => Json.obj [("label".toList, .str band.1)])))]

/-- What the navigation section may depend on, per candidate: label, direction
label, distance band and the three flags. -/
def NavCandidate.llmView (c : NavCandidate) : List Char × List Char × List Char × Bool × Bool × Bool :=
  (c.label, c.direction, DistanceBandLabelForDistance c.distance2d, c.hasLOS, c.reachable, c.canMove)

/-! ## Ai/ControlAction.h and the control tools of Script/OllamaBotControlLoop.cpp -/

/-- Embeds `enum class ControlAction::Capability`. -/
inductive Capability where
  | Idle
  | MoveHop
  | EnterGrind
  | StopGrind
  | Stay
  | Unstay
  | TalkToQuestGiver
  | EnterAttackPull
  | Fish
  | UseProfession
  | TurnLeft90
  | TurnRight90
  | TurnAround
  deriving DecidableEq

/-- Embeds `struct ControlAction`. -/
structure ControlAction where
  capability : Capability := Capability.Idle
  navEpoch : Nat := 0
  navCandidateId : List Char := []
  questId : Nat := 0
  professionSkill : List Char := []
  professionIntent : List Char := []
  deriving DecidableEq

/-- Embeds `struct ToolCall`. -/
structure ToolCall where
  name : List Char
  arguments : Json

/-- Embeds `struct ControlToolDefinition` (the signature text is used for the prompt
only and left out). -/
structure ControlToolDefinition where
  name : List Char
  capability : Capability
  requiresDirection : Bool := false
  requiresDistance : Bool := false
  requiresQuestId : Bool := false
  requiresSkill : Bool := false
  requiresIntent : Bool := false
  requiresMessage : Bool := false
  requiresNavEpoch : Bool := false
  requiresCandidateId : Bool := false
  deriving DecidableEq

/-- Embeds `kControlTools`, the twelve control tools. -/
def kControlTools : List ControlToolDefinition :=
  [{ name := "request_idle".toList, capability := .Idle },
   { name := "request_move_hop".toList, capability := .MoveHop,
     requiresNavEpoch := true, requiresCandidateId := true },
   { name := "request_enter_grind".toList, capability := .EnterGrind },
   { name := "request_stop_grind".toList, capability := .StopGrind },
   { name := "request_stay".toList, capability := .Stay },
   { name := "request_unstay".toList, capability := .Unstay },
   { name := "request_talk_to_quest_giver".toList, capability := .TalkToQuestGiver,
     requiresQuestId := true },
   { name := "request_fish".toList, capability := .Fish },
   { name := "request_profession".toList, capability := .UseProfession,
     requiresSkill := true, requiresIntent := true },
   { name := "request_turn_left_90".toList, capability := .TurnLeft90 },
   { name := "request_turn_right_90".toList, capability := .TurnRight90 },
   { name := "request_turn_around".toList, capability := .TurnAround }]

/-- Embeds `NormalizeCommandToken(value)`: trim, then `std::tolower` on every character. -/
def NormalizeCommandToken (value : List Char) : List Char :=
  (TrimCopy value).map Char.toLower

/-- Embeds `reply.substr(pos, len)`. -/
def substr (s : List Char) (pos len : Nat) : List Char := (s.drop pos).take len

/-- Embeds `TryExtractToolCall(reply, outCall, outJson)`. `parse` is
`nlohmann::json::parse`, with `none` for a thrown exception; `outJson` (the
pretty-printed value, used for logging) is left out. -/
def TryExtractToolCall (parse : List Char → Option Json) (reply : List Char) : Option ToolCall :=
  match findSub kStartTag reply with
  | none => none
  | some start =>
    match findSubFrom kEndTag reply (start + kStartTag.length) with
    | none => none
    | some endPos =>
      let contentStart := start + kStartTag.length
      let inner := TrimCopy (substr reply contentStart (endPos - contentStart))
      if inner = [] then none
      else
        match parse inner with
        | none => none
        | some parsed =>
          if !parsed.contains "name".toList || !(parsed.get "name".toList).is_string then none
          else
            match parsed.get "name".toList with
            | .str rawName =>
              some { name := NormalizeCommandToken rawName,
                     arguments := if parsed.contains "arguments".toList
                                  then parsed.get "arguments".toList else Json.obj [] }
            | _ => none

/-- Embeds `TryExtractSingleToolCall(reply, outCall, outJson)`. -/
def TryExtractSingleToolCall (parse : List Char → Option Json) (reply : List Char) :
    Option ToolCall :=
  let trimmed := TrimCopy reply
  if !kStartTag.isPrefixOf trimmed then none
  else if trimmed.length < kEndTag.length ∨
      findSub kEndTag trimmed ≠ some (trimmed.length - kEndTag.length) then none
  else TryExtractToolCall parse trimmed

/-- Embeds `FindControlToolDefinition(name, outDefinition)`. -/
def FindControlToolDefinition (name : List Char) : Option ControlToolDefinition :=
  kControlTools.find? (fun tool => name = tool.name)

/-- The value of a string of decimal digits. -/
def decimalValue (digits : List Char) : Nat :=
  digits.foldl (fun acc c => acc * 10 + (c.toNat - '0'.toNat)) 0

/-- Embeds `TryParseNavCandidateIndex(candidateId, outIndex)`; `std::stoul` throws for
a value outside the 64-bit range. -/
def TryParseNavCandidateIndex (candidateId : List Char) : Option Nat :=
  if !"nav_".toList.isPrefixOf candidateId then none
  else
    let suffix := candidateId.drop 4
    if suffix = [] then none
    else if !suffix.all isDigit then none
    else if decimalValue suffix < U64 then some (decimalValue suffix) else none

/-- The `nav_epoch` part of `ParseMoveHopNavArguments`. -/
def parseNavEpoch : Json → Option Nat
  | .numUnsigned n => some (n % U32)
  | .numInteger epoch => if epoch < 0 ∨ epoch > 4294967295 then none else some epoch.toNat
  | _ => none

/-- The `candidate_id` part of `ParseMoveHopNavArguments`, before lower-casing. -/
def parseCandidateIdRaw : Json → Option (List Char)
  | .str text => some (TrimCopy text)
  | .numUnsigned n => some ("nav_".toList ++ (toString n).toList)
  | .numInteger idx => if idx < 0 then none else some ("nav_".toList ++ (toString idx.toNat).toList)
  | _ => none

/-- Embeds `ParseMoveHopNavArguments(args, outNavEpoch, outCandidateId)`. -/
def ParseMoveHopNavArguments (args : Json) : Option (Nat × List Char) :=
  if !args.is_object then none
  else if !args.contains "nav_epoch".toList then none
  else if !args.contains "candidate_id".toList then none
  else
    match parseNavEpoch (args.get "nav_epoch".toList) with
    | none => none
    | some navEpoch =>
      match parseCandidateIdRaw (args.get "candidate_id".toList) with
      | none => none
      | some raw =>
        let lowered := raw.map Char.toLower
        let candidateId :=
          if lowered ≠ [] ∧ lowered.all isDigit = true then "nav_".toList ++ lowered else lowered
        if candidateId = [] then none else some (navEpoch, candidateId)

/-- Embeds `ParseQuestIdArguments(args, questId)`. -/
def ParseQuestIdArguments (args : Json) : Option Nat :=
  if !args.is_object then none
  else if !args.contains "quest_id".toList then none
  else
    match args.get "quest_id".toList with
    | .numUnsigned n => if n % U32 ≠ 0 then some (n % U32) else none
    | .numInteger parsed =>
      if parsed ≤ 0 ∨ parsed > 4294967295 then none
      else if parsed.toNat ≠ 0 then some parsed.toNat else none
    | _ => none

/-- Embeds `ParseProfessionArguments(arguments, outSkill, outIntent)`. -/
def ParseProfessionArguments (arguments : Json) : Option (List Char × List Char) :=
  if !arguments.is_object then none
  else if !arguments.contains "skill".toList || !(arguments.get "skill".toList).is_string then none
  else if !arguments.contains "intent".toList || !(arguments.get "intent".toList).is_string then
    none
  else
    match arguments.get "skill".toList, arguments.get "intent".toList with
    | .str skill, .str intent =>
      if NormalizeCommandToken skill ≠ [] ∧ NormalizeCommandToken intent ≠ [] then
        some (NormalizeCommandToken skill, NormalizeCommandToken intent)
      else none
    | _, _ => none

/-- Embeds `HasQuestGiverForQuestId(snapshot, questId)`. -/
def HasQuestGiverForQuestId (snapshot : BotSnapshot) (questId : Nat) : Bool :=
  snapshot.questGiversInRange.any
    (fun giver => giver.availableQuestIds.contains questId || giver.turnInQuestIds.contains questId)

/-- What the control worker thread of `OllamaBotControlLoop::OnUpdate` captured
when it was launched, and what it reads while gating. -/
structure ControlWorkerInput where
  snapshot : BotSnapshot
  isStopped : Bool
  memory : Option BotMemory
  nowMs : Nat

/-- How the control worker ends for one LLM reply. -/
inductive ControlOutcome where
  | backoff
  | rejected (reason : String)
  | declined
  | accepted (action : ControlAction) (gateReason : String)
  deriving DecidableEq

/-- The gates shared by move-hop, fish and the turn tools:
combat, grind, moving, travel, profession, in this order. -/
def busyGate (snapshot : BotSnapshot) : Option String :=
  if snapshot.inCombat then some "in_combat"
  else if snapshot.grindMode then some "in_grind"
  else if snapshot.isMoving then some "already_moving"
  else if snapshot.travelActive then some "travel_active"
  else if snapshot.professionActive then some "profession_active"
  else none

/-- The move-hop branch of the control worker. -/
def gateMoveHop (snapshot : BotSnapshot) (arguments : Json) : ControlOutcome :=
  match ParseMoveHopNavArguments arguments with
  | none => .rejected "invalid_arguments"
  | some (navEpoch, candidateId) =>
    match busyGate snapshot with
    | some reason => .rejected reason
    | none =>
      if navEpoch ≠ snapshot.navEpoch then .rejected "stale_nav_epoch"
      else
        match TryParseNavCandidateIndex candidateId with
        | none => .rejected "unknown_candidate"
        | some candidateIndex =>
          match snapshot.navCandidates.get? candidateIndex with
          | none => .rejected "unknown_candidate"
          | some cand =>
            if !cand.canMove then .rejected "cannot_move"
            else if !cand.reachable then .rejected "unreachable"
            else
              .accepted { capability := .MoveHop, navEpoch := navEpoch,
                          navCandidateId := candidateId } "out_of_combat"

/-- The per-capability part of the control worker, after the tool definition
has been found and the unexpected-arguments check has passed. (The source's
else-if chain names `EnterGrind` a second time; that branch can never be taken
and is left out.) -/
def gateTool (input : ControlWorkerInput) (definition : ControlToolDefinition)
    (arguments : Json) : ControlOutcome :=
  match definition.capability with
  | .Idle => .accepted { capability := .Idle } "no_action"
  | .MoveHop => gateMoveHop input.snapshot arguments
  | .EnterGrind =>
    if input.snapshot.grindMode then .rejected "already_grinding"
    else .accepted { capability := .EnterGrind } "enter_grind"
  | .StopGrind =>
    if !input.snapshot.grindMode then .rejected "not_grinding"
    else .accepted { capability := .StopGrind } "stop_grind"
  | .Stay =>
    if input.isStopped then .rejected "already_stopped"
    else .accepted { capability := .Stay } "stay"
  | .Unstay =>
    if !input.isStopped then .rejected "not_stopped"
    else .accepted { capability := .Unstay } "unstay"
  | .TalkToQuestGiver =>
    match ParseQuestIdArguments arguments with
    | none => .rejected "invalid_arguments"
    | some questId =>
      if !HasQuestGiverForQuestId input.snapshot questId then .rejected "quest_giver_not_in_range"
      else .accepted { capability := .TalkToQuestGiver, questId := questId } "quest_giver_in_range"
  | .Fish =>
    match busyGate input.snapshot with
    | some reason => .rejected reason
    | none =>
      match input.memory with
      | none => .declined
      | some mem =>
        if (GetFailureStats mem "profession:fishing").CooldownRemainingMs input.nowMs > 0 then
          .rejected "cooldown"
        else .accepted { capability := .Fish } "out_of_combat"
  | .UseProfession =>
    match ParseProfessionArguments arguments with
    | none => .rejected "invalid_arguments"
    | some (skill, intent) =>
      .accepted { capability := .UseProfession, professionSkill := skill,
                  professionIntent := intent } "profession_request"
  | .TurnLeft90 | .TurnRight90 | .TurnAround =>
    match busyGate input.snapshot with
    | some reason => .rejected reason
    | none => .accepted { capability := definition.capability } "turn"
  | .EnterAttackPull => .declined

/-- Holds when the definition requires no argument at all. -/
def ControlToolDefinition.takesNoArguments (definition : ControlToolDefinition) : Bool :=
  !definition.requiresDirection && !definition.requiresDistance && !definition.requiresQuestId &&
  !definition.requiresSkill && !definition.requiresIntent && !definition.requiresMessage &&
  !definition.requiresNavEpoch && !definition.requiresCandidateId

/-- The control worker thread of `OllamaBotControlLoop::OnUpdate`, from the LLM
reply to its verdict. -/
def controlWorker (parse : List Char → Option Json) (input : ControlWorkerInput)
    (llmReply : List Char) : ControlOutcome :=
  if llmReply = [] then .backoff
  else
    let trimmed := TrimCopy llmReply
    if trimmed = [] then .backoff
    else
      match TryExtractSingleToolCall parse trimmed with
      | none => .backoff
      | some toolCall =>
        match FindControlToolDefinition toolCall.name with
        | none => .rejected "unknown_tool"
        | some definition =>
          if definition.takesNoArguments && !toolCall.arguments.empty then
            .rejected "unexpected_arguments"
          else gateTool input definition toolCall.arguments

/-- The action the worker hands to `ControlActionRegistry::Enqueue`: an
accepted action other than `Idle`. -/
def enqueuedAction (outcome : ControlOutcome) : Option ControlAction :=
  match outcome with
  | .accepted action _ => if action.capability ≠ Capability.Idle then some action else none
  | _ => none

/-! ## Bot/BotMovement, Bot/BotTravel and the control action consumer
(Script/AmigoControlControllerScript.cpp) -/

/-- Embeds `enum class MoveReason`. -/
inductive MoveReason where
  | Travel
  | Combat
  | Flee
  | Script
  deriving DecidableEq

/-- Embeds `class BotMovement`; `bot_` is recorded as null / non-null. -/
structure BotMovement where
  bot_ : Bool := false
  path_ : List Position3 := []
  reason_ : MoveReason := MoveReason.Travel
  active_ : Bool := false
  lastMoveElapsedMs_ : Nat := 0
  destMapId_ : Nat := 0
  destX_ : F32 := F32.finite 0
  destY_ : F32 := F32.finite 0
  destZ_ : F32 := F32.finite 0

/-- Embeds `constexpr uint32 kMinMovePointIntervalMs = 150`. -/
def kMinMovePointIntervalMs : Nat := 150

/-- Embeds `BotMovement::Abort(reason)`. -/
def BotMovement.Abort (mv : BotMovement) : BotMovement :=
  { mv with active_ := false, path_ := [] }

/-- Embeds `BotMovement::BuildPath(dest)` for a non-null `bot_`: the path stored and
the returned flag. `botMapId` is `bot_->GetMapId()`; `CalculatePath` is the
host's `PathGenerator` (straight paths off), `none` when it reports failure. -/
def BotMovement.BuildPath (botMapId : Nat) (CalculatePath : WorldPosition → Option (List Position3))
    (mv : BotMovement) (dest : WorldPosition) : BotMovement × Bool :=
  if !mv.bot_ then (mv, false)
  else if botMapId ≠ dest.mapId then (mv, false)
  else
    match CalculatePath dest with
    | none => (mv, false)
    | some path => ({ mv with path_ := path }, !path.isEmpty)

/-- Embeds `BotMovement::StartPathMove(bot, dest, reason)` for a non-null `bot`. -/
def BotMovement.StartPathMove (botMapId : Nat)
    (CalculatePath : WorldPosition → Option (List Position3))
    (mv : BotMovement) (dest : WorldPosition) (reason : MoveReason) : BotMovement × Bool :=
  if mv.active_ ∧ ¬ (mv.reason_ = MoveReason.Travel ∧ reason ≠ MoveReason.Travel) then (mv, false)
  else
    let mv1 := if mv.active_ then mv.Abort else mv
    let mv2 := { mv1 with bot_ := true, reason_ := reason, destMapId_ := dest.mapId,
                          destX_ := dest.x, destY_ := dest.y, destZ_ := dest.z }
    match BotMovement.BuildPath botMapId CalculatePath mv2 dest with
    | (mv3, false) => ({ mv3 with bot_ := false }, false)
    | (mv3, true) => ({ mv3 with active_ := true, lastMoveElapsedMs_ := kMinMovePointIntervalMs }, true)

/-- Embeds `enum class TravelResult`. -/
inductive TravelResult where
  | None
  | Reached
  | TimedOut
  | Aborted
  deriving DecidableEq

/-- Embeds `struct AmigoTravelTarget`. -/
structure AmigoTravelTarget where
  key : List Char
  dest : WorldPosition
  radius : F32 := F32.finite (5 / 2)
  timeoutMs : Nat := 120000
  deriving DecidableEq

/-- Embeds `class BotTravel`. -/
structure BotTravel where
  active_ : Bool := false
  target_ : Option AmigoTravelTarget := none
  lastResult_ : TravelResult := TravelResult.None
  startMs_ : Nat := 0
  lastChangeMs_ : Nat := 0
  deriving DecidableEq

/-- Embeds `BotTravel::Begin(target, nowMs)`. -/
def BotTravel.Begin (_travel : BotTravel) (target : AmigoTravelTarget) (nowMs : Nat) : BotTravel :=
  { active_ := true, target_ := some target, lastResult_ := TravelResult.None,
    startMs_ := nowMs, lastChangeMs_ := nowMs }

/-- The host engine as the control action consumer queries it for one player
at one tick. `moveHopTimeoutMs dest` is the value of
`static_cast<uint32>(std::clamp(std::min(dist, 325.0f) * 1800.0f, 30000.0f, 180000.0f))`
for the engine's float distance from the player to `dest`. -/
structure ControllerEngine where
  IsInCombat : Bool
  isMoving : Bool
  activity : Option (List Char)
  botMapId : Nat
  CanReach : WorldPosition → Bool
  IsWithinLOS : WorldPosition → Bool
  CalculatePath : WorldPosition → Option (List Position3)
  moveHopTimeoutMs : WorldPosition → Nat
  nowMs : Nat

/-- The registries the consumer reaches for one bot: nav states, the registered
`BotMovement` and `BotTravel` instances (`none` for a null pointer). -/
structure ControllerState where
  navStorage : NavStorage
  movement : Option BotMovement
  travel : Option BotTravel

/-- Embeds `struct BotSnapshot` of the consumer (AmigoControlControllerScript.cpp). -/
structure ControllerSnapshot where
  inCombat : Bool
  grindMode : Bool
  isMoving : Bool

/-- Embeds `BuildBotSnapshot(bot)` of the consumer; grind mode is the lower-cased
activity label being `grind`. -/
def ControllerSnapshot.build (engine : ControllerEngine) : ControllerSnapshot :=
  { inCombat := engine.IsInCombat,
    isMoving := engine.isMoving,
    grindMode := match engine.activity with
      | some currentActivity => decide (currentActivity.map Char.toLower = "grind".toList)
      | none => false }

/-- Embeds `CanMoveNow(snapshot)`. -/
def CanMoveNow (snapshot : ControllerSnapshot) : Bool :=
  !snapshot.inCombat && !snapshot.grindMode && !snapshot.isMoving

/-- The travel key `"move_hop:candidate:" << navEpoch << ":" << navCandidateId`. -/
def moveHopTravelKey (action : ControlAction) : List Char :=
  "move_hop:candidate:".toList ++ (toString action.navEpoch).toList ++ ":".toList ++
    action.navCandidateId

/-- What `AmigoControlControllerScript::OnPlayerAfterUpdate` does with a
dequeued action whose capability is `MoveHop`: the registries afterwards and
whether `StartPathMove` was called and returned true. -/
def consumeMoveHop (engine : ControllerEngine) (state : ControllerState) (guid : Nat)
    (action : ControlAction) : ControllerState × Bool :=
  let snapshot := ControllerSnapshot.build engine
  if snapshot.isMoving ∧ action.capability ≠ Capability.Idle ∧
      action.capability ≠ Capability.StopGrind then (state, false)
  else if snapshot.inCombat then (state, false)
  else if !CanMoveNow snapshot then (state, false)
  else if action.navCandidateId = [] then (state, false)
  else
    match BotNavStateRegistry.TryResolve state.navStorage guid action.navEpoch
        action.navCandidateId with
    | none => (state, false)
    | some resolved =>
      if !resolved.outCanMove then (state, false)
      else if !resolved.outReachable then (state, false)
      else
        match state.movement, state.travel with
        | none, _ => (state, false)
        | some _, none => (state, false)
        | some movement, some travel =>
          if travel.active_ then (state, false)
          else if !engine.CanReach resolved.outDest then (state, false)
          else
            match BotMovement.StartPathMove engine.botMapId engine.CalculatePath movement
                resolved.outDest MoveReason.Travel with
            | (movement1, false) => ({ state with movement := some movement1 }, false)
            | (movement1, true) =>
              ({ state with
                   movement := some movement1,
                   travel := some (travel.Begin
                     { key := moveHopTravelKey action, dest := resolved.outDest,
                       radius := F32.finite (5 / 2),
                       timeoutMs := engine.moveHopTimeoutMs resolved.outDest }
                     engine.nowMs) },
               true)

/-- An engine for the examples: out of combat, standing still, no activity
label, every destination reachable, a two-point path to every destination. -/
def calmEngine : ControllerEngine :=
  { IsInCombat := false, isMoving := false, activity := none, botMapId := 0,
    CanReach := fun _ => true, IsWithinLOS := fun _ => true,
    CalculatePath := fun dest => some [⟨dest.x, dest.y, dest.z⟩, ⟨dest.x, dest.y, dest.z⟩],
    moveHopTimeoutMs := fun _ => 30000, nowMs := 1000 }

/-- Registries for the examples: bot 7 has published epoch 4 with the movable,
reachable candidate `nav_0` and the blocked candidate `nav_1`; its movement and
travel instances are registered and idle. -/
def sampleControllerState : ControllerState :=
  { navStorage := BotNavStateRegistry.SetState NavStorage.empty 7
      { navEpoch := 4,
        candidates :=
          [⟨"nav_0".toList, 0, .finite 1, .finite 2, .finite 3, true, true, true⟩,
           ⟨"nav_1".toList, 0, .finite 4, .finite 5, .finite 6, false, true, false⟩] },
    movement := some {},
    travel := some {} }

/-- The values `nlohmann::json::parse` returns for the three texts used in the
examples below (every other text is treated as a parse error). -/
def sampleParse (text : List Char) : Option Json :=
  if text = "\x7b\"name\":\"REQUEST_STAY\"\x7d".toList then
    some (Json.obj [("name".toList, .str "REQUEST_STAY".toList)])
  else if text = "\x7b\"name\":\"request_stay\",\"arguments\":\x7b\"force\":true\x7d\x7d".toList then
    some (Json.obj [("name".toList, .str "request_stay".toList),
                    ("arguments".toList, .obj [("force".toList, .bool true)])])
  else if text = ("\x7b\"name\":\"request_move_hop\"," ++
      "\"arguments\":\x7b\"nav_epoch\":4,\"candidate_id\":\"nav_0\"\x7d\x7d").toList then
    some (Json.obj [("name".toList, .str "request_move_hop".toList),
                    ("arguments".toList, .obj [("nav_epoch".toList, .numUnsigned 4),
                                               ("candidate_id".toList, .str "nav_0".toList)])])
  else none

/-- A worker input for the examples: an idle bot whose snapshot of epoch 4
offers the movable, reachable candidate `nav_0`. -/
def sampleWorkerInput : ControlWorkerInput :=
  { snapshot :=
      { navEpoch := 4,
        navCandidates := [⟨"forward".toList, ⟨.finite 1, .finite 2, .finite 3⟩, true, true, true,
          .finite 6, .finite 0, "ahead".toList⟩] },
    isStopped := false, memory := none, nowMs := 1000 }

/-! ## Ai/ControlAction.cpp and Script/AmigoPlanner.cpp (per-bot queues) -/

/-- A registry member of type `std::unordered_map<uint64, std::deque<T>>`: per
guid the deque front to back, `none` for a guid without a map node. -/
abbrev QueueStorage (α : Type) := Nat → Option (List α)

/-- The statement `map[guid].push_back(entry)`; `operator[]` creates an empty
deque for a guid seen for the first time. -/
def QueueStorage.pushBack {α : Type} (q : QueueStorage α) (guid : Nat) (entry : α) :
    QueueStorage α :=
  fun g => if g = guid then some ((q guid).getD [] ++ [entry]) else q g

/-- The body shared by both `TryDequeue` functions: `find`, the emptiness test,
`front()` and `pop_front()`. The second component is the out-parameter of a
`true` return, `none` is a `false` return. -/
def QueueStorage.tryPopFront {α : Type} (q : QueueStorage α) (guid : Nat) :
    QueueStorage α × Option α :=
  match q guid with
  | none => (q, none)
  | some [] => (q, none)
  | some (front :: rest) => (fun g => if g = guid then some rest else q g, some front)

/-- Embeds `struct ControlActionState` (Ai/ControlAction.h). -/
structure ControlActionState where
  action : ControlAction := {}
  reasoning : List Char := []
  deriving DecidableEq

/-- Embeds `ControlActionRegistry::Enqueue(botGuid, action)`. -/
def ControlActionRegistry.Enqueue (actions_ : QueueStorage ControlActionState) (botGuid : Nat)
    (action : ControlActionState) : QueueStorage ControlActionState :=
  if botGuid = 0 then actions_ else actions_.pushBack botGuid action

/-- Embeds `ControlActionRegistry::TryDequeue(botGuid, outAction)`. -/
def ControlActionRegistry.TryDequeue (actions_ : QueueStorage ControlActionState)
    (botGuid : Nat) : QueueStorage ControlActionState × Option ControlActionState :=
  actions_.tryPopFront botGuid

/-- Embeds `enum class BotControlCommandType` (Bot/BotControlApi.h). -/
inductive BotControlCommandType where
  | MoveHop
  | PlayerbotCommand
  | Idle
  deriving DecidableEq

/-- Embeds `struct BotControlCommand` (Bot/BotControlApi.h). -/
structure BotControlCommand where
  type : BotControlCommandType := BotControlCommandType.Idle
  args : List (List Char) := []
  targetX : F32 := F32.finite 0
  targetY : F32 := F32.finite 0
  targetZ : F32 := F32.finite 0
  distance : F32 := F32.finite 0
  deriving DecidableEq

/-- Embeds `struct AmigoPlannerState` (Script/AmigoPlanner.h). -/
structure AmigoPlannerState where
  command : BotControlCommand := {}
  reasoning : List Char := []
  deriving DecidableEq

/-- Embeds `AmigoPlannerRegistry::Enqueue(Player* bot, plan)`; the player is given
as the raw value of its guid, `none` for a null pointer. -/
def AmigoPlannerRegistry.EnqueuePlayer (plans_ : QueueStorage AmigoPlannerState)
    (bot : Option Nat) (plan : AmigoPlannerState) : QueueStorage AmigoPlannerState :=
  match bot with
  | none => plans_
  | some guid => plans_.pushBack guid plan

/-- Embeds `AmigoPlannerRegistry::Enqueue(uint64 botGuid, plan)`. -/
def AmigoPlannerRegistry.Enqueue (plans_ : QueueStorage AmigoPlannerState) (botGuid : Nat)
    (plan : AmigoPlannerState) : QueueStorage AmigoPlannerState :=
  if botGuid = 0 then plans_ else plans_.pushBack botGuid plan

/-- Embeds `AmigoPlannerRegistry::TryDequeue(botGuid, out)`. -/
def AmigoPlannerRegistry.TryDequeue (plans_ : QueueStorage AmigoPlannerState)
    (botGuid : Nat) : QueueStorage AmigoPlannerState × Option AmigoPlannerState :=
  plans_.tryPopFront botGuid

/-- One call on the control-action registry. -/
inductive ControlRegistryCall where
  | Enqueue (botGuid : Nat) (action : ControlActionState)
  | TryDequeue (botGuid : Nat)

/-- A sequence of calls on the control-action registry, applied in order; the
result lists, per `TryDequeue` call, the guid asked for and what it returned. -/
def runControlCalls (actions_ : QueueStorage ControlActionState) :
    List ControlRegistryCall → List (Nat × Option ControlActionState)
  | [] => []
  | .Enqueue botGuid action :: rest =>
    runControlCalls (ControlActionRegistry.Enqueue actions_ botGuid action) rest
  | .TryDequeue botGuid :: rest =>
    (botGuid, (ControlActionRegistry.TryDequeue actions_ botGuid).2) ::
      runControlCalls (ControlActionRegistry.TryDequeue actions_ botGuid).1 rest

/-- One call on the planner command registry. -/
inductive PlannerRegistryCall where
  | EnqueuePlayer (bot : Option Nat) (plan : AmigoPlannerState)
  | Enqueue (botGuid : Nat) (plan : AmigoPlannerState)
  | TryDequeue (botGuid : Nat)

/-- A sequence of calls on the planner command registry, applied in order; the
result lists, per `TryDequeue` call, the guid asked for and what it returned. -/
def runPlannerCalls (plans_ : QueueStorage AmigoPlannerState) :
    List PlannerRegistryCall → List (Nat × Option AmigoPlannerState)
  | [] => []
  | .EnqueuePlayer bot plan :: rest =>
    runPlannerCalls (AmigoPlannerRegistry.EnqueuePlayer plans_ bot plan) rest
  | .Enqueue botGuid plan :: rest =>
    runPlannerCalls (AmigoPlannerRegistry.Enqueue plans_ botGuid plan) rest
  | .TryDequeue botGuid :: rest =>
    (botGuid, (AmigoPlannerRegistry.TryDequeue plans_ botGuid).2) ::
      runPlannerCalls (AmigoPlannerRegistry.TryDequeue plans_ botGuid).1 rest

/-- The calls of a sequence that name the given bot, as queue operations:
`some entry` is an enqueue of the entry, `none` is a dequeue attempt. -/
def controlCallsOf (guid : Nat) : List ControlRegistryCall → List (Option ControlActionState)
  | [] => []
  | .Enqueue botGuid action :: rest =>
    if botGuid = guid then some action :: controlCallsOf guid rest else controlCallsOf guid rest
  | .TryDequeue botGuid :: rest =>
    if botGuid = guid then none :: controlCallsOf guid rest else controlCallsOf guid rest

/-- The calls of a sequence that name the given bot, as queue operations:
`some entry` is an enqueue of the entry, `none` is a dequeue attempt. -/
def plannerCallsOf (guid : Nat) : List PlannerRegistryCall → List (Option AmigoPlannerState)
  | [] => []
  | .EnqueuePlayer bot plan :: rest =>
    if bot = some guid then some plan :: plannerCallsOf guid rest else plannerCallsOf guid rest
  | .Enqueue botGuid plan :: rest =>
    if botGuid = guid then some plan :: plannerCallsOf guid rest else plannerCallsOf guid rest
  | .TryDequeue botGuid :: rest =>
    if botGuid = guid then none :: plannerCallsOf guid rest else plannerCallsOf guid rest

/-- The results returned to the given bot, in call order. -/
def resultsOf {α : Type} (guid : Nat) (results : List (Nat × Option α)) : List (Option α) :=
  (results.filter (fun r => r.1 = guid)).map (fun r => r.2)

/-- A first-in first-out queue in the words of the specification: an enqueue
appends, a dequeue attempt pops the oldest entry or reports emptiness. The
result lists what each dequeue attempt returned. -/
def fifoResults {α : Type} : List α → List (Option α) → List (Option α)
  | _, [] => []
  | queue, some entry :: rest => fifoResults (queue ++ [entry]) rest
  | [], none :: rest => none :: fifoResults [] rest
  | oldest :: queue, none :: rest => some oldest :: fifoResults queue rest

/-! ## Ai/LlmContext.h, Ai/LlmContext.cpp (plan state helpers) -/

/-- Embeds `struct BotLLMContext` (Ai/LlmContext.h). -/
structure BotLLMContext where
  lastPlan : List Char := []
  lastControlSummary : List Char := []
  lastControlAtMs : Nat := 0
  controlBusy : Bool := false
  longTermGoal : List Char := []
  shortTermGoals : List (List Char) := []
  shortTermIndex : Nat := 0
  hasActivePlan : Bool := false
  lastPlanTimeMs : Nat := 0
  controlStepsForCurrentGoal : Nat := 0
  deriving DecidableEq

/-- Embeds `HasCurrentSTG(ctx)`. -/
def HasCurrentSTG (ctx : BotLLMContext) : Bool :=
  if !ctx.hasActivePlan then false
  else decide (ctx.shortTermIndex < ctx.shortTermGoals.length)

/-- Embeds `GetCurrentSTG(ctx)`. -/
def GetCurrentSTG (ctx : BotLLMContext) : List Char :=
  if !ctx.hasActivePlan || decide (ctx.shortTermIndex ≥ ctx.shortTermGoals.length) then []
  else ctx.shortTermGoals.getD ctx.shortTermIndex []

/-- Embeds `AdvanceSTG(ctx)`; `shortTermIndex++` is a `uint32` increment. -/
def AdvanceSTG (ctx : BotLLMContext) : BotLLMContext :=
  if !ctx.hasActivePlan then ctx
  else
    let ctx1 :=
      if ctx.shortTermIndex < ctx.shortTermGoals.length then
        { ctx with shortTermIndex := (ctx.shortTermIndex + 1) % U32 }
      else ctx
    let ctx2 := { ctx1 with controlStepsForCurrentGoal := 0 }
    if ctx2.shortTermIndex ≥ ctx2.shortTermGoals.length then { ctx2 with hasActivePlan := false }
    else ctx2

/-! ## Script/OllamaBotConfig.cpp (prompt escapes) -/

/-- The `switch (next)` of `ExpandPromptEscapes`: the character pushed for an
escape letter, `none` for the `default` branch. The cases are `n`, `r`, `t`,
the backslash (`\x5c`) and the double quote (`\x22`). -/
def escapeReplacement (next : Char) : Option Char :=
  if next = 'n' then some '\x0a'
  else if next = 'r' then some '\x0d'
  else if next = 't' then some '\x09'
  else if next = '\x5c' then some '\x5c'
  else if next = '\x22' then some '\x22'
  else none

/-- Embeds `ExpandPromptEscapes(value)`: the loop over `i`, as a recursion on the
characters from position `i` on. A backslash with a character after it
(`i + 1 < value.size()`) and a known escape letter pushes the replacement and
skips both; every other character is pushed as it is. -/
def ExpandPromptEscapes : List Char → List Char
  | [] => []
  | [c] => [c]
  | c :: next :: rest =>
    if c = '\x5c' then
      match escapeReplacement next with
      | some replacement => replacement :: ExpandPromptEscapes rest
      | none => c :: ExpandPromptEscapes (next :: rest)
    else c :: ExpandPromptEscapes (next :: rest)

/-- Embeds `BotMovement::StartPathMove(bot, dest, reason)` with its pointer test: `bot`
is `none` for a null pointer and otherwise carries `bot->GetMapId()`. -/
def BotMovement.StartPathMoveFor (bot : Option Nat)
    (CalculatePath : WorldPosition → Option (List Position3))
    (mv : BotMovement) (dest : WorldPosition) (reason : MoveReason) : BotMovement × Bool :=
  match bot with
  | none => (mv, false)
  | some botMapId => BotMovement.StartPathMove botMapId CalculatePath mv dest reason

/-- A path generator for the examples: a two-point path to every destination. -/
def straightPath (dest : WorldPosition) : Option (List Position3) :=
  some [⟨dest.x, dest.y, dest.z⟩, ⟨dest.x, dest.y, dest.z⟩]

/-! ## Bot/BotTravel.cpp (travel supervision) -/

/-- The difference `a - b` of two `uint32_t` values. -/
def subU32 (a b : Nat) : Nat := (a % U32 + U32 - b % U32) % U32

/-- The player as `BotTravel` queries it: `IsAlive()` and, for a destination, the
engine's map-aware `WorldPosition::distance` from the player's position. -/
structure TravelBot where
  IsAlive : Bool
  distanceTo : WorldPosition → F32

/-- Embeds `BotTravel::Reached(bot)`; `bot` is `none` for a null pointer. -/
def BotTravel.Reached (travel : BotTravel) (bot : Option TravelBot) : Bool :=
  match bot, travel.target_ with
  | some b, some target => F32.le (b.distanceTo target.dest) target.radius
  | _, _ => false

/-- Embeds `BotTravel::Update(bot, nowMs)`. -/
def BotTravel.Update (travel : BotTravel) (bot : Option TravelBot) (nowMs : Nat) : BotTravel :=
  match bot, travel.target_ with
  | some b, some target =>
    if !travel.active_ then travel
    else if !b.IsAlive then
      { travel with active_ := false, lastResult_ := TravelResult.Aborted, lastChangeMs_ := nowMs }
    else if travel.Reached bot then
      { travel with active_ := false, lastResult_ := TravelResult.Reached, lastChangeMs_ := nowMs }
    else if subU32 nowMs travel.startMs_ > target.timeoutMs then
      { travel with active_ := false, lastResult_ := TravelResult.TimedOut, lastChangeMs_ := nowMs }
    else travel
  | _, _ => travel

/-- A living player for the examples, 1 yard from every destination. -/
def nearBot : TravelBot := { IsAlive := true, distanceTo := fun _ => F32.finite 1 }

/-- A dead player for the examples, 1 yard from every destination. -/
def deadBotNearby : TravelBot := { IsAlive := false, distanceTo := fun _ => F32.finite 1 }

/-- A travel for the examples: begun at 1000 ms towards a point on map 0 with the
default radius 2.5 and a timeout of 30,000 ms. -/
def sampleTravel : BotTravel :=
  BotTravel.Begin {}
    { key := "move_hop:candidate:4:nav_0".toList, dest := ⟨0, .finite 1, .finite 2, .finite 3⟩,
      timeoutMs := 30000 } 1000

/-! ## Bot/ProfessionTypes.h, Bot/BotProfession.cpp (fishing sessions) -/

/-- Embeds `enum class ProfessionActivity`. -/
inductive ProfessionActivity where
  | None
  | Fishing
  deriving DecidableEq

/-- Embeds `enum class ProfessionResult`. -/
inductive ProfessionResult where
  | None
  | Started
  | Succeeded
  | FailedTemporary
  | FailedPermanent
  | Aborted
  | TimedOut
  deriving DecidableEq

/-- Embeds `constexpr uint32_t kBobberPollIntervalMs = 1000`. -/
def kBobberPollIntervalMs : Nat := 1000

/-- Embeds `constexpr uint32_t kFishingTimeoutMs = 60000`. -/
def kFishingTimeoutMs : Nat := 60000

/-- Embeds `class BotProfession`. -/
structure BotProfession where
  active_ : Bool := false
  activity_ : ProfessionActivity := ProfessionActivity.None
  lastResult_ : ProfessionResult := ProfessionResult.None
  startMs_ : Nat := 0
  lastStepMs_ : Nat := 0
  lastChangeMs_ : Nat := 0
  deriving DecidableEq

/-- The player as `BotProfession::ShouldAbort` queries it. -/
structure ProfessionBot where
  IsInWorld : Bool
  IsAlive : Bool
  IsInCombat : Bool
  isSwimming : Bool
  deriving DecidableEq

/-- The host's `PlayerbotAI` as `BotProfession` drives it at one tick: what
`DoSpecificAction` returns for the actions "go fishing" and "use fishing
bobber" (the "remove bobber strategy" action changes no state of this class). -/
structure ProfessionAi where
  goFishing : Bool
  useBobber : Bool
  deriving DecidableEq

/-- Embeds `BotProfession::ShouldAbort(bot)`; `bot` is `none` for a null pointer. -/
def BotProfession.ShouldAbort (bot : Option ProfessionBot) : Bool :=
  match bot with
  | none => true
  | some b =>
    if !b.IsInWorld || !b.IsAlive then true
    else if b.IsInCombat then true
    else if b.isSwimming then true
    else false

/-- Embeds `BotProfession::StartFishing(bot, ai, nowMs)`: the state afterwards and the
returned flag. -/
def BotProfession.StartFishing (prof : BotProfession) (bot : Option ProfessionBot)
    (ai : Option ProfessionAi) (nowMs : Nat) : BotProfession × Bool :=
  match ai with
  | none => (prof, false)
  | some a =>
    if prof.active_ || bot.isNone then (prof, false)
    else if BotProfession.ShouldAbort bot then (prof, false)
    else if !a.goFishing then (prof, false)
    else
      ({ active_ := true, activity_ := ProfessionActivity.Fishing,
         lastResult_ := ProfessionResult.Started,
         startMs_ := nowMs, lastStepMs_ := nowMs, lastChangeMs_ := nowMs }, true)

/-- Embeds `BotProfession::Abort(bot, ai, nowMs)`. -/
def BotProfession.Abort (prof : BotProfession) (nowMs : Nat) : BotProfession :=
  if !prof.active_ then prof
  else { prof with active_ := false, activity_ := ProfessionActivity.None,
                   lastResult_ := ProfessionResult.Aborted, lastChangeMs_ := nowMs }

/-- Embeds `BotProfession::Update(bot, ai, nowMs)`. -/
def BotProfession.Update (prof : BotProfession) (bot : Option ProfessionBot)
    (ai : Option ProfessionAi) (nowMs : Nat) : BotProfession :=
  if !prof.active_ then prof
  else if BotProfession.ShouldAbort bot then prof.Abort nowMs
  else if prof.activity_ ≠ ProfessionActivity.Fishing then prof
  else if subU32 nowMs prof.startMs_ > kFishingTimeoutMs then
    { prof with active_ := false, lastResult_ := ProfessionResult.TimedOut,
                lastChangeMs_ := nowMs }
  else if subU32 nowMs prof.lastStepMs_ < kBobberPollIntervalMs then prof
  else
    let prof1 := { prof with lastStepMs_ := nowMs }
    match ai with
    | some a =>
      if a.useBobber then
        { prof1 with active_ := false, lastResult_ := ProfessionResult.Succeeded,
                     lastChangeMs_ := nowMs }
      else prof1
    | none => prof1

/-- The arguments of one `Update` call: the player, the AI and the time. -/
structure ProfessionTick where
  bot : Option ProfessionBot
  ai : Option ProfessionAi
  nowMs : Nat

/-- A sequence of `Update` calls, applied in order. -/
def runProfessionUpdates (prof : BotProfession) : List ProfessionTick → BotProfession
  | [] => prof
  | tick :: rest => runProfessionUpdates (prof.Update tick.bot tick.ai tick.nowMs) rest

/-- A tick at which the bot is able to act (`ShouldAbort` is false) and the bobber
action does not succeed. -/
def ProfessionTick.quiet (tick : ProfessionTick) : Prop :=
  BotProfession.ShouldAbort tick.bot = false ∧ ∀ a, tick.ai = some a → a.useBobber = false

/-- A player for the examples: in the world, alive, out of combat, on land. -/
def readyBot : ProfessionBot :=
  { IsInWorld := true, IsAlive := true, IsInCombat := false, isSwimming := false }

/-- A tick for the examples: the ready bot, a cast that starts, a bobber that
never bites. -/
def quietTick (nowMs : Nat) : ProfessionTick :=
  { bot := some readyBot, ai := some { goFishing := true, useBobber := false }, nowMs := nowMs }

/-- The stuck rows of a bot that has 130 rows `k0 .. k129` in
`amigo_stuck_memory`, each with one attempt made at Unix time 1,700,000,000.
Rows accumulate beyond 128 because the in-memory eviction never deletes a
row. -/
def overfullStuckRows : List StuckRow :=
  (List.range 130).map (fun i =>
    { action_key := "k" ++ toString i, attempts := 1, lastUnix := 1700000000 })

/-! ## Script/OllamaBotControlLoop.cpp (applying a staged strategic update) -/

/-- Embeds `constexpr uint32 kStrategicGoalChangeCooldownMs = 60000`. -/
def kStrategicGoalChangeCooldownMs : Nat := 60000

/-- Embeds `struct PlannerPlan`. -/
structure PlannerPlan where
  longTermGoal : List Char := []
  shortTermGoals : List (List Char) := []
  deriving DecidableEq

/-- Embeds `struct PendingStrategicUpdate`. -/
structure PendingStrategicUpdate where
  plan : PlannerPlan := {}
  hasUpdate : Bool := false
  refreshedShortTermGoals : Bool := false
  deriving DecidableEq

/-- The fields of `struct LlmBotState` that the strategic update block reads or
writes. -/
structure StrategicState where
  longTermGoal : List Char := []
  shortTermGoals : List (List Char) := []
  shortTermIndex : Nat := 0
  nextStrategicAllowedMs : Nat := 0
  lastGoalChangeMs : Nat := 0
  hasStrategicResult : Bool := false
  deriving DecidableEq

/-- The block `if (hasStrategicUpdate && strategicUpdate.hasUpdate) { ... }` of
`OllamaBotControlLoop::OnUpdate`, on the bot state. `staged` is the entry taken
out of `pendingStrategicUpdates` for the bot, `none` when there is none. The
block also rewrites the plan summary of the bot's LLM context, which is not
part of this state. -/
def applyStagedStrategicUpdate (state : StrategicState) (staged : Option PendingStrategicUpdate)
    (nowMs : Nat) : StrategicState :=
  match staged with
  | none => state
  | some strategicUpdate =>
    if !strategicUpdate.hasUpdate then state
    else
      let hasLongTermGoal : Bool := !state.longTermGoal.isEmpty
      let canGenerateGoal : Bool :=
        if !hasLongTermGoal && decide (state.lastGoalChangeMs > 0) &&
            decide (subU32 nowMs state.lastGoalChangeMs < kStrategicGoalChangeCooldownMs)
        then false else true
      let longTermChanged : Bool := decide (strategicUpdate.plan.longTermGoal ≠ state.longTermGoal)
      let state1 : StrategicState :=
        if longTermChanged then
          if hasLongTermGoal || canGenerateGoal then
            { state with
              longTermGoal := strategicUpdate.plan.longTermGoal,
              shortTermIndex := 0,
              shortTermGoals :=
                if strategicUpdate.refreshedShortTermGoals then strategicUpdate.plan.shortTermGoals
                else state.shortTermGoals,
              lastGoalChangeMs := nowMs,
              nextStrategicAllowedMs := (nowMs + kStrategicGoalChangeCooldownMs) % U32 }
          else state
        else if strategicUpdate.refreshedShortTermGoals && canGenerateGoal then
          { state with
            longTermGoal := strategicUpdate.plan.longTermGoal,
            shortTermGoals := strategicUpdate.plan.shortTermGoals,
            shortTermIndex := 0,
            lastGoalChangeMs := nowMs,
            nextStrategicAllowedMs := (nowMs + kStrategicGoalChangeCooldownMs) % U32 }
        else state
      { state1 with hasStrategicResult := true }

/-- A staged planner result carrying the given long-term goal and no refreshed
short-term goals. -/
def stagedGoal (goal : String) : Option PendingStrategicUpdate :=
  some { plan := { longTermGoal := goal.toList }, hasUpdate := true }

/-! ## Db/BotMemory.cpp (write-behind flushes and the token bucket) -/

/-- The comparison `a < b` of two floats (false as soon as one side is NaN). -/
def F32.lt : F32 → F32 → Bool
  | .nan, _ => false
  | _, .nan => false
  | .negInf, .negInf => false
  | .negInf, _ => true
  | .posInf, _ => false
  | .finite _, .negInf => false
  | .finite _, .posInf => true
  | .finite a, .finite b => decide (a < b)

/-- Embeds `constexpr float kDbTokenMax = 2.0f`. -/
def kDbTokenMax : F32 := F32.finite 2

/-- Embeds `constexpr uint32_t kPlannerWriteMinMs = 30000`. -/
def kPlannerWriteMinMs : Nat := 30000

/-- Embeds `constexpr uint32_t kPlannerWriteMaxMs = 60000`. -/
def kPlannerWriteMaxMs : Nat := 60000

/-- Embeds `constexpr uint32_t kVendorWriteMinMs = 60000`. -/
def kVendorWriteMinMs : Nat := 60000

/-- Embeds `constexpr uint32_t kVendorWriteMaxMs = 120000`. -/
def kVendorWriteMaxMs : Nat := 120000

/-- What `BotMemory` takes from its platform, with results the model treats as
given: `CharacterDatabase.EscapeString`, the text a stream writes for a
`float`, and the two float computations of the token bucket as the platform
rounds them, `dbTokens_ + delta * kDbTokenRefillPerMs` (with
`kDbTokenRefillPerMs = 1.0f / 5000.0f`) and `dbTokens_ - 1.0f`. -/
structure MemoryHost where
  EscapeString : String → String
  formatFloat : F32 → String
  addRefill : F32 → Nat → F32
  subOne : F32 → F32

/-- Embeds `BotMemory::RefillDbTokens(nowMs)`. `std::min(kDbTokenMax, sum)` yields
`sum` when `sum < kDbTokenMax` and `kDbTokenMax` otherwise. -/
def RefillDbTokens (host : MemoryHost) (m : BotMemory) (nowMs : Nat) : BotMemory :=
  if nowMs ≤ m.lastTokenRefillMs_ then m
  else
    let delta := nowMs - m.lastTokenRefillMs_
    let sum := host.addRefill m.dbTokens_ delta
    { m with dbTokens_ := if F32.lt sum kDbTokenMax then sum else kDbTokenMax,
             lastTokenRefillMs_ := nowMs }

/-- Embeds `BotMemory::ConsumeDbToken(nowMs)`: the memory afterwards and the returned
flag. -/
def ConsumeDbToken (host : MemoryHost) (m : BotMemory) (nowMs : Nat) : BotMemory × Bool :=
  let m1 := RefillDbTokens host m nowMs
  if F32.lt m1.dbTokens_ (F32.finite 1) then (m1, false)
  else ({ m1 with dbTokens_ := host.subOne m1.dbTokens_ }, true)

/-- The statement text built in `FlushPlanner`, from the escaped fields. -/
def plannerInsertSql (botGuid : Nat) (last completed abandoned : String) : String :=
  "INSERT INTO bot_planner_memory (guid, last_goal, completed_goals, abandoned_goals) " ++
    "VALUES (" ++ toString botGuid ++ ", '" ++ last ++ "', '" ++ completed ++ "', '" ++
    abandoned ++ "') " ++
    "ON DUPLICATE KEY UPDATE last_goal='" ++ last ++ "', completed_goals='" ++ completed ++
    "', abandoned_goals='" ++ abandoned ++ "'"

/-- Embeds `BotMemory::FlushPlanner()`: the statements handed to `Execute`. -/
def FlushPlanner (host : MemoryHost) (m : BotMemory) : List String :=
  [plannerInsertSql m.botGuid_ (host.EscapeString (String.mk m.lastGoal_))
    (host.EscapeString (String.mk (SerializeRing m.completedGoals_)))
    (host.EscapeString (String.mk (SerializeRing m.abandonedGoals_)))]

/-- The statement text built in `FlushStuck` for one entry. -/
def stuckInsertSql (botGuid : Nat) (escaped : String) (attempts : Nat) : String :=
  "INSERT INTO amigo_stuck_memory (bot_guid, action_key, attempts, last_attempt) " ++
    "VALUES (" ++ toString botGuid ++ ", '" ++ escaped ++ "', " ++ toString attempts ++
    ", NOW()) " ++
    "ON DUPLICATE KEY UPDATE attempts = " ++ toString attempts ++ ", last_attempt = NOW()"

/-- Embeds `BotMemory::FlushStuck()`: the map afterwards and the statements handed to
`Execute`, in iteration order. -/
def FlushStuck (host : MemoryHost) (botGuid : Nat) : StuckMap → StuckMap × List String
  | [] => ([], [])
  | (key, entry) :: rest =>
    if !entry.dirty then
      ((key, entry) :: (FlushStuck host botGuid rest).1, (FlushStuck host botGuid rest).2)
    else
      ((key, { entry with dirty := false }) :: (FlushStuck host botGuid rest).1,
       stuckInsertSql botGuid (host.EscapeString key) entry.stats.attempts ::
         (FlushStuck host botGuid rest).2)

/-- The statement text built in `FlushVendors` for one record. -/
def vendorReplaceSql (host : MemoryHost) (botGuid : Nat) (rec : VendorRecord) : String :=
  "REPLACE INTO amigo_vendor_memory " ++
    "(bot_guid, npc_entry, npc_name, role, zone, x, y, z, last_used) " ++
    "VALUES (" ++ toString botGuid ++ ", " ++ toString (rec.npcEntry % U32) ++ ", '" ++
    host.EscapeString rec.npcName ++ "', '" ++ host.EscapeString rec.role ++ "', " ++
    toString rec.zone ++ ", " ++ host.formatFloat rec.x ++ ", " ++ host.formatFloat rec.y ++
    ", " ++ host.formatFloat rec.z ++ ", NOW())"

/-- Embeds `BotMemory::FlushVendors()`: the map afterwards and the statements handed
to `Execute`, in iteration order. -/
def FlushVendors (host : MemoryHost) (botGuid : Nat) : VendorMap → VendorMap × List String
  | [] => ([], [])
  | (key, entry) :: rest =>
    if !entry.dirty then
      ((key, entry) :: (FlushVendors host botGuid rest).1, (FlushVendors host botGuid rest).2)
    else
      ((key, { entry with dirty := false }) :: (FlushVendors host botGuid rest).1,
       vendorReplaceSql host botGuid entry.record :: (FlushVendors host botGuid rest).2)

/-- The planner block of `BotMemory::Update`: the memory afterwards and the
statements executed. -/
def plannerBlock (host : MemoryHost) (nowMs : Nat) (m : BotMemory) : BotMemory × List String :=
  if m.plannerDirty_ = true ∧ nowMs ≥ m.nextPlannerWriteEarliestMs_ then
    let consumed := ConsumeDbToken host m nowMs
    if consumed.2 then
      ({ consumed.1 with
          plannerDirty_ := false,
          lastPlannerWriteMs_ := nowMs,
          nextPlannerWriteEarliestMs_ :=
            (nowMs + StableJitter consumed.1.botGuid_ kPlannerWriteMinMs kPlannerWriteMaxMs +
              consumed.1.jitterMs_) % U32 },
       FlushPlanner host consumed.1)
    else (consumed.1, [])
  else (m, [])

/-- The stuck block of `BotMemory::Update`: the memory afterwards and the
statements executed. -/
def stuckBlock (host : MemoryHost) (nowMs : Nat) (m : BotMemory) : BotMemory × List String :=
  if nowMs ≥ m.nextStuckWriteEarliestMs_ then
    let hasDirty := m.stuck_.any (fun kv => kv.2.dirty)
    if hasDirty then
      let consumed := ConsumeDbToken host m nowMs
      if consumed.2 then
        ({ consumed.1 with
            stuck_ := (FlushStuck host consumed.1.botGuid_ consumed.1.stuck_).1,
            lastStuckWriteMs_ := nowMs,
            nextStuckWriteEarliestMs_ :=
              (nowMs + StableJitter consumed.1.botGuid_ kStuckWriteMinMs kStuckWriteMaxMs +
                consumed.1.jitterMs_) % U32 },
         (FlushStuck host consumed.1.botGuid_ consumed.1.stuck_).2)
      else (consumed.1, [])
    else (m, [])
  else (m, [])

/-- The vendor block of `BotMemory::Update`: the memory afterwards and the
statements executed. -/
def vendorBlock (host : MemoryHost) (nowMs : Nat) (m : BotMemory) : BotMemory × List String :=
  if m.vendorsDirty_ = true ∧ nowMs ≥ m.nextVendorWriteEarliestMs_ then
    let consumed := ConsumeDbToken host m nowMs
    if consumed.2 then
      ({ consumed.1 with
          vendors_ := (FlushVendors host consumed.1.botGuid_ consumed.1.vendors_).1,
          vendorsDirty_ := false,
          lastVendorWriteMs_ := nowMs,
          nextVendorWriteEarliestMs_ :=
            (nowMs + StableJitter consumed.1.botGuid_ kVendorWriteMinMs kVendorWriteMaxMs +
              consumed.1.jitterMs_) % U32 },
       (FlushVendors host consumed.1.botGuid_ consumed.1.vendors_).2)
    else (consumed.1, [])
  else (m, [])

/-- The statements one `Update` call hands to `Execute`, per concern. -/
structure UpdateWrites where
  planner : List String := []
  stuck : List String := []
  vendors : List String := []
  deriving DecidableEq

/-- All statements of one `Update` call, in the order they are executed. -/
def UpdateWrites.all (w : UpdateWrites) : List String := w.planner ++ w.stuck ++ w.vendors

/-- Embeds `BotMemory::Update(nowMs)`, with the executed statements kept apart per
concern: lazy load, refill, then the planner, stuck and vendor blocks in this
order. -/
def BotMemory.UpdateTraced (host : MemoryHost) (m : BotMemory) (db : CharacterDatabase)
    (nowMs : Nat) : BotMemory × UpdateWrites :=
  let m0 := RefillDbTokens host (EnsureLoaded m db) nowMs
  let p := plannerBlock host nowMs m0
  let s := stuckBlock host nowMs p.1
  let v := vendorBlock host nowMs s.1
  (v.1, { planner := p.2, stuck := s.2, vendors := v.2 })

/-- Embeds `BotMemory::Update(nowMs)`: the memory and the database afterwards. -/
def BotMemory.Update (host : MemoryHost) (m : BotMemory) (db : CharacterDatabase)
    (nowMs : Nat) : BotMemory × CharacterDatabase :=
  ((BotMemory.UpdateTraced host m db nowMs).1,
   { db with executed := db.executed ++ (BotMemory.UpdateTraced host m db nowMs).2.all })

/-- A sequence of `Update` calls at the given times, applied in order: the memory
afterwards and the statements of each call. -/
def runMemoryUpdates (host : MemoryHost) (db : CharacterDatabase) :
    BotMemory → List Nat → BotMemory × List UpdateWrites
  | m, [] => (m, [])
  | m, nowMs :: rest =>
    ((runMemoryUpdates host db (BotMemory.UpdateTraced host m db nowMs).1 rest).1,
     (BotMemory.UpdateTraced host m db nowMs).2 ::
       (runMemoryUpdates host db (BotMemory.UpdateTraced host m db nowMs).1 rest).2)

/-- The memory as the three blocks of an `Update` call find it: after the lazy
load and the refill of the token bucket for the call's time. -/
def memoryAtChecks (host : MemoryHost) (m : BotMemory) (db : CharacterDatabase)
    (nowMs : Nat) : BotMemory :=
  RefillDbTokens host (EnsureLoaded m db) nowMs

/-- States that, at every call of a run of `Update` calls in which nothing is
consumed, the bucket holds less than one token after the call's refill. -/
def tokensBelowOne (host : MemoryHost) (db : CharacterDatabase) : BotMemory → List Nat → Bool
  | _, [] => true
  | m, nowMs :: rest =>
    F32.lt (memoryAtChecks host m db nowMs).dbTokens_ (F32.finite 1) &&
      tokensBelowOne host db (memoryAtChecks host m db nowMs) rest

/-- The tokens the stuck block of an `Update` call finds: those left by the
planner block. -/
def tokensAtStuckCheck (host : MemoryHost) (m : BotMemory) (db : CharacterDatabase)
    (nowMs : Nat) : F32 :=
  (plannerBlock host nowMs (memoryAtChecks host m db nowMs)).1.dbTokens_

/-- The tokens the vendor block of an `Update` call finds: those left by the
planner and stuck blocks. -/
def tokensAtVendorCheck (host : MemoryHost) (m : BotMemory) (db : CharacterDatabase)
    (nowMs : Nat) : F32 :=
  (stuckBlock host nowMs (plannerBlock host nowMs (memoryAtChecks host m db nowMs)).1).1.dbTokens_

/-- The memory a run of `Update` calls leaves when no call consumes a token: loaded and
refilled at each call's time. -/
def refillAll (host : MemoryHost) (db : CharacterDatabase) : BotMemory → List Nat → BotMemory
  | m, [] => m
  | m, nowMs :: rest => refillAll host db (memoryAtChecks host m db nowMs) rest

/-- A platform for the examples: strings escape to themselves, every float is
written as `0`, and the token arithmetic is carried out without rounding. -/
def exactHost : MemoryHost :=
  { EscapeString := fun text => text,
    formatFloat := fun _ => "0",
    addRefill := fun tokens delta =>
      match tokens with
      | .finite q => .finite (q + (delta : ℚ) / 5000)
      | other => other,
    subOne := fun tokens =>
      match tokens with
      | .finite q => .finite (q - 1)
      | other => other }

/-- A memory for the examples: bot 42, loaded, with an empty token bucket last
refilled at 1000 ms and a stuck flush allowed from 1000 ms on, after
`RecordFailure("k", Temporary, 1000)`. -/
def starvedMemory : BotMemory :=
  RecordFailure
    { botGuid_ := 42, initialized_ := true, loaded_ := true, dbTokens_ := F32.finite 0,
      lastTokenRefillMs_ := 1000, nextStuckWriteEarliestMs_ := 1000 }
    emptyDatabase "k" FailureType.Temporary 1000

/-- Ten call times within the 5000 ms that one token needs to refill. -/
def starvedTimes : List Nat := [1000, 1400, 1800, 2200, 2600, 3000, 3400, 3800, 4200, 4600]

/-- Embeds `BotMovement::IsMoving()`. -/
def BotMovement.IsMoving (mv : BotMovement) : Bool := mv.active_

/-- A path generator for the examples that reports failure for every destination. -/
def noPath (_dest : WorldPosition) : Option (List Position3) := none

/-- The loop `while (ring.size() > cap) ring.pop_front();` of `AppendRing`. -/
def ringPopFrontWhileOver (cap : Nat) : List (List Char) → List (List Char)
  | [] => []
  | item :: rest =>
    if (item :: rest).length > cap then ringPopFrontWhileOver cap rest else item :: rest

/-- Embeds `BotMemory::AppendRing(ring, value, cap)`. -/
def AppendRing (ring : List (List Char)) (value : List Char) (cap : Nat) : List (List Char) :=
  if value = [] then ring else ringPopFrontWhileOver cap (ring ++ [value])

/-! ## Script/OllamaBotControlLoop.cpp (control failure backoff) -/

/-- Embeds `constexpr uint32 kOllamaFailureHoldMs = 60000`. -/
def kOllamaFailureHoldMs : Nat := 60000

/-- Embeds `constexpr uint32 kPlannerFailureDelayMs = 90000`. -/
def kPlannerFailureDelayMs : Nat := 90000

/-- Embeds `constexpr uint32 kGlobalFailureWindowMs = 60000`. -/
def kGlobalFailureWindowMs : Nat := 60000

/-- Embeds `constexpr uint32 kGlobalFailureThreshold = 40`. -/
def kGlobalFailureThreshold : Nat := 40

/-- Embeds `constexpr uint32 kGlobalControlPauseMs = 3000`. -/
def kGlobalControlPauseMs : Nat := 3000

/-- Embeds `constexpr uint32 kOllamaBaseCooldownMs = 5000`. -/
def kOllamaBaseCooldownMs : Nat := 5000

/-- Embeds `constexpr uint32 kOllamaMaxCooldownMs = 60000`. -/
def kOllamaMaxCooldownMs : Nat := 60000

/-- Embeds `constexpr uint32 kPostEnterGrindControlDelayMs = 10000`. -/
def kPostEnterGrindControlDelayMs : Nat := 10000

/-- Embeds `enum class LlmBotState::ControlState`. -/
inductive ControlState where
  | Idle
  | Waiting
  | FailureHold
  | Cooldown
  deriving DecidableEq

/-- The fields of `struct LlmBotState` that the control worker's failure backoff
and its accepted-tool-call block write. -/
structure ControlBackoffState where
  ollamaCooldownMs : Nat := kOllamaBaseCooldownMs
  nextAllowedAttemptMs : Nat := 0
  failureHoldUntilMs : Nat := 0
  controlState : ControlState := ControlState.Idle
  nextPlannerShortTickMs : Nat := 0
  nextPlannerLongTickMs : Nat := 0
  deriving DecidableEq

/-- The process-wide variables `globalFailureWindowStartMs`, `globalFailureCount`
and `globalControlPauseUntilMs`. -/
structure GlobalControlState where
  globalFailureWindowStartMs : Nat := 0
  globalFailureCount : Nat := 0
  globalControlPauseUntilMs : Nat := 0
  deriving DecidableEq

/-- Embeds the lambda `recordGlobalFailure` of the control worker; `nowMs` is its
`getMSTime()` reading. -/
def recordGlobalFailure (nowMs : Nat) (g : GlobalControlState) : GlobalControlState :=
  let g1 :=
    if subU32 nowMs g.globalFailureWindowStartMs > kGlobalFailureWindowMs then
      { g with globalFailureWindowStartMs := nowMs, globalFailureCount := 0 }
    else g
  let g2 := { g1 with globalFailureCount := (g1.globalFailureCount + 1) % U32 }
  if g2.globalFailureCount ≥ kGlobalFailureThreshold then
    { g2 with globalControlPauseUntilMs := (nowMs + kGlobalControlPauseMs) % U32,
              globalFailureWindowStartMs := nowMs,
              globalFailureCount := 0 }
  else g2

/-- Embeds the lambda `applyFailureBackoff` of the control worker. `nowMs` is its
own `getMSTime()` reading and `failureNowMs` the later one of the
`recordGlobalFailure` call it makes. -/
def applyFailureBackoff (nowMs failureNowMs : Nat) (state : ControlBackoffState)
    (g : GlobalControlState) : ControlBackoffState × GlobalControlState :=
  let prev := state.ollamaCooldownMs
  let next := min ((prev * 2) % U32) kOllamaMaxCooldownMs
  let cooldownMs := max next kOllamaBaseCooldownMs
  ({ ollamaCooldownMs := cooldownMs,
     nextAllowedAttemptMs := (nowMs + cooldownMs) % U32,
     failureHoldUntilMs := (nowMs + kOllamaFailureHoldMs) % U32,
     controlState := ControlState.FailureHold,
     nextPlannerShortTickMs := (nowMs + kPlannerFailureDelayMs) % U32,
     nextPlannerLongTickMs := (nowMs + kPlannerFailureDelayMs) % U32 },
   recordGlobalFailure failureNowMs g)

/-- The backoff part of the block `if (accepted) { ... }` of the control worker.
`shortTermDelayMs` is the value of `GetPlannerShortTermDelayMs()`. -/
def acceptedToolCall (nowMs shortTermDelayMs : Nat) (capability : Capability)
    (state : ControlBackoffState) : ControlBackoffState :=
  let state1 := { state with ollamaCooldownMs := kOllamaBaseCooldownMs }
  let state2 :=
    if capability = Capability.EnterGrind then
      { state1 with nextAllowedAttemptMs := (nowMs + kPostEnterGrindControlDelayMs) % U32,
                    controlState := ControlState.Cooldown }
    else { state1 with nextAllowedAttemptMs := 0 }
  { state2 with nextPlannerShortTickMs := (nowMs + shortTermDelayMs) % U32 }

/-- A run of consecutive failures of one bot, given by the two clock readings of
each: the bot's backoff state and the process-wide state afterwards. -/
def applyFailures (state : ControlBackoffState) (g : GlobalControlState) :
    List (Nat × Nat) → ControlBackoffState × GlobalControlState
  | [] => (state, g)
  | (nowMs, failureNowMs) :: rest =>
    applyFailures (applyFailureBackoff nowMs failureNowMs state g).1
      (applyFailureBackoff nowMs failureNowMs state g).2 rest

/-- A run of recorded control failures, given by their clock readings. -/
def recordGlobalFailures (g : GlobalControlState) : List Nat → GlobalControlState
  | [] => g
  | nowMs :: rest => recordGlobalFailures (recordGlobalFailure nowMs g) rest

/-! ## mod-ollama-bot-buddy_loop.cpp (reply extraction) -/

/-- The loop of `ExtractFirstJsonObject` from index `i` on: `rest` holds the
characters `input[i..]`, `depth` and `start` are the loop's variables (`none`
for `npos`). The `int` counter is an unbounded integer here, which is exact
for replies of fewer than 2^31 characters. -/
def extractLoop (input : List Char) : List Char → Nat → Int → Option Nat → List Char
  | [], _, _, _ => []
  | c :: rest, i, depth, start =>
    let start1 := if c = '\x7b' ∧ depth = 0 then some i else start
    let depth1 := if c = '\x7b' then depth + 1 else depth
    if c = '\x7d' then
      match start1 with
      | some s =>
        if depth1 - 1 = 0 then substr input s (i - s + 1)
        else extractLoop input rest (i + 1) (depth1 - 1) start1
      | none => extractLoop input rest (i + 1) (depth1 - 1) start1
    else extractLoop input rest (i + 1) depth1 start1

/-- Embeds `ExtractFirstJsonObject(input)`. -/
def ExtractFirstJsonObject (input : List Char) : List Char :=
  extractLoop input input 0 0 none

/-- The change of brace depth a character stands for. -/
def braceDelta (c : Char) : Int :=
  if c = '\x7b' then 1 else if c = '\x7d' then -1 else 0

/-- The brace depth of a text: opening braces minus closing braces. -/
def braceDepth (s : List Char) : Int := (s.map braceDelta).sum

/-! ## mod-ollama-bot-buddy_handler.cpp (player chat relay) -/

/-- A player as `BotBuddyChatHandler::ProcessChat` queries it: the raw guid, the
name, `IsAlive()`, and whether the playerbot manager has an AI for the player
that reports `IsBotAI()`. -/
structure ChatPlayer where
  guid : Nat
  name : List Char
  IsAlive : Bool
  isBot : Bool
  deriving DecidableEq

/-- The body of the loop of `ProcessChat` for one entry of
`ObjectAccessor::GetPlayers()` (`none` for a null pointer); `messages` is
`botPlayerMessages`. The lower-casing is `::tolower` per character. -/
def relayToPlayer (sender : ChatPlayer) (msg : List Char)
    (messages : QueueStorage (List Char × List Char)) (entry : Option ChatPlayer) :
    QueueStorage (List Char × List Char) :=
  match entry with
  | none => messages
  | some bot =>
    if !bot.IsAlive then messages
    else if !bot.isBot then messages
    else
      let messageLower := msg.map Char.toLower
      let botNameLower := bot.name.map Char.toLower
      if (findSub botNameLower messageLower).isSome then
        messages.pushBack bot.guid (sender.name, msg)
      else messages

/-- Embeds `BotBuddyChatHandler::ProcessChat(player, type, lang, msg, channel)`:
`botPlayerMessages` afterwards. `allPlayers` lists the entries of
`ObjectAccessor::GetPlayers()` in iteration order. -/
def ProcessChat (player : Option ChatPlayer) (msg : List Char)
    (allPlayers : List (Option ChatPlayer))
    (messages : QueueStorage (List Char × List Char)) : QueueStorage (List Char × List Char) :=
  match player with
  | none => messages
  | some sender =>
    if msg = [] then messages
    else if sender.isBot then messages
    else allPlayers.foldl (relayToPlayer sender msg) messages

/-- The guids of the non-null entries of a player list. -/
def playerGuids (allPlayers : List (Option ChatPlayer)) : List Nat :=
  allPlayers.filterMap (fun entry => entry.map (fun p => p.guid))

/-- A human player for the examples. -/
def alice : ChatPlayer := { guid := 1, name := "Alice".toList, IsAlive := true, isBot := false }

/-- A living bot named `Ollamatest` for the examples. -/
def ollamatest : ChatPlayer :=
  { guid := 7, name := "Ollamatest".toList, IsAlive := true, isBot := true }

/-! ## mod-ollama-bot-buddy_api.cpp (Attack) -/

/-- What `Attack` asks of the target when it is a player (`target->ToPlayer()`). -/
structure AttackTargetPlayer where
  /-- Result of `bot->IsInSameGroupWith(targetPlayer)`. -/
  sameGroup : Bool
  /-- Result of `targetPlayer->GetGuildId()`. -/
  guildId : Nat
  IsGameMaster : Bool

/-- What `Attack` asks of the unit found for the guid. `faceRange` is the float
value of `meleeRange + 5.0f`. -/
structure AttackTarget where
  /-- Result of `bot->IsWithinLOSInMap(target)`. -/
  withinLOS : Bool
  /-- Result of `bot->IsValidAttackTarget(target)`. -/
  validAttackTarget : Bool
  /-- Result of `bot->IsFriendlyTo(target)`. -/
  friendly : Bool
  /-- Result of `target->ToPlayer()`. -/
  player : Option AttackTargetPlayer
  IsAlive : Bool
  /-- Result of `bot->GetExactDist2d(target)`. -/
  currentDistance : F32
  /-- Result of `bot->GetMeleeRange(target)`. -/
  meleeRange : F32
  faceRange : F32

/-- The bot as `Attack` uses it. -/
structure AttackBot where
  /-- Whether `PlayerbotsMgr::GetPlayerbotAI(bot)` is not null. -/
  hasAI : Bool
  guildId : Nat
  IsInCombat : Bool
  IsTank : Bool
  /-- Result of `ObjectAccessor::GetUnit(*bot, guid)`. -/
  getUnit : Nat → Option AttackTarget
  /-- Result of `ai->DoSpecificAction(name, event)`. -/
  doSpecificAction : String → Bool

/-- The calls `Attack` makes on the bot, its AI and its motion master, in order. -/
inductive AttackCall where
  | setCurrentTarget (guid : Nat)
  | setPullTarget (guid : Nat)
  | SetSelection (guid : Nat)
  | SetTarget (guid : Nat)
  | SetFacingToObject (guid : Nat)
  | MotionMasterClear
  | MoveChase (guid : Nat)
  | ChangeEngineCombat
  | DoSpecificAction (name : String)
  | Attack (guid : Nat)
  deriving DecidableEq, Repr

/-- The part of `Attack` after all refusals: targeting, facing, then chase or
melee. -/
def attackEngage (bot : AttackBot) (guid : Nat) (target : AttackTarget) :
    Bool × List AttackCall :=
  let calls := [AttackCall.setCurrentTarget guid, AttackCall.setPullTarget guid,
    AttackCall.SetSelection guid, AttackCall.SetTarget guid]
  let calls :=
    if bot.IsInCombat || F32.le target.currentDistance target.faceRange then
      calls ++ [AttackCall.SetFacingToObject guid]
    else calls
  if F32.lt target.meleeRange target.currentDistance then
    (true, calls ++ [AttackCall.MotionMasterClear, AttackCall.MoveChase guid,
      AttackCall.ChangeEngineCombat, AttackCall.DoSpecificAction "reach melee"])
  else
    let calls := calls ++ [AttackCall.ChangeEngineCombat, AttackCall.SetFacingToObject guid,
      AttackCall.Attack guid]
    let assist := if bot.IsTank then "tank assist" else "dps assist"
    let result := bot.doSpecificAction assist
    let calls := calls ++ [AttackCall.DoSpecificAction assist]
    let calls := if !result then calls ++ [AttackCall.DoSpecificAction "melee"] else calls
    (true, calls)

/-- Embeds `BotBuddyAI::Attack(bot, guid)`: the return value and the calls made.
A null bot is `none`; an empty guid is `0`. -/
def Attack (bot : Option AttackBot) (guid : Nat) : Bool × List AttackCall :=
  match bot with
  | none => (false, [])
  | some bot =>
    if guid = 0 then (false, [])
    else if !bot.hasAI then (false, [])
    else
      match bot.getUnit guid with
      | none => (false, [])
      | some target =>
        if !target.withinLOS then (false, [])
        else if !target.validAttackTarget then (false, [])
        else if target.friendly then (false, [])
        else if (match target.player with
            | some targetPlayer =>
              targetPlayer.sameGroup ||
                (bot.guildId != 0 && bot.guildId == targetPlayer.guildId)
            | none => false) then (false, [])
        else if !target.IsAlive then (false, [])
        else if (match target.player with
            | some targetPlayer => targetPlayer.IsGameMaster
            | none => false) then (false, [])
        else attackEngage bot guid target

/-- A dead creature in sight that the engine reports as attackable, for the
examples. -/
def deadBoar : AttackTarget :=
  { withinLOS := true, validAttackTarget := true, friendly := false, player := none,
    IsAlive := false, currentDistance := F32.finite 3, meleeRange := F32.finite 5,
    faceRange := F32.finite 10 }

/-- A bot with an AI that finds `deadBoar` under guid 42. -/
def attackingBot : AttackBot :=
  { hasAI := true, guildId := 0, IsInCombat := false, IsTank := false,
    getUnit := fun guid => if guid = 42 then some deadBoar else none,
    doSpecificAction := fun _ => true }

/-! ## Script/OllamaBotControlLoop.cpp (publishing navigation candidates) -/

/-- The loop of the publish block of `OllamaBotControlLoop::OnUpdate` that fills
`navState.candidates`, from index `i` on. -/
def publishCandidates (mapId : Nat) : Nat → List NavCandidate → List NavCandidateInternal
  | _, [] => []
  | i, c :: rest =>
    { candidateId := navCandidateId i, mapId := mapId, x := c.pos.x, y := c.pos.y, z := c.pos.z,
      reachable := c.reachable, hasLOS := c.hasLOS, canMove := c.canMove }
      :: publishCandidates mapId (i + 1) rest

/-- The publish block of `OllamaBotControlLoop::OnUpdate`: `stateNavEpoch` is
`state.navEpoch` before the increment; the result is the new `state.navEpoch`, the
snapshot with its epoch set, and the registry after `SetState(guid, navState)`. -/
def publishNavCandidates (storage : NavStorage) (guid stateNavEpoch : Nat)
    (snapshot : BotSnapshot) : Nat × BotSnapshot × NavStorage :=
  let navEpoch := (stateNavEpoch + 1) % U32
  let snapshot := { snapshot with navEpoch := navEpoch }
  let navState : BotNavState :=
    { navEpoch := navEpoch, candidates := publishCandidates snapshot.mapId 0 snapshot.navCandidates }
  (navEpoch, snapshot, BotNavStateRegistry.SetState storage guid navState)

/-- A snapshot with two navigation candidates, both movable and reachable, for
the examples. -/
def twoCandidateSnapshot : BotSnapshot :=
  { mapId := 0,
    navCandidates :=
      [{ label := "north".toList, pos := ⟨.finite 10, .finite 0, .finite 80⟩, canMove := true,
         hasLOS := true, reachable := true, distance2d := .finite 10, bearingDeg := .finite 0,
         direction := "north".toList },
       { label := "east".toList, pos := ⟨.finite 0, .finite 20, .finite 80⟩, canMove := true,
         hasLOS := true, reachable := true, distance2d := .finite 20, bearingDeg := .finite 90,
         direction := "east".toList }] }

/-- The tool arguments with `nav_epoch` 4 and `candidate_id` the text `nav_01`. -/
def paddedMoveHopArguments : Json :=
  .obj [("nav_epoch".toList, .numUnsigned 4), ("candidate_id".toList, .str "nav_01".toList)]

/-! ## Script/AmigoControlControllerScript.cpp (quest-giver follow-up) -/

/-- Embeds `kQuestTurnInFollowupTimeoutMs`. -/
def kQuestTurnInFollowupTimeoutMs : Nat := 30000

/-- Embeds `kQuestTurnInPlannerGuardMs`. -/
def kQuestTurnInPlannerGuardMs : Nat := 10000

/-- Embeds `kAcceptInitialDelayMs` of the accept path. -/
def kAcceptInitialDelayMs : Nat := 750

/-- Embeds `kAcceptRetryEveryMs` of the accept path. -/
def kAcceptRetryEveryMs : Nat := 2000

/-- Embeds `kMaxAcceptAttempts` of the accept path. -/
def kMaxAcceptAttempts : Nat := 3

/-- The engine's `QuestStatus` as far as the follow-up handler tells values
apart: `QUEST_STATUS_NONE`, `QUEST_STATUS_COMPLETE`, and every other value. -/
inductive QuestStatus where
  | NONE
  | COMPLETE
  | other (value : Nat)
  deriving DecidableEq

/-- Embeds `struct PendingQuestGiverFollowup`; the guid is its raw value, `0` for
an empty guid. -/
structure PendingQuestGiverFollowup where
  questId : Nat := 0
  questGiverGuid : Nat := 0
  startedMs : Nat := 0
  initialStatus : QuestStatus := QuestStatus.NONE
  initialRewarded : Bool := false
  lastAcceptAttemptMs : Nat := 0
  acceptAttempts : Nat := 0
  acceptDone : Bool := false
  ltgRefreshDone : Bool := false
  deriving DecidableEq

/-- The bot as `MaybeHandleQuestGiverFollowup` queries it during one call. -/
structure FollowupBot where
  /-- Result of `bot->GetGUID().GetRawValue()`. -/
  guid : Nat
  /-- Result of `bot->GetQuestStatus(questId)`. -/
  questStatus : Nat → QuestStatus
  /-- Result of `bot->GetQuestRewardStatus(questId)`. -/
  questRewardStatus : Nat → Bool
  /-- Whether `ObjectAccessor::GetCreature(*bot, guid)` finds a creature. -/
  creatureFound : Nat → Bool
  /-- Whether `ObjectAccessor::GetGameObject(*bot, guid)` finds a game object. -/
  gameObjectFound : Nat → Bool

/-- The statement `map.erase(it)` on a map keyed by guid. -/
def guidMapErase {α : Type} (m : Nat → Option α) (guid : Nat) : Nat → Option α :=
  fun g => if g = guid then none else m g

/-- The statement `map[guid] = value` on a map keyed by guid. -/
def guidMapSet {α : Type} (m : Nat → Option α) (guid : Nat) (value : α) : Nat → Option α :=
  fun g => if g = guid then some value else m g

/-- The module state the follow-up handler reads and writes: its two maps
`pendingQuestGiverFollowups` and `lastPlannerRefreshMs`, the planner registry the
accept command is enqueued to, the map `sPendingLongTermPlannerRefreshMs` of the
control loop, and the list of `RequestLongTermPlannerRefresh(guid, nowMs)` calls
made so far, oldest first. -/
structure FollowupState where
  pendingQuestGiverFollowups : Nat → Option PendingQuestGiverFollowup := fun _ => none
  lastPlannerRefreshMs : Nat → Option Nat := fun _ => none
  plans_ : QueueStorage AmigoPlannerState := fun _ => none
  sPendingLongTermPlannerRefreshMs : Nat → Option Nat := fun _ => none
  refreshCalls : List (Nat × Nat) := []

/-- Embeds `EnqueueBotControlCommand(bot, command, reasoning)` (Bot/BotControlApi.cpp):
the planner registry afterwards and the return value. -/
def EnqueueBotControlCommand (plans_ : QueueStorage AmigoPlannerState) (bot : Option Nat)
    (command : BotControlCommand) (reasoning : List Char) :
    QueueStorage AmigoPlannerState × Bool :=
  match bot with
  | none => (plans_, false)
  | some guid =>
    (AmigoPlannerRegistry.EnqueuePlayer plans_ (some guid)
      { command := command, reasoning := reasoning }, true)

/-- Embeds `RequestLongTermPlannerRefresh(guid, nowMs)` (Script/OllamaBotControlLoop.cpp)
on `sPendingLongTermPlannerRefreshMs`. -/
def RequestLongTermPlannerRefresh (pendingRefresh : Nat → Option Nat) (guid nowMs : Nat) :
    Nat → Option Nat :=
  if guid = 0 then pendingRefresh else guidMapSet pendingRefresh guid nowMs

/-- The lambda `reselectionOk` of the handler (its `SetSelection` / `SetTarget`
calls on the bot are not recorded). -/
def reselectionOk (bot : FollowupBot) (pending : PendingQuestGiverFollowup) : Bool :=
  if bot.creatureFound pending.questGiverGuid then true
  else if bot.gameObjectFound pending.questGiverGuid then true
  else false

/-- The command `accept *` that `tryAcceptAll` enqueues. -/
def acceptCmd : BotControlCommand :=
  { type := BotControlCommandType.PlayerbotCommand, args := ["accept *".toList] }

/-- The lambda `tryAcceptAll` of the handler; `pending` is the map entry of the
bot, so its update is an update of the map. -/
def tryAcceptAll (bot : FollowupBot) (nowMs : Nat) (pending : PendingQuestGiverFollowup)
    (state : FollowupState) : FollowupState :=
  if !reselectionOk bot pending then state
  else
    { state with
      plans_ := (EnqueueBotControlCommand state.plans_ (some bot.guid) acceptCmd
        "auto_accept_all_on_talk".toList).1
      pendingQuestGiverFollowups :=
        guidMapSet state.pendingQuestGiverFollowups bot.guid
          { pending with
            lastAcceptAttemptMs := nowMs
            acceptAttempts :=
              if pending.acceptAttempts < 255 then pending.acceptAttempts + 1
              else pending.acceptAttempts } }

/-- The refresh block of the turn-in path, run when `ltgRefreshDone` is not set. -/
def requestRefreshGuarded (guid nowMs : Nat) (state : FollowupState) : FollowupState :=
  let lastRefresh := (state.lastPlannerRefreshMs guid).getD 0
  if lastRefresh = 0 ∨ subU32 nowMs lastRefresh ≥ kQuestTurnInPlannerGuardMs then
    { state with
      lastPlannerRefreshMs := guidMapSet state.lastPlannerRefreshMs guid nowMs
      sPendingLongTermPlannerRefreshMs :=
        RequestLongTermPlannerRefresh state.sPendingLongTermPlannerRefreshMs guid nowMs
      refreshCalls := state.refreshCalls ++ [(guid, nowMs)] }
  else state

/-- The statement `pendingQuestGiverFollowups.erase(it)` for the bot. -/
def eraseFollowup (guid : Nat) (state : FollowupState) : FollowupState :=
  { state with
    pendingQuestGiverFollowups := guidMapErase state.pendingQuestGiverFollowups guid }

/-- Embeds `MaybeHandleQuestGiverFollowup(bot, ai)`: `none` is a null bot,
`hasAI` tells whether `ai` is not null, `nowMs` is the reading of `getMSTime()`. -/
def MaybeHandleQuestGiverFollowup (bot : Option FollowupBot) (hasAI : Bool) (nowMs : Nat)
    (state : FollowupState) : FollowupState :=
  match bot with
  | none => state
  | some bot =>
    if !hasAI then state
    else
      match state.pendingQuestGiverFollowups bot.guid with
      | none => state
      | some pending =>
        if pending.startedMs = 0 ∨
            subU32 nowMs pending.startedMs > kQuestTurnInFollowupTimeoutMs then
          eraseFollowup bot.guid state
        else if pending.questId = 0 ∨ pending.questGiverGuid = 0 then
          eraseFollowup bot.guid state
        else if pending.initialStatus = QuestStatus.COMPLETE ∧ pending.initialRewarded = false then
          if !bot.questRewardStatus pending.questId then state
          else
            let state := if !pending.acceptDone then tryAcceptAll bot nowMs pending state else state
            let state :=
              if !pending.ltgRefreshDone then requestRefreshGuarded bot.guid nowMs state else state
            eraseFollowup bot.guid state
        else if pending.initialStatus = QuestStatus.NONE then
          if bot.questStatus pending.questId ≠ QuestStatus.NONE then eraseFollowup bot.guid state
          else if pending.acceptAttempts ≥ kMaxAcceptAttempts then eraseFollowup bot.guid state
          else if pending.acceptAttempts = 0 then
            if subU32 nowMs pending.startedMs ≥ kAcceptInitialDelayMs then
              tryAcceptAll bot nowMs pending state
            else state
          else if subU32 nowMs pending.lastAcceptAttemptMs ≥ kAcceptRetryEveryMs then
            tryAcceptAll bot nowMs pending state
          else state
        else state

/-- A sequence of follow-up calls, one per tick: the bot ticked (with what it
answers at that tick) and the clock reading. -/
def runFollowupTicks (state : FollowupState) : List (FollowupBot × Nat) → FollowupState
  | [] => state
  | (bot, nowMs) :: rest =>
    runFollowupTicks (MaybeHandleQuestGiverFollowup (some bot) true nowMs state) rest

/-- The arming block of `OnPlayerAfterUpdate` for a talk action with a quest
giver found: the record stored for the bot. -/
def armFollowup (bot : FollowupBot) (questId questGiverGuid nowMs : Nat)
    (state : FollowupState) : FollowupState :=
  { state with
    pendingQuestGiverFollowups :=
      guidMapSet state.pendingQuestGiverFollowups bot.guid
        { questId := questId, questGiverGuid := questGiverGuid, startedMs := nowMs,
          initialStatus := bot.questStatus questId,
          initialRewarded := bot.questRewardStatus questId } }

/-- The number of plans queued for a bot in the planner registry. -/
def queuedPlans (state : FollowupState) (guid : Nat) : Nat :=
  ((state.plans_ guid).getD []).length

/-- A bot with guid 7 whose quest 11 is not taken and whose quest giver 900 is a
creature in reach, for the examples. -/
def questBot : FollowupBot :=
  { guid := 7, questStatus := fun _ => QuestStatus.NONE, questRewardStatus := fun _ => false,
    creatureFound := fun g => g = 900, gameObjectFound := fun _ => false }

/-- The accept attempts a pending record still allows: `kMaxAcceptAttempts` less
the attempts made, none without a record. -/
def acceptBudget (state : FollowupState) (guid : Nat) : Nat :=
  match state.pendingQuestGiverFollowups guid with
  | none => 0
  | some pending => kMaxAcceptAttempts - pending.acceptAttempts

/-- The state right after bot 7 was armed at clock reading 1000 for quest 11
and quest giver 900, for the examples. -/
def armedState : FollowupState := armFollowup questBot 11 900 1000 {}

/-- One event on the follow-up state: the arming block run for a bot (with the
quest id and the quest giver found), or one handler call for a bot. -/
inductive FollowupEvent where
  | arm (bot : FollowupBot) (questId questGiverGuid : Nat)
  | tick (bot : FollowupBot)

/-- A sequence of arming blocks and handler calls, each with the clock reading
of `getMSTime()` at that moment, applied in order. -/
def runFollowupEvents (state : FollowupState) : List (FollowupEvent × Nat) → FollowupState
  | [] => state
  | (.arm bot questId questGiverGuid, nowMs) :: rest =>
    runFollowupEvents (armFollowup bot questId questGiverGuid nowMs state) rest
  | (.tick bot, nowMs) :: rest =>
    runFollowupEvents (MaybeHandleQuestGiverFollowup (some bot) true nowMs state) rest

/-- A bot whose quest 11 is complete and whose quest giver 900 is a creature in
reach; `rewarded` tells whether the quest has been rewarded, for the examples. -/
def turnInBot (guid : Nat) (rewarded : Bool) : FollowupBot :=
  { guid := guid, questStatus := fun _ => QuestStatus.COMPLETE,
    questRewardStatus := fun _ => rewarded,
    creatureFound := fun g => g = 900, gameObjectFound := fun _ => false }

/-- Two publications of bot 7 for the examples: epoch 1 with the movable,
reachable candidate `nav_0` at (1, 2, 3), then epoch 2 with `nav_0` at (7, 8, 9). -/
def staleEpochCalls : List (Nat × BotNavState) :=
  [(7, { navEpoch := 1,
         candidates := [⟨"nav_0".toList, 0, .finite 1, .finite 2, .finite 3, true, true, true⟩] }),
   (7, { navEpoch := 2,
         candidates := [⟨"nav_0".toList, 0, .finite 7, .finite 8, .finite 9, true, true, true⟩] })]

/-- Registries for the examples: the nav states after `staleEpochCalls`, with the
movement and travel instances of bot 7 registered and idle. -/
def staleEpochControllerState : ControllerState :=
  { navStorage := publishAll NavStorage.empty staleEpochCalls,
    movement := some {},
    travel := some {} }

/-- Characters that trimming and list-marker stripping can remove. -/
def strippable (c : Char) : Bool :=
  isSpace c || c == '-' || c == '*' || c == '(' || c == ')' || c == '.' || isDigit c

/-- States that `core` is `text` without a prefix and a suffix made of strippable characters. -/
def IsCoreOf (core text : List Char) : Prop :=
  ∃ pre suf, text = pre ++ core ++ suf ∧ pre.all strippable = true ∧ suf.all strippable = true

/-- The payload patterns of `LooksLikeJsonOrToolBlock`, as a property of a text:
it holds a tool-call tag, a brace or bracket opening, or a quoted `name` /
`arguments` field. -/
def HasJsonOrToolMarker (s : List Char) : Prop :=
  kStartTag <:+: s ∨ kEndTag <:+: s ∨ '\x7b' ∈ s ∨ '[' ∈ s ∨ kNameField <:+: s ∨
    kArgumentsField <:+: s

/-! ## Theorems -/

/-! ### Navigation candidate registry -/

theorem resolveInHistory_none_of_no_epoch (navEpoch : Nat) (candidateId : List Char) :
    ∀ visited : List BotNavState, (∀ s ∈ visited, s.navEpoch ≠ navEpoch) →
      resolveInHistory navEpoch candidateId visited = none
  | [], _ => rfl
  | s :: older, h => by
    have hs : s.navEpoch ≠ navEpoch := h s (List.mem_cons_self _ _)
    have ih := resolveInHistory_none_of_no_epoch navEpoch candidateId older
      (fun t ht => h t (List.mem_cons_of_mem _ ht))
    simp [resolveInHistory, hs, ih]

theorem resolveInCandidates_some (candidateId : List Char) (r : NavResolved) :
    ∀ cands : List NavCandidateInternal, resolveInCandidates candidateId cands = some r →
      ∃ c ∈ cands, c.candidateId = candidateId ∧
        r = { outDest := ⟨c.mapId, c.x, c.y, c.z⟩, outReachable := c.reachable,
              outHasLOS := c.hasLOS, outCanMove := c.canMove }
  | [], h => by simp [resolveInCandidates] at h
  | c :: rest, h => by
    by_cases hc : c.candidateId = candidateId
    · refine ⟨c, List.mem_cons_self _ _, hc, ?_⟩
      simp [resolveInCandidates, hc] at h
      exact h.symm
    · simp [resolveInCandidates, hc] at h
      obtain ⟨d, hd, hid, hr⟩ := resolveInCandidates_some candidateId r rest h
      exact ⟨d, List.mem_cons_of_mem _ hd, hid, hr⟩

theorem resolveInCandidates_none_of_no_id (candidateId : List Char) :
    ∀ cands : List NavCandidateInternal, (∀ c ∈ cands, c.candidateId ≠ candidateId) →
      resolveInCandidates candidateId cands = none
  | [], _ => rfl
  | c :: rest, h => by
    have hc : c.candidateId ≠ candidateId := h c (List.mem_cons_self _ _)
    have ih := resolveInCandidates_none_of_no_id candidateId rest
      (fun d hd => h d (List.mem_cons_of_mem _ hd))
    simp [resolveInCandidates, hc, ih]

theorem resolveInHistory_some (navEpoch : Nat) (candidateId : List Char) (r : NavResolved) :
    ∀ visited : List BotNavState, resolveInHistory navEpoch candidateId visited = some r →
      ∃ s ∈ visited, s.navEpoch = navEpoch ∧ resolveInCandidates candidateId s.candidates = some r
  | [], h => by simp [resolveInHistory] at h
  | s :: older, h => by
    by_cases hs : s.navEpoch = navEpoch
    · refine ⟨s, List.mem_cons_self _ _, hs, ?_⟩
      simpa [resolveInHistory, hs] using h
    · simp [resolveInHistory, hs] at h
      obtain ⟨t, ht, he, hr⟩ := resolveInHistory_some navEpoch candidateId r older h
      exact ⟨t, List.mem_cons_of_mem _ ht, he, hr⟩

theorem resolveInHistory_none_of_no_id (navEpoch : Nat) (candidateId : List Char) :
    ∀ visited : List BotNavState,
      (∀ s ∈ visited, s.navEpoch = navEpoch → ∀ c ∈ s.candidates, c.candidateId ≠ candidateId) →
      resolveInHistory navEpoch candidateId visited = none
  | [], _ => rfl
  | s :: older, h => by
    by_cases hs : s.navEpoch = navEpoch
    · simp only [resolveInHistory, hs, ne_eq, not_true_eq_false, if_false]
      exact resolveInCandidates_none_of_no_id candidateId s.candidates
        (h s (List.mem_cons_self _ _) hs)
    · have ih := resolveInHistory_none_of_no_id navEpoch candidateId older
        (fun t ht => h t (List.mem_cons_of_mem _ ht))
      simp [resolveInHistory, hs, ih]

theorem popFrontWhileOver_subset (cap : Nat) :
    ∀ (history : List BotNavState) (s : BotNavState),
      s ∈ popFrontWhileOver cap history → s ∈ history
  | [], _, h => by simp [popFrontWhileOver] at h
  | t :: rest, s, h => by
    unfold popFrontWhileOver at h
    split at h
    · exact List.mem_cons_of_mem _ (popFrontWhileOver_subset cap rest s h)
    · exact h

theorem replaceBack_subset (state : BotNavState) :
    ∀ (history : List BotNavState) (s : BotNavState),
      s ∈ replaceBack state history → s ∈ history ∨ s = state
  | [], _, h => by simp [replaceBack] at h
  | [_], s, h => by
    simp [replaceBack] at h
    exact Or.inr h
  | a :: t :: rest, s, h => by
    simp only [replaceBack, List.mem_cons] at h
    rcases h with h | h
    · exact Or.inl (by simp [h])
    · rcases replaceBack_subset state (t :: rest) s h with h2 | h2
      · exact Or.inl (List.mem_cons_of_mem _ h2)
      · exact Or.inr h2

theorem setStateHistory_subset (history : List BotNavState) (state s : BotNavState)
    (h : s ∈ setStateHistory history state) : s ∈ history ∨ s = state := by
  have hpush : s ∈ popFrontWhileOver kMaxHistory (history ++ [state]) →
      s ∈ history ∨ s = state := by
    intro hp
    have := popFrontWhileOver_subset kMaxHistory _ s hp
    simpa using this
  unfold setStateHistory at h
  split at h
  · split at h
    · exact replaceBack_subset state history s h
    · exact hpush h
  · exact hpush h

/-- Every state in a guid's history was passed to `SetState` for that guid (or
was there before the calls). -/
theorem publishAll_history_subset (guid : Nat) :
    ∀ (calls : List (Nat × BotNavState)) (storage : NavStorage) (s : BotNavState),
      s ∈ ((publishAll storage calls) guid).getD [] →
        s ∈ (storage guid).getD [] ∨ (guid, s) ∈ calls
  | [], _, _, h => Or.inl h
  | (g, st) :: rest, storage, s, h => by
    rcases publishAll_history_subset guid rest _ s h with h1 | h1
    · by_cases hg : guid = g
      · subst hg
        simp only [BotNavStateRegistry.SetState, if_true, Option.getD_some] at h1
        rcases setStateHistory_subset _ _ _ h1 with h2 | h2
        · exact Or.inl h2
        · exact Or.inr (by simp [h2])
      · simp only [BotNavStateRegistry.SetState, hg, if_false] at h1
        exact Or.inl h1
    · exact Or.inr (List.mem_cons_of_mem _ h1)

/-- C1, as stated, fails: after publishing epoch 1 with candidate `nav_0` and
then epoch 2 for bot 7, the most recent epoch is 2, and `TryResolve(7, 1, "nav_0")`
still succeeds, because epoch 1 is still in the history. -/
theorem C1_stale_epoch_still_resolves :
    ¬ (∀ (calls : List (Nat × BotNavState)) (guid epoch : Nat) (candidateId : List Char),
        lastPublishedEpoch guid calls ≠ some epoch →
        BotNavStateRegistry.TryResolve (publishAll NavStorage.empty calls) guid epoch candidateId
          = none) := by
  intro h
  have := h [(7, ⟨1, [⟨"nav_0".toList, 0, .finite 1, .finite 2, .finite 3, true, true, true⟩]⟩),
             (7, ⟨2, []⟩)] 7 1 "nav_0".toList (by decide)
  simp [BotNavStateRegistry.TryResolve, publishAll, BotNavStateRegistry.SetState,
    NavStorage.empty, setStateHistory, popFrontWhileOver, kMaxHistory, resolveInHistory,
    resolveInCandidates] at this

/-- C1, amended: for every sequence of `SetState` publications on the empty
registry, `TryResolve(bot, epoch, candidateId)` fails whenever `epoch` is not
the epoch of a state still held in the bot's history, in particular whenever no
`SetState` for that bot ever carried that epoch. -/
theorem C1_TryResolve_fails_for_epoch_not_in_history
    (calls : List (Nat × BotNavState)) (guid epoch : Nat) (candidateId : List Char)
    (h : epoch ∉ retainedEpochs (publishAll NavStorage.empty calls) guid ∨
         ∀ c ∈ calls, c.1 = guid → c.2.navEpoch ≠ epoch) :
    BotNavStateRegistry.TryResolve (publishAll NavStorage.empty calls) guid epoch candidateId
      = none := by
  have hnot : ∀ s ∈ ((publishAll NavStorage.empty calls) guid).getD [], s.navEpoch ≠ epoch := by
    intro s hs
    rcases h with h | h
    · intro he
      exact h (by
        unfold retainedEpochs
        exact List.mem_map.mpr ⟨s, hs, he⟩)
    · rcases publishAll_history_subset guid calls NavStorage.empty s hs with h1 | h1
      · simp [NavStorage.empty] at h1
      · exact h (guid, s) h1 rfl
  unfold BotNavStateRegistry.TryResolve
  cases hst : (publishAll NavStorage.empty calls) guid with
  | none => rfl
  | some history =>
    rw [hst] at hnot
    exact resolveInHistory_none_of_no_epoch epoch candidateId history.reverse
      (fun s hs => hnot s (by simpa using hs))

/-- C1, amended, at a concrete input: epochs 1 and 2 were published for bot 7;
epoch 3 never was, and resolving `(3, "nav_0")` fails. -/
theorem C1_TryResolve_fails_for_epoch_not_in_history_witness :
    BotNavStateRegistry.TryResolve
      (publishAll NavStorage.empty
        [(7, ⟨1, [⟨"nav_0".toList, 0, .finite 1, .finite 2, .finite 3, true, true, true⟩]⟩),
         (7, ⟨2, []⟩)]) 7 3 "nav_0".toList = none :=
  C1_TryResolve_fails_for_epoch_not_in_history _ 7 3 _ (Or.inr (by decide))

/-- C3: `TryResolve` succeeds only for a state of the requested epoch in the
bot's history that holds a candidate with exactly the requested id, and then
returns that candidate's map id, x, y, z and reachable / line-of-sight /
can-move flags; it fails for an unknown bot, for an epoch that no state in the
history has, and for an id that no state of that epoch holds. -/
theorem C3_TryResolve_sound (storage : NavStorage) (guid navEpoch : Nat)
    (candidateId : List Char) :
    (∀ r, BotNavStateRegistry.TryResolve storage guid navEpoch candidateId = some r →
      ∃ history s c, storage guid = some history ∧ s ∈ history ∧ s.navEpoch = navEpoch ∧
        c ∈ s.candidates ∧ c.candidateId = candidateId ∧
        r.outDest = ⟨c.mapId, c.x, c.y, c.z⟩ ∧ r.outReachable = c.reachable ∧
        r.outHasLOS = c.hasLOS ∧ r.outCanMove = c.canMove) ∧
    (storage guid = none →
      BotNavStateRegistry.TryResolve storage guid navEpoch candidateId = none) ∧
    (navEpoch ∉ retainedEpochs storage guid →
      BotNavStateRegistry.TryResolve storage guid navEpoch candidateId = none) ∧
    ((∀ s ∈ (storage guid).getD [], s.navEpoch = navEpoch →
        ∀ c ∈ s.candidates, c.candidateId ≠ candidateId) →
      BotNavStateRegistry.TryResolve storage guid navEpoch candidateId = none) := by
  refine ⟨?_, ?_, ?_, ?_⟩
  · intro r hr
    unfold BotNavStateRegistry.TryResolve at hr
    cases hst : storage guid with
    | none => simp [hst] at hr
    | some history =>
      simp only [hst] at hr
      obtain ⟨s, hs, he, hc⟩ := resolveInHistory_some navEpoch candidateId r _ hr
      obtain ⟨c, hcm, hid, hrc⟩ := resolveInCandidates_some candidateId r _ hc
      refine ⟨history, s, c, rfl, by simpa using hs, he, hcm, hid, ?_⟩
      subst hrc
      exact ⟨rfl, rfl, rfl, rfl⟩
  · intro hnone
    simp [BotNavStateRegistry.TryResolve, hnone]
  · intro hne
    unfold BotNavStateRegistry.TryResolve
    cases hst : storage guid with
    | none => rfl
    | some history =>
      refine resolveInHistory_none_of_no_epoch navEpoch candidateId _ ?_
      intro s hs he
      apply hne
      unfold retainedEpochs
      rw [hst]
      exact List.mem_map.mpr ⟨s, by simpa using hs, he⟩
  · intro hno
    unfold BotNavStateRegistry.TryResolve
    cases hst : storage guid with
    | none => rfl
    | some history =>
      rw [hst] at hno
      exact resolveInHistory_none_of_no_id navEpoch candidateId _
        (fun s hs => hno s (by simpa using hs))

/-- C3 at a concrete input: in the sample registry bot 7 resolves `(4, "nav_0")`,
and the returned destination and flags are those of the stored candidate. -/
theorem C3_TryResolve_sound_witness :
    ∃ history s c, sampleControllerState.navStorage 7 = some history ∧ s ∈ history ∧
      s.navEpoch = 4 ∧ c ∈ s.candidates ∧ c.candidateId = "nav_0".toList ∧
      (⟨⟨0, .finite 1, .finite 2, .finite 3⟩, true, true, true⟩ : NavResolved).outDest
        = ⟨c.mapId, c.x, c.y, c.z⟩ ∧
      true = c.reachable ∧ true = c.hasLOS ∧ true = c.canMove :=
  (C3_TryResolve_sound sampleControllerState.navStorage 7 4 "nav_0".toList).1
    ⟨⟨0, .finite 1, .finite 2, .finite 3⟩, true, true, true⟩ rfl

/-! ### Stuck memory: cooldowns -/

/-- C7, as stated, fails at the end of the 32-bit millisecond range: with
`nowMs = 2^32 - 15000` the `Temporary` cooldown for 1 attempt ends at
`2^32 - 5000`, the one for 2 attempts wraps around to `5000`; likewise the
`Retryable` result (wrapped) is below the `Temporary` one. -/
theorem C7_cooldown_wraps_at_range_end :
    ¬ (∀ nowMs : Nat, nowMs < U32 → ∀ (type : FailureType) (a b : Nat),
        1 ≤ a → a ≤ b → b ≤ 10 →
        ComputeCooldownUntil type a nowMs ≤ ComputeCooldownUntil type b nowMs) ∧
    ¬ (∀ nowMs : Nat, nowMs < U32 → ∀ attempts : Nat,
        ComputeCooldownUntil FailureType.Temporary attempts nowMs ≤
          ComputeCooldownUntil FailureType.Retryable attempts nowMs) := by
  constructor
  · intro h
    have := h (2 ^ 32 - 15000) (by decide) FailureType.Temporary 1 2 (by decide) (by decide)
      (by decide)
    revert this
    decide
  · intro h
    have := h (2 ^ 32 - 15000) (by decide) 1
    revert this
    decide

/-- C7, amended: as long as the addition does not leave the 32-bit range
(`nowMs + 200000 < 2^32`, 200,000 ms being the largest `Temporary` / `Retryable`
cooldown), the result is non-decreasing in the attempt count on `[1, 10]` for
every failure type and the `Retryable` result is at least the `Temporary` one;
the `Permanent` result is the same for every attempt count, for every `nowMs`. -/
theorem C7_cooldown_monotone (nowMs : Nat) (hnow : nowMs + 200000 < U32) :
    (∀ (type : FailureType) (a b : Nat), 1 ≤ a → a ≤ b → b ≤ 10 →
      ComputeCooldownUntil type a nowMs ≤ ComputeCooldownUntil type b nowMs) ∧
    (∀ attempts : Nat,
      ComputeCooldownUntil FailureType.Temporary attempts nowMs ≤
        ComputeCooldownUntil FailureType.Retryable attempts nowMs) ∧
    (∀ (now a b : Nat),
      ComputeCooldownUntil FailureType.Permanent a now =
        ComputeCooldownUntil FailureType.Permanent b now) := by
  unfold U32 at hnow
  refine ⟨?_, ?_, ?_⟩
  · intro type a b ha hab hb
    cases type
    · simp only [ComputeCooldownUntil, U32, reduceCtorEq, if_false]
      have h1 : max 1 (min a 10) = a := by omega
      have h2 : max 1 (min b 10) = b := by omega
      rw [h1, h2]
      have h3 : 10000 * a % 2 ^ 32 = 10000 * a := Nat.mod_eq_of_lt (by omega)
      have h4 : 10000 * b % 2 ^ 32 = 10000 * b := Nat.mod_eq_of_lt (by omega)
      rw [h3, h4]
      have h5 : min (10000 * a) 120000 = 10000 * a := by omega
      have h6 : min (10000 * b) 120000 = 10000 * b := by omega
      rw [h5, h6, Nat.mod_eq_of_lt (by omega), Nat.mod_eq_of_lt (by omega)]
      omega
    · simp only [ComputeCooldownUntil, U32, reduceCtorEq, if_false]
      have h1 : max 1 (min a 10) = a := by omega
      have h2 : max 1 (min b 10) = b := by omega
      rw [h1, h2]
      have h3 : 20000 * a % 2 ^ 32 = 20000 * a := Nat.mod_eq_of_lt (by omega)
      have h4 : 20000 * b % 2 ^ 32 = 20000 * b := Nat.mod_eq_of_lt (by omega)
      rw [h3, h4]
      have h5 : min (20000 * a) 300000 = 20000 * a := by omega
      have h6 : min (20000 * b) 300000 = 20000 * b := by omega
      rw [h5, h6, Nat.mod_eq_of_lt (by omega), Nat.mod_eq_of_lt (by omega)]
      omega
    · simp [ComputeCooldownUntil]
  · intro attempts
    simp only [ComputeCooldownUntil, U32, reduceCtorEq, if_false]
    generalize hk : max 1 (min attempts 10) = k
    have hk1 : 1 ≤ k := by omega
    have hk2 : k ≤ 10 := by omega
    have h3 : 10000 * k % 2 ^ 32 = 10000 * k := Nat.mod_eq_of_lt (by omega)
    have h4 : 20000 * k % 2 ^ 32 = 20000 * k := Nat.mod_eq_of_lt (by omega)
    rw [h3, h4]
    have h5 : min (10000 * k) 120000 = 10000 * k := by omega
    have h6 : min (20000 * k) 300000 = 20000 * k := by omega
    rw [h5, h6, Nat.mod_eq_of_lt (by omega), Nat.mod_eq_of_lt (by omega)]
    omega
  · intro now a b
    simp [ComputeCooldownUntil]

/-- C7, amended, at `nowMs = 1000`. -/
theorem C7_cooldown_monotone_witness :
    (∀ (type : FailureType) (a b : Nat), 1 ≤ a → a ≤ b → b ≤ 10 →
      ComputeCooldownUntil type a 1000 ≤ ComputeCooldownUntil type b 1000) ∧
    (∀ attempts : Nat,
      ComputeCooldownUntil FailureType.Temporary attempts 1000 ≤
        ComputeCooldownUntil FailureType.Retryable attempts 1000) ∧
    (∀ (now a b : Nat),
      ComputeCooldownUntil FailureType.Permanent a now =
        ComputeCooldownUntil FailureType.Permanent b now) :=
  C7_cooldown_monotone 1000 (by decide)

/-- C8, as stated, fails: at attempts = 20 (clamped to 10) the `Temporary`
cooldown is `10 * 10000 = 100000` ms, below the 120,000 ms cap, so the result is
`nowMs + 100000`, not `nowMs + 120000`; and at the end of the 32-bit range the
sum wraps, so it is not `nowMs + 10000` either. -/
theorem C8_cap_not_reached :
    ComputeCooldownUntil FailureType.Temporary 20 0 = 100000 ∧
    ComputeCooldownUntil FailureType.Temporary 20 0 ≠ 0 + 120000 ∧
    ComputeCooldownUntil FailureType.Temporary 1 (2 ^ 32 - 1) ≠ (2 ^ 32 - 1) + 10000 := by
  decide

/-- C8, amended: for a `Temporary` failure the result is `nowMs + 10000` at
attempts = 1, `nowMs + 50000` at attempts = 5 and `nowMs + 100000` at
attempts = 20 (clamped to 10; the 120,000 ms cap is not reached), each sum taken
in 32-bit unsigned arithmetic. -/
theorem C8_temporary_cooldown_values (nowMs : Nat) :
    ComputeCooldownUntil FailureType.Temporary 1 nowMs = (nowMs + 10000) % 2 ^ 32 ∧
    ComputeCooldownUntil FailureType.Temporary 5 nowMs = (nowMs + 50000) % 2 ^ 32 ∧
    ComputeCooldownUntil FailureType.Temporary 20 nowMs = (nowMs + 100000) % 2 ^ 32 := by
  simp [ComputeCooldownUntil, U32]

/-! ### Stuck memory: the failure map -/

theorem StuckMap.find_update_self :
    ∀ (m : StuckMap) (key : String) (e old : StuckEntry),
      StuckMap.find m key = some old → StuckMap.find (StuckMap.update m key e) key = some e
  | [], _, _, _, h => by simp [StuckMap.find] at h
  | (k, o) :: rest, key, e, old, h => by
    by_cases hk : k = key
    · simp [StuckMap.update, StuckMap.find, hk]
    · simp only [StuckMap.find, hk, if_false] at h
      simp only [StuckMap.update, StuckMap.find, hk, if_false]
      exact StuckMap.find_update_self rest key e old h

theorem StuckMap.find_update_ne :
    ∀ (m : StuckMap) (key k : String) (e : StuckEntry), k ≠ key →
      StuckMap.find (StuckMap.update m key e) k = StuckMap.find m k
  | [], _, _, _, _ => rfl
  | (k0, o) :: rest, key, k, e, hne => by
    by_cases hk : k0 = key
    · have hk0 : ¬ key = k := fun h => hne h.symm
      subst hk
      simp [StuckMap.update, StuckMap.find, hk0]
    · by_cases hk2 : k0 = k
      · subst hk2
        simp [StuckMap.update, StuckMap.find, hk]
      · simp only [StuckMap.update, StuckMap.find, hk, hk2, if_false]
        exact StuckMap.find_update_ne rest key k e hne

theorem StuckMap.keys_update :
    ∀ (m : StuckMap) (key : String) (e : StuckEntry),
      StuckMap.keys (StuckMap.update m key e) = StuckMap.keys m
  | [], _, _ => rfl
  | (k0, o) :: rest, key, e => by
    by_cases hk : k0 = key
    · simp [StuckMap.update, StuckMap.keys, hk]
    · have ih := StuckMap.keys_update rest key e
      simp only [StuckMap.keys] at ih
      simp [StuckMap.update, StuckMap.keys, hk, ih]

theorem StuckMap.find_none_iff :
    ∀ (m : StuckMap) (key : String), StuckMap.find m key = none ↔ key ∉ StuckMap.keys m
  | [], _ => by simp [StuckMap.find, StuckMap.keys]
  | (k0, o) :: rest, key => by
    have ih := StuckMap.find_none_iff rest key
    simp only [StuckMap.keys] at ih
    by_cases hk : k0 = key
    · simp [StuckMap.find, StuckMap.keys, hk]
    · have hk2 : ¬ key = k0 := fun h => hk h.symm
      simp [StuckMap.find, StuckMap.keys, hk, hk2, ih]

theorem StuckMap.find_assign_self (m : StuckMap) (key : String) (e : StuckEntry) :
    StuckMap.find (StuckMap.assign m key e) key = some e := by
  unfold StuckMap.assign
  cases h : StuckMap.find m key with
  | none => simp [StuckMap.find]
  | some old => exact StuckMap.find_update_self m key e old h

theorem StuckMap.find_assign_ne (m : StuckMap) (key k : String) (e : StuckEntry) (hne : k ≠ key) :
    StuckMap.find (StuckMap.assign m key e) k = StuckMap.find m k := by
  unfold StuckMap.assign
  cases h : StuckMap.find m key with
  | none =>
    have : ¬ key = k := fun h2 => hne h2.symm
    simp [StuckMap.find, this]
  | some old => exact StuckMap.find_update_ne m key k e hne

theorem StuckMap.nodup_assign (m : StuckMap) (key : String) (e : StuckEntry)
    (h : (StuckMap.keys m).Nodup) : (StuckMap.keys (StuckMap.assign m key e)).Nodup := by
  unfold StuckMap.assign
  cases hf : StuckMap.find m key with
  | none =>
    have hnot := (StuckMap.find_none_iff m key).mp hf
    simp only [StuckMap.keys] at hnot h
    simp only [StuckMap.keys, List.map_cons, List.nodup_cons]
    exact ⟨hnot, h⟩
  | some old =>
    simp only [StuckMap.keys_update]
    exact h

theorem LoadStuckRows_nodup :
    ∀ (rows : List StuckRow) (stuck : StuckMap), (StuckMap.keys stuck).Nodup →
      (StuckMap.keys (LoadStuckRows stuck rows)).Nodup
  | [], _, h => h
  | row :: rest, stuck, h => by
    unfold LoadStuckRows
    exact LoadStuckRows_nodup rest _ (StuckMap.nodup_assign stuck _ _ h)

theorem EnsureLoaded_nodup (m : BotMemory) (db : CharacterDatabase)
    (h : (StuckMap.keys m.stuck_).Nodup) :
    (StuckMap.keys (EnsureLoaded m db).stuck_).Nodup := by
  unfold EnsureLoaded
  split
  · exact h
  · exact LoadStuckRows_nodup _ _ h

theorem StuckMap.find_erase :
    ∀ (m : StuckMap) (key k : String),
      StuckMap.find (StuckMap.erase m key) k = if k = key then none else StuckMap.find m k
  | [], _, _ => by simp [StuckMap.erase, StuckMap.find]
  | (k0, o) :: rest, key, k => by
    have ih := StuckMap.find_erase rest key k
    unfold StuckMap.erase at ih ⊢
    by_cases hk : k0 = key
    · subst hk
      by_cases hk2 : k0 = k
      · subst hk2
        simpa [List.filter_cons, StuckMap.find] using ih
      · have hk3 : ¬ k = k0 := fun h => hk2 h.symm
        simpa [List.filter_cons, StuckMap.find, hk2, hk3] using ih
    · by_cases hk2 : k0 = k
      · subst hk2
        simp [List.filter_cons, StuckMap.find, hk]
      · simpa [List.filter_cons, StuckMap.find, hk, hk2] using ih

theorem StuckMap.find_erase_self (m : StuckMap) (key : String) :
    StuckMap.find (StuckMap.erase m key) key = none := by
  simp [StuckMap.find_erase]

theorem StuckMap.find_erase_ne (m : StuckMap) (key k : String) (hne : k ≠ key) :
    StuckMap.find (StuckMap.erase m key) k = StuckMap.find m k := by
  simp [StuckMap.find_erase, hne]

theorem StuckMap.find_of_mem_nodup :
    ∀ (m : StuckMap) (k : String) (e : StuckEntry), (StuckMap.keys m).Nodup → (k, e) ∈ m →
      StuckMap.find m k = some e
  | [], _, _, _, h => by simp at h
  | (k0, o) :: rest, k, e, hnd, hmem => by
    simp only [StuckMap.keys, List.map_cons, List.nodup_cons] at hnd
    rcases List.mem_cons.mp hmem with h | h
    · cases h
      simp [StuckMap.find]
    · have hk : k0 ≠ k := by
        intro hk
        apply hnd.1
        rw [hk]
        exact List.mem_map.mpr ⟨(k, e), h, rfl⟩
      simp only [StuckMap.find, hk, if_false]
      exact StuckMap.find_of_mem_nodup rest k e hnd.2 h

theorem StuckMap.mem_of_find :
    ∀ (m : StuckMap) (k : String) (e : StuckEntry), StuckMap.find m k = some e → (k, e) ∈ m
  | [], _, _, h => by simp [StuckMap.find] at h
  | (k0, o) :: rest, k, e, h => by
    by_cases hk : k0 = k
    · simp only [StuckMap.find, hk, if_true, Option.some.injEq] at h
      simp [hk, h]
    · simp only [StuckMap.find, hk, if_false] at h
      exact List.mem_cons_of_mem _ (StuckMap.mem_of_find rest k e h)

/-- The eviction scan returns a node of the map whose `lastAttemptMs` is
minimal among the start node and the scanned nodes. -/
theorem worstIt_spec :
    ∀ (scanned : List (String × StuckEntry)) (start : String × StuckEntry),
      (worstIt start scanned = start ∨ worstIt start scanned ∈ scanned) ∧
      (worstIt start scanned).2.stats.lastAttemptMs ≤ start.2.stats.lastAttemptMs ∧
      ∀ it ∈ scanned,
        (worstIt start scanned).2.stats.lastAttemptMs ≤ it.2.stats.lastAttemptMs
  | [], start => by simp [worstIt]
  | it :: rest, start => by
    by_cases hlt : it.2.stats.lastAttemptMs < start.2.stats.lastAttemptMs
    · have ih := worstIt_spec rest it
      simp only [worstIt, hlt, if_true]
      obtain ⟨hmem, hle, hall⟩ := ih
      refine ⟨?_, by omega, ?_⟩
      · rcases hmem with h | h
        · rw [h]
          exact Or.inr (List.mem_cons_self _ _)
        · exact Or.inr (List.mem_cons_of_mem _ h)
      · intro x hx
        rcases List.mem_cons.mp hx with h | h
        · subst h
          exact hle
        · exact hall x h
    · have ih := worstIt_spec rest start
      simp only [worstIt, hlt, if_false]
      obtain ⟨hmem, hle, hall⟩ := ih
      refine ⟨?_, hle, ?_⟩
      · rcases hmem with h | h
        · exact Or.inl h
        · exact Or.inr (List.mem_cons_of_mem _ h)
      · intro x hx
        rcases List.mem_cons.mp hx with h | h
        · subst h
          omega
        · exact hall x h

theorem evictIfOver_cases (m : StuckMap) :
    evictIfOver m = m ∨
    (m.length > kStuckMaxEntries ∧ ∃ w ∈ m, evictIfOver m = StuckMap.erase m w.1 ∧
      ∀ x ∈ m, w.2.stats.lastAttemptMs ≤ x.2.stats.lastAttemptMs) := by
  cases m with
  | nil => exact Or.inl rfl
  | cons first rest =>
    by_cases hlen : (first :: rest).length > kStuckMaxEntries
    · right
      refine ⟨hlen, worstIt first (first :: rest), ?_, ?_, ?_⟩
      · rcases (worstIt_spec (first :: rest) first).1 with h | h
        · rw [h]
          exact List.mem_cons_self _ _
        · exact h
      · simp only [evictIfOver, hlen, if_true]
      · exact (worstIt_spec (first :: rest) first).2.2
    · left
      simp only [evictIfOver, hlen, if_false]

theorem evictIfOver_find (m : StuckMap) (k : String) (e : StuckEntry)
    (h : StuckMap.find (evictIfOver m) k = some e) : StuckMap.find m k = some e := by
  rcases evictIfOver_cases m with h1 | ⟨_, w, _, h1, _⟩
  · rwa [h1] at h
  · rw [h1, StuckMap.find_erase] at h
    split at h
    · cases h
    · exact h

theorem ComputeCooldownUntil_eq_spec (type : FailureType) (attempts nowMs : Nat)
    (h1 : 1 ≤ attempts) (h10 : attempts ≤ 10) :
    ComputeCooldownUntil type attempts nowMs = (nowMs + specCooldownMs type attempts) % U32 := by
  have hc : max 1 (min attempts 10) = attempts := by omega
  cases type
  · simp only [ComputeCooldownUntil, specCooldownMs, U32, reduceCtorEq, if_false, hc]
    rw [Nat.mod_eq_of_lt (show 10000 * attempts < 2 ^ 32 by omega)]
  · simp only [ComputeCooldownUntil, specCooldownMs, U32, reduceCtorEq, if_false, hc]
    rw [Nat.mod_eq_of_lt (show 20000 * attempts < 2 ^ 32 by omega)]
  · simp [ComputeCooldownUntil, specCooldownMs]

theorem EnsureLoaded_fields (m : BotMemory) (db : CharacterDatabase) :
    (EnsureLoaded m db).botGuid_ = m.botGuid_ ∧
    (EnsureLoaded m db).dbTokens_ = m.dbTokens_ ∧
    (EnsureLoaded m db).lastTokenRefillMs_ = m.lastTokenRefillMs_ ∧
    (EnsureLoaded m db).nextStuckWriteEarliestMs_ = m.nextStuckWriteEarliestMs_ := by
  unfold EnsureLoaded
  split <;> simp

/-- C9, as stated, fails in two ways. (a) At the end of the 32-bit range the
cooldown end wraps: recording a `Temporary` failure at `nowMs = 2^32 - 1` on an
empty map stores `cooldownUntilMs = 9999`, not `nowMs + 10000`. (b) The
128-entry cap can evict the entry just written: a bot whose 128 stored rows are
loaded lazily by the call (each with `lastAttemptMs = 3487918080`, the 32-bit
value of `1700000000 * 1000`) records a new key at `nowMs = 1000`; the new entry
is the oldest of the 129, and no entry for the key is left. -/
theorem C9_entry_wraps_or_is_evicted :
    (StuckMap.find
        (RecordFailure { initialized_ := true, loaded_ := true } emptyDatabase "k"
          FailureType.Temporary (2 ^ 32 - 1)).stuck_ "k"
      = some { stats := { attempts := 1, lastAttemptMs := 2 ^ 32 - 1,
                          lastType := FailureType.Temporary, cooldownUntilMs := 9999 },
               dirty := true }) ∧
    (9999 ≠ (2 ^ 32 - 1) + min (10000 * 1) 120000) ∧
    (StuckMap.find
        (RecordFailure { botGuid_ := 42, initialized_ := true, loaded_ := false }
          { stuckRows := fun _ => fullStuckRows, executed := [] }
          "new" FailureType.Temporary 1000).stuck_ "new"
      = none) ∧
    ((RecordFailure { botGuid_ := 42, initialized_ := true, loaded_ := false }
          { stuckRows := fun _ => fullStuckRows, executed := [] }
          "new" FailureType.Temporary 1000).stuck_.length = 128) := by
  refine ⟨by decide, by decide, ?_, ?_⟩
  · set_option maxRecDepth 100000 in decide
  · set_option maxRecDepth 100000 in decide

/-- C9, amended: for a non-empty key (on a map with distinct keys, with the
stored attempt counter below `2^32 - 1`), `RecordFailure` writes for the key
the entry with attempts `min(previous + 1, 10)` (previous taken after the lazy
load, 0 for a new key), `lastAttemptMs = nowMs`, `lastType = type`,
`cooldownUntil = (nowMs + min(base * attempts, cap)) mod 2^32` (flat 1,800,000
for `Permanent`) and the dirty mark; the attempt counter written never exceeds
10; whenever an entry for the key is left after the call it is that entry; it
is left whenever the map stays within 128 entries or some other entry has a
smaller `lastAttemptMs` than `nowMs` (otherwise the cap may evict it). An empty
key changes nothing. -/
theorem C9_RecordFailure_entry (m : BotMemory) (db : CharacterDatabase) (actionKey : String)
    (type : FailureType) (nowMs : Nat)
    (hkey : actionKey ≠ "")
    (hmap : (StuckMap.keys m.stuck_).Nodup)
    (hprev : previousAttempts (EnsureLoaded m db) actionKey + 1 < U32) :
    (specRecordedEntry (previousAttempts (EnsureLoaded m db) actionKey) type nowMs).stats.attempts
      ≤ 10 ∧
    (∀ e, StuckMap.find (RecordFailure m db actionKey type nowMs).stuck_ actionKey = some e →
      e = specRecordedEntry (previousAttempts (EnsureLoaded m db) actionKey) type nowMs) ∧
    (((StuckMap.assign (EnsureLoaded m db).stuck_ actionKey
          (specRecordedEntry (previousAttempts (EnsureLoaded m db) actionKey) type nowMs)).length
        ≤ kStuckMaxEntries ∨
      ∃ k e, k ≠ actionKey ∧ StuckMap.find (EnsureLoaded m db).stuck_ k = some e ∧
        e.stats.lastAttemptMs < nowMs) →
      StuckMap.find (RecordFailure m db actionKey type nowMs).stuck_ actionKey
        = some (specRecordedEntry (previousAttempts (EnsureLoaded m db) actionKey) type nowMs)) ∧
    RecordFailure m db "" type nowMs = m := by
  have hstuck : (RecordFailure m db actionKey type nowMs).stuck_ =
      evictIfOver (StuckMap.assign (EnsureLoaded m db).stuck_ actionKey
        (specRecordedEntry (previousAttempts (EnsureLoaded m db) actionKey) type nowMs)) := by
    unfold previousAttempts at hprev
    unfold RecordFailure
    simp only [hkey, if_false, specRecordedEntry, previousAttempts]
    rw [Nat.mod_eq_of_lt hprev, ComputeCooldownUntil_eq_spec type _ nowMs (by omega) (by omega)]
  refine ⟨?_, ?_, ?_, ?_⟩
  · simp only [specRecordedEntry]
    omega
  · intro e he
    rw [hstuck] at he
    have := evictIfOver_find _ _ _ he
    rw [StuckMap.find_assign_self] at this
    exact (Option.some.inj this).symm
  · intro hcond
    rw [hstuck]
    rcases evictIfOver_cases (StuckMap.assign (EnsureLoaded m db).stuck_ actionKey
        (specRecordedEntry (previousAttempts (EnsureLoaded m db) actionKey) type nowMs))
      with h1 | ⟨hlen, w, hw, h1, hmin⟩
    · rw [h1, StuckMap.find_assign_self]
    · rcases hcond with hsmall | ⟨k, e, hk, hfind, hlt⟩
      · omega
      · have hnd := StuckMap.nodup_assign (EnsureLoaded m db).stuck_ actionKey
          (specRecordedEntry (previousAttempts (EnsureLoaded m db) actionKey) type nowMs)
          (EnsureLoaded_nodup m db hmap)
        have hother : (k, e) ∈ StuckMap.assign (EnsureLoaded m db).stuck_ actionKey
            (specRecordedEntry (previousAttempts (EnsureLoaded m db) actionKey) type nowMs) := by
          apply StuckMap.mem_of_find
          rw [StuckMap.find_assign_ne _ _ _ _ hk]
          exact hfind
        have hwk : w.1 ≠ actionKey := by
          intro hwk
          have hfw := StuckMap.find_of_mem_nodup _ w.1 w.2 hnd hw
          rw [hwk, StuckMap.find_assign_self] at hfw
          have h2 := hmin (k, e) hother
          have h3 : w.2.stats.lastAttemptMs = nowMs := by
            rw [← Option.some.inj hfw]
            rfl
          simp only at h2
          omega
        rw [h1, StuckMap.find_erase_ne _ _ _ (fun h => hwk h.symm), StuckMap.find_assign_self]
  · simp [RecordFailure]

/-- C9, amended, at a concrete input: the second `Retryable` failure of key
`move_hop:1:2:3` at 7,000 ms on a loaded one-entry map. -/
theorem C9_RecordFailure_entry_witness :
    StuckMap.find
      (RecordFailure
        { initialized_ := true, loaded_ := true,
          stuck_ := [("move_hop:1:2:3",
            { stats := { attempts := 1, lastAttemptMs := 1000,
                         lastType := FailureType.Retryable, cooldownUntilMs := 21000 },
              dirty := false })] }
        emptyDatabase "move_hop:1:2:3" FailureType.Retryable 7000).stuck_ "move_hop:1:2:3"
      = some { stats := { attempts := 2, lastAttemptMs := 7000,
                          lastType := FailureType.Retryable, cooldownUntilMs := 47000 },
               dirty := true } :=
  (C9_RecordFailure_entry
    { initialized_ := true, loaded_ := true,
      stuck_ := [("move_hop:1:2:3",
        { stats := { attempts := 1, lastAttemptMs := 1000,
                     lastType := FailureType.Retryable, cooldownUntilMs := 21000 },
          dirty := false })] }
    emptyDatabase "move_hop:1:2:3" FailureType.Retryable 7000
    (by decide) (by decide) (by decide)).2.2.1 (Or.inl (by decide))

/-! ### Stuck memory: clearing -/

/-- C10, as stated, fails: on a loaded memory whose stuck map has no node for
the key, `ClearFailures("k")` returns at the `find` guard and hands no statement
to the database. -/
theorem C10_no_delete_for_absent_key :
    ¬ (∀ (EscapeString : String → String) (m : BotMemory) (db : CharacterDatabase)
        (actionKey : String), actionKey ≠ "" →
        (ClearFailures EscapeString m db actionKey).2.executed =
          db.executed ++ [deleteStuckSql m.botGuid_ (EscapeString actionKey)]) := by
  intro h
  have := h id { initialized_ := true, loaded_ := true } emptyDatabase "k" (by decide)
  revert this
  decide

/-- C10, amended: for every non-empty key and every memory state, whatever the
token bucket holds, `ClearFailures` leaves no in-memory entry for the key; when
the key is present in the in-memory map (after the lazy load) it hands exactly
one statement to the database at once, the `DELETE` for (bot guid, escaped
action key), and it touches neither the token bucket nor the flush schedule;
when the key is absent it issues no statement. -/
theorem C10_ClearFailures (EscapeString : String → String) (m : BotMemory)
    (db : CharacterDatabase) (actionKey : String) (hkey : actionKey ≠ "") :
    StuckMap.find (ClearFailures EscapeString m db actionKey).1.stuck_ actionKey = none ∧
    (StuckMap.find (EnsureLoaded m db).stuck_ actionKey ≠ none →
      (ClearFailures EscapeString m db actionKey).2.executed =
        db.executed ++ [deleteStuckSql m.botGuid_ (EscapeString actionKey)]) ∧
    (StuckMap.find (EnsureLoaded m db).stuck_ actionKey = none →
      (ClearFailures EscapeString m db actionKey).2.executed = db.executed) ∧
    (ClearFailures EscapeString m db actionKey).1.dbTokens_ = m.dbTokens_ ∧
    (ClearFailures EscapeString m db actionKey).1.lastTokenRefillMs_ = m.lastTokenRefillMs_ ∧
    (ClearFailures EscapeString m db actionKey).1.nextStuckWriteEarliestMs_ =
      m.nextStuckWriteEarliestMs_ := by
  obtain ⟨hg, ht, hr, hn⟩ := EnsureLoaded_fields m db
  unfold ClearFailures
  simp only [hkey, if_false]
  cases hf : StuckMap.find (EnsureLoaded m db).stuck_ actionKey with
  | none => simp [hf, ht, hr, hn]
  | some e => simp [StuckMap.find_erase_self, hg, ht, hr, hn]

/-- C10, amended, at a concrete input: bot 42 with an empty token bucket clears
the one entry it holds, and the `DELETE` is issued at once. -/
theorem C10_ClearFailures_witness :
    (ClearFailures id
      { botGuid_ := 42, initialized_ := true, loaded_ := true, dbTokens_ := F32.finite 0,
        stuck_ := [("command:grind", { stats := { attempts := 3 }, dirty := true })] }
      emptyDatabase "command:grind").2.executed =
      [] ++ [deleteStuckSql 42 "command:grind"] :=
  (C10_ClearFailures id
    { botGuid_ := 42, initialized_ := true, loaded_ := true, dbTokens_ := F32.finite 0,
      stuck_ := [("command:grind", { stats := { attempts := 3 }, dirty := true })] }
    emptyDatabase "command:grind" (by decide)).2.1 (by decide)

/-! ### Planner sentence validation -/

theorem findChar_isSome_iff (c : Char) :
    ∀ s : List Char, (findChar c s).isSome = true ↔ c ∈ s
  | [] => by simp [findChar]
  | x :: rest => by
    have ih := findChar_isSome_iff c rest
    by_cases hx : x = c
    · simp [findChar, hx]
    · have hx2 : ¬ c = x := fun h => hx h.symm
      simp [findChar, hx, hx2, ih]

theorem findSub_isSome_iff (pat : List Char) :
    ∀ s : List Char, (findSub pat s).isSome = true ↔ pat <:+: s
  | [] => by
    by_cases hp : pat = []
    · simp [findSub, hp]
    · simp [findSub, hp]
  | c :: rest => by
    have ih := findSub_isSome_iff pat rest
    by_cases hpre : pat.isPrefixOf (c :: rest) = true
    · have : pat <+: c :: rest := List.isPrefixOf_iff_prefix.mp hpre
      simp [findSub, hpre, this.isInfix]
    · have hnp : ¬ pat <+: c :: rest := fun h => hpre (List.isPrefixOf_iff_prefix.mpr h)
      simp only [findSub, hpre, Bool.false_eq_true, if_false, List.infix_cons_iff, hnp, false_or]
      rw [← ih]
      cases findSub pat rest <;> simp


theorem IsCoreOf.refl (t : List Char) : IsCoreOf t t :=
  ⟨[], [], by simp, rfl, rfl⟩

theorem IsCoreOf.trans {a b c : List Char} (hab : IsCoreOf a b) (hbc : IsCoreOf b c) :
    IsCoreOf a c := by
  obtain ⟨p1, s1, h1, hp1, hs1⟩ := hab
  obtain ⟨p2, s2, h2, hp2, hs2⟩ := hbc
  refine ⟨p2 ++ p1, s1 ++ s2, ?_, ?_, ?_⟩
  · rw [h2, h1]
    simp [List.append_assoc]
  · simp only [List.all_append, hp1, hp2, Bool.and_self]
  · simp only [List.all_append, hs1, hs2, Bool.and_self]

theorem isTrimChar_strippable (c : Char) (h : isTrimChar c = true) : strippable c = true := by
  simp only [isTrimChar, Bool.or_eq_true, beq_iff_eq] at h
  rcases h with ((h | h) | h) | h <;> subst h <;> decide

theorem isSpace_strippable (c : Char) (h : isSpace c = true) : strippable c = true := by
  simp [strippable, h]

theorem isDigit_strippable (c : Char) (h : isDigit c = true) : strippable c = true := by
  simp [strippable, h]

theorem all_takeWhile_strippable (p : Char → Bool) (hp : ∀ c, p c = true → strippable c = true)
    (t : List Char) : (t.takeWhile p).all strippable = true := by
  rw [List.all_eq_true]
  intro c hc
  exact hp c (List.mem_takeWhile_imp hc)

theorem dropWhile_isCoreOf (p : Char → Bool) (hp : ∀ c, p c = true → strippable c = true)
    (t : List Char) : IsCoreOf (t.dropWhile p) t :=
  ⟨t.takeWhile p, [], by simp [List.takeWhile_append_dropWhile], all_takeWhile_strippable p hp t,
    rfl⟩

theorem reverse_dropWhile_reverse_isCoreOf (p : Char → Bool)
    (hp : ∀ c, p c = true → strippable c = true) (t : List Char) :
    IsCoreOf (t.reverse.dropWhile p).reverse t := by
  refine ⟨[], (t.reverse.takeWhile p).reverse, ?_, rfl, ?_⟩
  · have h := List.takeWhile_append_dropWhile p t.reverse
    have h2 := congrArg List.reverse h
    simp only [List.reverse_append, List.reverse_reverse] at h2
    simp [h2]
  · rw [List.all_eq_true]
    intro c hc
    have := all_takeWhile_strippable p hp t.reverse
    rw [List.all_eq_true] at this
    exact this c (by simpa using hc)

theorem TrimCopy_isCoreOf (t : List Char) : IsCoreOf (TrimCopy t) t :=
  IsCoreOf.trans
    (reverse_dropWhile_reverse_isCoreOf isTrimChar isTrimChar_strippable _)
    (dropWhile_isCoreOf isTrimChar isTrimChar_strippable t)

theorem drop_isCoreOf (t : List Char) (i : Nat) (h : (t.take i).all strippable = true) :
    IsCoreOf (t.drop i) t :=
  ⟨t.take i, [], by simp, h, rfl⟩

theorem skipSpacesFrom_isCoreOf (t : List Char) (i : Nat)
    (h : (t.take i).all strippable = true) : IsCoreOf (skipSpacesFrom t i) t :=
  IsCoreOf.trans (TrimCopy_isCoreOf _)
    (IsCoreOf.trans (dropWhile_isCoreOf isSpace isSpace_strippable _) (drop_isCoreOf t i h))

theorem infix_of_append_strippable_left (pat : List Char)
    (hhead : pat.head?.map strippable = some false) :
    ∀ (pre u : List Char), pre.all strippable = true → pat <:+: pre ++ u → pat <:+: u
  | [], _, _, h => by simpa using h
  | x :: pre, u, hall, h => by
    simp only [List.all_cons, Bool.and_eq_true] at hall
    rw [List.cons_append, List.infix_cons_iff] at h
    rcases h with h | h
    · exfalso
      cases pat with
      | nil => simp at hhead
      | cons a rest =>
        simp only [List.head?_cons, Option.map_some', Option.some.injEq] at hhead
        have : a = x := by
          obtain ⟨t, ht⟩ := h
          simp only [List.cons_append, List.cons.injEq] at ht
          exact ht.1
        rw [this, hall.1] at hhead
        cases hhead
    · exact infix_of_append_strippable_left pat hhead pre u hall.2 h

theorem infix_of_append_strippable_right (pat : List Char)
    (hlast : pat.getLast?.map strippable = some false)
    (u suf : List Char) (hall : suf.all strippable = true) (h : pat <:+: u ++ suf) :
    pat <:+: u := by
  have h1 : pat.reverse <:+: suf.reverse ++ u.reverse := by
    rw [← List.reverse_append]
    exact List.reverse_infix.mpr h
  have h2 : pat.reverse.head?.map strippable = some false := by
    rw [List.head?_reverse]
    exact hlast
  have h3 : suf.reverse.all strippable = true := by
    simpa using hall
  exact List.reverse_infix.mp
    (infix_of_append_strippable_left pat.reverse h2 suf.reverse u.reverse h3 h1)

/-- A pattern that starts and ends with a character that stripping never
removes survives the passage from a text to its core. -/
theorem infix_core_of_infix (pat core text : List Char)
    (hhead : pat.head?.map strippable = some false)
    (hlast : pat.getLast?.map strippable = some false)
    (hcore : IsCoreOf core text) (h : pat <:+: text) : pat <:+: core := by
  obtain ⟨pre, suf, rfl, hpre, hsuf⟩ := hcore
  rw [List.append_assoc] at h
  have h1 := infix_of_append_strippable_left pat hhead pre (core ++ suf) hpre h
  exact infix_of_append_strippable_right pat hlast core suf hsuf h1

theorem take_succ_of_findChar (c : Char) :
    ∀ (s : List Char) (pos : Nat), findChar c s = some pos → s.take (pos + 1) = s.take pos ++ [c]
  | [], _, h => by simp [findChar] at h
  | x :: rest, pos, h => by
    by_cases hx : x = c
    · simp only [findChar, hx, if_true, Option.some.injEq] at h
      subst h
      simp [hx]
    · simp only [findChar, hx, if_false, Option.map_eq_some'] at h
      obtain ⟨q, hq, rfl⟩ := h
      have ih := take_succ_of_findChar c rest q hq
      simp [List.take_succ_cons, ih]

theorem stripNumbered_isCoreOf (mark : Char) (hmark : strippable mark = true)
    (s r : List Char) (h : stripNumbered mark s = some r) : IsCoreOf r s := by
  unfold stripNumbered at h
  split at h
  · rename_i pos hfind
    split at h
    · rename_i hcond
      cases h
      apply skipSpacesFrom_isCoreOf
      rw [take_succ_of_findChar mark s pos hfind]
      have hnum := hcond.2.2
      simp only [numericRange, List.drop_zero, Nat.sub_zero] at hnum
      rw [List.all_append, Bool.and_eq_true]
      refine ⟨?_, by simp [hmark]⟩
      rw [List.all_eq_true] at hnum ⊢
      exact fun c hc => isDigit_strippable c (hnum c hc)
    · cases h
  · cases h

theorem stripParenthesised_isCoreOf (c0 : Char) (rest r : List Char) (hc0 : c0 = '(')
    (h : stripParenthesised (c0 :: rest) = some r) : IsCoreOf r (c0 :: rest) := by
  unfold stripParenthesised at h
  split at h
  · rename_i close hfind
    split at h
    · rename_i hcond
      cases h
      apply skipSpacesFrom_isCoreOf
      rw [take_succ_of_findChar ')' (c0 :: rest) close hfind]
      have hnum := hcond.2.2
      obtain ⟨k, rfl⟩ : ∃ k, close = k + 1 := ⟨close - 1, by omega⟩
      simp only [numericRange, List.drop_one, List.tail_cons, Nat.add_sub_cancel] at hnum
      rw [List.all_append, Bool.and_eq_true]
      refine ⟨?_, by decide⟩
      rw [List.take_succ_cons, List.all_cons, Bool.and_eq_true]
      refine ⟨by rw [hc0]; decide, ?_⟩
      rw [List.all_eq_true] at hnum ⊢
      exact fun c hc => isDigit_strippable c (hnum c hc)
    · cases h
  · cases h

/-- What `StripListPrefix` returns is the text without a strippable prefix and
a strippable suffix. -/
theorem StripListPrefix_isCoreOf (text : List Char) : IsCoreOf (StripListPrefix text) text := by
  have htrim := TrimCopy_isCoreOf text
  unfold StripListPrefix
  generalize TrimCopy text = s at htrim
  cases s with
  | nil => exact htrim
  | cons c0 rest =>
    simp only
    split
    · rename_i hc
      have hall : (List.take 1 (c0 :: rest)).all strippable = true := by
        simp only [List.take_succ_cons, List.take_zero, List.all_cons, List.all_nil, Bool.and_true]
        rcases hc with hc | hc <;> subst hc <;> decide
      exact IsCoreOf.trans (skipSpacesFrom_isCoreOf _ 1 hall) htrim
    · split
      · rename_i r hr
        split at hr
        · rename_i hcond
          exact IsCoreOf.trans (stripParenthesised_isCoreOf c0 rest r hcond.2 hr) htrim
        · cases hr
      · split
        · rename_i r hr
          exact IsCoreOf.trans (stripNumbered_isCoreOf '.' (by decide) _ r hr) htrim
        · split
          · rename_i r hr
            exact IsCoreOf.trans (stripNumbered_isCoreOf ')' (by decide) _ r hr) htrim
          · exact htrim

theorem mem_iff_singleton_sub (c : Char) (s : List Char) : c ∈ s ↔ [c] <:+: s := by
  constructor
  · intro h
    obtain ⟨l1, l2, rfl⟩ := List.append_of_mem h
    exact ⟨l1, l2, by simp⟩
  · rintro ⟨l1, l2, rfl⟩
    simp

theorem IsCoreOf.sub_text {core text : List Char} (h : IsCoreOf core text) : core <:+: text := by
  obtain ⟨pre, suf, rfl, _, _⟩ := h
  exact ⟨pre, suf, rfl⟩

theorem infix_core_iff (pat core text : List Char)
    (hhead : pat.head?.map strippable = some false)
    (hlast : pat.getLast?.map strippable = some false)
    (hcore : IsCoreOf core text) : pat <:+: core ↔ pat <:+: text :=
  ⟨fun h => List.IsInfix.trans h (IsCoreOf.sub_text hcore), infix_core_of_infix pat core text hhead hlast hcore⟩

theorem hasJsonOrToolMarker_core (core text : List Char) (hcore : IsCoreOf core text) :
    HasJsonOrToolMarker core ↔ HasJsonOrToolMarker text := by
  unfold HasJsonOrToolMarker
  rw [mem_iff_singleton_sub, mem_iff_singleton_sub, mem_iff_singleton_sub '\x7b' text,
    mem_iff_singleton_sub '[' text,
    infix_core_iff kStartTag core text (by decide) (by decide) hcore,
    infix_core_iff kEndTag core text (by decide) (by decide) hcore,
    infix_core_iff ['\x7b'] core text (by decide) (by decide) hcore,
    infix_core_iff ['['] core text (by decide) (by decide) hcore,
    infix_core_iff kNameField core text (by decide) (by decide) hcore,
    infix_core_iff kArgumentsField core text (by decide) (by decide) hcore]

/-- The check `LooksLikeJsonOrToolBlock` holds exactly for the texts with one of its six
markers (the trimming inside it removes none of them). -/
theorem LooksLikeJsonOrToolBlock_iff (s : List Char) :
    LooksLikeJsonOrToolBlock s = true ↔ HasJsonOrToolMarker s := by
  rw [← hasJsonOrToolMarker_core (TrimCopy s) s (TrimCopy_isCoreOf s)]
  unfold LooksLikeJsonOrToolBlock HasJsonOrToolMarker
  by_cases hempty : TrimCopy s = []
  · simp [hempty, kStartTag, kEndTag, kNameField, kArgumentsField]
  · simp only [hempty, if_false, Bool.or_eq_true, findSub_isSome_iff, findChar_isSome_iff]
    split_ifs with h1 h2 h3
    · simp only [true_iff]
      tauto
    · simp only [true_iff]
      tauto
    · simp only [true_iff]
      tauto
    · simp only [Bool.false_eq_true, false_iff]
      tauto

/-- C5, as stated, fails, because the checks run on the text after
`StripListPrefix`: a 221-character text (a blank and 220 letters) is accepted,
`1. Go there.` with two terminator runs is accepted, `Go there.` followed by a
line break is accepted; and `Say "name" now`, which is in none of the listed
classes, is rejected. -/
theorem C5_checks_run_on_stripped_text :
    ((' ' :: List.replicate 220 'a').length = 221 ∧
      (ValidatePlannerSentence (' ' :: List.replicate 220 'a')).1 = true) ∧
    (CountSentenceTerminators "1. Go there.".toList = 2 ∧
      (ValidatePlannerSentence "1. Go there.".toList).1 = true) ∧
    ('\n' ∈ "Go there.\n".toList ∧ (ValidatePlannerSentence "Go there.\n".toList).1 = true) ∧
    ("Say \"name\" now".toList ≠ [] ∧ "Say \"name\" now".toList.length ≤ 220 ∧
      '\x7b' ∉ "Say \"name\" now".toList ∧ '[' ∉ "Say \"name\" now".toList ∧
      CountSentenceTerminators "Say \"name\" now".toList ≤ 1 ∧
      '\n' ∉ "Say \"name\" now".toList ∧ '\r' ∉ "Say \"name\" now".toList ∧
      (ValidatePlannerSentence "Say \"name\" now".toList).1 = false) := by
  refine ⟨⟨by rw [List.length_cons, List.length_replicate], ?_⟩, ?_, ?_, ?_⟩
  · set_option maxRecDepth 100000 in decide
  · set_option maxRecDepth 100000 in decide
  · set_option maxRecDepth 100000 in decide
  · set_option maxRecDepth 100000 in decide

/-- C5, amended: `ValidatePlannerSentence` judges the candidate after trimming
and stripping one leading list marker. It accepts exactly when the stripped text
is non-empty, has at most 220 characters, holds no tool-call tag, no opening
brace or bracket and no quoted `name` / `arguments` field, has at most one
sentence-terminator run and no line break. On the candidate itself: an empty
candidate and every candidate holding an opening brace, an opening bracket or a
tool-call tag is rejected; and the three scenario strings behave as stated. -/
theorem C5_ValidatePlannerSentence (text : List Char) :
    ((ValidatePlannerSentence text).1 = true ↔
      (StripListPrefix text ≠ [] ∧ (StripListPrefix text).length ≤ 220 ∧
        ¬ HasJsonOrToolMarker (StripListPrefix text) ∧
        CountSentenceTerminators (StripListPrefix text) ≤ 1 ∧
        '\n' ∉ StripListPrefix text ∧ '\r' ∉ StripListPrefix text)) ∧
    (text = [] → (ValidatePlannerSentence text).1 = false) ∧
    (('\x7b' ∈ text ∨ '[' ∈ text ∨ kStartTag <:+: text ∨ kEndTag <:+: text) →
      (ValidatePlannerSentence text).1 = false) ∧
    (ValidatePlannerSentence "Kill 5 boars near the river.".toList).1 = true ∧
    (ValidatePlannerSentence "\x7b\"name\":\"x\"\x7d".toList).1 = false ∧
    (ValidatePlannerSentence "Go there. Then fight.".toList).1 = false := by
  have hiff : (ValidatePlannerSentence text).1 = true ↔
      (StripListPrefix text ≠ [] ∧ (StripListPrefix text).length ≤ 220 ∧
        ¬ HasJsonOrToolMarker (StripListPrefix text) ∧
        CountSentenceTerminators (StripListPrefix text) ≤ 1 ∧
        '\n' ∉ StripListPrefix text ∧ '\r' ∉ StripListPrefix text) := by
    rw [← LooksLikeJsonOrToolBlock_iff, ← findChar_isSome_iff, ← findChar_isSome_iff]
    unfold ValidatePlannerSentence
    generalize StripListPrefix text = s
    simp only []
    split_ifs with h1 h2 h3 h4 h5
    · simp [h1]
    · simp only [Bool.false_eq_true, false_iff]
      intro hc
      omega
    · simp only [Bool.false_eq_true, false_iff]
      intro hc
      exact hc.2.2.1 h3
    · simp only [Bool.false_eq_true, false_iff]
      intro hc
      omega
    · simp only [Bool.false_eq_true, false_iff]
      intro hc
      simp only [Bool.or_eq_true] at h5
      rcases h5 with h | h
      · exact hc.2.2.2.2.1 h
      · exact hc.2.2.2.2.2 h
    · simp only [Bool.or_eq_true, not_or] at h5
      simp only [true_iff]
      exact ⟨h1, by omega, h3, by omega, h5.1, h5.2⟩
  refine ⟨hiff, ?_, ?_, ?_, ?_, ?_⟩
  · intro h
    subst h
    decide
  · intro h
    cases hv : (ValidatePlannerSentence text).1 with
    | false => rfl
    | true =>
      exfalso
      have hs := hiff.mp hv
      apply hs.2.2.1
      rw [hasJsonOrToolMarker_core _ _ (StripListPrefix_isCoreOf text)]
      unfold HasJsonOrToolMarker
      rcases h with h | h | h | h
      · exact Or.inr (Or.inr (Or.inl h))
      · exact Or.inr (Or.inr (Or.inr (Or.inl h)))
      · exact Or.inl h
      · exact Or.inr (Or.inl h)
  · set_option maxRecDepth 100000 in decide
  · set_option maxRecDepth 100000 in decide
  · set_option maxRecDepth 100000 in decide

/-- C5, amended, at a concrete input: a bulleted candidate holding an opening
bracket is rejected. -/
theorem C5_ValidatePlannerSentence_witness :
    (ValidatePlannerSentence "- see [map] first".toList).1 = false :=
  (C5_ValidatePlannerSentence "- see [map] first".toList).2.2.1 (Or.inr (Or.inl (by decide)))

/-! ### The navigation section of the state JSON -/

theorem navCandidatesJsonFrom_congr :
    ∀ (l1 l2 : List NavCandidate) (i : Nat),
      l1.map NavCandidate.llmView = l2.map NavCandidate.llmView →
      navCandidatesJsonFrom i l1 = navCandidatesJsonFrom i l2
  | [], [], _, _ => rfl
  | [], _ :: _, _, h => by simp at h
  | _ :: _, [], _, h => by simp at h
  | c1 :: r1, c2 :: r2, i, h => by
    simp only [List.map_cons, List.cons.injEq, NavCandidate.llmView, Prod.mk.injEq] at h
    obtain ⟨⟨hl, hd, hb, hlos, hr, hm⟩, hrest⟩ := h
    simp only [navCandidatesJsonFrom, hl, hd, hb, hlos, hr, hm,
      navCandidatesJsonFrom_congr r1 r2 (i + 1) hrest]

theorem navCandidatesJsonFrom_floats :
    ∀ (l : List NavCandidate) (i : Nat), Json.floatsOfItems (navCandidatesJsonFrom i l) = []
  | [], _ => rfl
  | c :: rest, i => by
    simp [navCandidatesJsonFrom, Json.floatsOfItems, Json.floats, Json.floatsOfMembers,
      navCandidatesJsonFrom_floats rest (i + 1)]

theorem navCandidatesJsonFrom_keys :
    ∀ (l : List NavCandidate) (i : Nat), ∀ j ∈ navCandidatesJsonFrom i l,
      j.keys = ["candidate_id".toList, "label".toList, "direction".toList,
        "distance_band".toList, "has_los".toList, "reachable".toList, "can_move".toList]
  | [], _, j, h => by simp [navCandidatesJsonFrom] at h
  | c :: rest, i, j, h => by
    simp only [navCandidatesJsonFrom, List.mem_cons] at h
    rcases h with h | h
    · subst h
      rfl
    · exact navCandidatesJsonFrom_keys rest (i + 1) j h

/-- C4: two snapshots with the same nav epoch whose candidates agree, one by
one, in label, direction label, distance band and the has_los / reachable /
can_move flags (and may differ in every candidate coordinate, bearing and exact
distance) get the same navigation section; that section holds no floating-point
number at all, and each candidate object in it has exactly the members
candidate_id, label, direction, distance_band, has_los, reachable, can_move. -/
theorem C4_nav_section_independent_of_coordinates (b1 b2 : BotSnapshot)
    (hepoch : b1.navEpoch = b2.navEpoch)
    (hview : b1.navCandidates.map NavCandidate.llmView =
      b2.navCandidates.map NavCandidate.llmView) :
    BuildSnapshotJson.nav b1 = BuildSnapshotJson.nav b2 ∧
    (BuildSnapshotJson.nav b1).floats = [] ∧
    (BuildSnapshotJson.nav b1).keys =
      ["nav_epoch".toList, "candidates".toList, "distance_bands".toList] ∧
    ∀ j ∈ navCandidatesJsonFrom 0 b1.navCandidates,
      j.keys = ["candidate_id".toList, "label".toList, "direction".toList,
        "distance_band".toList, "has_los".toList, "reachable".toList, "can_move".toList] := by
  refine ⟨?_, ?_, rfl, navCandidatesJsonFrom_keys _ 0⟩
  · simp only [BuildSnapshotJson.nav, hepoch, navCandidatesJsonFrom_congr _ _ 0 hview]
  · simp [BuildSnapshotJson.nav, Json.floats, Json.floatsOfMembers, navCandidatesJsonFrom_floats,
      kMoveHopDistanceBands, Json.floatsOfItems]

/-- C4 at a concrete input: two snapshots of epoch 5 whose single candidate
differs in position, bearing and exact distance (both within the "close" band). -/
theorem C4_nav_section_independent_of_coordinates_witness :
    BuildSnapshotJson.nav
      { navEpoch := 5,
        navCandidates := [⟨"forward".toList, ⟨.finite 10, .finite 20, .finite 30⟩, true, true, true,
          .finite 13, .finite 0, "ahead".toList⟩] } =
    BuildSnapshotJson.nav
      { navEpoch := 5,
        navCandidates := [⟨"forward".toList, ⟨.finite (-7), .finite 4, .finite 1⟩, true, true, true,
          .finite 17, .finite 3, "ahead".toList⟩] } :=
  (C4_nav_section_independent_of_coordinates _ _ rfl (by
    simp [NavCandidate.llmView, DistanceBandLabelForDistance, distanceBandLoop,
      kMoveHopDistanceBands, F32.le])).1

/-! ### Move-hop gating -/

theorem busyGate_none (snapshot : BotSnapshot) (h : busyGate snapshot = none) :
    snapshot.inCombat = false ∧ snapshot.grindMode = false ∧ snapshot.isMoving = false ∧
    snapshot.travelActive = false ∧ snapshot.professionActive = false := by
  unfold busyGate at h
  cases h1 : snapshot.inCombat <;> cases h2 : snapshot.grindMode <;>
    cases h3 : snapshot.isMoving <;> cases h4 : snapshot.travelActive <;>
    cases h5 : snapshot.professionActive <;> simp_all

theorem ParseMoveHopNavArguments_nonempty (args : Json) (navEpoch : Nat)
    (candidateId : List Char) (h : ParseMoveHopNavArguments args = some (navEpoch, candidateId)) :
    candidateId ≠ [] := by
  unfold ParseMoveHopNavArguments at h
  split at h
  · cases h
  · split at h
    · cases h
    · split at h
      · cases h
      · split at h
        · cases h
        · split at h
          · cases h
          · intro hc
            subst hc
            simp only [Option.ite_none_left_eq_some, Option.some.injEq, Prod.mk.injEq] at h
            exact h.1 h.2.2

/-- What an accepted move-hop tells about the worker's snapshot and arguments. -/
theorem gateMoveHop_accepted (snapshot : BotSnapshot) (arguments : Json) (action : ControlAction)
    (gateReason : String) (h : gateMoveHop snapshot arguments = .accepted action gateReason) :
    ParseMoveHopNavArguments arguments = some (action.navEpoch, action.navCandidateId) ∧
    action.capability = Capability.MoveHop ∧
    action.navCandidateId ≠ [] ∧
    action.navEpoch = snapshot.navEpoch ∧
    snapshot.inCombat = false ∧ snapshot.grindMode = false ∧ snapshot.isMoving = false ∧
    snapshot.travelActive = false ∧ snapshot.professionActive = false ∧
    ∃ candidateIndex cand,
      TryParseNavCandidateIndex action.navCandidateId = some candidateIndex ∧
      snapshot.navCandidates.get? candidateIndex = some cand ∧
      cand.canMove = true ∧ cand.reachable = true := by
  unfold gateMoveHop at h
  split at h
  · cases h
  · rename_i navEpoch candidateId hparse
    split at h
    · cases h
    · rename_i hbusy
      split at h
      · cases h
      · rename_i hepoch
        split at h
        · cases h
        · rename_i candidateIndex hidx
          split at h
          · cases h
          · rename_i cand hcand
            split at h
            · cases h
            · rename_i hmove
              split at h
              · cases h
              · rename_i hreach
                simp only [ControlOutcome.accepted.injEq] at h
                obtain ⟨hact, _⟩ := h
                subst hact
                obtain ⟨b1, b2, b3, b4, b5⟩ := busyGate_none snapshot hbusy
                refine ⟨hparse, rfl, ParseMoveHopNavArguments_nonempty _ _ _ hparse, ?_, b1, b2,
                  b3, b4, b5, candidateIndex, cand, hidx, hcand, ?_, ?_⟩
                · simpa using hepoch
                · simpa using hmove
                · simpa using hreach

theorem TryResolve_none_of_epoch_not_retained (storage : NavStorage) (guid navEpoch : Nat)
    (candidateId : List Char) (hne : navEpoch ∉ retainedEpochs storage guid) :
    BotNavStateRegistry.TryResolve storage guid navEpoch candidateId = none := by
  unfold BotNavStateRegistry.TryResolve
  cases hst : storage guid with
  | none => rfl
  | some history =>
    refine resolveInHistory_none_of_no_epoch navEpoch candidateId _ ?_
    intro s hs he
    apply hne
    unfold retainedEpochs
    rw [hst]
    exact List.mem_map.mpr ⟨s, by simpa using hs, he⟩

/-- The consumer either leaves everything as it was, or has passed every gate
and reports what `StartPathMove` returned. -/
theorem consumeMoveHop_cases (engine : ControllerEngine) (state : ControllerState) (guid : Nat)
    (action : ControlAction) :
    consumeMoveHop engine state guid action = (state, false) ∨
    ∃ r movement travel,
      action.navCandidateId ≠ [] ∧ engine.IsInCombat = false ∧
      (ControllerSnapshot.build engine).grindMode = false ∧ engine.isMoving = false ∧
      BotNavStateRegistry.TryResolve state.navStorage guid action.navEpoch
        action.navCandidateId = some r ∧
      r.outCanMove = true ∧ r.outReachable = true ∧
      state.movement = some movement ∧ state.travel = some travel ∧ travel.active_ = false ∧
      engine.CanReach r.outDest = true ∧
      consumeMoveHop engine state guid action =
        (match BotMovement.StartPathMove engine.botMapId engine.CalculatePath movement
            r.outDest MoveReason.Travel with
          | (movement1, false) => ({ state with movement := some movement1 }, false)
          | (movement1, true) =>
            ({ state with
                 movement := some movement1,
                 travel := some (travel.Begin
                   { key := moveHopTravelKey action, dest := r.outDest,
                     radius := F32.finite (5 / 2),
                     timeoutMs := engine.moveHopTimeoutMs r.outDest }
                   engine.nowMs) },
             true)) := by
  unfold consumeMoveHop
  dsimp only
  by_cases h1 : (ControllerSnapshot.build engine).isMoving = true ∧
      action.capability ≠ Capability.Idle ∧ action.capability ≠ Capability.StopGrind
  · exact Or.inl (if_pos h1)
  rw [if_neg h1]
  by_cases h2 : (ControllerSnapshot.build engine).inCombat = true
  · exact Or.inl (if_pos h2)
  rw [if_neg h2]
  by_cases h3 : (!CanMoveNow (ControllerSnapshot.build engine)) = true
  · exact Or.inl (if_pos h3)
  rw [if_neg h3]
  by_cases h4 : action.navCandidateId = []
  · exact Or.inl (if_pos h4)
  rw [if_neg h4]
  cases hres : BotNavStateRegistry.TryResolve state.navStorage guid action.navEpoch
      action.navCandidateId with
  | none => exact Or.inl rfl
  | some r =>
    dsimp only
    by_cases h5 : (!r.outCanMove) = true
    · exact Or.inl (if_pos h5)
    rw [if_neg h5]
    by_cases h6 : (!r.outReachable) = true
    · exact Or.inl (if_pos h6)
    rw [if_neg h6]
    cases hmov : state.movement with
    | none => exact Or.inl rfl
    | some movement =>
      cases htr : state.travel with
      | none => exact Or.inl rfl
      | some travel =>
        dsimp only
        by_cases h7 : travel.active_ = true
        · exact Or.inl (if_pos h7)
        rw [if_neg h7]
        by_cases h8 : (!engine.CanReach r.outDest) = true
        · exact Or.inl (if_pos h8)
        rw [if_neg h8]
        right
        have hcan : CanMoveNow (ControllerSnapshot.build engine) = true := by
          simpa using h3
        simp only [CanMoveNow, Bool.and_eq_true, Bool.not_eq_true'] at hcan
        refine ⟨r, movement, travel, h4, hcan.1.1, hcan.1.2, hcan.2, rfl, by simpa using h5,
          by simpa using h6, rfl, rfl, by simpa using h7, by simpa using h8, ?_⟩
        rfl

/-- C2, as stated, fails for the epoch test: bot 7 has published epoch 1 and then
epoch 2, so epoch 1 is no longer the most recently published epoch; a move-hop
action carrying epoch 1 and `nav_0` is not rejected by the consumer: the path
move starts and the travel target is committed for the destination (1, 2, 3)
that `nav_0` had under epoch 1. -/
theorem C2_stale_epoch_starts_path_move :
    lastPublishedEpoch 7 staleEpochCalls = some 2 ∧
    (consumeMoveHop calmEngine staleEpochControllerState 7
      { capability := .MoveHop, navEpoch := 1, navCandidateId := "nav_0".toList }).2 = true ∧
    (∃ committed target,
      (consumeMoveHop calmEngine staleEpochControllerState 7
        { capability := .MoveHop, navEpoch := 1, navCandidateId := "nav_0".toList }).1.travel
        = some committed ∧
      committed.active_ = true ∧ committed.target_ = some target ∧
      target.dest = ⟨0, .finite 1, .finite 2, .finite 3⟩) ∧
    BotNavStateRegistry.TryResolve staleEpochControllerState.navStorage 7 2 "nav_0".toList
      = some { outDest := ⟨0, .finite 7, .finite 8, .finite 9⟩, outReachable := true,
               outHasLOS := true, outCanMove := true } := by
  refine ⟨by decide, ?_, ?_, ?_⟩
  · rfl
  · exact ⟨_, _, rfl, rfl, rfl, rfl⟩
  · rfl

/-- C2, amended: a move-hop is rejected by the consumer, leaving the registries as
they were (no path move started, no travel target committed), when its candidate id
is empty, when its epoch is in none of the bot's stored nav states or the
candidate does not resolve, when the resolved candidate has can_move = false or
reachable = false, when the bot is in combat, in grind mode or moving, or when a
travel is active; a started path move implies that none of these holds and that
the travel target for the resolved destination was committed. The control
worker's gate accepts a move-hop only when the bot is out of combat, not in
grind mode, not moving, without an active travel, the epoch equals the
snapshot's epoch, and the chosen candidate has can_move and reachable set. -/
theorem C2_move_hop_gating (engine : ControllerEngine) (state : ControllerState) (guid : Nat)
    (action : ControlAction) (snapshot : BotSnapshot) (arguments : Json) :
    ((action.navCandidateId = [] ∨
        action.navEpoch ∉ retainedEpochs state.navStorage guid ∨
        BotNavStateRegistry.TryResolve state.navStorage guid action.navEpoch
          action.navCandidateId = none ∨
        (∃ r, BotNavStateRegistry.TryResolve state.navStorage guid action.navEpoch
          action.navCandidateId = some r ∧ (r.outCanMove = false ∨ r.outReachable = false)) ∨
        engine.IsInCombat = true ∨
        (ControllerSnapshot.build engine).grindMode = true ∨
        engine.isMoving = true ∨
        (∃ t, state.travel = some t ∧ t.active_ = true)) →
      consumeMoveHop engine state guid action = (state, false)) ∧
    ((consumeMoveHop engine state guid action).2 = true →
      action.navCandidateId ≠ [] ∧
      engine.IsInCombat = false ∧ (ControllerSnapshot.build engine).grindMode = false ∧
      engine.isMoving = false ∧
      ∃ r travel, BotNavStateRegistry.TryResolve state.navStorage guid action.navEpoch
          action.navCandidateId = some r ∧ r.outCanMove = true ∧ r.outReachable = true ∧
        state.travel = some travel ∧ travel.active_ = false ∧
        ∃ committed target, (consumeMoveHop engine state guid action).1.travel = some committed ∧
          committed.active_ = true ∧ committed.target_ = some target ∧
          target.dest = r.outDest ∧ target.key = moveHopTravelKey action) ∧
    ((consumeMoveHop engine state guid action).2 = false →
      (consumeMoveHop engine state guid action).1.travel = state.travel) ∧
    (∀ a g, gateMoveHop snapshot arguments = .accepted a g →
      a.navCandidateId ≠ [] ∧ a.navEpoch = snapshot.navEpoch ∧
      snapshot.inCombat = false ∧ snapshot.grindMode = false ∧ snapshot.isMoving = false ∧
      snapshot.travelActive = false ∧
      ∃ i cand, TryParseNavCandidateIndex a.navCandidateId = some i ∧
        snapshot.navCandidates.get? i = some cand ∧
        cand.canMove = true ∧ cand.reachable = true) := by
  refine ⟨?_, ?_, ?_, ?_⟩
  · intro hbad
    rcases consumeMoveHop_cases engine state guid action with h | ⟨r, movement, travel, hid, hc,
      hg, hm, hres, hcm, hr, hmov, htr, hta, _, _⟩
    · exact h
    · exfalso
      rcases hbad with h | h | h | ⟨r2, h, h2⟩ | h | h | h | ⟨t, h, h2⟩
      · exact hid h
      · have := (TryResolve_none_of_epoch_not_retained state.navStorage guid action.navEpoch
          action.navCandidateId) h
        rw [this] at hres
        cases hres
      · rw [h] at hres
        cases hres
      · rw [h] at hres
        cases hres
        rcases h2 with h2 | h2
        · rw [h2] at hcm
          cases hcm
        · rw [h2] at hr
          cases hr
      · rw [h] at hc
        cases hc
      · rw [h] at hg
        cases hg
      · rw [h] at hm
        cases hm
      · rw [h] at htr
        cases htr
        rw [h2] at hta
        cases hta
  · intro hstart
    rcases consumeMoveHop_cases engine state guid action with h | ⟨r, movement, travel, hid, hc,
      hg, hm, hres, hcm, hr, hmov, htr, hta, _, heq⟩
    · rw [h] at hstart
      cases hstart
    · refine ⟨hid, hc, hg, hm, r, travel, hres, hcm, hr, htr, hta, ?_⟩
      rw [heq] at hstart ⊢
      cases hsp : BotMovement.StartPathMove engine.botMapId engine.CalculatePath movement
          r.outDest MoveReason.Travel with
      | mk movement1 ok =>
        rw [hsp] at hstart
        cases ok with
        | false => cases hstart
        | true => exact ⟨_, _, rfl, rfl, rfl, rfl, rfl⟩
  · intro hno
    rcases consumeMoveHop_cases engine state guid action with h | ⟨r, movement, travel, _, _,
      _, _, _, _, _, _, _, _, _, heq⟩
    · rw [h]
    · rw [heq] at hno ⊢
      cases hsp : BotMovement.StartPathMove engine.botMapId engine.CalculatePath movement
          r.outDest MoveReason.Travel with
      | mk movement1 ok =>
        rw [hsp] at hno
        cases ok with
        | false => rfl
        | true => cases hno
  · intro a g hacc
    obtain ⟨_, _, hid, hepoch, b1, b2, b3, b4, _, i, cand, hidx, hcand, hcm, hr⟩ :=
      gateMoveHop_accepted snapshot arguments a g hacc
    exact ⟨hid, hepoch, b1, b2, b3, b4, i, cand, hidx, hcand, hcm, hr⟩

/-- C2 at a concrete input: bot 7, out of combat and standing, chooses
`nav_0` of epoch 4; the path move starts, so every gate condition holds and the
travel target is committed. -/
theorem C2_move_hop_gating_witness :
    ("nav_0".toList ≠ [] ∧ calmEngine.IsInCombat = false ∧
      (ControllerSnapshot.build calmEngine).grindMode = false ∧ calmEngine.isMoving = false ∧
      ∃ r travel, BotNavStateRegistry.TryResolve sampleControllerState.navStorage 7 4
          "nav_0".toList = some r ∧ r.outCanMove = true ∧ r.outReachable = true ∧
        sampleControllerState.travel = some travel ∧ travel.active_ = false ∧
        ∃ committed target,
          (consumeMoveHop calmEngine sampleControllerState 7
            { capability := .MoveHop, navEpoch := 4, navCandidateId := "nav_0".toList }).1.travel
            = some committed ∧
          committed.active_ = true ∧ committed.target_ = some target ∧
          target.dest = r.outDest ∧
          target.key = moveHopTravelKey
            { capability := .MoveHop, navEpoch := 4, navCandidateId := "nav_0".toList }) :=
  (C2_move_hop_gating calmEngine sampleControllerState 7
    { capability := .MoveHop, navEpoch := 4, navCandidateId := "nav_0".toList } {} Json.null).2.1
    (by decide)

/-! ### Control tool-call parsing -/

theorem dropWhile_head_not (p : Char → Bool) :
    ∀ (x : List Char) (a : Char) (r : List Char), x.dropWhile p = a :: r → p a = false
  | [], _, _, h => by simp at h
  | b :: x, a, r, h => by
    cases hb : p b with
    | true =>
      rw [List.dropWhile_cons, hb] at h
      exact dropWhile_head_not p x a r h
    | false =>
      rw [List.dropWhile_cons, hb] at h
      simp only [Bool.false_eq_true, if_false, List.cons.injEq] at h
      rw [← h.1]
      exact hb

/-- Trimming a trimmed text changes nothing. -/
theorem TrimCopy_idem (x : List Char) : TrimCopy (TrimCopy x) = TrimCopy x := by
  have hdef : ∀ y, TrimCopy y = List.rdropWhile isTrimChar (y.dropWhile isTrimChar) := fun _ => rfl
  have hself : List.dropWhile isTrimChar (TrimCopy x) = TrimCopy x := by
    rw [hdef x]
    obtain ⟨w, hw⟩ := List.rdropWhile_prefix isTrimChar (l := x.dropWhile isTrimChar)
    cases hv : List.rdropWhile isTrimChar (x.dropWhile isTrimChar) with
    | nil => rfl
    | cons c v =>
      rw [hv] at hw
      have := dropWhile_head_not isTrimChar x c (v ++ w) (by rw [← hw]; rfl)
      simp [List.dropWhile_cons, this]
  rw [hdef (TrimCopy x), hself, hdef x, List.rdropWhile_idempotent]

theorem findSub_some_prefix (pat : List Char) :
    ∀ (s : List Char) (q : Nat), findSub pat s = some q → pat <+: s.drop q
  | [], q, h => by
    by_cases hp : pat = []
    · simp [hp]
    · simp [findSub, hp] at h
  | c :: rest, q, h => by
    by_cases hpre : pat.isPrefixOf (c :: rest) = true
    · simp only [findSub, hpre, if_true, Option.some.injEq] at h
      subst h
      exact List.isPrefixOf_iff_prefix.mp hpre
    · simp only [findSub, hpre, Bool.false_eq_true, if_false, Option.map_eq_some'] at h
      obtain ⟨q', hq', rfl⟩ := h
      simpa using findSub_some_prefix pat rest q' hq'

theorem kStartTag_eq : kStartTag = ['<', 't', 'o', 'o', 'l', '_', 'c', 'a', 'l', 'l', '>'] := by
  decide

theorem kEndTag_eq : kEndTag = ['<', '/', 't', 'o', 'o', 'l', '_', 'c', 'a', 'l', 'l', '>'] := by
  decide

/-- No end tag begins inside a leading start tag. -/
theorem findSub_kEndTag_after_start (rest : List Char) :
    findSub kEndTag (kStartTag ++ rest) = (findSub kEndTag rest).map (· + 11) := by
  rw [kStartTag_eq]
  simp only [List.cons_append, List.nil_append, findSub, kEndTag_eq, List.isPrefixOf,
    Option.map_map]
  simp

theorem findSub_of_isPrefixOf (pat : List Char) :
    ∀ s : List Char, s ≠ [] → pat.isPrefixOf s = true → findSub pat s = some 0
  | [], h, _ => absurd rfl h
  | c :: rest, _, hpre => by
    unfold findSub
    rw [if_pos hpre]

theorem Json.contains_eq_true (j : Json) (key : List Char) (h : j.contains key = true) :
    ∃ members v, j = Json.obj members ∧ Json.lookup key members = some v ∧ j.get key = v := by
  cases j with
  | obj members =>
    simp only [Json.contains, Option.isSome_iff_exists] at h
    obtain ⟨v, hv⟩ := h
    exact ⟨members, v, rfl, hv, by simp [Json.get, hv]⟩
  | _ => simp [Json.contains] at h

/-- What a successful `TryExtractSingleToolCall` says about the reply. -/
theorem TryExtractSingleToolCall_some (parse : List Char → Option Json) (reply : List Char)
    (toolCall : ToolCall) (h : TryExtractSingleToolCall parse reply = some toolCall) :
    ∃ inner members rawName,
      TrimCopy reply = kStartTag ++ inner ++ kEndTag ∧
      findSub kEndTag (TrimCopy reply) = some (kStartTag.length + inner.length) ∧
      TrimCopy inner ≠ [] ∧
      parse (TrimCopy inner) = some (Json.obj members) ∧
      Json.lookup "name".toList members = some (Json.str rawName) ∧
      toolCall.name = NormalizeCommandToken rawName ∧
      toolCall.arguments = (Json.lookup "arguments".toList members).getD (Json.obj []) := by
  unfold TryExtractSingleToolCall at h
  dsimp only at h
  generalize TrimCopy reply = s at h ⊢
  split at h
  · cases h
  rename_i hpre
  split at h
  · cases h
  rename_i hshape
  have hpre2 : kStartTag.isPrefixOf s = true := by simpa using hpre
  obtain ⟨rest, rfl⟩ := List.isPrefixOf_iff_prefix.mp hpre2
  have hlenS : kStartTag.length = 11 := by decide
  have hlenE : kEndTag.length = 12 := by decide
  simp only [not_or, not_lt, ne_eq, not_not, List.length_append, hlenS, hlenE] at hshape
  obtain ⟨hlen, hfind⟩ := hshape
  rw [findSub_kEndTag_after_start] at hfind
  obtain ⟨q, hq, hq2⟩ := Option.map_eq_some'.mp hfind
  have hdrop := findSub_some_prefix kEndTag rest q hq
  have hdroplen : (rest.drop q).length = rest.length - q := List.length_drop q rest
  have hq3 : q + 12 = rest.length := by
    have := hdrop.length_le
    rw [hlenE, hdroplen] at this
    omega
  have hdropeq : rest.drop q = kEndTag := by
    obtain ⟨w, hw⟩ := hdrop
    have hwl : w.length = 0 := by
      have := congrArg List.length hw
      rw [List.length_append, hlenE, hdroplen] at this
      omega
    rw [List.length_eq_zero] at hwl
    rw [hwl, List.append_nil] at hw
    exact hw.symm
  have hrest : rest = rest.take q ++ kEndTag := by
    rw [← hdropeq, List.take_append_drop]
  have htake : (rest.take q).length = q := by
    rw [List.length_take]
    omega
  unfold TryExtractToolCall at h
  have hne : kStartTag ++ rest ≠ [] := by
    rw [kStartTag_eq]
    simp
  rw [findSub_of_isPrefixOf kStartTag _ hne hpre2] at h
  have hfrom : findSubFrom kEndTag (kStartTag ++ rest) (0 + kStartTag.length) = some (q + 11) := by
    unfold findSubFrom
    rw [List.length_append, hlenS, if_pos (by omega)]
    have : List.drop (0 + 11) (kStartTag ++ rest) = rest := by
      rw [Nat.zero_add, ← hlenS, List.drop_left]
    rw [this, hq]
    rfl
  simp only [hfrom] at h
  have hinner : substr (kStartTag ++ rest) (0 + kStartTag.length)
      (q + 11 - (0 + kStartTag.length)) = rest.take q := by
    unfold substr
    rw [Nat.zero_add, List.drop_left, hlenS, Nat.add_sub_cancel]
  rw [hinner] at h
  split at h
  · cases h
  rename_i hnonempty
  split at h
  · cases h
  rename_i parsed hparse
  split at h
  · cases h
  rename_i hname
  simp only [Bool.or_eq_true, Bool.not_eq_true', not_or, Bool.not_eq_false] at hname
  obtain ⟨members, v, rfl, hlook, hget⟩ := Json.contains_eq_true parsed _ hname.1
  split at h
  · rename_i rawName hraw
    rw [hget] at hraw
    subst hraw
    simp only [Option.some.injEq] at h
    subst h
    refine ⟨rest.take q, members, rawName, ?_, ?_, hnonempty, hparse, hlook, rfl, ?_⟩
    · rw [List.append_assoc, ← hrest]
    · rw [findSub_kEndTag_after_start, hq, hlenS, htake]
      simp [Nat.add_comm]
    · simp only [Json.contains, Json.get]
      cases Json.lookup "arguments".toList members <;> rfl
  · cases h

theorem FindControlToolDefinition_some (name : List Char) (definition : ControlToolDefinition)
    (h : FindControlToolDefinition name = some definition) :
    definition ∈ kControlTools ∧ definition.name = name := by
  unfold FindControlToolDefinition at h
  refine ⟨List.mem_of_find?_eq_some h, ?_⟩
  have := List.find?_some h
  simp only [decide_eq_true_eq] at this
  exact this.symm

theorem gateTool_accepted (input : ControlWorkerInput) (definition : ControlToolDefinition)
    (arguments : Json) (action : ControlAction) (gateReason : String)
    (h : gateTool input definition arguments = .accepted action gateReason) :
    action.capability = definition.capability ∧
    (definition.capability = Capability.MoveHop →
      ParseMoveHopNavArguments arguments = some (action.navEpoch, action.navCandidateId)) ∧
    (definition.capability = Capability.TalkToQuestGiver →
      ParseQuestIdArguments arguments = some action.questId) ∧
    (definition.capability = Capability.UseProfession →
      ParseProfessionArguments arguments =
        some (action.professionSkill, action.professionIntent)) := by
  unfold gateTool at h
  cases hcap : definition.capability <;> simp only [hcap] at h <;>
    simp only [reduceCtorEq, false_implies, true_implies, and_true, true_and]
  · cases h
    rfl
  · obtain ⟨hp, hc, _⟩ := gateMoveHop_accepted input.snapshot arguments action gateReason h
    exact ⟨hc, hp⟩
  · split at h
    · cases h
    · cases h
      rfl
  · split at h
    · cases h
    · cases h
      rfl
  · split at h
    · cases h
    · cases h
      rfl
  · split at h
    · cases h
    · cases h
      rfl
  · split at h
    · cases h
    · rename_i questId hq
      split at h
      · cases h
      · cases h
        exact ⟨rfl, hq⟩
  · cases h
  · split at h
    · cases h
    · split at h
      · cases h
      · split at h
        · cases h
        · cases h
          rfl
  · split at h
    · cases h
    · rename_i skill intent hp
      cases h
      exact ⟨rfl, hp⟩
  · split at h
    · cases h
    · cases h
      rfl
  · split at h
    · cases h
    · cases h
      rfl
  · split at h
    · cases h
    · cases h
      rfl

/-- C6, as stated, fails on the name comparison: the worker normalises the name
(trim, lower-case) before the lookup, so a reply whose JSON name is
`REQUEST_STAY`, which equals none of the twelve tool names, is accepted as the
`Stay` tool and enqueued. -/
theorem C6_name_is_normalised_before_lookup :
    controlWorker sampleParse sampleWorkerInput
        "<tool_call>\n\x7b\"name\":\"REQUEST_STAY\"\x7d\n</tool_call>".toList
      = .accepted { capability := Capability.Stay } "stay" ∧
    enqueuedAction (controlWorker sampleParse sampleWorkerInput
        "<tool_call>\n\x7b\"name\":\"REQUEST_STAY\"\x7d\n</tool_call>".toList)
      = some { capability := Capability.Stay } ∧
    "REQUEST_STAY".toList ∉ kControlTools.map (fun tool => tool.name) := by
  refine ⟨?_, ?_, ?_⟩
  · set_option maxRecDepth 100000 in decide
  · set_option maxRecDepth 100000 in decide
  · set_option maxRecDepth 100000 in decide

/-- C6, amended: the worker accepts an action only if the reply, trimmed,
starts with the start tag and has its first end tag at the very end, the text
between the tags, trimmed, is non-empty and parses as a JSON object whose `name`
member is a string that, trimmed and lower-cased, equals the name of one of the
twelve tools, the action has that tool's capability, and the `arguments` member
(an empty object when absent) satisfies the tool's required fields: nav epoch
and candidate id for move-hop, quest id for talk-to-quest-giver, skill and
intent for profession, and an empty value for a tool without arguments. For
every tool without arguments, an `arguments` value that is not empty (anything
but null, an empty array or an empty object) is rejected as
`unexpected_arguments` and nothing is enqueued. -/
theorem C6_control_reply_shape (parse : List Char → Option Json) (input : ControlWorkerInput)
    (llmReply : List Char) :
    (∀ action gateReason, controlWorker parse input llmReply = .accepted action gateReason →
      ∃ inner members rawName definition,
        TrimCopy llmReply = kStartTag ++ inner ++ kEndTag ∧
        findSub kEndTag (TrimCopy llmReply) = some (kStartTag.length + inner.length) ∧
        TrimCopy inner ≠ [] ∧
        parse (TrimCopy inner) = some (Json.obj members) ∧
        Json.lookup "name".toList members = some (Json.str rawName) ∧
        definition ∈ kControlTools ∧
        definition.name = NormalizeCommandToken rawName ∧
        action.capability = definition.capability ∧
        (definition.takesNoArguments = true →
          ((Json.lookup "arguments".toList members).getD (Json.obj [])).empty = true) ∧
        (definition.capability = Capability.MoveHop →
          ParseMoveHopNavArguments ((Json.lookup "arguments".toList members).getD (Json.obj []))
            = some (action.navEpoch, action.navCandidateId)) ∧
        (definition.capability = Capability.TalkToQuestGiver →
          ParseQuestIdArguments ((Json.lookup "arguments".toList members).getD (Json.obj []))
            = some action.questId) ∧
        (definition.capability = Capability.UseProfession →
          ParseProfessionArguments ((Json.lookup "arguments".toList members).getD (Json.obj []))
            = some (action.professionSkill, action.professionIntent))) ∧
    (∀ toolCall definition,
      TryExtractSingleToolCall parse (TrimCopy llmReply) = some toolCall →
      FindControlToolDefinition toolCall.name = some definition →
      definition.takesNoArguments = true → toolCall.arguments.empty = false →
      controlWorker parse input llmReply = .rejected "unexpected_arguments" ∧
      enqueuedAction (controlWorker parse input llmReply) = none) := by
  constructor
  · intro action gateReason h
    unfold controlWorker at h
    split at h
    · cases h
    dsimp only at h
    split at h
    · cases h
    split at h
    · cases h
    rename_i toolCall hextract
    split at h
    · cases h
    rename_i definition hfind
    split at h
    · cases h
    rename_i hargs
    obtain ⟨inner, members, rawName, hshape, hend, hne, hparse, hname, htn, hta⟩ :=
      TryExtractSingleToolCall_some parse _ toolCall hextract
    rw [TrimCopy_idem] at hshape hend
    obtain ⟨hmem, hdn⟩ := FindControlToolDefinition_some _ _ hfind
    obtain ⟨hcap, hmove, htalk, hprof⟩ := gateTool_accepted input definition _ action gateReason h
    rw [hta] at hmove htalk hprof hargs
    refine ⟨inner, members, rawName, definition, hshape, hend, hne, hparse, hname, hmem,
      by rw [hdn, htn], hcap, ?_, hmove, htalk, hprof⟩
    intro hno
    rw [hno] at hargs
    simpa using hargs
  · intro toolCall definition hextract hfind hno hnonempty
    have hshape := TryExtractSingleToolCall_some parse _ toolCall hextract
    obtain ⟨inner, _, _, hshape, _⟩ := hshape
    rw [TrimCopy_idem] at hshape
    have htrim : TrimCopy llmReply ≠ [] := by
      rw [hshape, kStartTag_eq]
      simp
    have hreply : llmReply ≠ [] := by
      intro h
      apply htrim
      rw [h]
      rfl
    have hw : controlWorker parse input llmReply = .rejected "unexpected_arguments" := by
      unfold controlWorker
      rw [if_neg hreply]
      dsimp only
      rw [if_neg htrim]
      simp only [hextract, hfind, hno, hnonempty, Bool.not_false, Bool.and_self, if_true]
    exact ⟨hw, by rw [hw]; rfl⟩

/-- C6, amended, at a concrete input: a reply that names `request_stay` and
passes a non-empty `arguments` object is rejected as unexpected, and nothing is
enqueued. -/
theorem C6_control_reply_shape_witness :
    controlWorker sampleParse sampleWorkerInput
        ("<tool_call>\x7b\"name\":\"request_stay\"," ++
          "\"arguments\":\x7b\"force\":true\x7d\x7d</tool_call>").toList
      = .rejected "unexpected_arguments" ∧
    enqueuedAction (controlWorker sampleParse sampleWorkerInput
        ("<tool_call>\x7b\"name\":\"request_stay\"," ++
          "\"arguments\":\x7b\"force\":true\x7d\x7d</tool_call>").toList) = none :=
  (C6_control_reply_shape sampleParse sampleWorkerInput
    ("<tool_call>\x7b\"name\":\"request_stay\"," ++
      "\"arguments\":\x7b\"force\":true\x7d\x7d</tool_call>").toList).2
    { name := "request_stay".toList, arguments := .obj [("force".toList, .bool true)] }
    { name := "request_stay".toList, capability := .Stay }
    (by set_option maxRecDepth 100000 in rfl)
    (by set_option maxRecDepth 100000 in decide)
    rfl rfl

/-! ### Nav state history: bound and coalescing -/

theorem popFrontWhileOver_eq_drop (cap : Nat) :
    ∀ history : List BotNavState,
      popFrontWhileOver cap history = history.drop (history.length - cap)
  | [] => by simp [popFrontWhileOver]
  | s :: rest => by
    unfold popFrontWhileOver
    by_cases h : (s :: rest).length > cap
    · rw [if_pos h, popFrontWhileOver_eq_drop cap rest]
      have h1 : (s :: rest).length - cap = (rest.length - cap) + 1 := by
        simp only [List.length_cons] at h ⊢; omega
      rw [h1, List.drop_succ_cons]
    · rw [if_neg h]
      have h1 : (s :: rest).length - cap = 0 := by omega
      rw [h1, List.drop_zero]

theorem replaceBack_eq (state : BotNavState) :
    ∀ history : List BotNavState, history ≠ [] →
      replaceBack state history = history.dropLast ++ [state]
  | [], h => absurd rfl h
  | [_], _ => by simp [replaceBack]
  | s :: t :: rest, _ => by
    simp only [replaceBack, List.dropLast_cons₂, List.cons_append]
    rw [replaceBack_eq state (t :: rest) (by simp)]

theorem setStateHistory_cases (history : List BotNavState) (state : BotNavState) :
    setStateHistory history state =
      match history.getLast? with
      | some back =>
        if back.navEpoch = state.navEpoch then history.dropLast ++ [state]
        else (history ++ [state]).drop (history.length + 1 - kMaxHistory)
      | none => (history ++ [state]).drop (history.length + 1 - kMaxHistory) := by
  unfold setStateHistory
  cases hl : history.getLast? with
  | none =>
    simp only [popFrontWhileOver_eq_drop, List.length_append, List.length_singleton]
  | some back =>
    have hne : history ≠ [] := by
      intro h; rw [h] at hl; simp at hl
    simp only [popFrontWhileOver_eq_drop, List.length_append, List.length_singleton,
      replaceBack_eq state history hne]

theorem setStateHistory_length_le (history : List BotNavState) (state : BotNavState)
    (h : history.length ≤ kMaxHistory) : (setStateHistory history state).length ≤ kMaxHistory := by
  rw [setStateHistory_cases]
  cases hl : history.getLast? with
  | none =>
    simp only [List.length_drop, List.length_append, List.length_singleton]
    unfold kMaxHistory at *; omega
  | some back =>
    have hne : history ≠ [] := by
      intro h; rw [h] at hl; simp at hl
    have hpos : 0 < history.length := List.length_pos.mpr hne
    dsimp only
    split
    · simp only [List.length_append, List.length_dropLast, List.length_singleton]
      omega
    · simp only [List.length_drop, List.length_append, List.length_singleton]
      unfold kMaxHistory at *; omega

theorem publishAll_length_le (guid : Nat) :
    ∀ (calls : List (Nat × BotNavState)) (storage : NavStorage),
      ((storage guid).getD []).length ≤ kMaxHistory →
      ((publishAll storage calls guid).getD []).length ≤ kMaxHistory
  | [], storage, h => by simpa [publishAll] using h
  | (g, state) :: rest, storage, h => by
    unfold publishAll
    apply publishAll_length_le guid rest
    unfold BotNavStateRegistry.SetState
    by_cases hg : guid = g
    · subst hg
      simp only [if_true, Option.getD_some]
      exact setStateHistory_length_le _ _ h
    · simp only [if_neg hg]
      exact h

/-- C18: starting from a registry in which the bot has at most 32 stored states
(the empty registry in particular), after any sequence of `SetState` calls for
any bots the bot's history holds at most 32 states, and so it does after one
more `SetState` for the bot. That call, when the epoch equals the epoch of the
most recently stored state, replaces that last state and keeps the length;
otherwise it appends the state and keeps the newest 32, dropping from the
front. -/
theorem C18_history_bounded_and_coalesced (storage : NavStorage)
    (calls : List (Nat × BotNavState)) (guid : Nat) (state : BotNavState)
    (hbound : ((storage guid).getD []).length ≤ kMaxHistory) :
    ((publishAll storage calls guid).getD []).length ≤ kMaxHistory ∧
    ((BotNavStateRegistry.SetState (publishAll storage calls) guid state guid).getD []).length
      ≤ kMaxHistory ∧
    (∀ back, ((publishAll storage calls guid).getD []).getLast? = some back →
      back.navEpoch = state.navEpoch →
      BotNavStateRegistry.SetState (publishAll storage calls) guid state guid
          = some (((publishAll storage calls guid).getD []).dropLast ++ [state]) ∧
        ((BotNavStateRegistry.SetState (publishAll storage calls) guid state guid).getD []).length
          = ((publishAll storage calls guid).getD []).length) ∧
    ((∀ back, ((publishAll storage calls guid).getD []).getLast? = some back →
        back.navEpoch ≠ state.navEpoch) →
      BotNavStateRegistry.SetState (publishAll storage calls) guid state guid
        = some ((((publishAll storage calls guid).getD []) ++ [state]).drop
            (((publishAll storage calls guid).getD []).length + 1 - kMaxHistory))) := by
  have h1 := publishAll_length_le guid calls storage hbound
  generalize (publishAll storage calls) = st at h1 ⊢
  have hset : BotNavStateRegistry.SetState st guid state guid
      = some (setStateHistory ((st guid).getD []) state) := by
    simp [BotNavStateRegistry.SetState]
  generalize (st guid).getD [] = history at h1 hset ⊢
  refine ⟨h1, ?_, ?_, ?_⟩
  · rw [hset]; exact setStateHistory_length_le _ _ h1
  · intro back hback hep
    have hne : history ≠ [] := by
      intro h; rw [h] at hback; simp at hback
    have hpos : 0 < history.length := List.length_pos.mpr hne
    rw [hset, setStateHistory_cases, hback]
    simp only [if_pos hep, Option.getD_some, List.length_append, List.length_dropLast,
      List.length_singleton, true_and]
    omega
  · intro hdiff
    rw [hset, setStateHistory_cases]
    cases hl : history.getLast? with
    | none => rfl
    | some back => simp only [if_neg (hdiff back hl)]

/-- C18 at a concrete input: bot 7 publishes epochs 1 and 2, then epoch 2 again
with another candidate list; the history keeps two states and its last state
is the new one. -/
theorem C18_history_bounded_and_coalesced_witness :
    BotNavStateRegistry.SetState
        (publishAll NavStorage.empty [(7, ⟨1, []⟩), (7, ⟨2, []⟩)]) 7
        ⟨2, [⟨"nav_0".toList, 0, .finite 1, .finite 2, .finite 3, true, true, true⟩]⟩ 7
      = some ([⟨1, []⟩] ++
          [⟨2, [⟨"nav_0".toList, 0, .finite 1, .finite 2, .finite 3, true, true, true⟩]⟩]) :=
  ((C18_history_bounded_and_coalesced NavStorage.empty [(7, ⟨1, []⟩), (7, ⟨2, []⟩)] 7
    ⟨2, [⟨"nav_0".toList, 0, .finite 1, .finite 2, .finite 3, true, true, true⟩]⟩
    (by decide)).2.2.1 ⟨2, []⟩ (by decide) rfl).1

/-! ### Per-bot queues -/

theorem QueueStorage.pushBack_self {α : Type} (q : QueueStorage α) (guid : Nat) (entry : α) :
    ((q.pushBack guid entry) guid).getD [] = (q guid).getD [] ++ [entry] := by
  simp [QueueStorage.pushBack]

theorem QueueStorage.pushBack_other {α : Type} (q : QueueStorage α) (guid g : Nat) (entry : α)
    (h : g ≠ guid) : (q.pushBack guid entry) g = q g := by
  simp [QueueStorage.pushBack, h]

theorem QueueStorage.tryPopFront_other {α : Type} (q : QueueStorage α) (guid g : Nat)
    (h : g ≠ guid) : (q.tryPopFront guid).1 g = q g := by
  unfold QueueStorage.tryPopFront
  cases hq : q guid with
  | none => rfl
  | some l =>
    cases l with
    | nil => rfl
    | cons front rest => simp [h]

theorem QueueStorage.tryPopFront_nil {α : Type} (q : QueueStorage α) (guid : Nat)
    (h : (q guid).getD [] = []) :
    (q.tryPopFront guid).2 = none ∧ ((q.tryPopFront guid).1 guid).getD [] = [] := by
  unfold QueueStorage.tryPopFront
  cases hq : q guid with
  | none => simp [hq]
  | some l =>
    cases l with
    | nil => simp [hq]
    | cons front rest => rw [hq] at h; simp at h

theorem QueueStorage.tryPopFront_cons {α : Type} (q : QueueStorage α) (guid : Nat)
    (front : α) (rest : List α) (h : (q guid).getD [] = front :: rest) :
    (q.tryPopFront guid).2 = some front ∧ ((q.tryPopFront guid).1 guid).getD [] = rest := by
  unfold QueueStorage.tryPopFront
  cases hq : q guid with
  | none => rw [hq] at h; simp at h
  | some l =>
    cases l with
    | nil => rw [hq] at h; simp at h
    | cons f r =>
      rw [hq] at h
      simp only [Option.getD_some, List.cons.injEq] at h
      simp [h.1, h.2]

theorem fifoResults_enqueues {α : Type} (entries : List α) :
    ∀ (queue : List α) (rest : List (Option α)),
      fifoResults queue (entries.map some ++ rest) = fifoResults (queue ++ entries) rest := by
  induction entries with
  | nil => intro queue rest; simp
  | cons e es ih =>
    intro queue rest
    simp only [List.map_cons, List.cons_append, fifoResults]
    rw [ih]; simp

theorem fifoResults_drain {α : Type} :
    ∀ queue : List α,
      fifoResults queue (List.replicate (queue.length + 1) none) = queue.map some ++ [none]
  | [] => by simp [fifoResults, List.replicate]
  | x :: queue => by
    simp only [List.length_cons, List.replicate_succ, fifoResults, List.map_cons,
      List.cons_append, List.cons.injEq, true_and]
    have := fifoResults_drain queue
    simpa [List.replicate_succ] using this

theorem runControlCalls_resultsOf (guid : Nat) (hguid : guid ≠ 0) :
    ∀ (calls : List ControlRegistryCall) (actions_ : QueueStorage ControlActionState),
      resultsOf guid (runControlCalls actions_ calls)
        = fifoResults ((actions_ guid).getD []) (controlCallsOf guid calls)
  | [], _ => by simp [runControlCalls, controlCallsOf, resultsOf, fifoResults]
  | .Enqueue botGuid action :: rest, actions_ => by
    unfold runControlCalls controlCallsOf
    rw [runControlCalls_resultsOf guid hguid rest]
    unfold ControlActionRegistry.Enqueue
    by_cases hg : botGuid = guid
    · subst hg
      rw [if_neg hguid, if_pos rfl, QueueStorage.pushBack_self]
      simp only [fifoResults]
    · rw [if_neg hg]
      by_cases h0 : botGuid = 0
      · rw [if_pos h0]
      · rw [if_neg h0, QueueStorage.pushBack_other _ _ _ _ (Ne.symm hg)]
  | .TryDequeue botGuid :: rest, actions_ => by
    unfold runControlCalls controlCallsOf
    unfold resultsOf
    rw [List.filter_cons]
    have ih := runControlCalls_resultsOf guid hguid rest
      (ControlActionRegistry.TryDequeue actions_ botGuid).1
    unfold resultsOf at ih
    unfold ControlActionRegistry.TryDequeue at ih ⊢
    by_cases hg : botGuid = guid
    · subst hg
      simp only [decide_True, if_true, List.map_cons]
      rw [ih]
      cases hq : (actions_ botGuid).getD [] with
      | nil =>
        obtain ⟨h1, h2⟩ := QueueStorage.tryPopFront_nil actions_ botGuid hq
        rw [h1, h2]; simp only [fifoResults]
      | cons front tail =>
        obtain ⟨h1, h2⟩ := QueueStorage.tryPopFront_cons actions_ botGuid front tail hq
        rw [h1, h2]; simp only [fifoResults]
    · simp only [hg, decide_False, if_false, Bool.false_eq_true]
      rw [ih, QueueStorage.tryPopFront_other _ _ _ (Ne.symm hg)]

theorem runPlannerCalls_resultsOf (guid : Nat) (hguid : guid ≠ 0) :
    ∀ (calls : List PlannerRegistryCall) (plans_ : QueueStorage AmigoPlannerState),
      resultsOf guid (runPlannerCalls plans_ calls)
        = fifoResults ((plans_ guid).getD []) (plannerCallsOf guid calls)
  | [], _ => by simp [runPlannerCalls, plannerCallsOf, resultsOf, fifoResults]
  | .EnqueuePlayer bot plan :: rest, plans_ => by
    unfold runPlannerCalls plannerCallsOf
    rw [runPlannerCalls_resultsOf guid hguid rest]
    unfold AmigoPlannerRegistry.EnqueuePlayer
    cases bot with
    | none => simp
    | some botGuid =>
      by_cases hg : botGuid = guid
      · subst hg
        simp only [if_true, QueueStorage.pushBack_self, fifoResults]
      · have hne : ¬ (some botGuid = some guid) := by simpa using hg
        rw [if_neg hne]
        dsimp only
        rw [QueueStorage.pushBack_other _ _ _ _ (Ne.symm hg)]
  | .Enqueue botGuid plan :: rest, plans_ => by
    unfold runPlannerCalls plannerCallsOf
    rw [runPlannerCalls_resultsOf guid hguid rest]
    unfold AmigoPlannerRegistry.Enqueue
    by_cases hg : botGuid = guid
    · subst hg
      rw [if_neg hguid, if_pos rfl, QueueStorage.pushBack_self]
      simp only [fifoResults]
    · rw [if_neg hg]
      by_cases h0 : botGuid = 0
      · rw [if_pos h0]
      · rw [if_neg h0, QueueStorage.pushBack_other _ _ _ _ (Ne.symm hg)]
  | .TryDequeue botGuid :: rest, plans_ => by
    unfold runPlannerCalls plannerCallsOf
    unfold resultsOf
    rw [List.filter_cons]
    have ih := runPlannerCalls_resultsOf guid hguid rest
      (AmigoPlannerRegistry.TryDequeue plans_ botGuid).1
    unfold resultsOf at ih
    unfold AmigoPlannerRegistry.TryDequeue at ih ⊢
    by_cases hg : botGuid = guid
    · subst hg
      simp only [decide_True, if_true, List.map_cons]
      rw [ih]
      cases hq : (plans_ botGuid).getD [] with
      | nil =>
        obtain ⟨h1, h2⟩ := QueueStorage.tryPopFront_nil plans_ botGuid hq
        rw [h1, h2]; simp only [fifoResults]
      | cons front tail =>
        obtain ⟨h1, h2⟩ := QueueStorage.tryPopFront_cons plans_ botGuid front tail hq
        rw [h1, h2]; simp only [fifoResults]
    · simp only [hg, decide_False, if_false, Bool.false_eq_true]
      rw [ih, QueueStorage.tryPopFront_other _ _ _ (Ne.symm hg)]

/-- C17: for every non-zero bot id, every starting content of the registry and
every sequence of calls (for any bots, in any interleaving), the results that
`TryDequeue` returns to the bot are those of a first-in first-out queue fed
with the bot's own calls only: they depend on no call made for another bot
id, and when the bot's calls are enqueues of `entries` followed by dequeue
attempts, the attempts return the entries already queued and then `entries`,
in the order they were enqueued, and then report emptiness. This holds for
the control-action registry and for the planner command registry (with both
of its `Enqueue` overloads). -/
theorem C17_queues_are_fifo_per_bot (guid : Nat) (hguid : guid ≠ 0) :
    (∀ (actions_ : QueueStorage ControlActionState) (calls : List ControlRegistryCall),
      resultsOf guid (runControlCalls actions_ calls)
        = fifoResults ((actions_ guid).getD []) (controlCallsOf guid calls)) ∧
    (∀ (actions_ : QueueStorage ControlActionState) (calls calls2 : List ControlRegistryCall),
      controlCallsOf guid calls = controlCallsOf guid calls2 →
      resultsOf guid (runControlCalls actions_ calls)
        = resultsOf guid (runControlCalls actions_ calls2)) ∧
    (∀ (actions_ : QueueStorage ControlActionState) (calls : List ControlRegistryCall)
        (entries : List ControlActionState),
      controlCallsOf guid calls = entries.map some ++
        List.replicate (((actions_ guid).getD []).length + entries.length + 1) none →
      resultsOf guid (runControlCalls actions_ calls)
        = (((actions_ guid).getD []) ++ entries).map some ++ [none]) ∧
    (∀ (plans_ : QueueStorage AmigoPlannerState) (calls : List PlannerRegistryCall),
      resultsOf guid (runPlannerCalls plans_ calls)
        = fifoResults ((plans_ guid).getD []) (plannerCallsOf guid calls)) ∧
    (∀ (plans_ : QueueStorage AmigoPlannerState) (calls calls2 : List PlannerRegistryCall),
      plannerCallsOf guid calls = plannerCallsOf guid calls2 →
      resultsOf guid (runPlannerCalls plans_ calls)
        = resultsOf guid (runPlannerCalls plans_ calls2)) ∧
    (∀ (plans_ : QueueStorage AmigoPlannerState) (calls : List PlannerRegistryCall)
        (entries : List AmigoPlannerState),
      plannerCallsOf guid calls = entries.map some ++
        List.replicate (((plans_ guid).getD []).length + entries.length + 1) none →
      resultsOf guid (runPlannerCalls plans_ calls)
        = (((plans_ guid).getD []) ++ entries).map some ++ [none]) := by
  refine ⟨?_, ?_, ?_, ?_, ?_, ?_⟩
  · intro actions_ calls
    exact runControlCalls_resultsOf guid hguid calls actions_
  · intro actions_ calls calls2 h
    rw [runControlCalls_resultsOf guid hguid, runControlCalls_resultsOf guid hguid, h]
  · intro actions_ calls entries h
    rw [runControlCalls_resultsOf guid hguid, h, fifoResults_enqueues]
    have := fifoResults_drain ((actions_ guid).getD [] ++ entries)
    rw [List.length_append] at this
    exact this
  · intro plans_ calls
    exact runPlannerCalls_resultsOf guid hguid calls plans_
  · intro plans_ calls calls2 h
    rw [runPlannerCalls_resultsOf guid hguid, runPlannerCalls_resultsOf guid hguid, h]
  · intro plans_ calls entries h
    rw [runPlannerCalls_resultsOf guid hguid, h, fifoResults_enqueues]
    have := fifoResults_drain ((plans_ guid).getD [] ++ entries)
    rw [List.length_append] at this
    exact this

/-- C17 at a concrete input: on an empty control-action registry bot 7 enqueues a
`Stay` and then a `Fish` action while bot 9 enqueues and dequeues in between;
three dequeue attempts of bot 7 return `Stay`, `Fish`, and emptiness. -/
theorem C17_queues_are_fifo_per_bot_witness :
    resultsOf 7 (runControlCalls (fun _ => none)
        [.Enqueue 7 ⟨{ capability := Capability.Stay }, []⟩,
         .Enqueue 9 ⟨{ capability := Capability.Unstay }, []⟩,
         .Enqueue 7 ⟨{ capability := Capability.Fish }, []⟩,
         .TryDequeue 9,
         .TryDequeue 7, .TryDequeue 9, .TryDequeue 7, .TryDequeue 7])
      = [some ⟨{ capability := Capability.Stay }, []⟩,
         some ⟨{ capability := Capability.Fish }, []⟩, none] :=
  (C17_queues_are_fifo_per_bot 7 (by decide)).2.2.1 (fun _ => none) _
    [⟨{ capability := Capability.Stay }, []⟩, ⟨{ capability := Capability.Fish }, []⟩] rfl

/-! ### Plan state helpers -/

/-- The fields `AdvanceSTG` leaves for a context with an active plan. -/
theorem AdvanceSTG_active (ctx : BotLLMContext) (hlen : ctx.shortTermGoals.length < U32)
    (hactive : ctx.hasActivePlan = true) :
    AdvanceSTG ctx =
      { ctx with
        shortTermIndex :=
          if ctx.shortTermIndex < ctx.shortTermGoals.length then ctx.shortTermIndex + 1
          else ctx.shortTermIndex,
        controlStepsForCurrentGoal := 0,
        hasActivePlan := decide (ctx.shortTermIndex + 1 < ctx.shortTermGoals.length) } := by
  unfold AdvanceSTG
  simp only [hactive, Bool.not_true, Bool.false_eq_true, if_false]
  by_cases h : ctx.shortTermIndex < ctx.shortTermGoals.length
  · have hmod : (ctx.shortTermIndex + 1) % U32 = ctx.shortTermIndex + 1 :=
      Nat.mod_eq_of_lt (by omega)
    simp only [if_pos h, hmod]
    by_cases h2 : ctx.shortTermIndex + 1 < ctx.shortTermGoals.length
    · have h3 : ¬ (ctx.shortTermIndex + 1 ≥ ctx.shortTermGoals.length) := by omega
      simp only [h3, if_false, h2, decide_True, hactive]
    · have h3 : ctx.shortTermIndex + 1 ≥ ctx.shortTermGoals.length := by omega
      simp only [h3, if_true, h2, decide_False]
  · have h2 : ¬ (ctx.shortTermIndex + 1 < ctx.shortTermGoals.length) := by omega
    have h3 : ctx.shortTermIndex ≥ ctx.shortTermGoals.length := by omega
    simp only [if_neg h, h3, if_true, h2, decide_False]

/-- C19: on a context without an active plan `AdvanceSTG` changes nothing. On a
context with an active plan (the goal list having fewer than 2^32 entries) it
increments the short-term index when the index is within the list and leaves
it alone otherwise, so an index that was not beyond the list length is not
beyond it afterwards; it sets the per-goal control-step counter to 0; it
leaves every other field but the active-plan flag unchanged; and the flag is
cleared exactly when the resulting index is not within the list. After
`AdvanceSTG`, `HasCurrentSTG` is true only if the index is within the list,
and `GetCurrentSTG` is then the goal at that index. -/
theorem C19_AdvanceSTG (ctx : BotLLMContext) (hlen : ctx.shortTermGoals.length < U32) :
    (ctx.hasActivePlan = false → AdvanceSTG ctx = ctx) ∧
    (ctx.hasActivePlan = true →
      (AdvanceSTG ctx).shortTermIndex =
        (if ctx.shortTermIndex < ctx.shortTermGoals.length then ctx.shortTermIndex + 1
         else ctx.shortTermIndex) ∧
      (ctx.shortTermIndex ≤ ctx.shortTermGoals.length →
        (AdvanceSTG ctx).shortTermIndex ≤ ctx.shortTermGoals.length) ∧
      (AdvanceSTG ctx).controlStepsForCurrentGoal = 0 ∧
      ((AdvanceSTG ctx).hasActivePlan = false ↔
        ¬ (AdvanceSTG ctx).shortTermIndex < (AdvanceSTG ctx).shortTermGoals.length) ∧
      AdvanceSTG ctx = { ctx with
        shortTermIndex := (AdvanceSTG ctx).shortTermIndex,
        controlStepsForCurrentGoal := 0,
        hasActivePlan := (AdvanceSTG ctx).hasActivePlan }) ∧
    (HasCurrentSTG (AdvanceSTG ctx) = true →
      (AdvanceSTG ctx).shortTermIndex < (AdvanceSTG ctx).shortTermGoals.length ∧
      GetCurrentSTG (AdvanceSTG ctx)
        = (AdvanceSTG ctx).shortTermGoals.getD (AdvanceSTG ctx).shortTermIndex []) := by
  refine ⟨?_, ?_, ?_⟩
  · intro h
    simp [AdvanceSTG, h]
  · intro hactive
    rw [AdvanceSTG_active ctx hlen hactive]
    dsimp only
    refine ⟨rfl, ?_, rfl, ?_, rfl⟩
    · intro hle
      split <;> omega
    · rw [decide_eq_false_iff_not]
      split <;> omega
  · intro h
    unfold HasCurrentSTG at h
    unfold GetCurrentSTG
    by_cases hp : (AdvanceSTG ctx).hasActivePlan = true
    · simp only [hp, Bool.not_true, Bool.false_eq_true, if_false, decide_eq_true_eq] at h
      have h2 : ¬ ((AdvanceSTG ctx).shortTermIndex ≥ (AdvanceSTG ctx).shortTermGoals.length) := by
        omega
      simp only [hp, Bool.not_true, Bool.false_or, h2, decide_False, Bool.false_eq_true,
        if_false]
      exact ⟨h, trivial⟩
    · simp only [Bool.not_eq_true] at hp
      simp [hp] at h

/-- C19 at a concrete input: a plan of two goals with the index at the last one;
`AdvanceSTG` moves the index to 2, zeroes the step counter and clears the
active-plan flag, and `HasCurrentSTG` is false afterwards. -/
theorem C19_AdvanceSTG_witness :
    AdvanceSTG { shortTermGoals := ["Go to the inn".toList, "Talk to the innkeeper".toList],
                 shortTermIndex := 1, hasActivePlan := true, controlStepsForCurrentGoal := 3 }
      = { shortTermGoals := ["Go to the inn".toList, "Talk to the innkeeper".toList],
          shortTermIndex := 2, hasActivePlan := false, controlStepsForCurrentGoal := 0 } ∧
    HasCurrentSTG (AdvanceSTG
      { shortTermGoals := ["Go to the inn".toList, "Talk to the innkeeper".toList],
        shortTermIndex := 1, hasActivePlan := true, controlStepsForCurrentGoal := 3 }) = false :=
  ⟨((C19_AdvanceSTG
      { shortTermGoals := ["Go to the inn".toList, "Talk to the innkeeper".toList],
        shortTermIndex := 1, hasActivePlan := true, controlStepsForCurrentGoal := 3 }
      (by decide)).2.1 rfl).2.2.2.2.trans (by decide),
   by decide⟩

/-! ### Prompt escapes -/

theorem ExpandPromptEscapes_cons_of_ne (c : Char) (rest : List Char) (h : c ≠ '\x5c') :
    ExpandPromptEscapes (c :: rest) = c :: ExpandPromptEscapes rest := by
  cases rest with
  | nil => simp [ExpandPromptEscapes]
  | cons next rest => simp [ExpandPromptEscapes, h]

theorem ExpandPromptEscapes_length_le :
    ∀ (n : Nat) (value : List Char), value.length ≤ n →
      (ExpandPromptEscapes value).length ≤ value.length := by
  intro n
  induction n with
  | zero =>
    intro value h
    have : value = [] := List.length_eq_zero.mp (by omega)
    subst this; simp [ExpandPromptEscapes]
  | succ n ih =>
    intro value h
    match value, h with
    | [], _ => simp [ExpandPromptEscapes]
    | [c], _ => simp [ExpandPromptEscapes]
    | c :: next :: rest, h =>
      simp only [List.length_cons] at h
      have h1 := ih rest (by omega)
      have h2 := ih (next :: rest) (by simp only [List.length_cons]; omega)
      simp only [List.length_cons] at h2
      unfold ExpandPromptEscapes
      split
      · split
        · simp only [List.length_cons]; omega
        · simp only [List.length_cons]; omega
      · simp only [List.length_cons]; omega

/-- C20: `ExpandPromptEscapes` consumes its input from the left. A backslash
followed by `n`, `r`, `t`, a backslash or a double quote yields the single
character newline, carriage return, tab, backslash or double quote, and the
scan goes on after the two characters; a backslash followed by any other
character is copied and the scan goes on at that character; a backslash that
is the last character is copied; every character other than a backslash is
copied. Hence a text without a backslash is returned unchanged, and the
output is never longer than the input. -/
theorem C20_ExpandPromptEscapes :
    ExpandPromptEscapes [] = [] ∧
    (∀ rest, ExpandPromptEscapes ('\x5c' :: 'n' :: rest) = '\x0a' :: ExpandPromptEscapes rest) ∧
    (∀ rest, ExpandPromptEscapes ('\x5c' :: 'r' :: rest) = '\x0d' :: ExpandPromptEscapes rest) ∧
    (∀ rest, ExpandPromptEscapes ('\x5c' :: 't' :: rest) = '\x09' :: ExpandPromptEscapes rest) ∧
    (∀ rest, ExpandPromptEscapes ('\x5c' :: '\x5c' :: rest)
      = '\x5c' :: ExpandPromptEscapes rest) ∧
    (∀ rest, ExpandPromptEscapes ('\x5c' :: '\x22' :: rest)
      = '\x22' :: ExpandPromptEscapes rest) ∧
    (∀ next rest, next ≠ 'n' → next ≠ 'r' → next ≠ 't' → next ≠ '\x5c' → next ≠ '\x22' →
      ExpandPromptEscapes ('\x5c' :: next :: rest)
        = '\x5c' :: next :: ExpandPromptEscapes rest) ∧
    ExpandPromptEscapes ['\x5c'] = ['\x5c'] ∧
    (∀ c rest, c ≠ '\x5c' → ExpandPromptEscapes (c :: rest) = c :: ExpandPromptEscapes rest) ∧
    (∀ value, '\x5c' ∉ value → ExpandPromptEscapes value = value) ∧
    (∀ value, (ExpandPromptEscapes value).length ≤ value.length) := by
  refine ⟨rfl, ?_, ?_, ?_, ?_, ?_, ?_, rfl, ExpandPromptEscapes_cons_of_ne, ?_, ?_⟩
  · intro rest; simp [ExpandPromptEscapes, escapeReplacement]
  · intro rest; simp [ExpandPromptEscapes, escapeReplacement]
  · intro rest; simp [ExpandPromptEscapes, escapeReplacement]
  · intro rest; simp [ExpandPromptEscapes, escapeReplacement]
  · intro rest; simp [ExpandPromptEscapes, escapeReplacement]
  · intro next rest h1 h2 h3 h4 h5
    have : escapeReplacement next = none := by
      simp [escapeReplacement, h1, h2, h3, h4, h5]
    rw [ExpandPromptEscapes, if_pos rfl, this]
    dsimp only
    rw [ExpandPromptEscapes_cons_of_ne next rest h4]
  · intro value
    induction value with
    | nil => intro _; rfl
    | cons c rest ih =>
      intro h
      simp only [List.mem_cons, not_or] at h
      rw [ExpandPromptEscapes_cons_of_ne c rest (Ne.symm h.1), ih h.2]
  · intro value
    exact ExpandPromptEscapes_length_le value.length value (le_refl _)

/-- C20 at a concrete input: in the text `a\nb\qc\` (8 characters) the sequence
backslash-n becomes a newline, backslash-q and the trailing backslash are
copied; the result has 7 characters. -/
theorem C20_ExpandPromptEscapes_witness :
    ExpandPromptEscapes ['a', '\x5c', 'n', 'b', '\x5c', 'q', 'c', '\x5c']
      = ['a', '\x0a', 'b', '\x5c', 'q', 'c', '\x5c'] := by
  rw [C20_ExpandPromptEscapes.2.2.2.2.2.2.2.2.1 'a' _ (by decide),
    C20_ExpandPromptEscapes.2.1,
    C20_ExpandPromptEscapes.2.2.2.2.2.2.2.2.1 'b' _ (by decide),
    C20_ExpandPromptEscapes.2.2.2.2.2.2.1 'q' _ (by decide) (by decide) (by decide) (by decide)
      (by decide),
    C20_ExpandPromptEscapes.2.2.2.2.2.2.2.2.1 'c' _ (by decide),
    C20_ExpandPromptEscapes.2.2.2.2.2.2.2.1]

/-! ### Path moves: start and pre-emption -/

/-- The return value of `StartPathMove` for a present bot, and the movement state
after a `true` return. -/
theorem StartPathMove_cases (botMapId : Nat)
    (CalculatePath : WorldPosition → Option (List Position3))
    (mv : BotMovement) (dest : WorldPosition) (reason : MoveReason) :
    ((BotMovement.StartPathMove botMapId CalculatePath mv dest reason).2 = true ↔
      (mv.active_ = false ∨ (mv.reason_ = MoveReason.Travel ∧ reason ≠ MoveReason.Travel)) ∧
      botMapId = dest.mapId ∧ ∃ path, CalculatePath dest = some path ∧ path ≠ []) ∧
    (∀ path, (mv.active_ = false ∨
        (mv.reason_ = MoveReason.Travel ∧ reason ≠ MoveReason.Travel)) →
      botMapId = dest.mapId → CalculatePath dest = some path → path ≠ [] →
      BotMovement.StartPathMove botMapId CalculatePath mv dest reason =
        ({ bot_ := true, path_ := path, reason_ := reason, active_ := true,
           lastMoveElapsedMs_ := kMinMovePointIntervalMs, destMapId_ := dest.mapId,
           destX_ := dest.x, destY_ := dest.y, destZ_ := dest.z }, true)) := by
  have hgate : (mv.active_ = true ∧
        ¬ (mv.reason_ = MoveReason.Travel ∧ reason ≠ MoveReason.Travel)) ↔
      ¬ (mv.active_ = false ∨ (mv.reason_ = MoveReason.Travel ∧ reason ≠ MoveReason.Travel)) := by
    cases mv.active_ <;> simp
  unfold BotMovement.StartPathMove
  by_cases hg : mv.active_ = true ∧
      ¬ (mv.reason_ = MoveReason.Travel ∧ reason ≠ MoveReason.Travel)
  · rw [if_pos hg]
    have hn := hgate.mp hg
    refine ⟨⟨fun h => by simp at h, fun h => absurd h.1 hn⟩, fun _ h => absurd h hn⟩
  · rw [if_neg hg]
    have hy : mv.active_ = false ∨
        (mv.reason_ = MoveReason.Travel ∧ reason ≠ MoveReason.Travel) := by
      by_contra hc; exact hg (hgate.mpr hc)
    simp only [BotMovement.BuildPath, Bool.not_true, Bool.false_eq_true, if_false]
    by_cases hmap : botMapId = dest.mapId
    · simp only [hmap, ne_eq, not_true_eq_false, if_false]
      cases hp : CalculatePath dest with
      | none => simp [hy]
      | some path =>
        cases path with
        | nil => simp [hy]
        | cons p ps =>
          refine ⟨by simp [hy], ?_⟩
          intro path' _ _ hpath _
          simp only [Option.some.injEq] at hpath
          subst hpath
          simp only [List.isEmpty_cons, Bool.not_false]
    · have hmap' : botMapId ≠ dest.mapId := hmap
      simp only [hmap', ne_eq, not_false_eq_true, if_true]
      refine ⟨by simp [hmap], fun _ _ h => h.elim⟩

/-- C16: `StartPathMove` returns false and leaves the movement untouched when the
bot is absent, and when a move is active unless the active reason is `Travel`
and the requested reason is not `Travel`: so a `Travel` request never
pre-empts an active move and an active non-`Travel` move is never pre-empted.
It returns false when path generation fails (another map, a generator
failure, or an empty path). In the one pre-empting case the active `Travel`
move is dropped and the request proceeds as on an idle movement: the call
returns true exactly when path generation succeeds, and the movement is then
active under the requested reason with the new path and destination. -/
theorem C16_StartPathMove (bot : Option Nat)
    (CalculatePath : WorldPosition → Option (List Position3))
    (mv : BotMovement) (dest : WorldPosition) (reason : MoveReason) :
    (bot = none → BotMovement.StartPathMoveFor bot CalculatePath mv dest reason = (mv, false)) ∧
    (mv.active_ = true → ¬ (mv.reason_ = MoveReason.Travel ∧ reason ≠ MoveReason.Travel) →
      BotMovement.StartPathMoveFor bot CalculatePath mv dest reason = (mv, false)) ∧
    (mv.active_ = true → reason = MoveReason.Travel →
      BotMovement.StartPathMoveFor bot CalculatePath mv dest reason = (mv, false)) ∧
    (mv.active_ = true → mv.reason_ ≠ MoveReason.Travel →
      BotMovement.StartPathMoveFor bot CalculatePath mv dest reason = (mv, false)) ∧
    ((∀ botMapId, bot = some botMapId → botMapId ≠ dest.mapId ∨ CalculatePath dest = none ∨
        CalculatePath dest = some []) →
      (BotMovement.StartPathMoveFor bot CalculatePath mv dest reason).2 = false) ∧
    (∀ botMapId path, bot = some botMapId → mv.active_ = true →
      mv.reason_ = MoveReason.Travel → reason ≠ MoveReason.Travel →
      ((BotMovement.StartPathMoveFor bot CalculatePath mv dest reason).2 = true ↔
        botMapId = dest.mapId ∧ ∃ p, CalculatePath dest = some p ∧ p ≠ []) ∧
      (botMapId = dest.mapId → CalculatePath dest = some path → path ≠ [] →
        BotMovement.StartPathMoveFor bot CalculatePath mv dest reason =
          ({ bot_ := true, path_ := path, reason_ := reason, active_ := true,
             lastMoveElapsedMs_ := kMinMovePointIntervalMs, destMapId_ := dest.mapId,
             destX_ := dest.x, destY_ := dest.y, destZ_ := dest.z }, true) ∧
        BotMovement.StartPathMoveFor bot CalculatePath mv dest reason =
          BotMovement.StartPathMoveFor bot CalculatePath mv.Abort dest reason)) ∧
    ((BotMovement.StartPathMoveFor bot CalculatePath mv dest reason).2 = true ↔
      ∃ botMapId, bot = some botMapId ∧
        (mv.active_ = false ∨ (mv.reason_ = MoveReason.Travel ∧ reason ≠ MoveReason.Travel)) ∧
        botMapId = dest.mapId ∧ ∃ p, CalculatePath dest = some p ∧ p ≠ []) := by
  have hrej : mv.active_ = true →
      ¬ (mv.reason_ = MoveReason.Travel ∧ reason ≠ MoveReason.Travel) →
      BotMovement.StartPathMoveFor bot CalculatePath mv dest reason = (mv, false) := by
    intro ha hn
    unfold BotMovement.StartPathMoveFor
    cases bot with
    | none => rfl
    | some botMapId =>
      dsimp only
      unfold BotMovement.StartPathMove
      rw [if_pos ⟨ha, hn⟩]
  refine ⟨?_, hrej, ?_, ?_, ?_, ?_, ?_⟩
  · intro h; subst h; rfl
  · intro ha hr
    exact hrej ha (fun h => h.2 hr)
  · intro ha hr
    exact hrej ha (fun h => hr h.1)
  · intro hfail
    cases bot with
    | none => rfl
    | some botMapId =>
      have h := (StartPathMove_cases botMapId CalculatePath mv dest reason).1
      unfold BotMovement.StartPathMoveFor
      dsimp only
      rw [Bool.eq_false_iff]
      intro ht
      obtain ⟨_, hmap, p, hp, hne⟩ := h.mp ht
      rcases hfail botMapId rfl with h1 | h1 | h1
      · exact h1 hmap
      · rw [h1] at hp; cases hp
      · rw [h1] at hp; cases hp; exact hne rfl
  · intro botMapId path hb ha ht hr
    subst hb
    unfold BotMovement.StartPathMoveFor
    dsimp only
    have h := StartPathMove_cases botMapId CalculatePath mv dest reason
    have h2 := StartPathMove_cases botMapId CalculatePath mv.Abort dest reason
    refine ⟨?_, ?_⟩
    · rw [h.1]
      constructor
      · intro hx; exact hx.2
      · intro hx; exact ⟨Or.inr ⟨ht, hr⟩, hx⟩
    · intro hmap hp hne
      rw [h.2 path (Or.inr ⟨ht, hr⟩) hmap hp hne,
        h2.2 path (Or.inl (by simp [BotMovement.Abort])) hmap hp hne]
      exact ⟨rfl, rfl⟩
  · cases bot with
    | none => simp [BotMovement.StartPathMoveFor]
    | some botMapId =>
      unfold BotMovement.StartPathMoveFor
      dsimp only
      rw [(StartPathMove_cases botMapId CalculatePath mv dest reason).1]
      simp

/-- C16 at a concrete input: a bot on map 0 with an active `Travel` move asks for
a `Combat` move to a point on map 0 that has a path; the call returns true and
the movement is active under `Combat`. The same request with reason `Travel`
returns false. -/
theorem C16_StartPathMove_witness :
    BotMovement.StartPathMoveFor (some 0) straightPath
        { bot_ := true, active_ := true, reason_ := MoveReason.Travel }
        ⟨0, .finite 1, .finite 2, .finite 3⟩ MoveReason.Combat
      = ({ bot_ := true,
           path_ := [⟨.finite 1, .finite 2, .finite 3⟩, ⟨.finite 1, .finite 2, .finite 3⟩],
           reason_ := MoveReason.Combat, active_ := true,
           lastMoveElapsedMs_ := kMinMovePointIntervalMs, destMapId_ := 0,
           destX_ := .finite 1, destY_ := .finite 2, destZ_ := .finite 3 }, true) :=
  (((C16_StartPathMove (some 0) straightPath
      { bot_ := true, active_ := true, reason_ := MoveReason.Travel }
      ⟨0, .finite 1, .finite 2, .finite 3⟩ MoveReason.Combat).2.2.2.2.2.1
    0 [⟨.finite 1, .finite 2, .finite 3⟩, ⟨.finite 1, .finite 2, .finite 3⟩]
    rfl rfl rfl (by decide)).2 rfl rfl (List.cons_ne_nil _ _)).1

/-! ### Travel supervision -/

theorem subU32_of_le (a b : Nat) (hab : b ≤ a) (ha : a < U32) : subU32 a b = a - b := by
  unfold subU32
  have hb : b < U32 := lt_of_le_of_lt hab ha
  rw [Nat.mod_eq_of_lt ha, Nat.mod_eq_of_lt hb]
  have : a + U32 - b = (a - b) + U32 := by omega
  rw [this, Nat.add_mod_right, Nat.mod_eq_of_lt (by omega)]

/-- C14: an inactive travel, an absent bot or an absent target leaves the travel
unchanged. For an active travel with a target and a present bot, `Update`
decides in this order: a dead bot makes the travel inactive with result
`Aborted`, wherever the bot stands; otherwise a bot within the target radius
makes it inactive with result `Reached`, whatever the time; otherwise an
elapsed time (`nowMs - startMs_` in 32-bit arithmetic, the plain difference
when the clock has not wrapped) above the target timeout makes it inactive
with result `TimedOut`; otherwise nothing changes. Each transition stamps
`nowMs` as the time of the last change. -/
theorem C14_BotTravel_Update (travel : BotTravel) (bot : Option TravelBot) (nowMs : Nat) :
    (travel.active_ = false ∨ bot = none ∨ travel.target_ = none →
      travel.Update bot nowMs = travel) ∧
    (∀ b target, travel.active_ = true → bot = some b → travel.target_ = some target →
      (b.IsAlive = false →
        travel.Update bot nowMs = { travel with
          active_ := false, lastResult_ := TravelResult.Aborted, lastChangeMs_ := nowMs }) ∧
      (b.IsAlive = true → F32.le (b.distanceTo target.dest) target.radius = true →
        travel.Update bot nowMs = { travel with
          active_ := false, lastResult_ := TravelResult.Reached, lastChangeMs_ := nowMs }) ∧
      (b.IsAlive = true → F32.le (b.distanceTo target.dest) target.radius = false →
        subU32 nowMs travel.startMs_ > target.timeoutMs →
        travel.Update bot nowMs = { travel with
          active_ := false, lastResult_ := TravelResult.TimedOut, lastChangeMs_ := nowMs }) ∧
      (b.IsAlive = true → F32.le (b.distanceTo target.dest) target.radius = false →
        subU32 nowMs travel.startMs_ ≤ target.timeoutMs →
        travel.Update bot nowMs = travel)) ∧
    (travel.startMs_ ≤ nowMs → nowMs < U32 →
      subU32 nowMs travel.startMs_ = nowMs - travel.startMs_) := by
  refine ⟨?_, ?_, subU32_of_le nowMs travel.startMs_⟩
  · intro h
    unfold BotTravel.Update
    rcases h with h | h | h
    · cases bot with
      | none => rfl
      | some b =>
        cases ht : travel.target_ with
        | none => rfl
        | some target => simp [h]
    · subst h; rfl
    · rw [h]
      cases bot <;> rfl
  · intro b target ha hb ht
    subst hb
    unfold BotTravel.Update
    rw [ht]
    simp only [ha, Bool.not_true, Bool.false_eq_true, if_false, BotTravel.Reached, ht]
    refine ⟨?_, ?_, ?_, ?_⟩
    · intro h1; simp [h1]
    · intro h1 h2; simp [h1, h2]
    · intro h1 h2 h3; simp [h1, h2, h3]
    · intro h1 h2 h3
      have h4 : ¬ (subU32 nowMs travel.startMs_ > target.timeoutMs) := by omega
      simp [h1, h2, h4]

/-- C14 at a concrete input: a dead bot one yard from the destination (inside
the radius 2.5) at 2000 ms aborts the sample travel, and a living bot one yard
from the destination at 100,000 ms (99,000 ms after the start, timeout 30,000)
ends it with `Reached`. -/
theorem C14_BotTravel_Update_witness :
    sampleTravel.Update (some deadBotNearby) 2000 = { sampleTravel with
      active_ := false, lastResult_ := TravelResult.Aborted, lastChangeMs_ := 2000 } ∧
    sampleTravel.Update (some nearBot) 100000 = { sampleTravel with
      active_ := false, lastResult_ := TravelResult.Reached, lastChangeMs_ := 100000 } :=
  ⟨((C14_BotTravel_Update sampleTravel (some deadBotNearby) 2000).2.1 deadBotNearby
    { key := "move_hop:candidate:4:nav_0".toList, dest := ⟨0, .finite 1, .finite 2, .finite 3⟩,
      timeoutMs := 30000 } rfl rfl rfl).1 rfl,
   ((C14_BotTravel_Update sampleTravel (some nearBot) 100000).2.1 nearBot
    { key := "move_hop:candidate:4:nav_0".toList, dest := ⟨0, .finite 1, .finite 2, .finite 3⟩,
      timeoutMs := 30000 } rfl rfl rfl).2.1 rfl
      (by simp only [nearBot, F32.le, decide_eq_true_eq]; norm_num)⟩

/-! ### Fishing sessions -/

theorem StartFishing_true (prof0 prof : BotProfession) (bot : Option ProfessionBot)
    (ai : Option ProfessionAi) (t0 : Nat)
    (h : BotProfession.StartFishing prof0 bot ai t0 = (prof, true)) :
    prof = { active_ := true, activity_ := ProfessionActivity.Fishing,
             lastResult_ := ProfessionResult.Started,
             startMs_ := t0, lastStepMs_ := t0, lastChangeMs_ := t0 } := by
  unfold BotProfession.StartFishing at h
  cases ai with
  | none => simp at h
  | some a =>
    dsimp only at h
    split at h
    · simp at h
    · split at h
      · simp at h
      · split at h
        · simp at h
        · simp only [Prod.mk.injEq, and_true] at h
          exact h.symm

theorem Update_inactive (prof : BotProfession) (bot : Option ProfessionBot)
    (ai : Option ProfessionAi) (nowMs : Nat) (h : prof.active_ = false) :
    prof.Update bot ai nowMs = prof := by
  simp [BotProfession.Update, h]

theorem runProfessionUpdates_inactive (prof : BotProfession) (h : prof.active_ = false) :
    ∀ ticks, runProfessionUpdates prof ticks = prof
  | [] => rfl
  | tick :: rest => by
    unfold runProfessionUpdates
    rw [Update_inactive prof _ _ _ h]
    exact runProfessionUpdates_inactive prof h rest

theorem runProfessionUpdates_append (prof : BotProfession) (pre post : List ProfessionTick) :
    runProfessionUpdates prof (pre ++ post)
      = runProfessionUpdates (runProfessionUpdates prof pre) post := by
  induction pre generalizing prof with
  | nil => rfl
  | cons tick rest ih =>
    show runProfessionUpdates (prof.Update tick.bot tick.ai tick.nowMs) (rest ++ post)
      = runProfessionUpdates (runProfessionUpdates (prof.Update tick.bot tick.ai tick.nowMs) rest)
          post
    exact ih _

/-- One `Update` of a running fishing session at a quiet tick. -/
theorem Update_fishing (prof : BotProfession) (tick : ProfessionTick) (t0 : Nat)
    (hactive : prof.active_ = true) (hact : prof.activity_ = ProfessionActivity.Fishing)
    (hstart : prof.startMs_ = t0) (hquiet : tick.quiet)
    (ht0 : t0 ≤ tick.nowMs) (hnow : tick.nowMs < U32) :
    (tick.nowMs - t0 ≤ 60000 →
      (prof.Update tick.bot tick.ai tick.nowMs).active_ = true ∧
      (prof.Update tick.bot tick.ai tick.nowMs).activity_ = ProfessionActivity.Fishing ∧
      (prof.Update tick.bot tick.ai tick.nowMs).lastResult_ = prof.lastResult_ ∧
      (prof.Update tick.bot tick.ai tick.nowMs).startMs_ = t0) ∧
    (tick.nowMs - t0 > 60000 →
      prof.Update tick.bot tick.ai tick.nowMs =
        { prof with active_ := false, lastResult_ := ProfessionResult.TimedOut,
                    lastChangeMs_ := tick.nowMs }) := by
  obtain ⟨hq1, hq2⟩ := hquiet
  have hsub : subU32 tick.nowMs prof.startMs_ = tick.nowMs - t0 := by
    rw [hstart]; exact subU32_of_le _ _ ht0 hnow
  unfold BotProfession.Update
  simp only [hactive, Bool.not_true, Bool.false_eq_true, if_false, hq1, hact, ne_eq,
    not_true_eq_false, hsub, kFishingTimeoutMs]
  constructor
  · intro hle
    have hn : ¬ (tick.nowMs - t0 > 60000) := by omega
    simp only [hn, if_false]
    split
    · exact ⟨hactive, hact, rfl, hstart⟩
    · cases hai : tick.ai with
      | none => exact ⟨rfl, rfl, rfl, hstart⟩
      | some a =>
        simp only [hq2 a hai, Bool.false_eq_true, if_false]
        exact ⟨trivial, trivial, trivial, hstart⟩
  · intro hgt
    simp only [hgt, if_true]

theorem runProfessionUpdates_within (t0 : Nat) :
    ∀ (ticks : List ProfessionTick) (prof : BotProfession),
      prof.active_ = true → prof.activity_ = ProfessionActivity.Fishing → prof.startMs_ = t0 →
      (∀ tick ∈ ticks, tick.quiet ∧ t0 ≤ tick.nowMs ∧ tick.nowMs < U32 ∧
        tick.nowMs - t0 ≤ 60000) →
      (runProfessionUpdates prof ticks).active_ = true ∧
      (runProfessionUpdates prof ticks).activity_ = ProfessionActivity.Fishing ∧
      (runProfessionUpdates prof ticks).lastResult_ = prof.lastResult_ ∧
      (runProfessionUpdates prof ticks).startMs_ = t0
  | [], prof, h1, h2, h3, _ => ⟨h1, h2, rfl, h3⟩
  | tick :: rest, prof, h1, h2, h3, hall => by
    obtain ⟨hq, ht0, hnow, hle⟩ := hall tick (List.mem_cons_self _ _)
    obtain ⟨a1, a2, a3, a4⟩ := (Update_fishing prof tick t0 h1 h2 h3 hq ht0 hnow).1 hle
    unfold runProfessionUpdates
    have ih := runProfessionUpdates_within t0 rest _ a1 a2 a4
      (fun t ht => hall t (List.mem_cons_of_mem _ ht))
    rw [a3] at ih
    exact ih

/-- C15: for a fishing session that `StartFishing` started at `t0`, and `Update`
calls at which the bot is able to act, the bobber action does not succeed and
the 32-bit clock reads a time from `t0` on: as long as every call so far had
`now - t0 <= 60,000` the session is active with result `Started`; the first
call with `now - t0 > 60,000` makes it inactive with result `TimedOut`,
stamped with that call's time, and no later `Update` call, whatever its
arguments, changes the state again. In particular, for non-decreasing call
times, the session is active and not timed out after every call with
`now - t0 <= 60,000`. -/
theorem C15_fishing_times_out_once (prof0 prof : BotProfession) (bot0 : Option ProfessionBot)
    (ai0 : Option ProfessionAi) (t0 : Nat) (ticks : List ProfessionTick)
    (hstart : BotProfession.StartFishing prof0 bot0 ai0 t0 = (prof, true))
    (hticks : ∀ tick ∈ ticks, tick.quiet ∧ t0 ≤ tick.nowMs ∧ tick.nowMs < U32) :
    ((∀ tick ∈ ticks, tick.nowMs - t0 ≤ 60000) →
      (runProfessionUpdates prof ticks).active_ = true ∧
      (runProfessionUpdates prof ticks).lastResult_ = ProfessionResult.Started) ∧
    (∀ pre tick post, ticks = pre ++ tick :: post →
      (∀ earlier ∈ pre, earlier.nowMs - t0 ≤ 60000) → tick.nowMs - t0 > 60000 →
      (runProfessionUpdates prof (pre ++ [tick])).active_ = false ∧
      (runProfessionUpdates prof (pre ++ [tick])).lastResult_ = ProfessionResult.TimedOut ∧
      (runProfessionUpdates prof (pre ++ [tick])).lastChangeMs_ = tick.nowMs ∧
      ∀ later, runProfessionUpdates prof (pre ++ tick :: later)
        = runProfessionUpdates prof (pre ++ [tick])) ∧
    ((ticks.map (fun tick => tick.nowMs)).Pairwise (fun a b => a ≤ b) →
      ∀ pre tick post, ticks = pre ++ tick :: post → tick.nowMs - t0 ≤ 60000 →
      (runProfessionUpdates prof (pre ++ [tick])).active_ = true ∧
      (runProfessionUpdates prof (pre ++ [tick])).lastResult_ = ProfessionResult.Started) := by
  have hprof := StartFishing_true prof0 prof bot0 ai0 t0 hstart
  have h1 : prof.active_ = true := by rw [hprof]
  have h2 : prof.activity_ = ProfessionActivity.Fishing := by rw [hprof]
  have h3 : prof.startMs_ = t0 := by rw [hprof]
  have h4 : prof.lastResult_ = ProfessionResult.Started := by rw [hprof]
  have hwithin : ∀ part : List ProfessionTick, (∀ tick ∈ part, tick ∈ ticks) →
      (∀ tick ∈ part, tick.nowMs - t0 ≤ 60000) →
      (runProfessionUpdates prof part).active_ = true ∧
      (runProfessionUpdates prof part).activity_ = ProfessionActivity.Fishing ∧
      (runProfessionUpdates prof part).lastResult_ = ProfessionResult.Started ∧
      (runProfessionUpdates prof part).startMs_ = t0 := by
    intro part hsub hle
    have := runProfessionUpdates_within t0 part prof h1 h2 h3
      (fun tick ht => ⟨(hticks tick (hsub tick ht)).1, (hticks tick (hsub tick ht)).2.1,
        (hticks tick (hsub tick ht)).2.2, hle tick ht⟩)
    rw [h4] at this
    exact this
  refine ⟨?_, ?_, ?_⟩
  · intro hle
    obtain ⟨a1, _, a3, _⟩ := hwithin ticks (fun _ h => h) hle
    exact ⟨a1, a3⟩
  · intro pre tick post hsplit hpre hgt
    have hmem : tick ∈ ticks := by rw [hsplit]; simp
    obtain ⟨a1, a2, _, a4⟩ := hwithin pre
      (fun t ht => by rw [hsplit]; exact List.mem_append_left _ ht) hpre
    obtain ⟨hq, ht0, hnow⟩ := hticks tick hmem
    have hstep := (Update_fishing (runProfessionUpdates prof pre) tick t0 a1 a2 a4 hq ht0 hnow).2
      hgt
    have hone : runProfessionUpdates prof (pre ++ [tick]) =
        { runProfessionUpdates prof pre with
          active_ := false, lastResult_ := ProfessionResult.TimedOut,
          lastChangeMs_ := tick.nowMs } := by
      rw [runProfessionUpdates_append]
      simp only [runProfessionUpdates]
      exact hstep
    refine ⟨by rw [hone], by rw [hone], by rw [hone], ?_⟩
    intro later
    have hcons : pre ++ tick :: later = (pre ++ [tick]) ++ later := by simp
    rw [hcons, runProfessionUpdates_append]
    exact runProfessionUpdates_inactive _ (by rw [hone]) later
  · intro hsorted pre tick post hsplit hle
    have hall : ∀ t ∈ pre ++ [tick], t.nowMs - t0 ≤ 60000 := by
      intro t ht
      rcases List.mem_append.mp ht with hp | hp
      · rw [hsplit, List.map_append, List.map_cons, List.pairwise_append] at hsorted
        have := hsorted.2.2 t.nowMs (List.mem_map_of_mem _ hp) tick.nowMs
          (List.mem_cons_self _ _)
        omega
      · simp only [List.mem_singleton] at hp
        rw [hp]; exact hle
    obtain ⟨a1, _, a3, _⟩ := hwithin (pre ++ [tick])
      (fun t ht => by
        rw [hsplit]
        rcases List.mem_append.mp ht with hp | hp
        · exact List.mem_append_left _ hp
        · simp only [List.mem_singleton] at hp
          rw [hp]; simp) hall
    exact ⟨a1, a3⟩

/-- C15 at a concrete input: a session started at 1000 ms is updated at 2000,
61,000, 61,001 and 70,000 ms by a bot that stays able to act and never gets a
bite; after the call at 61,001 ms (`now - t0 = 60,001`) it is inactive with
result `TimedOut`, and the call at 70,000 ms changes nothing. -/
theorem C15_fishing_times_out_once_witness :
    (runProfessionUpdates
        { active_ := true, activity_ := ProfessionActivity.Fishing,
          lastResult_ := ProfessionResult.Started,
          startMs_ := 1000, lastStepMs_ := 1000, lastChangeMs_ := 1000 }
        ([quietTick 2000, quietTick 61000] ++ [quietTick 61001])).lastResult_
      = ProfessionResult.TimedOut ∧
    runProfessionUpdates
        { active_ := true, activity_ := ProfessionActivity.Fishing,
          lastResult_ := ProfessionResult.Started,
          startMs_ := 1000, lastStepMs_ := 1000, lastChangeMs_ := 1000 }
        ([quietTick 2000, quietTick 61000] ++ quietTick 61001 :: [quietTick 70000])
      = runProfessionUpdates
        { active_ := true, activity_ := ProfessionActivity.Fishing,
          lastResult_ := ProfessionResult.Started,
          startMs_ := 1000, lastStepMs_ := 1000, lastChangeMs_ := 1000 }
        ([quietTick 2000, quietTick 61000] ++ [quietTick 61001]) :=
  have h := (C15_fishing_times_out_once {} _ (some readyBot)
    (some { goFishing := true, useBobber := false }) 1000
    [quietTick 2000, quietTick 61000, quietTick 61001, quietTick 70000]
    rfl
    (by
      intro tick ht
      simp only [List.mem_cons, List.mem_singleton, List.not_mem_nil, or_false] at ht
      rcases ht with h | h | h | h <;> subst h <;>
        refine ⟨⟨rfl, ?_⟩, by decide, by decide⟩ <;>
        intro a ha <;> cases ha <;> rfl)).2.1
    [quietTick 2000, quietTick 61000] (quietTick 61001) [quietTick 70000] rfl
    (by
      intro t ht
      simp only [List.mem_cons, List.mem_singleton, List.not_mem_nil, or_false] at ht
      rcases ht with h | h <;> subst h <;> decide)
    (by decide)
  ⟨h.2.1, h.2.2.2 [quietTick 70000]⟩

/-! ### Stuck memory: the 128-entry cap -/

theorem StuckMap.length_update (m : StuckMap) (key : String) (e : StuckEntry) :
    (StuckMap.update m key e).length = m.length := by
  induction m with
  | nil => rfl
  | cons kv rest ih =>
    obtain ⟨k, old⟩ := kv
    unfold StuckMap.update
    split
    · rfl
    · simp only [List.length_cons, ih]

theorem StuckMap.length_assign_le (m : StuckMap) (key : String) (e : StuckEntry) :
    (StuckMap.assign m key e).length ≤ m.length + 1 := by
  unfold StuckMap.assign
  cases StuckMap.find m key with
  | none => simp
  | some _ => simp [StuckMap.length_update]

theorem StuckMap.length_erase_lt (m : StuckMap) (w : String × StuckEntry) (hw : w ∈ m) :
    (StuckMap.erase m w.1).length < m.length := by
  unfold StuckMap.erase
  apply List.length_filter_lt_length_iff_exists.mpr
  exact ⟨w, hw, by simp⟩

theorem StuckMap.length_le_assign (m : StuckMap) (key : String) (e : StuckEntry) :
    m.length ≤ (StuckMap.assign m key e).length := by
  unfold StuckMap.assign
  cases StuckMap.find m key with
  | none => simp
  | some _ => simp [StuckMap.length_update]

theorem LoadStuckRows_length_ge :
    ∀ (rows : List StuckRow) (stuck : StuckMap), stuck.length ≤ (LoadStuckRows stuck rows).length
  | [], _ => le_refl _
  | row :: rest, stuck => by
    unfold LoadStuckRows
    exact le_trans (StuckMap.length_le_assign _ _ _) (LoadStuckRows_length_ge rest _)

theorem EnsureLoaded_length_ge (m : BotMemory) (db : CharacterDatabase) :
    m.stuck_.length ≤ (EnsureLoaded m db).stuck_.length := by
  unfold EnsureLoaded
  split
  · exact le_refl _
  · exact LoadStuckRows_length_ge _ _

theorem evictIfOver_length_le (m : StuckMap) (h : m.length ≤ kStuckMaxEntries + 1) :
    (evictIfOver m).length ≤ kStuckMaxEntries := by
  rcases evictIfOver_cases m with h1 | ⟨hlen, w, hw, h1, _⟩
  · cases m with
    | nil => simp [evictIfOver]
    | cons first rest =>
      by_cases hlen : (first :: rest).length > kStuckMaxEntries
      · have h2 : evictIfOver (first :: rest)
            = StuckMap.erase (first :: rest) (worstIt first (first :: rest)).1 := by
          simp only [evictIfOver, hlen, if_true]
        have hmem : worstIt first (first :: rest) ∈ first :: rest := by
          rcases (worstIt_spec (first :: rest) first).1 with h3 | h3
          · rw [h3]; exact List.mem_cons_self _ _
          · exact h3
        have := StuckMap.length_erase_lt (first :: rest) _ hmem
        rw [h2]; omega
      · rw [h1]; omega
  · have := StuckMap.length_erase_lt m w hw
    rw [h1]; omega

/-- What holds of the cap: when the map has at most 128 entries after the lazy
load, it has at most 128 entries after `RecordFailure`. -/
theorem RecordFailure_within_cap (m : BotMemory) (db : CharacterDatabase) (actionKey : String)
    (type : FailureType) (nowMs : Nat)
    (hcap : (EnsureLoaded m db).stuck_.length ≤ kStuckMaxEntries) :
    (RecordFailure m db actionKey type nowMs).stuck_.length ≤ kStuckMaxEntries := by
  unfold RecordFailure
  by_cases hk : actionKey = ""
  · rw [if_pos hk]
    exact le_trans (EnsureLoaded_length_ge m db) hcap
  · rw [if_neg hk]
    dsimp only
    apply evictIfOver_length_le
    exact le_trans (StuckMap.length_assign_le _ _ _) (by omega)

theorem StuckMap.length_erase_nodup :
    ∀ (m : StuckMap) (k : String) (e : StuckEntry), (StuckMap.keys m).Nodup → (k, e) ∈ m →
      (StuckMap.erase m k).length + 1 = m.length
  | [], _, _, _, h => by simp at h
  | (k0, o) :: rest, k, e, hnd, hmem => by
    simp only [StuckMap.keys, List.map_cons, List.nodup_cons] at hnd
    unfold StuckMap.erase
    rw [List.filter_cons]
    rcases List.mem_cons.mp hmem with h | h
    · simp only [Prod.mk.injEq] at h
      obtain ⟨hk, _⟩ := h
      subst hk
      have hrest : rest.filter (fun kv => decide (kv.1 ≠ k)) = rest := by
        apply List.filter_eq_self.mpr
        intro kv hkv
        have : kv.1 ≠ k := by
          intro hc
          exact hnd.1 (hc ▸ List.mem_map_of_mem (fun kv => kv.1) hkv)
        simpa using this
      simp only [ne_eq, not_true_eq_false, decide_False, Bool.false_eq_true, if_false, hrest,
        List.length_cons]
    · have hne : k0 ≠ k := by
        intro hc
        exact hnd.1 (hc ▸ List.mem_map_of_mem (fun kv => kv.1) h)
      have ih := StuckMap.length_erase_nodup rest k e hnd.2 h
      unfold StuckMap.erase at ih
      simp only [ne_eq] at ih
      simp only [ne_eq, hne, not_false_eq_true, decide_True, if_true, List.length_cons, ih]

/-- What holds of the eviction: a map of 129 nodes with distinct keys loses
exactly one node, and that node has the smallest `lastAttemptMs` of the 129. -/
theorem evictIfOver_at_129 (m : StuckMap) (hnodup : (StuckMap.keys m).Nodup)
    (hlen : m.length = kStuckMaxEntries + 1) :
    ∃ w ∈ m, evictIfOver m = StuckMap.erase m w.1 ∧
      (evictIfOver m).length = kStuckMaxEntries ∧
      (∀ x ∈ m, w.2.stats.lastAttemptMs ≤ x.2.stats.lastAttemptMs) ∧
      (∀ x ∈ m, x ≠ w → x ∈ evictIfOver m) := by
  rcases evictIfOver_cases m with h1 | ⟨_, w, hw, h1, hmin⟩
  · exfalso
    cases m with
    | nil => simp [kStuckMaxEntries] at hlen
    | cons first rest =>
      have hgt : (first :: rest).length > kStuckMaxEntries := by omega
      have h2 : evictIfOver (first :: rest)
          = StuckMap.erase (first :: rest) (worstIt first (first :: rest)).1 := by
        simp only [evictIfOver, hgt, if_true]
      have hmem : worstIt first (first :: rest) ∈ first :: rest := by
        rcases (worstIt_spec (first :: rest) first).1 with h3 | h3
        · rw [h3]; exact List.mem_cons_self _ _
        · exact h3
      have := StuckMap.length_erase_lt (first :: rest) _ hmem
      rw [← h2, h1] at this
      omega
  · have hother : ∀ x ∈ m, x ≠ w → x.1 ≠ w.1 := by
      intro x hx hne hkey
      apply hne
      obtain ⟨xk, xe⟩ := x
      obtain ⟨wk, we⟩ := w
      simp only at hkey
      subst hkey
      have h3 := StuckMap.find_of_mem_nodup m xk xe hnodup hx
      have h4 := StuckMap.find_of_mem_nodup m xk we hnodup hw
      rw [h4] at h3
      simp only [Option.some.injEq] at h3
      rw [h3]
    refine ⟨w, hw, h1, ?_, hmin, ?_⟩
    · have := StuckMap.length_erase_nodup m w.1 w.2 hnodup hw
      rw [h1]; omega
    · intro x hx hne
      rw [h1]
      unfold StuckMap.erase
      exact List.mem_filter.mpr ⟨hx, by simpa using hother x hx hne⟩

/-- C12, evaluated where the cap is missed: a bot whose 130 stored rows are
loaded lazily by the call (the load has no cap) records a failure for the
stored key `k0`; the eviction block removes one node only, and the map holds
129 entries after the call, one more than `kStuckMaxEntries`. -/
theorem C12_cap_exceeded_after_load :
    (RecordFailure { botGuid_ := 42, initialized_ := true, loaded_ := false }
        { stuckRows := fun _ => overfullStuckRows, executed := [] }
        "k0" FailureType.Temporary 4000000000).stuck_.length = 129 ∧
    kStuckMaxEntries < 129 := by
  refine ⟨?_, by decide⟩
  set_option maxRecDepth 100000 in decide

/-! ### Applying a staged strategic update -/

/-- C13, as stated, fails: goal A is adopted at `t = 0` by a bot without a goal;
a result carrying the different goal B applied at `t = 30,000` replaces it. The
same happens when A is adopted at `t = 1000` and B is applied at `t = 31,000`. -/
theorem C13_goal_replaced_within_cooldown :
    (applyStagedStrategicUpdate
        (applyStagedStrategicUpdate {} (stagedGoal "Reach level 10") 0)
        (stagedGoal "Learn fishing") 30000).longTermGoal = "Learn fishing".toList ∧
    (applyStagedStrategicUpdate {} (stagedGoal "Reach level 10") 1000).longTermGoal
      = "Reach level 10".toList ∧
    (applyStagedStrategicUpdate
        (applyStagedStrategicUpdate {} (stagedGoal "Reach level 10") 1000)
        (stagedGoal "Learn fishing") 31000).longTermGoal = "Learn fishing".toList := by
  refine ⟨by decide, by decide, by decide⟩

/-- C13, amended: when a staged result with `hasUpdate` set and a long-term goal
different from the stored one is applied, (a) a bot that holds a (non-empty)
long-term goal adopts the new goal whatever the time since the last change;
(b) a bot that holds no long-term goal and whose last goal change was at
`t > 0` ignores the result (goals, index and change time unchanged) while the
32-bit elapsed time `nowMs - t` is below 60,000, and adopts it otherwise;
(c) a bot without a goal and with no recorded change (`t = 0`) adopts it. An
adoption stores the new goal with index 0, the time of the change and
`nextStrategicAllowedMs = nowMs + 60,000` (32-bit). -/
theorem C13_strategic_update_cooldown (state : StrategicState)
    (strategicUpdate : PendingStrategicUpdate) (nowMs : Nat)
    (hupdate : strategicUpdate.hasUpdate = true)
    (hchanged : strategicUpdate.plan.longTermGoal ≠ state.longTermGoal) :
    (state.longTermGoal = [] → state.lastGoalChangeMs > 0 →
      subU32 nowMs state.lastGoalChangeMs < 60000 →
      applyStagedStrategicUpdate state (some strategicUpdate) nowMs
        = { state with hasStrategicResult := true }) ∧
    (state.longTermGoal ≠ [] ∨ state.lastGoalChangeMs = 0 ∨
        60000 ≤ subU32 nowMs state.lastGoalChangeMs →
      applyStagedStrategicUpdate state (some strategicUpdate) nowMs
        = { longTermGoal := strategicUpdate.plan.longTermGoal,
            shortTermGoals :=
              if strategicUpdate.refreshedShortTermGoals then strategicUpdate.plan.shortTermGoals
              else state.shortTermGoals,
            shortTermIndex := 0,
            nextStrategicAllowedMs := (nowMs + 60000) % U32,
            lastGoalChangeMs := nowMs,
            hasStrategicResult := true }) := by
  unfold applyStagedStrategicUpdate
  simp only [hupdate, Bool.not_true, Bool.false_eq_true, if_false, kStrategicGoalChangeCooldownMs,
    ne_eq, hchanged, not_false_eq_true, decide_True, if_true]
  constructor
  · intro hempty hpos hlt
    simp [hempty, hpos, hlt]
  · intro h
    rcases h with h | h | h
    · have : state.longTermGoal.isEmpty = false := by
        cases hg : state.longTermGoal with
        | nil => exact absurd hg h
        | cons _ _ => rfl
      simp [this]
    · simp [h]
    · have : ¬ (subU32 nowMs state.lastGoalChangeMs < 60000) := by omega
      simp [this]

/-- C13 (amended) at a concrete input: a bot whose goal was cleared after a change
at 1000 ms ignores a new goal applied at 31,000 ms and adopts it at 61,000 ms. -/
theorem C13_strategic_update_cooldown_witness :
    applyStagedStrategicUpdate { lastGoalChangeMs := 1000 } (stagedGoal "Learn fishing") 31000
      = { lastGoalChangeMs := 1000, hasStrategicResult := true } ∧
    applyStagedStrategicUpdate { lastGoalChangeMs := 1000 } (stagedGoal "Learn fishing") 61000
      = { longTermGoal := "Learn fishing".toList, shortTermIndex := 0,
          nextStrategicAllowedMs := 121000, lastGoalChangeMs := 61000,
          hasStrategicResult := true } :=
  ⟨(C13_strategic_update_cooldown { lastGoalChangeMs := 1000 }
      { plan := { longTermGoal := "Learn fishing".toList }, hasUpdate := true } 31000 rfl
      (by decide)).1 rfl (by decide) (by decide),
   (C13_strategic_update_cooldown { lastGoalChangeMs := 1000 }
      { plan := { longTermGoal := "Learn fishing".toList }, hasUpdate := true } 61000 rfl
      (by decide)).2 (Or.inr (Or.inr (by decide)))⟩

/-! ### Write-behind flushes and the token bucket -/

/-- A refill changes the token fields only, and leaves a bucket that is refilled
for the call's time. -/
theorem RefillDbTokens_spec (host : MemoryHost) (m : BotMemory) (nowMs : Nat) :
    RefillDbTokens host m nowMs =
      { m with dbTokens_ := (RefillDbTokens host m nowMs).dbTokens_,
               lastTokenRefillMs_ := (RefillDbTokens host m nowMs).lastTokenRefillMs_ } ∧
    nowMs ≤ (RefillDbTokens host m nowMs).lastTokenRefillMs_ := by
  unfold RefillDbTokens
  by_cases h : nowMs ≤ m.lastTokenRefillMs_
  · simp only [if_pos h]
    exact ⟨trivial, h⟩
  · simp only [if_neg h]
    exact ⟨trivial, le_refl _⟩

theorem RefillDbTokens_of_le (host : MemoryHost) (m : BotMemory) (nowMs : Nat)
    (h : nowMs ≤ m.lastTokenRefillMs_) : RefillDbTokens host m nowMs = m := by
  simp [RefillDbTokens, h]

/-- On a bucket already refilled for the call's time, `ConsumeDbToken` fails and
changes nothing when less than one token is held, and otherwise takes one
token and succeeds. -/
theorem ConsumeDbToken_refilled (host : MemoryHost) (m : BotMemory) (nowMs : Nat)
    (h : nowMs ≤ m.lastTokenRefillMs_) :
    ConsumeDbToken host m nowMs =
      if F32.lt m.dbTokens_ (F32.finite 1) then (m, false)
      else ({ m with dbTokens_ := host.subOne m.dbTokens_ }, true) := by
  unfold ConsumeDbToken
  rw [RefillDbTokens_of_le host m nowMs h]

theorem plannerBlock_cases (host : MemoryHost) (nowMs : Nat) (m : BotMemory)
    (h : nowMs ≤ m.lastTokenRefillMs_) :
    plannerBlock host nowMs m =
      if m.plannerDirty_ = true ∧ nowMs ≥ m.nextPlannerWriteEarliestMs_ ∧
          F32.lt m.dbTokens_ (F32.finite 1) = false then
        ({ m with
            dbTokens_ := host.subOne m.dbTokens_,
            plannerDirty_ := false,
            lastPlannerWriteMs_ := nowMs,
            nextPlannerWriteEarliestMs_ :=
              (nowMs + StableJitter m.botGuid_ kPlannerWriteMinMs kPlannerWriteMaxMs +
                m.jitterMs_) % U32 },
         FlushPlanner host m)
      else (m, []) := by
  unfold plannerBlock
  rw [ConsumeDbToken_refilled host m nowMs h]
  by_cases h1 : m.plannerDirty_ = true ∧ nowMs ≥ m.nextPlannerWriteEarliestMs_
  · rw [if_pos h1]
    cases ht : F32.lt m.dbTokens_ (F32.finite 1)
    · simp [h1.1, h1.2, FlushPlanner]
    · simp
  · rw [if_neg h1]
    have : ¬ (m.plannerDirty_ = true ∧ nowMs ≥ m.nextPlannerWriteEarliestMs_ ∧
        F32.lt m.dbTokens_ (F32.finite 1) = false) := fun hc => h1 ⟨hc.1, hc.2.1⟩
    rw [if_neg this]

theorem stuckBlock_cases (host : MemoryHost) (nowMs : Nat) (m : BotMemory)
    (h : nowMs ≤ m.lastTokenRefillMs_) :
    stuckBlock host nowMs m =
      if nowMs ≥ m.nextStuckWriteEarliestMs_ ∧ m.stuck_.any (fun kv => kv.2.dirty) = true ∧
          F32.lt m.dbTokens_ (F32.finite 1) = false then
        ({ m with
            dbTokens_ := host.subOne m.dbTokens_,
            stuck_ := (FlushStuck host m.botGuid_ m.stuck_).1,
            lastStuckWriteMs_ := nowMs,
            nextStuckWriteEarliestMs_ :=
              (nowMs + StableJitter m.botGuid_ kStuckWriteMinMs kStuckWriteMaxMs +
                m.jitterMs_) % U32 },
         (FlushStuck host m.botGuid_ m.stuck_).2)
      else (m, []) := by
  unfold stuckBlock
  rw [ConsumeDbToken_refilled host m nowMs h]
  by_cases h1 : nowMs ≥ m.nextStuckWriteEarliestMs_
  · rw [if_pos h1]
    cases hd : m.stuck_.any (fun kv => kv.2.dirty)
    · simp
    · cases ht : F32.lt m.dbTokens_ (F32.finite 1)
      · simp [h1]
      · simp
  · rw [if_neg h1]
    have : ¬ (nowMs ≥ m.nextStuckWriteEarliestMs_ ∧
        m.stuck_.any (fun kv => kv.2.dirty) = true ∧
        F32.lt m.dbTokens_ (F32.finite 1) = false) := fun hc => h1 hc.1
    rw [if_neg this]

theorem vendorBlock_cases (host : MemoryHost) (nowMs : Nat) (m : BotMemory)
    (h : nowMs ≤ m.lastTokenRefillMs_) :
    vendorBlock host nowMs m =
      if m.vendorsDirty_ = true ∧ nowMs ≥ m.nextVendorWriteEarliestMs_ ∧
          F32.lt m.dbTokens_ (F32.finite 1) = false then
        ({ m with
            dbTokens_ := host.subOne m.dbTokens_,
            vendors_ := (FlushVendors host m.botGuid_ m.vendors_).1,
            vendorsDirty_ := false,
            lastVendorWriteMs_ := nowMs,
            nextVendorWriteEarliestMs_ :=
              (nowMs + StableJitter m.botGuid_ kVendorWriteMinMs kVendorWriteMaxMs +
                m.jitterMs_) % U32 },
         (FlushVendors host m.botGuid_ m.vendors_).2)
      else (m, []) := by
  unfold vendorBlock
  rw [ConsumeDbToken_refilled host m nowMs h]
  by_cases h1 : m.vendorsDirty_ = true ∧ nowMs ≥ m.nextVendorWriteEarliestMs_
  · rw [if_pos h1]
    cases ht : F32.lt m.dbTokens_ (F32.finite 1)
    · simp [h1.1, h1.2]
    · simp
  · rw [if_neg h1]
    have : ¬ (m.vendorsDirty_ = true ∧ nowMs ≥ m.nextVendorWriteEarliestMs_ ∧
        F32.lt m.dbTokens_ (F32.finite 1) = false) := fun hc => h1 ⟨hc.1, hc.2.1⟩
    rw [if_neg this]

theorem memoryAtChecks_fields (host : MemoryHost) (m : BotMemory) (db : CharacterDatabase)
    (nowMs : Nat) :
    nowMs ≤ (memoryAtChecks host m db nowMs).lastTokenRefillMs_ ∧
    (memoryAtChecks host m db nowMs).botGuid_ = m.botGuid_ ∧
    (memoryAtChecks host m db nowMs).jitterMs_ = m.jitterMs_ ∧
    (memoryAtChecks host m db nowMs).plannerDirty_ = m.plannerDirty_ ∧
    (memoryAtChecks host m db nowMs).vendorsDirty_ = m.vendorsDirty_ ∧
    (memoryAtChecks host m db nowMs).nextPlannerWriteEarliestMs_ = m.nextPlannerWriteEarliestMs_ ∧
    (memoryAtChecks host m db nowMs).nextStuckWriteEarliestMs_ = m.nextStuckWriteEarliestMs_ ∧
    (memoryAtChecks host m db nowMs).nextVendorWriteEarliestMs_ = m.nextVendorWriteEarliestMs_ ∧
    (memoryAtChecks host m db nowMs).stuck_ = (EnsureLoaded m db).stuck_ ∧
    (memoryAtChecks host m db nowMs).vendors_ = (EnsureLoaded m db).vendors_ := by
  unfold memoryAtChecks
  refine ⟨(RefillDbTokens_spec host _ nowMs).2, ?_⟩
  rw [(RefillDbTokens_spec host _ nowMs).1]
  unfold EnsureLoaded
  split <;> simp

/-- What each block of `Update` leaves alone. -/
theorem plannerBlock_frame (host : MemoryHost) (nowMs : Nat) (m : BotMemory)
    (h : nowMs ≤ m.lastTokenRefillMs_) :
    (plannerBlock host nowMs m).1.lastTokenRefillMs_ = m.lastTokenRefillMs_ ∧
    (plannerBlock host nowMs m).1.botGuid_ = m.botGuid_ ∧
    (plannerBlock host nowMs m).1.jitterMs_ = m.jitterMs_ ∧
    (plannerBlock host nowMs m).1.stuck_ = m.stuck_ ∧
    (plannerBlock host nowMs m).1.nextStuckWriteEarliestMs_ = m.nextStuckWriteEarliestMs_ ∧
    (plannerBlock host nowMs m).1.vendors_ = m.vendors_ ∧
    (plannerBlock host nowMs m).1.vendorsDirty_ = m.vendorsDirty_ ∧
    (plannerBlock host nowMs m).1.nextVendorWriteEarliestMs_ = m.nextVendorWriteEarliestMs_ := by
  rw [plannerBlock_cases host nowMs m h]
  split <;> simp

theorem stuckBlock_frame (host : MemoryHost) (nowMs : Nat) (m : BotMemory)
    (h : nowMs ≤ m.lastTokenRefillMs_) :
    (stuckBlock host nowMs m).1.lastTokenRefillMs_ = m.lastTokenRefillMs_ ∧
    (stuckBlock host nowMs m).1.botGuid_ = m.botGuid_ ∧
    (stuckBlock host nowMs m).1.jitterMs_ = m.jitterMs_ ∧
    (stuckBlock host nowMs m).1.plannerDirty_ = m.plannerDirty_ ∧
    (stuckBlock host nowMs m).1.nextPlannerWriteEarliestMs_ = m.nextPlannerWriteEarliestMs_ ∧
    (stuckBlock host nowMs m).1.vendors_ = m.vendors_ ∧
    (stuckBlock host nowMs m).1.vendorsDirty_ = m.vendorsDirty_ ∧
    (stuckBlock host nowMs m).1.nextVendorWriteEarliestMs_ = m.nextVendorWriteEarliestMs_ := by
  rw [stuckBlock_cases host nowMs m h]
  split <;> simp

theorem vendorBlock_frame (host : MemoryHost) (nowMs : Nat) (m : BotMemory)
    (h : nowMs ≤ m.lastTokenRefillMs_) :
    (vendorBlock host nowMs m).1.lastTokenRefillMs_ = m.lastTokenRefillMs_ ∧
    (vendorBlock host nowMs m).1.botGuid_ = m.botGuid_ ∧
    (vendorBlock host nowMs m).1.jitterMs_ = m.jitterMs_ ∧
    (vendorBlock host nowMs m).1.plannerDirty_ = m.plannerDirty_ ∧
    (vendorBlock host nowMs m).1.nextPlannerWriteEarliestMs_ = m.nextPlannerWriteEarliestMs_ ∧
    (vendorBlock host nowMs m).1.stuck_ = m.stuck_ ∧
    (vendorBlock host nowMs m).1.nextStuckWriteEarliestMs_ = m.nextStuckWriteEarliestMs_ := by
  rw [vendorBlock_cases host nowMs m h]
  split <;> simp

theorem FlushStuck_spec (host : MemoryHost) (botGuid : Nat) :
    ∀ stuck : StuckMap,
      (∀ kv ∈ (FlushStuck host botGuid stuck).1, kv.2.dirty = false) ∧
      (FlushStuck host botGuid stuck).2 =
        (stuck.filter (fun kv => kv.2.dirty)).map
          (fun kv => stuckInsertSql botGuid (host.EscapeString kv.1) kv.2.stats.attempts) ∧
      (FlushStuck host botGuid stuck).1 =
        stuck.map (fun kv => (kv.1, { kv.2 with dirty := false }))
  | [] => by simp [FlushStuck]
  | (key, entry) :: rest => by
    obtain ⟨ih1, ih2, ih3⟩ := FlushStuck_spec host botGuid rest
    unfold FlushStuck
    cases hd : entry.dirty
    · simp only [Bool.not_false, if_true, List.mem_cons, forall_eq_or_imp, hd, true_and,
        List.filter_cons, Bool.false_eq_true, if_false, List.map_cons]
      refine ⟨ih1, ih2, ?_⟩
      rw [ih3]
      congr 1
      cases entry
      simp only at hd
      simp [hd]
    · simp only [Bool.not_true, Bool.false_eq_true, if_false, List.mem_cons, forall_eq_or_imp,
        true_and, List.filter_cons, hd, if_true, List.map_cons]
      exact ⟨ih1, by rw [ih2], by rw [ih3]⟩

theorem FlushVendors_spec (host : MemoryHost) (botGuid : Nat) :
    ∀ vendors : VendorMap,
      (∀ kv ∈ (FlushVendors host botGuid vendors).1, kv.2.dirty = false) ∧
      (FlushVendors host botGuid vendors).2 =
        (vendors.filter (fun kv => kv.2.dirty)).map
          (fun kv => vendorReplaceSql host botGuid kv.2.record)
  | [] => by simp [FlushVendors]
  | (key, entry) :: rest => by
    obtain ⟨ih1, ih2⟩ := FlushVendors_spec host botGuid rest
    unfold FlushVendors
    cases hd : entry.dirty
    · simp only [Bool.not_false, if_true, List.mem_cons, forall_eq_or_imp, hd, true_and,
        List.filter_cons, Bool.false_eq_true, if_false]
      exact ⟨ih1, ih2⟩
    · simp only [Bool.not_true, Bool.false_eq_true, if_false, List.mem_cons, forall_eq_or_imp,
        true_and, List.filter_cons, hd, if_true, List.map_cons]
      exact ⟨ih1, by rw [ih2]⟩

theorem UpdateTraced_starved (host : MemoryHost) (m : BotMemory) (db : CharacterDatabase)
    (nowMs : Nat)
    (h : F32.lt (memoryAtChecks host m db nowMs).dbTokens_ (F32.finite 1) = true) :
    BotMemory.UpdateTraced host m db nowMs = (memoryAtChecks host m db nowMs, {}) := by
  have h0 := (memoryAtChecks_fields host m db nowMs).1
  have hp : plannerBlock host nowMs (memoryAtChecks host m db nowMs)
      = (memoryAtChecks host m db nowMs, []) := by
    rw [plannerBlock_cases host nowMs _ h0, if_neg]
    intro hc; rw [h] at hc; exact absurd hc.2.2 (by decide)
  have hs : stuckBlock host nowMs (memoryAtChecks host m db nowMs)
      = (memoryAtChecks host m db nowMs, []) := by
    rw [stuckBlock_cases host nowMs _ h0, if_neg]
    intro hc; rw [h] at hc; exact absurd hc.2.2 (by decide)
  have hv : vendorBlock host nowMs (memoryAtChecks host m db nowMs)
      = (memoryAtChecks host m db nowMs, []) := by
    rw [vendorBlock_cases host nowMs _ h0, if_neg]
    intro hc; rw [h] at hc; exact absurd hc.2.2 (by decide)
  unfold BotMemory.UpdateTraced
  simp only [← memoryAtChecks.eq_1, hp, hs, hv]

/-- The three blocks of one `Update` call, each on a bucket refilled for the
call's time. -/
theorem UpdateTraced_blocks (host : MemoryHost) (m : BotMemory) (db : CharacterDatabase)
    (nowMs : Nat) :
    BotMemory.UpdateTraced host m db nowMs =
      ((vendorBlock host nowMs (stuckBlock host nowMs
          (plannerBlock host nowMs (memoryAtChecks host m db nowMs)).1).1).1,
       { planner := (plannerBlock host nowMs (memoryAtChecks host m db nowMs)).2,
         stuck := (stuckBlock host nowMs
           (plannerBlock host nowMs (memoryAtChecks host m db nowMs)).1).2,
         vendors := (vendorBlock host nowMs (stuckBlock host nowMs
           (plannerBlock host nowMs (memoryAtChecks host m db nowMs)).1).1).2 }) ∧
    nowMs ≤ (plannerBlock host nowMs (memoryAtChecks host m db nowMs)).1.lastTokenRefillMs_ ∧
    nowMs ≤ (stuckBlock host nowMs
      (plannerBlock host nowMs (memoryAtChecks host m db nowMs)).1).1.lastTokenRefillMs_ := by
  have h0 := (memoryAtChecks_fields host m db nowMs).1
  have h1 : nowMs ≤ (plannerBlock host nowMs
      (memoryAtChecks host m db nowMs)).1.lastTokenRefillMs_ := by
    rw [(plannerBlock_frame host nowMs _ h0).1]; exact h0
  have h2 : nowMs ≤ (stuckBlock host nowMs
      (plannerBlock host nowMs (memoryAtChecks host m db nowMs)).1).1.lastTokenRefillMs_ := by
    rw [(stuckBlock_frame host nowMs _ h1).1]; exact h1
  exact ⟨rfl, h1, h2⟩

theorem UpdateTraced_planner_not_due (host : MemoryHost) (m : BotMemory)
    (db : CharacterDatabase) (nowMs : Nat) (h : nowMs < m.nextPlannerWriteEarliestMs_) :
    (BotMemory.UpdateTraced host m db nowMs).2.planner = [] ∧
    (BotMemory.UpdateTraced host m db nowMs).1.nextPlannerWriteEarliestMs_
      = m.nextPlannerWriteEarliestMs_ ∧
    (BotMemory.UpdateTraced host m db nowMs).1.plannerDirty_ = m.plannerDirty_ := by
  obtain ⟨hr, h1, h2⟩ := UpdateTraced_blocks host m db nowMs
  obtain ⟨h0, _, _, hd, _, hn, _⟩ := memoryAtChecks_fields host m db nowMs
  have hp : plannerBlock host nowMs (memoryAtChecks host m db nowMs)
      = (memoryAtChecks host m db nowMs, []) := by
    rw [plannerBlock_cases host nowMs _ h0, if_neg]
    intro hc; rw [hn] at hc; omega
  rw [hr]
  obtain ⟨_, _, _, v1, v2, _⟩ := vendorBlock_frame host nowMs _ h2
  obtain ⟨_, _, _, s1, s2, _⟩ := stuckBlock_frame host nowMs _ h1
  dsimp only
  rw [v1, v2, s1, s2, hp]
  exact ⟨rfl, hn, hd⟩

theorem UpdateTraced_stuck_not_due (host : MemoryHost) (m : BotMemory)
    (db : CharacterDatabase) (nowMs : Nat) (h : nowMs < m.nextStuckWriteEarliestMs_) :
    (BotMemory.UpdateTraced host m db nowMs).2.stuck = [] ∧
    (BotMemory.UpdateTraced host m db nowMs).1.nextStuckWriteEarliestMs_
      = m.nextStuckWriteEarliestMs_ ∧
    (BotMemory.UpdateTraced host m db nowMs).1.stuck_ = (EnsureLoaded m db).stuck_ := by
  obtain ⟨hr, h1, h2⟩ := UpdateTraced_blocks host m db nowMs
  obtain ⟨h0, _, _, _, _, _, hn, _, hst, _⟩ := memoryAtChecks_fields host m db nowMs
  obtain ⟨_, _, _, p1, p2, _⟩ := plannerBlock_frame host nowMs _ h0
  have hs : stuckBlock host nowMs (plannerBlock host nowMs (memoryAtChecks host m db nowMs)).1
      = ((plannerBlock host nowMs (memoryAtChecks host m db nowMs)).1, []) := by
    rw [stuckBlock_cases host nowMs _ h1, if_neg]
    intro hc; rw [p2, hn] at hc; omega
  rw [hr]
  obtain ⟨_, _, _, _, _, v1, v2⟩ := vendorBlock_frame host nowMs _ h2
  dsimp only
  rw [v1, v2, hs]
  dsimp only
  rw [p1, p2]
  exact ⟨rfl, hn, hst⟩

theorem UpdateTraced_vendor_not_due (host : MemoryHost) (m : BotMemory)
    (db : CharacterDatabase) (nowMs : Nat) (h : nowMs < m.nextVendorWriteEarliestMs_) :
    (BotMemory.UpdateTraced host m db nowMs).2.vendors = [] ∧
    (BotMemory.UpdateTraced host m db nowMs).1.nextVendorWriteEarliestMs_
      = m.nextVendorWriteEarliestMs_ ∧
    (BotMemory.UpdateTraced host m db nowMs).1.vendorsDirty_ = m.vendorsDirty_ := by
  obtain ⟨hr, h1, h2⟩ := UpdateTraced_blocks host m db nowMs
  obtain ⟨h0, _, _, _, hd, _, _, hn, _, _⟩ := memoryAtChecks_fields host m db nowMs
  obtain ⟨_, _, _, _, _, _, p1, p2⟩ := plannerBlock_frame host nowMs _ h0
  obtain ⟨_, _, _, _, _, _, s1, s2⟩ := stuckBlock_frame host nowMs _ h1
  have hv : vendorBlock host nowMs (stuckBlock host nowMs
        (plannerBlock host nowMs (memoryAtChecks host m db nowMs)).1).1
      = ((stuckBlock host nowMs
        (plannerBlock host nowMs (memoryAtChecks host m db nowMs)).1).1, []) := by
    rw [vendorBlock_cases host nowMs _ h2, if_neg]
    intro hc; rw [s2, p2, hn] at hc; omega
  rw [hr]
  dsimp only
  rw [hv]
  dsimp only
  rw [s1, s2, p1, p2]
  exact ⟨rfl, hn, hd⟩

theorem UpdateTraced_planner_flush (host : MemoryHost) (m : BotMemory)
    (db : CharacterDatabase) (nowMs : Nat)
    (hdirty : m.plannerDirty_ = true) (hdue : nowMs ≥ m.nextPlannerWriteEarliestMs_)
    (htok : F32.lt (memoryAtChecks host m db nowMs).dbTokens_ (F32.finite 1) = false) :
    (BotMemory.UpdateTraced host m db nowMs).2.planner
      = FlushPlanner host (memoryAtChecks host m db nowMs) ∧
    (BotMemory.UpdateTraced host m db nowMs).1.plannerDirty_ = false ∧
    (BotMemory.UpdateTraced host m db nowMs).1.nextPlannerWriteEarliestMs_
      = (nowMs + StableJitter m.botGuid_ kPlannerWriteMinMs kPlannerWriteMaxMs +
          m.jitterMs_) % U32 := by
  obtain ⟨hr, h1, h2⟩ := UpdateTraced_blocks host m db nowMs
  obtain ⟨h0, hg, hj, hd, _, hn, _⟩ := memoryAtChecks_fields host m db nowMs
  have hp := plannerBlock_cases host nowMs (memoryAtChecks host m db nowMs) h0
  rw [if_pos ⟨by rw [hd]; exact hdirty, by rw [hn]; exact hdue, htok⟩] at hp
  rw [hr]
  obtain ⟨_, _, _, v1, v2, _⟩ := vendorBlock_frame host nowMs _ h2
  obtain ⟨_, _, _, s1, s2, _⟩ := stuckBlock_frame host nowMs _ h1
  dsimp only
  rw [v1, v2, s1, s2, hp]
  dsimp only
  rw [hg, hj]
  exact ⟨rfl, rfl, rfl⟩

theorem UpdateTraced_stuck_flush (host : MemoryHost) (m : BotMemory)
    (db : CharacterDatabase) (nowMs : Nat)
    (hdirty : (EnsureLoaded m db).stuck_.any (fun kv => kv.2.dirty) = true)
    (hdue : nowMs ≥ m.nextStuckWriteEarliestMs_)
    (htok : F32.lt (tokensAtStuckCheck host m db nowMs) (F32.finite 1) = false) :
    (BotMemory.UpdateTraced host m db nowMs).2.stuck
      = (FlushStuck host m.botGuid_ (EnsureLoaded m db).stuck_).2 ∧
    (BotMemory.UpdateTraced host m db nowMs).1.stuck_
      = (FlushStuck host m.botGuid_ (EnsureLoaded m db).stuck_).1 ∧
    (BotMemory.UpdateTraced host m db nowMs).1.nextStuckWriteEarliestMs_
      = (nowMs + StableJitter m.botGuid_ kStuckWriteMinMs kStuckWriteMaxMs +
          m.jitterMs_) % U32 := by
  obtain ⟨hr, h1, h2⟩ := UpdateTraced_blocks host m db nowMs
  obtain ⟨h0, hg, hj, _, _, _, hn, _, hst, _⟩ := memoryAtChecks_fields host m db nowMs
  obtain ⟨_, pg, pj, p1, p2, _⟩ := plannerBlock_frame host nowMs _ h0
  have hs := stuckBlock_cases host nowMs
    (plannerBlock host nowMs (memoryAtChecks host m db nowMs)).1 h1
  rw [if_pos ⟨by rw [p2, hn]; exact hdue, by rw [p1, hst]; exact hdirty, htok⟩] at hs
  rw [hr]
  obtain ⟨_, _, _, _, _, v1, v2⟩ := vendorBlock_frame host nowMs _ h2
  dsimp only
  rw [v1, v2, hs]
  dsimp only
  rw [pg, pj, p1, hg, hj, hst]
  exact ⟨rfl, rfl, rfl⟩

theorem UpdateTraced_vendor_flush (host : MemoryHost) (m : BotMemory)
    (db : CharacterDatabase) (nowMs : Nat)
    (hdirty : m.vendorsDirty_ = true) (hdue : nowMs ≥ m.nextVendorWriteEarliestMs_)
    (htok : F32.lt (tokensAtVendorCheck host m db nowMs) (F32.finite 1) = false) :
    (BotMemory.UpdateTraced host m db nowMs).2.vendors
      = (FlushVendors host m.botGuid_ (EnsureLoaded m db).vendors_).2 ∧
    (BotMemory.UpdateTraced host m db nowMs).1.vendorsDirty_ = false ∧
    (BotMemory.UpdateTraced host m db nowMs).1.nextVendorWriteEarliestMs_
      = (nowMs + StableJitter m.botGuid_ kVendorWriteMinMs kVendorWriteMaxMs +
          m.jitterMs_) % U32 := by
  obtain ⟨hr, h1, h2⟩ := UpdateTraced_blocks host m db nowMs
  obtain ⟨h0, hg, hj, _, hd, _, _, hn, _, hv⟩ := memoryAtChecks_fields host m db nowMs
  obtain ⟨_, pg, pj, _, _, p0, p1, p2⟩ := plannerBlock_frame host nowMs _ h0
  obtain ⟨_, sg, sj, _, _, s0, s1, s2⟩ := stuckBlock_frame host nowMs _ h1
  have hvb := vendorBlock_cases host nowMs (stuckBlock host nowMs
    (plannerBlock host nowMs (memoryAtChecks host m db nowMs)).1).1 h2
  rw [if_pos ⟨by rw [s1, p1, hd]; exact hdirty, by rw [s2, p2, hn]; exact hdue, htok⟩] at hvb
  rw [hr]
  dsimp only
  rw [hvb]
  dsimp only
  rw [sg, sj, s0, pg, pj, p0, hg, hj, hv]
  exact ⟨rfl, rfl, rfl⟩

theorem tokensAtStuckCheck_of_planner_idle (host : MemoryHost) (m : BotMemory)
    (db : CharacterDatabase) (nowMs : Nat)
    (h : m.plannerDirty_ = false ∨ nowMs < m.nextPlannerWriteEarliestMs_) :
    tokensAtStuckCheck host m db nowMs = (memoryAtChecks host m db nowMs).dbTokens_ := by
  obtain ⟨h0, _, _, hd, _, hn, _⟩ := memoryAtChecks_fields host m db nowMs
  unfold tokensAtStuckCheck
  rw [plannerBlock_cases host nowMs _ h0, if_neg]
  intro hc
  rw [hd, hn] at hc
  rcases h with h | h
  · rw [h] at hc; exact absurd hc.1 (by decide)
  · omega

theorem runMemoryUpdates_planner_not_due (host : MemoryHost) (db : CharacterDatabase) :
    ∀ (times : List Nat) (m : BotMemory),
      (∀ t ∈ times, t < m.nextPlannerWriteEarliestMs_) →
      ∀ w ∈ (runMemoryUpdates host db m times).2, w.planner = []
  | [], _, _, w, hw => by simp [runMemoryUpdates] at hw
  | t :: rest, m, h, w, hw => by
    obtain ⟨a1, a2, _⟩ := UpdateTraced_planner_not_due host m db t (h t (List.mem_cons_self _ _))
    unfold runMemoryUpdates at hw
    rcases List.mem_cons.mp hw with h1 | h1
    · rw [h1]; exact a1
    · exact runMemoryUpdates_planner_not_due host db rest _
        (fun x hx => by rw [a2]; exact h x (List.mem_cons_of_mem _ hx)) w h1

theorem runMemoryUpdates_stuck_not_due (host : MemoryHost) (db : CharacterDatabase) :
    ∀ (times : List Nat) (m : BotMemory),
      (∀ t ∈ times, t < m.nextStuckWriteEarliestMs_) →
      ∀ w ∈ (runMemoryUpdates host db m times).2, w.stuck = []
  | [], _, _, w, hw => by simp [runMemoryUpdates] at hw
  | t :: rest, m, h, w, hw => by
    obtain ⟨a1, a2, _⟩ := UpdateTraced_stuck_not_due host m db t (h t (List.mem_cons_self _ _))
    unfold runMemoryUpdates at hw
    rcases List.mem_cons.mp hw with h1 | h1
    · rw [h1]; exact a1
    · exact runMemoryUpdates_stuck_not_due host db rest _
        (fun x hx => by rw [a2]; exact h x (List.mem_cons_of_mem _ hx)) w h1

theorem runMemoryUpdates_vendor_not_due (host : MemoryHost) (db : CharacterDatabase) :
    ∀ (times : List Nat) (m : BotMemory),
      (∀ t ∈ times, t < m.nextVendorWriteEarliestMs_) →
      ∀ w ∈ (runMemoryUpdates host db m times).2, w.vendors = []
  | [], _, _, w, hw => by simp [runMemoryUpdates] at hw
  | t :: rest, m, h, w, hw => by
    obtain ⟨a1, a2, _⟩ := UpdateTraced_vendor_not_due host m db t (h t (List.mem_cons_self _ _))
    unfold runMemoryUpdates at hw
    rcases List.mem_cons.mp hw with h1 | h1
    · rw [h1]; exact a1
    · exact runMemoryUpdates_vendor_not_due host db rest _
        (fun x hx => by rw [a2]; exact h x (List.mem_cons_of_mem _ hx)) w h1

theorem runMemoryUpdates_starved (host : MemoryHost) (db : CharacterDatabase) :
    ∀ (times : List Nat) (m : BotMemory), tokensBelowOne host db m times = true →
      (∀ w ∈ (runMemoryUpdates host db m times).2, w = {}) ∧
      (runMemoryUpdates host db m times).1 = refillAll host db m times
  | [], _, _ => by simp [runMemoryUpdates, refillAll]
  | t :: rest, m, h => by
    unfold tokensBelowOne at h
    rw [Bool.and_eq_true] at h
    have hu := UpdateTraced_starved host m db t h.1
    have ih := runMemoryUpdates_starved host db rest (memoryAtChecks host m db t) h.2
    unfold runMemoryUpdates refillAll
    rw [hu]
    dsimp only
    refine ⟨?_, ih.2⟩
    intro w hw
    rcases List.mem_cons.mp hw with h1 | h1
    · exact h1
    · exact ih.1 w h1

theorem UpdateTraced_planner_clean (host : MemoryHost) (m : BotMemory)
    (db : CharacterDatabase) (nowMs : Nat) (h : m.plannerDirty_ = false) :
    (BotMemory.UpdateTraced host m db nowMs).2.planner = [] ∧
    (BotMemory.UpdateTraced host m db nowMs).1.plannerDirty_ = false := by
  obtain ⟨hr, h1, h2⟩ := UpdateTraced_blocks host m db nowMs
  obtain ⟨h0, _, _, hd, _, hn, _⟩ := memoryAtChecks_fields host m db nowMs
  have hp : plannerBlock host nowMs (memoryAtChecks host m db nowMs)
      = (memoryAtChecks host m db nowMs, []) := by
    rw [plannerBlock_cases host nowMs _ h0, if_neg]
    intro hc; rw [hd, h] at hc; exact absurd hc.1 (by decide)
  rw [hr]
  obtain ⟨_, _, _, v1, _⟩ := vendorBlock_frame host nowMs _ h2
  obtain ⟨_, _, _, s1, _⟩ := stuckBlock_frame host nowMs _ h1
  dsimp only
  rw [v1, s1, hp]
  exact ⟨rfl, by rw [hd]; exact h⟩

theorem UpdateTraced_stuck_clean (host : MemoryHost) (m : BotMemory)
    (db : CharacterDatabase) (nowMs : Nat)
    (h : (EnsureLoaded m db).stuck_.any (fun kv => kv.2.dirty) = false) :
    (BotMemory.UpdateTraced host m db nowMs).2.stuck = [] ∧
    (BotMemory.UpdateTraced host m db nowMs).1.stuck_ = (EnsureLoaded m db).stuck_ := by
  obtain ⟨hr, h1, h2⟩ := UpdateTraced_blocks host m db nowMs
  obtain ⟨h0, _, _, _, _, _, hn, _, hst, _⟩ := memoryAtChecks_fields host m db nowMs
  obtain ⟨_, _, _, p1, p2, _⟩ := plannerBlock_frame host nowMs _ h0
  have hs : stuckBlock host nowMs (plannerBlock host nowMs (memoryAtChecks host m db nowMs)).1
      = ((plannerBlock host nowMs (memoryAtChecks host m db nowMs)).1, []) := by
    rw [stuckBlock_cases host nowMs _ h1, if_neg]
    intro hc; rw [p1, hst, h] at hc; exact absurd hc.2.1 (by decide)
  rw [hr]
  obtain ⟨_, _, _, _, _, v1, _⟩ := vendorBlock_frame host nowMs _ h2
  dsimp only
  rw [v1, hs]
  dsimp only
  rw [p1]
  exact ⟨rfl, hst⟩

theorem UpdateTraced_vendor_clean (host : MemoryHost) (m : BotMemory)
    (db : CharacterDatabase) (nowMs : Nat) (h : m.vendorsDirty_ = false) :
    (BotMemory.UpdateTraced host m db nowMs).2.vendors = [] ∧
    (BotMemory.UpdateTraced host m db nowMs).1.vendorsDirty_ = false := by
  obtain ⟨hr, h1, h2⟩ := UpdateTraced_blocks host m db nowMs
  obtain ⟨h0, _, _, _, hd, _, _, hn, _, _⟩ := memoryAtChecks_fields host m db nowMs
  obtain ⟨_, _, _, _, _, _, p1, p2⟩ := plannerBlock_frame host nowMs _ h0
  obtain ⟨_, _, _, _, _, _, s1, s2⟩ := stuckBlock_frame host nowMs _ h1
  have hv : vendorBlock host nowMs (stuckBlock host nowMs
        (plannerBlock host nowMs (memoryAtChecks host m db nowMs)).1).1
      = ((stuckBlock host nowMs
        (plannerBlock host nowMs (memoryAtChecks host m db nowMs)).1).1, []) := by
    rw [vendorBlock_cases host nowMs _ h2, if_neg]
    intro hc; rw [s1, p1, hd, h] at hc; exact absurd hc.1 (by decide)
  rw [hr]
  dsimp only
  rw [hv]
  dsimp only
  rw [s1, p1]
  exact ⟨rfl, by rw [hd]; exact h⟩

/-- C11: one `Update(nowMs)` call hands the database the statements of its
planner, stuck and vendor blocks, in this order, and per concern:
(a) when the bucket, refilled for the call's time, holds less than one token,
no statement is executed for any concern and the database is unchanged;
(b) when `nowMs` is earlier than a concern's next-allowed write time, or the
concern is not dirty, no statement is executed for that concern and its
schedule and dirty state stay as they are;
(c) when a concern is dirty, its time has arrived and its block finds at
least one token, the block flushes once: one statement for the planner row,
one statement per dirty stuck entry, one per dirty vendor entry; the concern
is clean afterwards and its next-allowed time is `nowMs` plus the concern's
jitter (32-bit);
(d) for any number of `Update` calls whose times are earlier than a concern's
next-allowed write time (in particular the one a flush has just scheduled),
no statement is executed for that concern;
(e) for any number of `Update` calls at each of which the refilled bucket
holds less than one token, no statement is executed at all. -/
theorem C11_write_behind_gating (host : MemoryHost) (m : BotMemory) (db : CharacterDatabase)
    (nowMs : Nat) :
    (BotMemory.Update host m db nowMs).2.executed =
      db.executed ++ ((BotMemory.UpdateTraced host m db nowMs).2.planner ++
        (BotMemory.UpdateTraced host m db nowMs).2.stuck ++
        (BotMemory.UpdateTraced host m db nowMs).2.vendors) ∧
    (F32.lt (memoryAtChecks host m db nowMs).dbTokens_ (F32.finite 1) = true →
      (BotMemory.UpdateTraced host m db nowMs).2 = {} ∧
      (BotMemory.Update host m db nowMs).2 = db) ∧
    (nowMs < m.nextPlannerWriteEarliestMs_ →
      (BotMemory.UpdateTraced host m db nowMs).2.planner = [] ∧
      (BotMemory.UpdateTraced host m db nowMs).1.nextPlannerWriteEarliestMs_
        = m.nextPlannerWriteEarliestMs_ ∧
      (BotMemory.UpdateTraced host m db nowMs).1.plannerDirty_ = m.plannerDirty_) ∧
    (nowMs < m.nextStuckWriteEarliestMs_ →
      (BotMemory.UpdateTraced host m db nowMs).2.stuck = [] ∧
      (BotMemory.UpdateTraced host m db nowMs).1.nextStuckWriteEarliestMs_
        = m.nextStuckWriteEarliestMs_ ∧
      (BotMemory.UpdateTraced host m db nowMs).1.stuck_ = (EnsureLoaded m db).stuck_) ∧
    (nowMs < m.nextVendorWriteEarliestMs_ →
      (BotMemory.UpdateTraced host m db nowMs).2.vendors = [] ∧
      (BotMemory.UpdateTraced host m db nowMs).1.nextVendorWriteEarliestMs_
        = m.nextVendorWriteEarliestMs_ ∧
      (BotMemory.UpdateTraced host m db nowMs).1.vendorsDirty_ = m.vendorsDirty_) ∧
    (m.plannerDirty_ = true → nowMs ≥ m.nextPlannerWriteEarliestMs_ →
      F32.lt (memoryAtChecks host m db nowMs).dbTokens_ (F32.finite 1) = false →
      (BotMemory.UpdateTraced host m db nowMs).2.planner
        = FlushPlanner host (memoryAtChecks host m db nowMs) ∧
      (BotMemory.UpdateTraced host m db nowMs).2.planner.length = 1 ∧
      (BotMemory.UpdateTraced host m db nowMs).1.plannerDirty_ = false ∧
      (BotMemory.UpdateTraced host m db nowMs).1.nextPlannerWriteEarliestMs_
        = (nowMs + StableJitter m.botGuid_ kPlannerWriteMinMs kPlannerWriteMaxMs +
            m.jitterMs_) % U32) ∧
    ((EnsureLoaded m db).stuck_.any (fun kv => kv.2.dirty) = true →
      nowMs ≥ m.nextStuckWriteEarliestMs_ →
      F32.lt (tokensAtStuckCheck host m db nowMs) (F32.finite 1) = false →
      (BotMemory.UpdateTraced host m db nowMs).2.stuck
        = ((EnsureLoaded m db).stuck_.filter (fun kv => kv.2.dirty)).map
            (fun kv => stuckInsertSql m.botGuid_ (host.EscapeString kv.1) kv.2.stats.attempts) ∧
      (∀ kv ∈ (BotMemory.UpdateTraced host m db nowMs).1.stuck_, kv.2.dirty = false) ∧
      (BotMemory.UpdateTraced host m db nowMs).1.nextStuckWriteEarliestMs_
        = (nowMs + StableJitter m.botGuid_ kStuckWriteMinMs kStuckWriteMaxMs +
            m.jitterMs_) % U32) ∧
    (m.vendorsDirty_ = true → nowMs ≥ m.nextVendorWriteEarliestMs_ →
      F32.lt (tokensAtVendorCheck host m db nowMs) (F32.finite 1) = false →
      (BotMemory.UpdateTraced host m db nowMs).2.vendors
        = ((EnsureLoaded m db).vendors_.filter (fun kv => kv.2.dirty)).map
            (fun kv => vendorReplaceSql host m.botGuid_ kv.2.record) ∧
      (BotMemory.UpdateTraced host m db nowMs).1.vendorsDirty_ = false ∧
      (BotMemory.UpdateTraced host m db nowMs).1.nextVendorWriteEarliestMs_
        = (nowMs + StableJitter m.botGuid_ kVendorWriteMinMs kVendorWriteMaxMs +
            m.jitterMs_) % U32) ∧
    (m.plannerDirty_ = false →
      (BotMemory.UpdateTraced host m db nowMs).2.planner = [] ∧
      (BotMemory.UpdateTraced host m db nowMs).1.plannerDirty_ = false) ∧
    ((EnsureLoaded m db).stuck_.any (fun kv => kv.2.dirty) = false →
      (BotMemory.UpdateTraced host m db nowMs).2.stuck = [] ∧
      (BotMemory.UpdateTraced host m db nowMs).1.stuck_ = (EnsureLoaded m db).stuck_) ∧
    (m.vendorsDirty_ = false →
      (BotMemory.UpdateTraced host m db nowMs).2.vendors = [] ∧
      (BotMemory.UpdateTraced host m db nowMs).1.vendorsDirty_ = false) ∧
    ((m.plannerDirty_ = false ∨ nowMs < m.nextPlannerWriteEarliestMs_) →
      tokensAtStuckCheck host m db nowMs = (memoryAtChecks host m db nowMs).dbTokens_) ∧
    (∀ times : List Nat, (∀ t ∈ times, t < m.nextPlannerWriteEarliestMs_) →
      ∀ w ∈ (runMemoryUpdates host db m times).2, w.planner = []) ∧
    (∀ times : List Nat, (∀ t ∈ times, t < m.nextStuckWriteEarliestMs_) →
      ∀ w ∈ (runMemoryUpdates host db m times).2, w.stuck = []) ∧
    (∀ times : List Nat, (∀ t ∈ times, t < m.nextVendorWriteEarliestMs_) →
      ∀ w ∈ (runMemoryUpdates host db m times).2, w.vendors = []) ∧
    (∀ times : List Nat, tokensBelowOne host db m times = true →
      (∀ w ∈ (runMemoryUpdates host db m times).2, w = {}) ∧
      (runMemoryUpdates host db m times).1 = refillAll host db m times) := by
  refine ⟨?_, ?_, UpdateTraced_planner_not_due host m db nowMs,
    UpdateTraced_stuck_not_due host m db nowMs, UpdateTraced_vendor_not_due host m db nowMs,
    ?_, ?_, ?_, UpdateTraced_planner_clean host m db nowMs,
    UpdateTraced_stuck_clean host m db nowMs, UpdateTraced_vendor_clean host m db nowMs,
    tokensAtStuckCheck_of_planner_idle host m db nowMs,
    fun times => runMemoryUpdates_planner_not_due host db times m,
    fun times => runMemoryUpdates_stuck_not_due host db times m,
    fun times => runMemoryUpdates_vendor_not_due host db times m,
    fun times => runMemoryUpdates_starved host db times m⟩
  · simp only [BotMemory.Update, UpdateWrites.all, List.append_assoc]
  · intro h
    have hu := UpdateTraced_starved host m db nowMs h
    refine ⟨by rw [hu], ?_⟩
    simp only [BotMemory.Update, hu, UpdateWrites.all, List.append_nil]
  · intro hdirty hdue htok
    obtain ⟨a1, a2, a3⟩ := UpdateTraced_planner_flush host m db nowMs hdirty hdue htok
    exact ⟨a1, by rw [a1]; rfl, a2, a3⟩
  · intro hdirty hdue htok
    obtain ⟨a1, a2, a3⟩ := UpdateTraced_stuck_flush host m db nowMs hdirty hdue htok
    obtain ⟨b1, b2, _⟩ := FlushStuck_spec host m.botGuid_ (EnsureLoaded m db).stuck_
    exact ⟨by rw [a1, b2], by rw [a2]; exact b1, a3⟩
  · intro hdirty hdue htok
    obtain ⟨a1, a2, a3⟩ := UpdateTraced_vendor_flush host m db nowMs hdirty hdue htok
    obtain ⟨_, b2⟩ := FlushVendors_spec host m.botGuid_ (EnsureLoaded m db).vendors_
    exact ⟨by rw [a1, b2], a2, a3⟩

/-- C11 at a concrete input: with an empty bucket last refilled at 1000 ms, a
failure recorded at 1000 ms and ten `Update` calls between 1000 and 4600 ms
execute no statement; the `Update` call at 7000 ms, when more than one token
has refilled, executes exactly one statement, the stuck row of key `k`. -/
theorem C11_write_behind_gating_witness :
    (∀ w ∈ (runMemoryUpdates exactHost emptyDatabase starvedMemory starvedTimes).2, w = {}) ∧
    (BotMemory.UpdateTraced exactHost
        (runMemoryUpdates exactHost emptyDatabase starvedMemory starvedTimes).1
        emptyDatabase 7000).2.all = [stuckInsertSql 42 "k" 1] := by
  have hstarved : tokensBelowOne exactHost emptyDatabase starvedMemory starvedTimes = true := by
    simp [tokensBelowOne, starvedTimes, memoryAtChecks, RefillDbTokens, starvedMemory,
      RecordFailure, EnsureLoaded, exactHost, F32.lt, kDbTokenMax]
    norm_num
  have hrun := (C11_write_behind_gating exactHost starvedMemory emptyDatabase
    0).2.2.2.2.2.2.2.2.2.2.2.2.2.2.2 starvedTimes hstarved
  refine ⟨hrun.1, ?_⟩
  rw [hrun.2]
  have hall := C11_write_behind_gating exactHost
    (refillAll exactHost emptyDatabase starvedMemory starvedTimes) emptyDatabase 7000
  have hflush := hall.2.2.2.2.2.2.1
    (by
      simp [refillAll, starvedTimes, memoryAtChecks, RefillDbTokens, starvedMemory,
        RecordFailure, EnsureLoaded, exactHost, StuckMap.assign, StuckMap.find, evictIfOver,
        kStuckMaxEntries])
    (by
      simp [refillAll, starvedTimes, memoryAtChecks, RefillDbTokens, starvedMemory,
        RecordFailure, EnsureLoaded, exactHost, StuckMap.assign, StuckMap.find, evictIfOver,
        kStuckMaxEntries])
    (by
      simp [tokensAtStuckCheck, plannerBlock, refillAll, starvedTimes, memoryAtChecks,
        RefillDbTokens, starvedMemory, RecordFailure, EnsureLoaded, exactHost, F32.lt,
        kDbTokenMax]
      norm_num)
  have hplanner := hall.2.2.2.2.2.2.2.2.1
    (by
      simp [refillAll, starvedTimes, memoryAtChecks, RefillDbTokens, starvedMemory,
        RecordFailure, EnsureLoaded, exactHost])
  have hvendor := hall.2.2.2.2.2.2.2.2.2.2.1
    (by
      simp [refillAll, starvedTimes, memoryAtChecks, RefillDbTokens, starvedMemory,
        RecordFailure, EnsureLoaded, exactHost])
  unfold UpdateWrites.all
  rw [hflush.1, hplanner.1, hvendor.1]
  simp [refillAll, starvedTimes, memoryAtChecks, RefillDbTokens, starvedMemory,
    RecordFailure, EnsureLoaded, exactHost, StuckMap.assign, StuckMap.find, evictIfOver,
    kStuckMaxEntries, emptyDatabase]
  rfl

/-! ### Path moves: what a failed start leaves behind -/

/-- The movement state after `StartPathMove` returned false for a present bot:
untouched when the request was rejected at the activity test, and otherwise
inactive. -/
theorem StartPathMove_false (botMapId : Nat)
    (CalculatePath : WorldPosition → Option (List Position3))
    (mv : BotMovement) (dest : WorldPosition) (reason : MoveReason)
    (hfalse : (BotMovement.StartPathMove botMapId CalculatePath mv dest reason).2 = false) :
    (mv.active_ = true → ¬ (mv.reason_ = MoveReason.Travel ∧ reason ≠ MoveReason.Travel) →
      BotMovement.StartPathMove botMapId CalculatePath mv dest reason = (mv, false)) ∧
    (mv.active_ = false ∨ (mv.reason_ = MoveReason.Travel ∧ reason ≠ MoveReason.Travel) →
      (BotMovement.StartPathMove botMapId CalculatePath mv dest reason).1.active_ = false ∧
      (BotMovement.StartPathMove botMapId CalculatePath mv dest reason).1.bot_ = false ∧
      (BotMovement.StartPathMove botMapId CalculatePath mv dest reason).1.reason_ = reason) := by
  constructor
  · intro ha hn
    unfold BotMovement.StartPathMove
    rw [if_pos ⟨ha, hn⟩]
  · intro hy
    have hg : ¬ (mv.active_ = true ∧
        ¬ (mv.reason_ = MoveReason.Travel ∧ reason ≠ MoveReason.Travel)) := by
      rintro ⟨ha, hn⟩
      rcases hy with h | h
      · rw [h] at ha; exact absurd ha (by decide)
      · exact hn h
    unfold BotMovement.StartPathMove at hfalse ⊢
    rw [if_neg hg] at hfalse ⊢
    simp only [BotMovement.BuildPath, Bool.not_true, Bool.false_eq_true, if_false] at hfalse ⊢
    by_cases hmap : botMapId = dest.mapId
    · simp only [hmap, ne_eq, not_true_eq_false, if_false] at hfalse ⊢
      cases hp : CalculatePath dest with
      | none =>
        by_cases ha : mv.active_ = true
        · simp [ha, BotMovement.Abort]
        · simp only [Bool.not_eq_true] at ha
          simp [ha]
      | some path =>
        cases path with
        | nil =>
          by_cases ha : mv.active_ = true
          · simp [ha, BotMovement.Abort]
          · simp only [Bool.not_eq_true] at ha
            simp [ha]
        | cons p ps =>
          rw [hp] at hfalse
          simp at hfalse
    · have hmap' : botMapId ≠ dest.mapId := hmap
      simp only [hmap', ne_eq, not_false_eq_true, if_true]
      by_cases ha : mv.active_ = true
      · simp [ha, BotMovement.Abort]
      · simp only [Bool.not_eq_true] at ha
        simp [ha]

/-- C29, as stated, fails: a bot on map 0 has an active `Travel` move; a `Combat`
request whose path generation fails returns false, and the movement, which
reported `IsMoving()` before the call, is no longer moving afterwards. -/
theorem C29_failed_preemption_cancels_travel :
    (BotMovement.StartPathMoveFor (some 0) noPath
        { bot_ := true, active_ := true, reason_ := MoveReason.Travel }
        ⟨0, .finite 1, .finite 2, .finite 3⟩ MoveReason.Combat).2 = false ∧
    (BotMovement.StartPathMoveFor (some 0) noPath
        { bot_ := true, active_ := true, reason_ := MoveReason.Travel }
        ⟨0, .finite 1, .finite 2, .finite 3⟩ MoveReason.Combat).1.IsMoving = false ∧
    BotMovement.IsMoving { bot_ := true, active_ := true, reason_ := MoveReason.Travel } = true := by
  refine ⟨rfl, rfl, rfl⟩

/-- C29, amended: whenever `StartPathMove` returns false, the movement is left
exactly as it was when the bot is absent or the request is rejected because a
move is active and is not pre-empted, and `IsMoving()` is unchanged (false
before and after) when no move was active; when the request pre-empted an
active `Travel` move (requested reason not `Travel`) and path generation then
failed, `IsMoving()` is false after the call although it was true before. -/
theorem C29_StartPathMove_on_failure (bot : Option Nat)
    (CalculatePath : WorldPosition → Option (List Position3))
    (mv : BotMovement) (dest : WorldPosition) (reason : MoveReason)
    (hfalse : (BotMovement.StartPathMoveFor bot CalculatePath mv dest reason).2 = false) :
    (bot = none → BotMovement.StartPathMoveFor bot CalculatePath mv dest reason = (mv, false)) ∧
    (mv.active_ = true → ¬ (mv.reason_ = MoveReason.Travel ∧ reason ≠ MoveReason.Travel) →
      BotMovement.StartPathMoveFor bot CalculatePath mv dest reason = (mv, false)) ∧
    (mv.active_ = false →
      (BotMovement.StartPathMoveFor bot CalculatePath mv dest reason).1.IsMoving
        = mv.IsMoving) ∧
    (bot ≠ none → mv.active_ = true → mv.reason_ = MoveReason.Travel →
      reason ≠ MoveReason.Travel →
      mv.IsMoving = true ∧
      (BotMovement.StartPathMoveFor bot CalculatePath mv dest reason).1.IsMoving = false) := by
  cases bot with
  | none =>
    refine ⟨fun _ => rfl, fun _ _ => rfl, fun _ => rfl, fun h => absurd rfl h⟩
  | some botMapId =>
    have hfalse2 : (BotMovement.StartPathMove botMapId CalculatePath mv dest reason).2 = false :=
      hfalse
    obtain ⟨h1, h2⟩ := StartPathMove_false botMapId CalculatePath mv dest reason hfalse2
    refine ⟨fun h => (by cases h), h1, ?_, ?_⟩
    · intro ha
      exact (show (BotMovement.StartPathMove botMapId CalculatePath mv dest reason).1.active_
          = mv.active_ from by rw [(h2 (Or.inl ha)).1, ha])
    · intro _ ha ht hr
      exact ⟨ha, (h2 (Or.inr ⟨ht, hr⟩)).1⟩

/-- C29 (amended) at a concrete input: an idle movement and a `Travel` request
whose path generation fails; the call returns false and `IsMoving()` is false
before and after. -/
theorem C29_StartPathMove_on_failure_witness :
    (BotMovement.StartPathMoveFor (some 0) noPath {}
        ⟨0, .finite 1, .finite 2, .finite 3⟩ MoveReason.Travel).1.IsMoving
      = BotMovement.IsMoving {} :=
  (C29_StartPathMove_on_failure (some 0) noPath {} ⟨0, .finite 1, .finite 2, .finite 3⟩
    MoveReason.Travel rfl).2.2.1 rfl

/-! ### Goal rings: stored form -/

theorem serializeLoop_false_cons (item : List Char) (rest : List (List Char)) :
    serializeLoop false (item :: rest) = '\n' :: serializeLoop true (item :: rest) := by
  simp [serializeLoop]

theorem getlines_line_then (tail : List Char) :
    ∀ item : List Char, '\n' ∉ item → getlines (item ++ '\n' :: tail) = item :: getlines tail
  | [], _ => by simp [getlines]
  | c :: cs, h => by
    simp only [List.mem_cons, not_or] at h
    have hc : c ≠ '\n' := fun hc => h.1 hc.symm
    have ih := getlines_line_then tail cs h.2
    rw [List.cons_append, getlines, if_neg hc, ih]

theorem getlines_single :
    ∀ item : List Char, item ≠ [] → '\n' ∉ item → getlines item = [item]
  | [], h, _ => absurd rfl h
  | [c], _, h => by
    simp only [List.mem_singleton] at h
    have hc : c ≠ '\n' := fun hc => h hc.symm
    simp [getlines, hc]
  | c :: c2 :: cs, _, h => by
    have h2 : '\n' ∉ c2 :: cs := fun hm => h (List.mem_cons_of_mem _ hm)
    have hc : c ≠ '\n' := fun hc => h (hc ▸ List.mem_cons_self _ _)
    have ih := getlines_single (c2 :: cs) (List.cons_ne_nil _ _) h2
    rw [getlines, if_neg hc, ih]

theorem getlines_SerializeRing :
    ∀ ring : List (List Char), (∀ goal ∈ ring, goal ≠ [] ∧ '\n' ∉ goal) →
      getlines (SerializeRing ring) = ring
  | [], _ => by simp [SerializeRing, serializeLoop, getlines]
  | [item], h => by
    have := h item (List.mem_singleton_self _)
    simp only [SerializeRing, serializeLoop, if_true, List.nil_append, List.append_nil]
    exact getlines_single item this.1 this.2
  | item :: item2 :: rest, h => by
    have hi := h item (List.mem_cons_self _ _)
    have ih := getlines_SerializeRing (item2 :: rest)
      (fun g hg => h g (List.mem_cons_of_mem _ hg))
    unfold SerializeRing at ih ⊢
    rw [serializeLoop, if_pos rfl, List.nil_append, serializeLoop_false_cons,
      getlines_line_then _ item hi.2, ih]

theorem deserializeLoop_all :
    ∀ (lines out : List (List Char)), (∀ line ∈ lines, line ≠ []) →
      out.length + lines.length ≤ kGoalRingCap → deserializeLoop out lines = out ++ lines
  | [], out, _, _ => by simp [deserializeLoop]
  | line :: rest, out, h, hlen => by
    have hl : line ≠ [] := h line (List.mem_cons_self _ _)
    simp only [List.length_cons] at hlen
    unfold deserializeLoop
    simp only [hl, if_false, List.length_append, List.length_singleton]
    by_cases hfull : out.length + 1 ≥ kGoalRingCap
    · have hr : rest = [] := List.length_eq_zero.mp (by omega)
      rw [if_pos hfull, hr]
    · rw [if_neg hfull, deserializeLoop_all rest (out ++ [line])
        (fun l hm => h l (List.mem_cons_of_mem _ hm))
        (by simp only [List.length_append, List.length_singleton]; omega)]
      simp

theorem ringPopFrontWhileOver_spec (cap : Nat) :
    ∀ ring : List (List Char),
      (ringPopFrontWhileOver cap ring).length ≤ max cap 0 ∧
      (ringPopFrontWhileOver cap ring) = ring.drop (ring.length - cap)
  | [] => by simp [ringPopFrontWhileOver]
  | item :: rest => by
    obtain ⟨ih1, ih2⟩ := ringPopFrontWhileOver_spec cap rest
    unfold ringPopFrontWhileOver
    by_cases h : (item :: rest).length > cap
    · rw [if_pos h]
      refine ⟨ih1, ?_⟩
      have h1 : (item :: rest).length - cap = (rest.length - cap) + 1 := by
        simp only [List.length_cons] at h ⊢; omega
      rw [h1, List.drop_succ_cons, ih2]
    · rw [if_neg h]
      have h1 : (item :: rest).length - cap = 0 := by omega
      rw [h1, List.drop_zero]
      exact ⟨by simp only [Nat.max_zero]; omega, rfl⟩

/-- C30, as stated, fails: a ring holding the single non-empty goal
`Kill boars.` line feed `Then rest.` is stored as that text, and reading the
stored form back gives a ring of two goals. -/
theorem C30_line_feed_splits_a_goal :
    DeserializeRing (SerializeRing ["Kill boars.\nThen rest.".toList])
      = ["Kill boars.".toList, "Then rest.".toList] ∧
    DeserializeRing (SerializeRing ["Kill boars.\nThen rest.".toList])
      ≠ ["Kill boars.\nThen rest.".toList] := by
  refine ⟨by decide, by decide⟩

/-- C30, amended: for every goal ring of at most 25 strings that are non-empty
and hold no line feed, `DeserializeRing(SerializeRing(ring))` equals the ring;
`AppendRing` with the cap 25 keeps a ring at 25 entries or fewer (dropping from
the front), never stores an empty string, and leaves the ring alone when the
value is empty. -/
theorem C30_ring_round_trip (ring : List (List Char))
    (hlen : ring.length ≤ kGoalRingCap)
    (hgoals : ∀ goal ∈ ring, goal ≠ [] ∧ '\n' ∉ goal) :
    DeserializeRing (SerializeRing ring) = ring ∧
    (∀ value : List Char,
      (AppendRing ring value kGoalRingCap).length ≤ kGoalRingCap ∧
      (value = [] → AppendRing ring value kGoalRingCap = ring) ∧
      (value ≠ [] → AppendRing ring value kGoalRingCap
        = (ring ++ [value]).drop (ring.length + 1 - kGoalRingCap)) ∧
      (∀ goal ∈ AppendRing ring value kGoalRingCap, goal ≠ [])) := by
  constructor
  · unfold DeserializeRing
    rw [getlines_SerializeRing ring hgoals]
    have := deserializeLoop_all ring [] (fun l hl => (hgoals l hl).1)
      (by simp only [List.length_nil]; omega)
    simpa using this
  · intro value
    unfold AppendRing
    by_cases hv : value = []
    · simp only [hv, if_true]
      exact ⟨hlen, fun _ => trivial, fun h => absurd rfl h, fun g hg => (hgoals g hg).1⟩
    · simp only [hv, if_false]
      obtain ⟨h1, h2⟩ := ringPopFrontWhileOver_spec kGoalRingCap (ring ++ [value])
      refine ⟨by simpa using h1, fun h => h.elim, fun _ => ?_, ?_⟩
      · rw [h2]; simp
      · intro goal hg
        rw [h2] at hg
        have hm := List.mem_of_mem_drop hg
        rcases List.mem_append.mp hm with h | h
        · exact (hgoals goal h).1
        · simp only [List.mem_singleton] at h
          rw [h]; exact hv

/-- C30 (amended) at a concrete input: a ring of two one-sentence goals is read
back unchanged from its stored form. -/
theorem C30_ring_round_trip_witness :
    DeserializeRing (SerializeRing ["Reach level 10.".toList, "Learn fishing.".toList])
      = ["Reach level 10.".toList, "Learn fishing.".toList] :=
  (C30_ring_round_trip ["Reach level 10.".toList, "Learn fishing.".toList] (by decide)
    (by decide)).1

/-! ### Control failure backoff -/

theorem applyFailureBackoff_cooldown (nowMs failureNowMs : Nat) (state : ControlBackoffState)
    (g : GlobalControlState) :
    kOllamaBaseCooldownMs ≤ (applyFailureBackoff nowMs failureNowMs state g).1.ollamaCooldownMs ∧
    (applyFailureBackoff nowMs failureNowMs state g).1.ollamaCooldownMs ≤ kOllamaMaxCooldownMs ∧
    (state.ollamaCooldownMs ≤ kOllamaMaxCooldownMs →
      kOllamaBaseCooldownMs ≤ state.ollamaCooldownMs →
      (applyFailureBackoff nowMs failureNowMs state g).1.ollamaCooldownMs
        = min (state.ollamaCooldownMs * 2) kOllamaMaxCooldownMs) ∧
    (applyFailureBackoff nowMs failureNowMs state g).1.nextAllowedAttemptMs
      = (nowMs + (applyFailureBackoff nowMs failureNowMs state g).1.ollamaCooldownMs) % U32 := by
  unfold applyFailureBackoff kOllamaBaseCooldownMs kOllamaMaxCooldownMs
  dsimp only
  refine ⟨by omega, by omega, ?_, rfl⟩
  intro h1 h2
  have : (state.ollamaCooldownMs * 2) % U32 = state.ollamaCooldownMs * 2 :=
    Nat.mod_eq_of_lt (by unfold U32; omega)
  rw [this]
  omega

theorem applyFailures_cooldown :
    ∀ (failures : List (Nat × Nat)) (state : ControlBackoffState) (g : GlobalControlState)
      (k : Nat), state.ollamaCooldownMs = min (5000 * 2 ^ k) 60000 →
      (applyFailures state g failures).1.ollamaCooldownMs
        = min (5000 * 2 ^ (k + failures.length)) 60000
  | [], state, g, k, h => by simpa [applyFailures] using h
  | (nowMs, failureNowMs) :: rest, state, g, k, h => by
    unfold applyFailures
    have hstep := (applyFailureBackoff_cooldown nowMs failureNowMs state g).2.2.1
      (by rw [h]; unfold kOllamaMaxCooldownMs; omega)
      (by
        rw [h]; unfold kOllamaBaseCooldownMs
        have : 1 ≤ 2 ^ k := Nat.one_le_two_pow
        omega)
    have hnext : (applyFailureBackoff nowMs failureNowMs state g).1.ollamaCooldownMs
        = min (5000 * 2 ^ (k + 1)) 60000 := by
      rw [hstep, h]
      unfold kOllamaMaxCooldownMs
      rw [pow_succ]
      omega
    rw [applyFailures_cooldown rest _ _ (k + 1) hnext]
    simp only [List.length_cons]
    congr 3
    omega

/-- C25: the per-bot control cooldown starts at 5,000 ms. Every failure stores a
cooldown within [5,000, 60,000] and uses it for the next allowed attempt
(`nowMs + cooldown`, 32-bit); from a stored value within that range the new
value is `min(2 * previous, 60,000)`. Hence after `k` consecutive failures
since the start or since the last accepted tool call the cooldown is
`min(5,000 * 2^k, 60,000)`: 10,000, 20,000, 40,000, then 60,000 for good. An
accepted tool call resets the cooldown to 5,000 ms. -/
theorem C25_control_cooldown_backoff (nowMs failureNowMs shortTermDelayMs : Nat)
    (capability : Capability) (state : ControlBackoffState) (g : GlobalControlState)
    (failures : List (Nat × Nat)) :
    ({} : ControlBackoffState).ollamaCooldownMs = 5000 ∧
    5000 ≤ (applyFailureBackoff nowMs failureNowMs state g).1.ollamaCooldownMs ∧
    (applyFailureBackoff nowMs failureNowMs state g).1.ollamaCooldownMs ≤ 60000 ∧
    (5000 ≤ state.ollamaCooldownMs → state.ollamaCooldownMs ≤ 60000 →
      (applyFailureBackoff nowMs failureNowMs state g).1.ollamaCooldownMs
        = min (state.ollamaCooldownMs * 2) 60000) ∧
    (applyFailureBackoff nowMs failureNowMs state g).1.nextAllowedAttemptMs
      = (nowMs + (applyFailureBackoff nowMs failureNowMs state g).1.ollamaCooldownMs) % U32 ∧
    (acceptedToolCall nowMs shortTermDelayMs capability state).ollamaCooldownMs = 5000 ∧
    (applyFailures (acceptedToolCall nowMs shortTermDelayMs capability state) g
        failures).1.ollamaCooldownMs = min (5000 * 2 ^ failures.length) 60000 ∧
    (applyFailures {} g failures).1.ollamaCooldownMs = min (5000 * 2 ^ failures.length) 60000 ∧
    (5000 ≤ (applyFailures {} g failures).1.ollamaCooldownMs ∧
      (applyFailures {} g failures).1.ollamaCooldownMs ≤ 60000) := by
  obtain ⟨h1, h2, h3, h4⟩ := applyFailureBackoff_cooldown nowMs failureNowMs state g
  have haccept : (acceptedToolCall nowMs shortTermDelayMs capability state).ollamaCooldownMs
      = 5000 := by
    unfold acceptedToolCall
    dsimp only
    split <;> rfl
  have hrun1 := applyFailures_cooldown failures
    (acceptedToolCall nowMs shortTermDelayMs capability state) g 0
    (by rw [haccept]; rfl)
  have hrun2 := applyFailures_cooldown failures {} g 0 rfl
  rw [Nat.zero_add] at hrun1 hrun2
  refine ⟨rfl, h1, h2, fun a b => h3 b a, h4, haccept, hrun1, hrun2, ?_, ?_⟩
  · rw [hrun2]
    have : 1 ≤ 2 ^ failures.length := Nat.one_le_two_pow
    omega
  · rw [hrun2]; omega

/-- C25 at a concrete input: three consecutive failures of a fresh bot leave a
cooldown of 40,000 ms, and a failure on a stored cooldown of 40,000 ms stores
60,000 ms. -/
theorem C25_control_cooldown_backoff_witness :
    (applyFailures {} {} [(1000, 1000), (12000, 12000), (33000, 33000)]).1.ollamaCooldownMs
      = min (5000 * 2 ^ 3) 60000 ∧
    (applyFailureBackoff 74000 74000 { ollamaCooldownMs := 40000 } {}).1.ollamaCooldownMs
      = min (40000 * 2) 60000 :=
  ⟨(C25_control_cooldown_backoff 0 0 0 Capability.Idle {} {}
      [(1000, 1000), (12000, 12000), (33000, 33000)]).2.2.2.2.2.2.2.1,
   (C25_control_cooldown_backoff 74000 74000 0 Capability.Idle { ollamaCooldownMs := 40000 } {}
      []).2.2.2.1 (by decide) (by decide)⟩

theorem recordGlobalFailure_in_window (nowMs : Nat) (g : GlobalControlState)
    (hwin : subU32 nowMs g.globalFailureWindowStartMs ≤ kGlobalFailureWindowMs)
    (hcount : g.globalFailureCount + 1 < U32) :
    recordGlobalFailure nowMs g =
      if g.globalFailureCount + 1 ≥ kGlobalFailureThreshold then
        { globalFailureWindowStartMs := nowMs, globalFailureCount := 0,
          globalControlPauseUntilMs := (nowMs + kGlobalControlPauseMs) % U32 }
      else { g with globalFailureCount := g.globalFailureCount + 1 } := by
  unfold recordGlobalFailure
  have h1 : ¬ (subU32 nowMs g.globalFailureWindowStartMs > kGlobalFailureWindowMs) := by omega
  simp only [if_neg h1, Nat.mod_eq_of_lt hcount]

theorem recordGlobalFailure_window_over (nowMs : Nat) (g : GlobalControlState)
    (hwin : subU32 nowMs g.globalFailureWindowStartMs > kGlobalFailureWindowMs) :
    recordGlobalFailure nowMs g =
      { g with globalFailureWindowStartMs := nowMs, globalFailureCount := 1 } := by
  unfold recordGlobalFailure
  simp only [if_pos hwin]
  have : (0 + 1) % U32 = 1 := by decide
  simp only [this]
  have h2 : ¬ (1 ≥ kGlobalFailureThreshold) := by decide
  rw [if_neg h2]

/-- Failures inside the current window that do not reach the threshold only
raise the counter. -/
theorem recordGlobalFailures_below_threshold :
    ∀ (times : List Nat) (g : GlobalControlState),
      (∀ t ∈ times, subU32 t g.globalFailureWindowStartMs ≤ kGlobalFailureWindowMs) →
      g.globalFailureCount + times.length < kGlobalFailureThreshold →
      recordGlobalFailures g times =
        { g with globalFailureCount := g.globalFailureCount + times.length }
  | [], g, _, _ => by simp [recordGlobalFailures]
  | t :: rest, g, hwin, hlen => by
    simp only [List.length_cons] at hlen
    unfold recordGlobalFailures
    have hstep := recordGlobalFailure_in_window t g (hwin t (List.mem_cons_self _ _))
      (by unfold kGlobalFailureThreshold at hlen; unfold U32; omega)
    rw [if_neg (by omega)] at hstep
    have ih := recordGlobalFailures_below_threshold rest
      { g with globalFailureCount := g.globalFailureCount + 1 }
      (fun x hx => hwin x (List.mem_cons_of_mem _ hx)) (by dsimp only; omega)
    rw [hstep, ih]
    simp only [List.length_cons]
    congr 1
    omega

theorem recordGlobalFailures_append (g : GlobalControlState) (times later : List Nat) :
    recordGlobalFailures g (times ++ later)
      = recordGlobalFailures (recordGlobalFailures g times) later := by
  induction times generalizing g with
  | nil => rfl
  | cons t rest ih =>
    show recordGlobalFailures (recordGlobalFailure t g) (rest ++ later)
      = recordGlobalFailures (recordGlobalFailures (recordGlobalFailure t g) rest) later
    exact ih _

/-- C26, as stated, fails: starting from the initial process state, 20 failures
at 50,000 ms and 20 failures at 70,000 ms are 40 failures within a span of
20,000 ms, yet after none of them a pause is imposed: the first failure at
70,000 ms is more than 60,000 ms after the window start 0 and restarts the
count. -/
theorem C26_window_is_not_rolling :
    (List.replicate 20 50000 ++ List.replicate 20 70000).length = 40 ∧
    (∀ t ∈ List.replicate 20 50000 ++ List.replicate 20 70000, 50000 ≤ t ∧ t ≤ 50000 + 60000) ∧
    (∀ n, n ≤ 40 →
      (recordGlobalFailures {}
        ((List.replicate 20 50000 ++ List.replicate 20 70000).take n)).globalControlPauseUntilMs
        = 0) ∧
    (recordGlobalFailures {} (List.replicate 20 50000 ++ List.replicate 20 70000))
      = { globalFailureWindowStartMs := 70000, globalFailureCount := 20,
          globalControlPauseUntilMs := 0 } := by
  refine ⟨by decide, by decide, ?_, ?_⟩
  · set_option maxRecDepth 100000 in decide
  · set_option maxRecDepth 100000 in decide

/-- C26, amended: failures are counted in a fixed window. A failure recorded more
than 60,000 ms (32-bit difference) after the window start restarts the window
at that failure with a count of 1 and imposes no pause. Failures recorded
within 60,000 ms of the window start raise the count, and the failure that
brings the count of the current window to 40 imposes a global control pause
until `nowMs + 3,000` (32-bit) and restarts the window at that failure with a
count of 0. -/
theorem C26_fixed_window_pause (g : GlobalControlState) (times : List Nat) (nowMs : Nat) :
    (subU32 nowMs g.globalFailureWindowStartMs > 60000 →
      recordGlobalFailure nowMs g =
        { g with globalFailureWindowStartMs := nowMs, globalFailureCount := 1 }) ∧
    ((∀ t ∈ times, subU32 t g.globalFailureWindowStartMs ≤ 60000) →
      g.globalFailureCount + times.length < 40 →
      recordGlobalFailures g times =
        { g with globalFailureCount := g.globalFailureCount + times.length }) ∧
    ((∀ t ∈ times, subU32 t g.globalFailureWindowStartMs ≤ 60000) →
      subU32 nowMs g.globalFailureWindowStartMs ≤ 60000 →
      g.globalFailureCount + times.length + 1 = 40 →
      recordGlobalFailures g (times ++ [nowMs]) =
        { globalFailureWindowStartMs := nowMs, globalFailureCount := 0,
          globalControlPauseUntilMs := (nowMs + 3000) % U32 }) := by
  refine ⟨recordGlobalFailure_window_over nowMs g,
    recordGlobalFailures_below_threshold times g, ?_⟩
  intro hwin hnow hcount
  rw [recordGlobalFailures_append,
    recordGlobalFailures_below_threshold times g hwin
      (by unfold kGlobalFailureThreshold; omega)]
  simp only [recordGlobalFailures]
  have hstep := recordGlobalFailure_in_window nowMs
    { g with globalFailureCount := g.globalFailureCount + times.length } hnow
    (by dsimp only; unfold U32; omega)
  rw [if_pos (by dsimp only; unfold kGlobalFailureThreshold; omega)] at hstep
  rw [hstep]
  rfl

/-- C26 (amended) at a concrete input: from the initial process state, 39 failures
at 50,000 ms and one at 55,000 ms impose a pause until 58,000 ms. -/
theorem C26_fixed_window_pause_witness :
    recordGlobalFailures {} (List.replicate 39 50000 ++ [55000])
      = { globalFailureWindowStartMs := 55000, globalFailureCount := 0,
          globalControlPauseUntilMs := (55000 + 3000) % U32 } :=
  (C26_fixed_window_pause {} (List.replicate 39 50000) 55000).2.2
    (by
      intro t ht
      rw [List.eq_of_mem_replicate ht]
      decide)
    (by decide) (by decide)

/-! ### Reply extraction -/

theorem braceDepth_take_succ_cons (c : Char) (rest : List Char) (j : Nat) :
    braceDepth ((c :: rest).take (j + 1)) = braceDelta c + braceDepth (rest.take j) := by
  simp [braceDepth]

/-- The scan inside an object: from depth `d >= 1` the loop either never sees the
depth return to 0 and yields the empty text, or returns the text from `start`
up to the first character at which the depth is 0. -/
theorem extractLoop_inside (input : List Char) (s : Nat) :
    ∀ (rest : List Char) (i : Nat) (d : Int), 1 ≤ d → s ≤ i →
      ((∀ j, 1 ≤ j → j ≤ rest.length → 0 < d + braceDepth (rest.take j)) ∧
        extractLoop input rest i d (some s) = []) ∨
      (∃ k, 1 ≤ k ∧ k ≤ rest.length ∧ d + braceDepth (rest.take k) = 0 ∧
        (∀ j, 1 ≤ j → j < k → 0 < d + braceDepth (rest.take j)) ∧
        extractLoop input rest i d (some s) = substr input s (i + k - s))
  | [], i, d, _, _ => by
    left
    refine ⟨?_, rfl⟩
    intro j h1 h2
    simp only [List.length_nil] at h2
    omega
  | c :: rest, i, d, hd, hs => by
    have hd0 : d ≠ 0 := by omega
    have hlift : ∀ (d2 : Int), d2 = d + braceDelta c → 1 ≤ d2 →
        ((∀ j, 1 ≤ j → j ≤ rest.length → 0 < d2 + braceDepth (rest.take j)) ∧
          extractLoop input rest (i + 1) d2 (some s) = []) ∨
        (∃ k, 1 ≤ k ∧ k ≤ rest.length ∧ d2 + braceDepth (rest.take k) = 0 ∧
          (∀ j, 1 ≤ j → j < k → 0 < d2 + braceDepth (rest.take j)) ∧
          extractLoop input rest (i + 1) d2 (some s) = substr input s (i + 1 + k - s)) →
        ((∀ j, 1 ≤ j → j ≤ (c :: rest).length →
            0 < d + braceDepth ((c :: rest).take j)) ∧
          extractLoop input rest (i + 1) d2 (some s) = []) ∨
        (∃ k, 1 ≤ k ∧ k ≤ (c :: rest).length ∧ d + braceDepth ((c :: rest).take k) = 0 ∧
          (∀ j, 1 ≤ j → j < k → 0 < d + braceDepth ((c :: rest).take j)) ∧
          extractLoop input rest (i + 1) d2 (some s) = substr input s (i + k - s)) := by
      intro d2 hd2 hpos ih
      rcases ih with ⟨hnever, hres⟩ | ⟨k, hk1, hk2, hk3, hk4, hres⟩
      · left
        refine ⟨?_, hres⟩
        intro j hj1 hj2
        obtain ⟨j2, rfl⟩ : ∃ j2, j = j2 + 1 := ⟨j - 1, by omega⟩
        rw [braceDepth_take_succ_cons]
        by_cases hj0 : j2 = 0
        · subst hj0
          simp only [List.take_zero, braceDepth, List.map_nil, List.sum_nil]
          omega
        · have := hnever j2 (by omega) (by simp only [List.length_cons] at hj2; omega)
          omega
      · right
        refine ⟨k + 1, by omega, by simp only [List.length_cons]; omega, ?_, ?_, ?_⟩
        · rw [braceDepth_take_succ_cons]; omega
        · intro j hj1 hj2
          obtain ⟨j2, rfl⟩ : ∃ j2, j = j2 + 1 := ⟨j - 1, by omega⟩
          rw [braceDepth_take_succ_cons]
          by_cases hj0 : j2 = 0
          · subst hj0
            simp only [List.take_zero, braceDepth, List.map_nil, List.sum_nil]
            omega
          · have := hk4 j2 (by omega) (by omega)
            omega
        · rw [hres]
          congr 1
          omega
    unfold extractLoop
    by_cases ho : c = '\x7b'
    · have hc : ¬ (c = '\x7d') := by rw [ho]; decide
      have hdelta : braceDelta c = 1 := by simp [braceDelta, ho]
      simp only [ho, hd0, and_false, if_false, if_true]
      have hne : ¬ ('\x7b' = '\x7d') := by decide
      simp only [hne, if_false]
      rw [← ho]
      exact hlift (d + 1) (by rw [hdelta]) (by omega)
        (extractLoop_inside input s rest (i + 1) (d + 1) (by omega) (by omega))
    · by_cases hcl : c = '\x7d'
      · have hdelta : braceDelta c = -1 := by simp [braceDelta, hcl]
        simp only [ho, false_and, if_false, hcl, if_true]
        have hne : ¬ ('\x7d' = '\x7b') := by decide
        simp only [hne, false_and, if_false]
        by_cases h1 : d - 1 = 0
        · rw [if_pos h1]
          right
          refine ⟨1, le_refl _, by simp, ?_, ?_, ?_⟩
          · rw [braceDepth_take_succ_cons]
            simp only [List.take_zero, braceDepth, List.map_nil, List.sum_nil]
            rw [← hcl, hdelta]; omega
          · intro j hj1 hj2; omega
          · congr 1; omega
        · rw [if_neg h1]
          rw [← hcl]
          exact hlift (d - 1) (by rw [hdelta]; omega) (by omega)
            (extractLoop_inside input s rest (i + 1) (d - 1) (by omega) (by omega))
      · have hdelta : braceDelta c = 0 := by simp [braceDelta, ho, hcl]
        simp only [ho, false_and, if_false, hcl]
        exact hlift d (by rw [hdelta]; omega) hd
          (extractLoop_inside input s rest (i + 1) d hd (by omega))

/-- The scan before the first opening brace, over characters that are no braces. -/
theorem extractLoop_before (input rest : List Char) :
    ∀ (pre : List Char) (i : Nat), (∀ c ∈ pre, c ≠ '\x7b' ∧ c ≠ '\x7d') →
      extractLoop input (pre ++ rest) i 0 none = extractLoop input rest (i + pre.length) 0 none
  | [], i, _ => by simp
  | c :: pre, i, h => by
    obtain ⟨h1, h2⟩ := h c (List.mem_cons_self _ _)
    rw [List.cons_append, extractLoop]
    simp only [h1, false_and, if_false, h2]
    rw [extractLoop_before input rest pre (i + 1) (fun x hx => h x (List.mem_cons_of_mem _ hx))]
    simp only [List.length_cons]
    congr 1
    omega

/-- C27, as stated, fails: in the reply `{"a": {"b":1}` the first opening brace
is never closed; the reply contains the balanced object `{"b":1}` (an opening
brace, a body without braces, a closing brace), and `ExtractFirstJsonObject`
returns the empty text. -/
theorem C27_unclosed_first_brace_hides_object :
    ExtractFirstJsonObject "\x7b\"a\": \x7b\"b\":1\x7d".toList = [] ∧
    ("\x7b" ++ "\"b\":1" ++ "\x7d").toList <:+: "\x7b\"a\": \x7b\"b\":1\x7d".toList ∧
    (∀ c ∈ "\"b\":1".toList, c ≠ '\x7b' ∧ c ≠ '\x7d') := by
  refine ⟨by decide, ⟨"\x7b\"a\": ".toList, [], by decide⟩, by decide⟩

/-- C27, amended: for every reply in which no closing brace stands before the
first opening brace. Without an opening brace the result is the empty text.
Otherwise, with `rest` the reply from its first opening brace on, either the
brace depth of every non-empty prefix of `rest` is positive (the first
opening brace is never closed) and the result is the empty text, or the
result is the shortest non-empty prefix of `rest` of brace depth 0: the text
from the first opening brace to its matching closing brace, whatever stands
outside it. -/
theorem C27_ExtractFirstJsonObject (pre tail : List Char)
    (hpre : ∀ c ∈ pre, c ≠ '\x7b' ∧ c ≠ '\x7d') :
    ExtractFirstJsonObject pre = [] ∧
    (((∀ j, 1 ≤ j → j ≤ ('\x7b' :: tail).length → 0 < braceDepth (('\x7b' :: tail).take j)) ∧
        ExtractFirstJsonObject (pre ++ '\x7b' :: tail) = []) ∨
      (∃ n, 2 ≤ n ∧ n ≤ ('\x7b' :: tail).length ∧
        braceDepth (('\x7b' :: tail).take n) = 0 ∧
        (∀ j, 1 ≤ j → j < n → 0 < braceDepth (('\x7b' :: tail).take j)) ∧
        ExtractFirstJsonObject (pre ++ '\x7b' :: tail) = ('\x7b' :: tail).take n)) := by
  constructor
  · unfold ExtractFirstJsonObject
    have := extractLoop_before pre [] pre 0 hpre
    rw [List.append_nil] at this
    rw [this]
    rfl
  · have hstart : ExtractFirstJsonObject (pre ++ '\x7b' :: tail)
        = extractLoop (pre ++ '\x7b' :: tail) tail (pre.length + 1) 1 (some pre.length) := by
      unfold ExtractFirstJsonObject
      rw [extractLoop_before (pre ++ '\x7b' :: tail) ('\x7b' :: tail) pre 0 hpre, extractLoop]
      have hne : ¬ ('\x7b' = '\x7d') := by decide
      simp only [true_and, if_true, hne, if_false, Nat.zero_add, Int.zero_add]
    have hdelta : braceDelta '\x7b' = 1 := by decide
    rcases extractLoop_inside (pre ++ '\x7b' :: tail) pre.length tail (pre.length + 1) 1
        (le_refl _) (by omega) with ⟨hnever, hres⟩ | ⟨k, hk1, hk2, hk3, hk4, hres⟩
    · left
      refine ⟨?_, by rw [hstart, hres]⟩
      intro j hj1 hj2
      obtain ⟨j2, rfl⟩ : ∃ j2, j = j2 + 1 := ⟨j - 1, by omega⟩
      rw [braceDepth_take_succ_cons, hdelta]
      by_cases hj0 : j2 = 0
      · subst hj0
        simp [braceDepth]
      · exact hnever j2 (by omega) (by simp only [List.length_cons] at hj2; omega)
    · right
      refine ⟨k + 1, by omega, by simp only [List.length_cons]; omega, ?_, ?_, ?_⟩
      · rw [braceDepth_take_succ_cons, hdelta]; exact hk3
      · intro j hj1 hj2
        obtain ⟨j2, rfl⟩ : ∃ j2, j = j2 + 1 := ⟨j - 1, by omega⟩
        rw [braceDepth_take_succ_cons, hdelta]
        by_cases hj0 : j2 = 0
        · subst hj0
          simp [braceDepth]
        · exact hk4 j2 (by omega) (by omega)
      · rw [hstart, hres]
        unfold substr
        rw [List.drop_left]
        congr 1
        omega

/-- C27 (amended) at a concrete input: in the reply `Sure: {"a":{"b":1}} ok` the
result is the object `{"a":{"b":1}}`. -/
theorem C27_ExtractFirstJsonObject_witness :
    ExtractFirstJsonObject ("Sure: ".toList ++ '\x7b' :: "\"a\":\x7b\"b\":1\x7d\x7d ok".toList)
      = "\x7b\"a\":\x7b\"b\":1\x7d\x7d".toList := by
  rcases (C27_ExtractFirstJsonObject "Sure: ".toList "\"a\":\x7b\"b\":1\x7d\x7d ok".toList
    (by decide)).2 with ⟨_, h⟩ | ⟨n, _, _, _, _, h⟩
  · rw [h]; exact absurd h (by decide)
  · rw [h]
    have : ExtractFirstJsonObject
        ("Sure: ".toList ++ '\x7b' :: "\"a\":\x7b\"b\":1\x7d\x7d ok".toList)
        = "\x7b\"a\":\x7b\"b\":1\x7d\x7d".toList := by decide
    rw [← h, this]

/-! ### Player chat relay -/

theorem relayToPlayer_apply (sender : ChatPlayer) (msg : List Char)
    (messages : QueueStorage (List Char × List Char)) (entry : Option ChatPlayer) (g : Nat) :
    relayToPlayer sender msg messages entry g =
      match entry with
      | none => messages g
      | some bot =>
        if bot.guid = g ∧ bot.IsAlive = true ∧ bot.isBot = true ∧
            bot.name.map Char.toLower <:+: msg.map Char.toLower then
          some ((messages g).getD [] ++ [(sender.name, msg)])
        else messages g := by
  cases entry with
  | none => rfl
  | some bot =>
    unfold relayToPlayer
    dsimp only
    cases ha : bot.IsAlive
    · simp
    · cases hb : bot.isBot
      · simp
      · by_cases hm : (findSub (bot.name.map Char.toLower) (msg.map Char.toLower)).isSome = true
        · have hin := (findSub_isSome_iff _ _).mp hm
          simp only [Bool.not_true, Bool.false_eq_true, if_false, hm, if_true, hin, and_true,
            true_and]
          unfold QueueStorage.pushBack
          by_cases hg : bot.guid = g
          · subst hg; simp
          · have hg2 : ¬ (g = bot.guid) := fun h => hg h.symm
            simp [hg, hg2]
        · have hin : ¬ (bot.name.map Char.toLower <:+: msg.map Char.toLower) :=
            fun h => hm ((findSub_isSome_iff _ _).mpr h)
          simp only [Bool.not_true, Bool.false_eq_true, if_false, hm, hin, and_false]

theorem foldl_relay_other (sender : ChatPlayer) (msg : List Char) (g : Nat) :
    ∀ (allPlayers : List (Option ChatPlayer)) (messages : QueueStorage (List Char × List Char)),
      g ∉ playerGuids allPlayers →
      allPlayers.foldl (relayToPlayer sender msg) messages g = messages g
  | [], _, _ => rfl
  | entry :: rest, messages, h => by
    rw [List.foldl_cons]
    have hrest : g ∉ playerGuids rest := by
      intro hc
      apply h
      unfold playerGuids at hc ⊢
      cases entry with
      | none => simpa using hc
      | some p => simp only [List.filterMap_cons, Option.map_some']; exact List.mem_cons_of_mem _ hc
    rw [foldl_relay_other sender msg g rest _ hrest, relayToPlayer_apply]
    cases entry with
    | none => rfl
    | some p =>
      have hp : p.guid ≠ g := by
        intro hc
        apply h
        unfold playerGuids
        simp only [List.filterMap_cons, Option.map_some', hc, List.mem_cons, true_or]
      simp [hp]

theorem foldl_relay_member (sender : ChatPlayer) (msg : List Char) (bot : ChatPlayer) :
    ∀ (allPlayers : List (Option ChatPlayer)) (messages : QueueStorage (List Char × List Char)),
      (playerGuids allPlayers).Nodup → some bot ∈ allPlayers →
      allPlayers.foldl (relayToPlayer sender msg) messages bot.guid
        = relayToPlayer sender msg messages (some bot) bot.guid
  | [], _, _, h => by simp at h
  | entry :: rest, messages, hnd, hmem => by
    rw [List.foldl_cons]
    rcases List.mem_cons.mp hmem with h | h
    · subst h
      have hnot : bot.guid ∉ playerGuids rest := by
        unfold playerGuids at hnd ⊢
        simp only [List.filterMap_cons, Option.map_some', List.nodup_cons] at hnd
        exact hnd.1
      rw [foldl_relay_other sender msg bot.guid rest _ hnot]
    · have hnd2 : (playerGuids rest).Nodup := by
        unfold playerGuids at hnd ⊢
        cases entry with
        | none => simpa using hnd
        | some p =>
          simp only [List.filterMap_cons, Option.map_some', List.nodup_cons] at hnd
          exact hnd.2
      rw [foldl_relay_member sender msg bot rest _ hnd2 h]
      have hhead : relayToPlayer sender msg messages entry bot.guid = messages bot.guid := by
        rw [relayToPlayer_apply]
        cases entry with
        | none => rfl
        | some p =>
          have hp : p.guid ≠ bot.guid := by
            intro hc
            unfold playerGuids at hnd
            simp only [List.filterMap_cons, Option.map_some', List.nodup_cons] at hnd
            apply hnd.1
            rw [hc]
            exact List.mem_filterMap.mpr ⟨some bot, h, rfl⟩
          simp [hp]
      rw [relayToPlayer_apply _ _ _ (some bot), relayToPlayer_apply _ _ _ (some bot)]
      dsimp only
      rw [hhead]

/-- Claim C21, the case the code decides otherwise: a tracked bot that is dead
is skipped by the relay loop, so a message naming it (in any letter case) from a
human sender is not queued for it. -/
theorem C21_dead_bot_is_skipped :
    alice.isBot = false ∧
    ({ ollamatest with IsAlive := false } : ChatPlayer).name.map Char.toLower
      <:+: "hey OLLAMATEST come here".toList.map Char.toLower ∧
    ProcessChat (some alice) "hey OLLAMATEST come here".toList
      [some alice, some { ollamatest with IsAlive := false }] (fun _ => none) ollamatest.guid
      = none := by
  refine ⟨rfl, ?_, ?_⟩
  · exact (findSub_isSome_iff _ _).mp (by decide)
  · decide

/-- Claim C21 (amended): for a chat message from a sender that is not a bot, a
player list with distinct guids, and any player of the list, the pair (sender
name, original message) is appended to that player's relay queue exactly when
the message is not empty, the player is alive, is driven by a bot AI, and the
lower-cased message contains the lower-cased player name; otherwise the queue of
that player is left as it was. A message from a bot, or with no sender, changes
no queue. -/
theorem C21_ProcessChat (sender bot : ChatPlayer) (msg : List Char)
    (allPlayers : List (Option ChatPlayer))
    (messages : QueueStorage (List Char × List Char))
    (hsender : sender.isBot = false)
    (hguids : (playerGuids allPlayers).Nodup)
    (hbot : some bot ∈ allPlayers) :
    ProcessChat (some sender) msg allPlayers messages bot.guid =
        (if msg ≠ [] ∧ bot.IsAlive = true ∧ bot.isBot = true ∧
            bot.name.map Char.toLower <:+: msg.map Char.toLower then
          some ((messages bot.guid).getD [] ++ [(sender.name, msg)])
        else messages bot.guid) ∧
    ProcessChat none msg allPlayers messages = messages ∧
    ProcessChat (some { sender with isBot := true }) msg allPlayers messages = messages := by
  refine ⟨?_, rfl, ?_⟩
  · unfold ProcessChat
    dsimp only
    by_cases hm : msg = []
    · simp [hm]
    · rw [if_neg hm, hsender]
      simp only [Bool.false_eq_true, if_false]
      rw [foldl_relay_member sender msg bot allPlayers messages hguids hbot,
        relayToPlayer_apply]
      simp [hm]
  · unfold ProcessChat
    dsimp only
    by_cases hm : msg = []
    · simp [hm]
    · simp [hm]

/-- Claim C21, witness: with the living bot Ollamatest tracked, the message
"hey OLLAMATEST come here" from Alice is queued for it as (Alice, message). -/
theorem C21_ProcessChat_witness :
    ProcessChat (some alice) "hey OLLAMATEST come here".toList [some alice, some ollamatest]
        (fun _ => none) ollamatest.guid
      = some [("Alice".toList, "hey OLLAMATEST come here".toList)] ∧
    ProcessChat (some alice) "hey bot come here".toList [some alice, some ollamatest]
        (fun _ => none) ollamatest.guid = none := by
  have h1 := (C21_ProcessChat alice ollamatest "hey OLLAMATEST come here".toList
    [some alice, some ollamatest] (fun _ => none) rfl (by decide) (by simp)).1
  have h2 := (C21_ProcessChat alice ollamatest "hey bot come here".toList
    [some alice, some ollamatest] (fun _ => none) rfl (by decide) (by simp)).1
  refine ⟨?_, ?_⟩
  · rw [h1]; decide
  · rw [h2]; decide

/-! ### Attack -/

theorem attackEngage_true (bot : AttackBot) (guid : Nat) (target : AttackTarget) :
    (attackEngage bot guid target).1 = true ∧ (attackEngage bot guid target).2 ≠ [] := by
  unfold attackEngage
  dsimp only
  split <;> split <;> simp
  all_goals split <;> simp

/-- Claim C22: `Attack` returns failure, and makes no call at all on the bot,
its AI or its motion master (no targeting, no engine change, no chase, no
auto-attack), when the target is absent, friendly, a player of the same group
or of the same non-zero guild, dead, or a game master; and in general a failure
return is exactly a run with no call. -/
theorem C22_Attack_refusals (bot : AttackBot) (guid : Nat)
    (h : bot.getUnit guid = none ∨
      ∃ target, bot.getUnit guid = some target ∧
        (target.friendly = true ∨
         (∃ p, target.player = some p ∧
            (p.sameGroup = true ∨ (bot.guildId ≠ 0 ∧ bot.guildId = p.guildId))) ∨
         target.IsAlive = false ∨
         (∃ p, target.player = some p ∧ p.IsGameMaster = true))) :
    Attack (some bot) guid = (false, []) ∧
    (∀ (anyBot : Option AttackBot) (anyGuid : Nat),
      (Attack anyBot anyGuid).1 = false ↔ (Attack anyBot anyGuid).2 = []) := by
  constructor
  · unfold Attack
    dsimp only
    by_cases hg : guid = 0
    · rw [if_pos hg]
    rw [if_neg hg]
    cases hai : bot.hasAI
    · simp
    rcases h with h | ⟨target, ht, h⟩
    · rw [h]; simp
    rw [ht]
    dsimp only
    cases hlos : target.withinLOS
    · simp
    cases hv : target.validAttackTarget
    · simp
    cases hf : target.friendly
    swap
    · simp
    rcases h with h | ⟨p, hp, h⟩ | h | ⟨p, hp, h⟩
    · rw [hf] at h; cases h
    · rw [hp]
      rcases h with h | ⟨h0, h1⟩
      · simp [h]
      · have hne : (bot.guildId != 0) = true := by simpa using h0
        have heq : (bot.guildId == p.guildId) = true := by simpa using h1
        simp [hne, heq]
    · rw [h]
      simp
    · simp [hp, h]
  · intro anyBot anyGuid
    unfold Attack
    cases anyBot with
    | none => simp
    | some b =>
      dsimp only
      by_cases hg : anyGuid = 0
      · simp [hg]
      rw [if_neg hg]
      cases hai : b.hasAI
      · simp
      cases hu : b.getUnit anyGuid with
      | none => simp
      | some t =>
        dsimp only
        have he := attackEngage_true b anyGuid t
        split_ifs <;> simp [he.1, he.2]

/-- Claim C22, witness: attacking a dead creature returns failure and makes no
call, so no engine change. -/
theorem C22_Attack_refusals_witness :
    Attack (some attackingBot) 42 = (false, []) :=
  (C22_Attack_refusals attackingBot 42
    (Or.inr ⟨deadBoar, rfl, Or.inr (Or.inr (Or.inl rfl))⟩)).1

/-! ### Move-hop: what the worker accepts against what the consumer resolves -/

/-- Claim C28, evaluated at a candidate id written with a leading zero: with two
candidates published for bot 7 under epoch 4, the worker parses `nav_01` to
index 1, finds the candidate there movable and reachable, and accepts the action
with the text `nav_01`; the registry holds that candidate under `nav_1`, so
`TryResolve` with the enqueued epoch and text fails, while the canonical text
resolves to the candidate. -/
theorem C28_padded_candidate_id_not_resolved :
    (publishNavCandidates NavStorage.empty 7 3 twoCandidateSnapshot).1 = 4 ∧
    TryParseNavCandidateIndex "nav_01".toList = some 1 ∧
    gateMoveHop (publishNavCandidates NavStorage.empty 7 3 twoCandidateSnapshot).2.1
        paddedMoveHopArguments
      = .accepted { capability := .MoveHop, navEpoch := 4, navCandidateId := "nav_01".toList }
          "out_of_combat" ∧
    BotNavStateRegistry.TryResolve
        (publishNavCandidates NavStorage.empty 7 3 twoCandidateSnapshot).2.2 7 4 "nav_01".toList
      = none ∧
    BotNavStateRegistry.TryResolve
        (publishNavCandidates NavStorage.empty 7 3 twoCandidateSnapshot).2.2 7 4 (navCandidateId 1)
      = some { outDest := ⟨0, .finite 0, .finite 20, .finite 80⟩, outReachable := true,
               outHasLOS := true, outCanMove := true } := by
  refine ⟨by decide, by decide, ?_, ?_, ?_⟩
  · rfl
  · rfl
  · rfl

/-! ### Quest-giver follow-up -/

theorem followup_accept_step (bot : FollowupBot) (nowMs : Nat) (state : FollowupState)
    (pending : PendingQuestGiverFollowup)
    (hp : state.pendingQuestGiverFollowups bot.guid = some pending)
    (hs : pending.initialStatus = QuestStatus.NONE) :
    MaybeHandleQuestGiverFollowup (some bot) true nowMs state =
      if pending.startedMs = 0 ∨ subU32 nowMs pending.startedMs > 30000 ∨
          pending.questId = 0 ∨ pending.questGiverGuid = 0 ∨
          bot.questStatus pending.questId ≠ QuestStatus.NONE ∨ pending.acceptAttempts ≥ 3 then
        eraseFollowup bot.guid state
      else if reselectionOk bot pending = true ∧
          ((pending.acceptAttempts = 0 ∧ subU32 nowMs pending.startedMs ≥ 750) ∨
           (pending.acceptAttempts ≠ 0 ∧ subU32 nowMs pending.lastAcceptAttemptMs ≥ 2000)) then
        { state with
          plans_ := state.plans_.pushBack bot.guid
            { command := acceptCmd, reasoning := "auto_accept_all_on_talk".toList }
          pendingQuestGiverFollowups :=
            guidMapSet state.pendingQuestGiverFollowups bot.guid
              { pending with
                lastAcceptAttemptMs := nowMs
                acceptAttempts := pending.acceptAttempts + 1 } }
      else state := by
  unfold MaybeHandleQuestGiverFollowup
  simp only [Bool.not_true, Bool.false_eq_true, if_false, hp, hs,
    kQuestTurnInFollowupTimeoutMs, kMaxAcceptAttempts, kAcceptInitialDelayMs, kAcceptRetryEveryMs]
  have hnc : ¬ (QuestStatus.NONE = QuestStatus.COMPLETE ∧ pending.initialRewarded = false) :=
    fun h => by cases h.1
  rw [if_neg hnc]
  by_cases h1 : pending.startedMs = 0 ∨ subU32 nowMs pending.startedMs > 30000
  · rw [if_pos h1, if_pos (by tauto)]
  rw [if_neg h1]
  by_cases h2 : pending.questId = 0 ∨ pending.questGiverGuid = 0
  · rw [if_pos h2, if_pos (by tauto)]
  rw [if_neg h2]
  simp only [if_true]
  by_cases h3 : bot.questStatus pending.questId ≠ QuestStatus.NONE
  · rw [if_pos h3, if_pos (by tauto)]
  rw [if_neg h3]
  by_cases h4 : pending.acceptAttempts ≥ 3
  · rw [if_pos h4, if_pos (by tauto)]
  rw [if_neg h4]
  have hkeep : ¬ (pending.startedMs = 0 ∨ subU32 nowMs pending.startedMs > 30000 ∨
      pending.questId = 0 ∨ pending.questGiverGuid = 0 ∨
      bot.questStatus pending.questId ≠ QuestStatus.NONE ∨ pending.acceptAttempts ≥ 3) := by
    tauto
  rw [if_neg hkeep]
  have h255 : pending.acceptAttempts < 255 := by omega
  have htry : reselectionOk bot pending = true →
      tryAcceptAll bot nowMs pending state =
        { state with
          plans_ := state.plans_.pushBack bot.guid
            { command := acceptCmd, reasoning := "auto_accept_all_on_talk".toList }
          pendingQuestGiverFollowups :=
            guidMapSet state.pendingQuestGiverFollowups bot.guid
              { pending with
                lastAcceptAttemptMs := nowMs
                acceptAttempts := pending.acceptAttempts + 1 } } := by
    intro hr
    unfold tryAcceptAll EnqueueBotControlCommand AmigoPlannerRegistry.EnqueuePlayer
    simp [hr, h255]
  have hno : reselectionOk bot pending ≠ true → tryAcceptAll bot nowMs pending state = state := by
    intro hr
    unfold tryAcceptAll
    simp [hr]
  by_cases h5 : pending.acceptAttempts = 0
  · rw [if_pos h5]
    by_cases h6 : subU32 nowMs pending.startedMs ≥ 750
    · rw [if_pos h6]
      by_cases hr : reselectionOk bot pending = true
      · rw [if_pos ⟨hr, Or.inl ⟨h5, h6⟩⟩, htry hr, hs]
      · rw [if_neg (fun h => hr h.1), hno hr]
    · rw [if_neg h6, if_neg]
      rintro ⟨_, h | h⟩
      · exact h6 h.2
      · exact h.1 h5
  · rw [if_neg h5]
    by_cases h6 : subU32 nowMs pending.lastAcceptAttemptMs ≥ 2000
    · rw [if_pos h6]
      by_cases hr : reselectionOk bot pending = true
      · rw [if_pos ⟨hr, Or.inr ⟨h5, h6⟩⟩, htry hr, hs]
      · rw [if_neg (fun h => hr h.1), hno hr]
    · rw [if_neg h6, if_neg]
      rintro ⟨_, h | h⟩
      · exact h5 h.1
      · exact h6 h.2

theorem tryAcceptAll_frame (bot : FollowupBot) (nowMs : Nat) (pending : PendingQuestGiverFollowup)
    (state : FollowupState) (g : Nat) (hg : g ≠ bot.guid) :
    (tryAcceptAll bot nowMs pending state).pendingQuestGiverFollowups g
      = state.pendingQuestGiverFollowups g ∧
    (tryAcceptAll bot nowMs pending state).plans_ g = state.plans_ g := by
  unfold tryAcceptAll EnqueueBotControlCommand AmigoPlannerRegistry.EnqueuePlayer
    QueueStorage.pushBack guidMapSet
  split <;> simp [hg]

theorem requestRefreshGuarded_frame (guid nowMs : Nat) (state : FollowupState) :
    (requestRefreshGuarded guid nowMs state).pendingQuestGiverFollowups
      = state.pendingQuestGiverFollowups ∧
    (requestRefreshGuarded guid nowMs state).plans_ = state.plans_ := by
  unfold requestRefreshGuarded
  dsimp only
  split <;> simp

theorem followup_frame (bot : FollowupBot) (hasAI : Bool) (nowMs : Nat) (state : FollowupState)
    (g : Nat) (hg : g ≠ bot.guid) :
    (MaybeHandleQuestGiverFollowup (some bot) hasAI nowMs state).pendingQuestGiverFollowups g
      = state.pendingQuestGiverFollowups g ∧
    (MaybeHandleQuestGiverFollowup (some bot) hasAI nowMs state).plans_ g = state.plans_ g := by
  have htry := fun pending => tryAcceptAll_frame bot nowMs pending state g hg
  have hreq := fun st => requestRefreshGuarded_frame bot.guid nowMs st
  unfold MaybeHandleQuestGiverFollowup
  dsimp only
  split
  · exact ⟨rfl, rfl⟩
  split
  · exact ⟨rfl, rfl⟩
  · rename_i pending _
    split_ifs <;>
      simp [eraseFollowup, guidMapErase, hg, (htry pending).1, (htry pending).2, (hreq _).1,
        (hreq _).2]

theorem followup_budget_step (bot : FollowupBot) (nowMs : Nat) (state : FollowupState) (g : Nat)
    (hJ : ∀ p, state.pendingQuestGiverFollowups g = some p → p.initialStatus = QuestStatus.NONE) :
    (∀ p, (MaybeHandleQuestGiverFollowup (some bot) true nowMs state).pendingQuestGiverFollowups g
        = some p → p.initialStatus = QuestStatus.NONE) ∧
    queuedPlans (MaybeHandleQuestGiverFollowup (some bot) true nowMs state) g +
        acceptBudget (MaybeHandleQuestGiverFollowup (some bot) true nowMs state) g
      ≤ queuedPlans state g + acceptBudget state g := by
  by_cases hg : g = bot.guid
  · subst hg
    cases hp : state.pendingQuestGiverFollowups bot.guid with
    | none =>
      have hsame : MaybeHandleQuestGiverFollowup (some bot) true nowMs state = state := by
        unfold MaybeHandleQuestGiverFollowup
        simp [hp]
      rw [hsame]
      exact ⟨hJ, le_refl _⟩
    | some pending =>
      have hs := hJ pending hp
      rw [followup_accept_step bot nowMs state pending hp hs]
      split_ifs with h1 h2
      · constructor
        · intro p h
          simp [eraseFollowup, guidMapErase] at h
        · unfold queuedPlans acceptBudget eraseFollowup guidMapErase
          simp
      · constructor
        · intro p h
          simp only [guidMapSet, if_true] at h
          cases h
          exact hs
        · have h3 : pending.acceptAttempts < 3 := by
            by_contra hc
            exact h1 (by right; right; right; right; right; omega)
          unfold queuedPlans acceptBudget QueueStorage.pushBack guidMapSet kMaxAcceptAttempts
          simp only [if_true, hp, Option.getD_some, List.length_append, List.length_singleton]
          omega
      · exact ⟨hJ, le_refl _⟩
  · have hf := followup_frame bot true nowMs state g hg
    unfold queuedPlans acceptBudget
    rw [hf.1, hf.2]
    exact ⟨hJ, le_refl _⟩

theorem followup_budget_run (g : Nat) :
    ∀ (ticks : List (FollowupBot × Nat)) (state : FollowupState),
      (∀ p, state.pendingQuestGiverFollowups g = some p → p.initialStatus = QuestStatus.NONE) →
      queuedPlans (runFollowupTicks state ticks) g + acceptBudget (runFollowupTicks state ticks) g
        ≤ queuedPlans state g + acceptBudget state g
  | [], _, _ => le_refl _
  | (bot, nowMs) :: rest, state, hJ => by
    have hstep := followup_budget_step bot nowMs state g hJ
    have ih := followup_budget_run g rest
      (MaybeHandleQuestGiverFollowup (some bot) true nowMs state) hstep.1
    unfold runFollowupTicks
    exact le_trans ih hstep.2

/-- Claim C23: for a pending follow-up record of the accept path (initial status
None), one call of the handler removes the record when the start time is 0,
more than 30,000 ms (32-bit difference) have passed since arming, the quest id
or quest giver is empty, the quest status is no longer None, or 3 attempts have
been made; otherwise it makes an accept attempt (one `accept *` plan queued, the
attempt counted and its time stored) exactly when the quest giver is found and
either no attempt was made yet and at least 750 ms passed since arming, or at
least 2,000 ms passed since the last attempt; otherwise it changes nothing. Over
any sequence of handler calls for any bots the plans queued for the bot grow by
at most the 3 attempts less those already made. -/
theorem C23_accept_followup (bot : FollowupBot) (nowMs : Nat) (state : FollowupState)
    (pending : PendingQuestGiverFollowup)
    (hp : state.pendingQuestGiverFollowups bot.guid = some pending)
    (hs : pending.initialStatus = QuestStatus.NONE) :
    MaybeHandleQuestGiverFollowup (some bot) true nowMs state =
      (if pending.startedMs = 0 ∨ subU32 nowMs pending.startedMs > 30000 ∨
          pending.questId = 0 ∨ pending.questGiverGuid = 0 ∨
          bot.questStatus pending.questId ≠ QuestStatus.NONE ∨ pending.acceptAttempts ≥ 3 then
        eraseFollowup bot.guid state
      else if reselectionOk bot pending = true ∧
          ((pending.acceptAttempts = 0 ∧ subU32 nowMs pending.startedMs ≥ 750) ∨
           (pending.acceptAttempts ≠ 0 ∧ subU32 nowMs pending.lastAcceptAttemptMs ≥ 2000)) then
        { state with
          plans_ := state.plans_.pushBack bot.guid
            { command := acceptCmd, reasoning := "auto_accept_all_on_talk".toList }
          pendingQuestGiverFollowups :=
            guidMapSet state.pendingQuestGiverFollowups bot.guid
              { pending with
                lastAcceptAttemptMs := nowMs
                acceptAttempts := pending.acceptAttempts + 1 } }
      else state) ∧
    (eraseFollowup bot.guid state).pendingQuestGiverFollowups bot.guid = none ∧
    ∀ ticks : List (FollowupBot × Nat),
      queuedPlans (runFollowupTicks state ticks) bot.guid
        ≤ queuedPlans state bot.guid + (3 - pending.acceptAttempts) := by
  refine ⟨followup_accept_step bot nowMs state pending hp hs, ?_, ?_⟩
  · simp [eraseFollowup, guidMapErase]
  · intro ticks
    have hJ : ∀ p, state.pendingQuestGiverFollowups bot.guid = some p →
        p.initialStatus = QuestStatus.NONE := by
      intro p h
      rw [hp] at h
      cases h
      exact hs
    have hrun := followup_budget_run bot.guid ticks state hJ
    have hb : acceptBudget state bot.guid = 3 - pending.acceptAttempts := by
      unfold acceptBudget kMaxAcceptAttempts
      rw [hp]
    rw [hb] at hrun
    omega

/-- Claim C23, witness: bot 7 armed at clock reading 1000 for a quest it has not
taken; calls at 1500 (too early), 1750, 3750 and 5750 make three attempts, the
call at 5800 removes the record although only 4,800 ms have passed. -/
theorem C23_accept_followup_witness :
    armedState.pendingQuestGiverFollowups 7
      = some { questId := 11, questGiverGuid := 900, startedMs := 1000 } ∧
    queuedPlans (runFollowupTicks armedState [(questBot, 1500)]) 7 = 0 ∧
    queuedPlans (runFollowupTicks armedState
      [(questBot, 1500), (questBot, 1750), (questBot, 3750), (questBot, 5750)]) 7 = 3 ∧
    ((runFollowupTicks armedState
      [(questBot, 1500), (questBot, 1750), (questBot, 3750),
        (questBot, 5750)]).pendingQuestGiverFollowups 7).isSome = true ∧
    (runFollowupTicks armedState
      [(questBot, 1500), (questBot, 1750), (questBot, 3750), (questBot, 5750),
        (questBot, 5800)]).pendingQuestGiverFollowups 7 = none ∧
    queuedPlans (runFollowupTicks armedState
      [(questBot, 1500), (questBot, 1750), (questBot, 3750), (questBot, 5750), (questBot, 5800),
        (questBot, 8000)]) 7 ≤ queuedPlans armedState 7 + (3 - 0) := by
  have h := C23_accept_followup questBot 1750 armedState
    { questId := 11, questGiverGuid := 900, startedMs := 1000 } rfl rfl
  refine ⟨rfl, by decide, by decide, by decide, by decide, ?_⟩
  exact h.2.2 [(questBot, 1500), (questBot, 1750), (questBot, 3750), (questBot, 5750),
    (questBot, 5800), (questBot, 8000)]

/-! ### Planner refresh guard of the turn-in path -/

theorem tryAcceptAll_refresh (bot : FollowupBot) (nowMs : Nat)
    (pending : PendingQuestGiverFollowup) (state : FollowupState) :
    (tryAcceptAll bot nowMs pending state).refreshCalls = state.refreshCalls ∧
    (tryAcceptAll bot nowMs pending state).lastPlannerRefreshMs = state.lastPlannerRefreshMs := by
  unfold tryAcceptAll
  split <;> exact ⟨rfl, rfl⟩

theorem requestRefreshGuarded_cases (guid nowMs : Nat) (state : FollowupState) :
    ((requestRefreshGuarded guid nowMs state).refreshCalls = state.refreshCalls ∧
      (requestRefreshGuarded guid nowMs state).lastPlannerRefreshMs
        = state.lastPlannerRefreshMs) ∨
    ((requestRefreshGuarded guid nowMs state).refreshCalls
        = state.refreshCalls ++ [(guid, nowMs)] ∧
      (requestRefreshGuarded guid nowMs state).lastPlannerRefreshMs
        = guidMapSet state.lastPlannerRefreshMs guid nowMs ∧
      ((state.lastPlannerRefreshMs guid).getD 0 = 0 ∨
        subU32 nowMs ((state.lastPlannerRefreshMs guid).getD 0) ≥ 10000)) := by
  unfold requestRefreshGuarded kQuestTurnInPlannerGuardMs
  dsimp only
  split
  · rename_i h
    exact Or.inr ⟨rfl, rfl, h⟩
  · exact Or.inl ⟨rfl, rfl⟩

theorem followup_refresh_step (bot : FollowupBot) (hasAI : Bool) (nowMs : Nat)
    (state : FollowupState) :
    ((MaybeHandleQuestGiverFollowup (some bot) hasAI nowMs state).refreshCalls
        = state.refreshCalls ∧
      (MaybeHandleQuestGiverFollowup (some bot) hasAI nowMs state).lastPlannerRefreshMs
        = state.lastPlannerRefreshMs) ∨
    ((MaybeHandleQuestGiverFollowup (some bot) hasAI nowMs state).refreshCalls
        = state.refreshCalls ++ [(bot.guid, nowMs)] ∧
      (MaybeHandleQuestGiverFollowup (some bot) hasAI nowMs state).lastPlannerRefreshMs
        = guidMapSet state.lastPlannerRefreshMs bot.guid nowMs ∧
      ((state.lastPlannerRefreshMs bot.guid).getD 0 = 0 ∨
        subU32 nowMs ((state.lastPlannerRefreshMs bot.guid).getD 0) ≥ 10000)) := by
  unfold MaybeHandleQuestGiverFollowup
  dsimp only
  split
  · exact Or.inl ⟨rfl, rfl⟩
  split
  · exact Or.inl ⟨rfl, rfl⟩
  rename_i pending _
  have htry := tryAcceptAll_refresh bot nowMs pending state
  split
  · exact Or.inl ⟨rfl, rfl⟩
  split
  · exact Or.inl ⟨rfl, rfl⟩
  split
  · split
    · exact Or.inl ⟨rfl, rfl⟩
    · have hmid : ∀ st : FollowupState,
          st.refreshCalls = state.refreshCalls →
          st.lastPlannerRefreshMs = state.lastPlannerRefreshMs →
          ((eraseFollowup bot.guid
              (if (!pending.ltgRefreshDone) = true then requestRefreshGuarded bot.guid nowMs st
                else st)).refreshCalls = state.refreshCalls ∧
            (eraseFollowup bot.guid
              (if (!pending.ltgRefreshDone) = true then requestRefreshGuarded bot.guid nowMs st
                else st)).lastPlannerRefreshMs = state.lastPlannerRefreshMs) ∨
          ((eraseFollowup bot.guid
              (if (!pending.ltgRefreshDone) = true then requestRefreshGuarded bot.guid nowMs st
                else st)).refreshCalls = state.refreshCalls ++ [(bot.guid, nowMs)] ∧
            (eraseFollowup bot.guid
              (if (!pending.ltgRefreshDone) = true then requestRefreshGuarded bot.guid nowMs st
                else st)).lastPlannerRefreshMs
              = guidMapSet state.lastPlannerRefreshMs bot.guid nowMs ∧
            ((state.lastPlannerRefreshMs bot.guid).getD 0 = 0 ∨
              subU32 nowMs ((state.lastPlannerRefreshMs bot.guid).getD 0) ≥ 10000)) := by
        intro st h1 h2
        split
        · rcases requestRefreshGuarded_cases bot.guid nowMs st with h | h
          · left
            exact ⟨h.1.trans h1, h.2.trans h2⟩
          · right
            refine ⟨?_, ?_, ?_⟩
            · show (requestRefreshGuarded bot.guid nowMs st).refreshCalls = _
              rw [h.1, h1]
            · show (requestRefreshGuarded bot.guid nowMs st).lastPlannerRefreshMs = _
              rw [h.2.1, h2]
            · rw [← h2]; exact h.2.2
        · left
          exact ⟨h1, h2⟩
      have hst : (if (!pending.acceptDone) = true then tryAcceptAll bot nowMs pending state
            else state).refreshCalls = state.refreshCalls ∧
          (if (!pending.acceptDone) = true then tryAcceptAll bot nowMs pending state
            else state).lastPlannerRefreshMs = state.lastPlannerRefreshMs := by
        split
        · exact htry
        · exact ⟨rfl, rfl⟩
      generalize (if (!pending.acceptDone) = true then tryAcceptAll bot nowMs pending state
        else state) = mid at hst ⊢
      exact hmid mid hst.1 hst.2
  split
  · split_ifs <;> first | exact Or.inl ⟨rfl, rfl⟩ | exact Or.inl htry
  · exact Or.inl ⟨rfl, rfl⟩

theorem followup_refresh_run :
    ∀ (events : List (FollowupEvent × Nat)) (state : FollowupState) (lo : Nat),
      state.refreshCalls.Pairwise (fun a b => a.1 = b.1 → a.2 + 10000 ≤ b.2) →
      (∀ a ∈ state.refreshCalls, ∃ last, state.lastPlannerRefreshMs a.1 = some last ∧ a.2 ≤ last) →
      (∀ g last, state.lastPlannerRefreshMs g = some last → 0 < last ∧ last ≤ lo) →
      (∀ e ∈ events, lo ≤ e.2 ∧ 0 < e.2 ∧ e.2 < U32) →
      (events.map Prod.snd).Pairwise (fun s t => s ≤ t) →
      (runFollowupEvents state events).refreshCalls.Pairwise
        (fun a b => a.1 = b.1 → a.2 + 10000 ≤ b.2)
  | [], _, _, hpw, _, _, _, _ => hpw
  | (.arm bot questId questGiverGuid, nowMs) :: rest, state, lo, hpw, hlog, hlast, hev, hsorted => by
    unfold runFollowupEvents
    have hsorted2 := (List.pairwise_cons.mp hsorted).2
    exact followup_refresh_run rest (armFollowup bot questId questGiverGuid nowMs state) lo
      hpw hlog hlast (fun e he => hev e (List.mem_cons_of_mem _ he)) hsorted2
  | (.tick bot, nowMs) :: rest, state, lo, hpw, hlog, hlast, hev, hsorted => by
    unfold runFollowupEvents
    have hnow := hev (.tick bot, nowMs) (List.mem_cons_self _ _)
    have hsorted1 := (List.pairwise_cons.mp hsorted).1
    have hsorted2 := (List.pairwise_cons.mp hsorted).2
    have hrest : ∀ e ∈ rest, nowMs ≤ e.2 ∧ 0 < e.2 ∧ e.2 < U32 := by
      intro e he
      have h1 := hev e (List.mem_cons_of_mem _ he)
      exact ⟨hsorted1 e.2 (List.mem_map_of_mem _ he), h1.2⟩
    have hlast2 : ∀ g last, state.lastPlannerRefreshMs g = some last → 0 < last ∧ last ≤ nowMs :=
      fun g last h => ⟨(hlast g last h).1, le_trans (hlast g last h).2 hnow.1⟩
    rcases followup_refresh_step bot true nowMs state with h | h
    · apply followup_refresh_run rest _ nowMs
      · rw [h.1]; exact hpw
      · rw [h.1, h.2]; exact hlog
      · rw [h.2]; exact hlast2
      · exact hrest
      · exact hsorted2
    · apply followup_refresh_run rest _ nowMs
      · rw [h.1]
        refine List.pairwise_append.mpr ⟨hpw, List.pairwise_singleton _ _, ?_⟩
        intro a ha b hb hab
        rw [List.mem_singleton] at hb
        subst hb
        obtain ⟨last, hl, hle⟩ := hlog a ha
        dsimp only at hab ⊢
        rw [hab] at hl
        have hl2 := hlast2 bot.guid last hl
        have hguard := h.2.2
        rw [hl, Option.getD_some] at hguard
        rcases hguard with h0 | hge
        · omega
        · rw [subU32_of_le nowMs last hl2.2 hnow.2.2] at hge
          omega
      · rw [h.1, h.2.1]
        intro a ha
        rcases List.mem_append.mp ha with ha | ha
        · obtain ⟨last, hl, hle⟩ := hlog a ha
          by_cases hg : a.1 = bot.guid
          · refine ⟨nowMs, by simp [guidMapSet, hg], ?_⟩
            rw [hg] at hl
            exact le_trans hle (hlast2 bot.guid last hl).2
          · exact ⟨last, by simp [guidMapSet, hg, hl], hle⟩
        · rw [List.mem_singleton] at ha
          subst ha
          exact ⟨nowMs, by simp [guidMapSet], le_refl _⟩
      · rw [h.2.1]
        intro g last hgl
        unfold guidMapSet at hgl
        by_cases hg : g = bot.guid
        · rw [if_pos hg] at hgl
          cases hgl
          exact ⟨hnow.2.1, le_refl _⟩
        · rw [if_neg hg] at hgl
          exact hlast2 g last hgl
      · exact hrest
      · exact hsorted2

/-- Claim C24, the case the code decides otherwise: the guard map is keyed by
bot, so two bots whose turn-in is rewarded at the same clock reading each issue
a planner refresh request, 0 ms apart. -/
theorem C24_guard_is_per_bot :
    (runFollowupEvents {}
      [(.arm (turnInBot 7 false) 11 900, 49000), (.arm (turnInBot 8 false) 11 900, 49500),
       (.tick (turnInBot 7 true), 50000), (.tick (turnInBot 8 true), 50000)]).refreshCalls
      = [(7, 50000), (8, 50000)] := by
  decide

/-- Claim C24 (amended): the planner refresh requests of the turn-in path are
rate-limited per bot. From process start (no request made, no refresh time
recorded), over any sequence of arming blocks and handler calls for any bots
whose clock readings are positive, below 2^32 and non-decreasing, any two
refresh requests issued for the same bot are at least 10,000 ms apart. -/
theorem C24_refresh_guard_per_bot (state : FollowupState) (events : List (FollowupEvent × Nat))
    (hcalls : state.refreshCalls = [])
    (hlast : state.lastPlannerRefreshMs = fun _ => none)
    (htimes : ∀ e ∈ events, 0 < e.2 ∧ e.2 < U32)
    (hsorted : (events.map Prod.snd).Pairwise (fun s t => s ≤ t)) :
    (runFollowupEvents state events).refreshCalls.Pairwise
      (fun a b => a.1 = b.1 → a.2 + 10000 ≤ b.2) := by
  apply followup_refresh_run events state 0
  · rw [hcalls]; exact List.Pairwise.nil
  · rw [hcalls]; intro a ha; cases ha
  · rw [hlast]; intro g last h; cases h
  · intro e he
    exact ⟨Nat.zero_le _, htimes e he⟩
  · exact hsorted

/-- Claim C24, witness: bot 7 turns in at 50,000 (request), again at 53,000 (no
request, the guard blocks it) and at 60,000 (request); bot 8 turns in at 50,000
(request). -/
theorem C24_refresh_guard_per_bot_witness :
    (runFollowupEvents {}
      [(.arm (turnInBot 7 false) 11 900, 49000), (.arm (turnInBot 8 false) 11 900, 49500),
       (.tick (turnInBot 7 true), 50000), (.tick (turnInBot 8 true), 50000),
       (.arm (turnInBot 7 false) 12 900, 52000), (.tick (turnInBot 7 true), 53000),
       (.arm (turnInBot 7 false) 13 900, 59000), (.tick (turnInBot 7 true), 60000)]).refreshCalls
      = [(7, 50000), (8, 50000), (7, 60000)] ∧
    (runFollowupEvents {}
      [(.arm (turnInBot 7 false) 11 900, 49000), (.arm (turnInBot 8 false) 11 900, 49500),
       (.tick (turnInBot 7 true), 50000), (.tick (turnInBot 8 true), 50000),
       (.arm (turnInBot 7 false) 12 900, 52000), (.tick (turnInBot 7 true), 53000),
       (.arm (turnInBot 7 false) 13 900, 59000),
       (.tick (turnInBot 7 true), 60000)]).refreshCalls.Pairwise
      (fun a b => a.1 = b.1 → a.2 + 10000 ≤ b.2) := by
  refine ⟨by decide, ?_⟩
  exact C24_refresh_guard_per_bot {} _ rfl rfl (by decide) (by decide)

end Amigo
